import Mathlib

/-!
# nvfs / nvr : the stacking file system and the change-capture queue of its plug-in

A shallow embedding of the replication plug-in (`nvr/nvr/nvr_queue.c`,
`nvr/nvr/nvr_device.c`, `nvr/nvr/nvr_main.c`) and of the stacking file system that calls
it (`nvfs_main.c`, `nvfs_file.c`, `nvfs_inode.c`, `nvfs_super.c`, `nvr/nvfs_dentry.c`,
`nvr/nvfs.h`).

Modelling conventions:

* the target is x86-64 Linux: `long long`, `loff_t`, `off_t`, `size_t` are 8 bytes,
  `int` is 4 bytes, integers are stored little-endian;
* a byte is a natural number below 256, a buffer is a list of bytes;
* signed machine arithmetic wraps (two's complement), written with `wrap_s`;
* the intrusive list `nvr_sys_queue` is a `List cdi_record`, head first, and the list
  `nvfs_callbacks` the list of the addresses of its descriptors;
* the code runs sequentially: `schedule()` does nothing, the semaphore
  `nvr_sys_queue_lock` is a counter (`nvr_down` subtracts one, `nvr_up` adds one);
* allocation always succeeds;
* kernel objects are named by their addresses, 0 is NULL; what the kernel and the
  backing file system do is a parameter (`kernel`).
-/

namespace Nvr

/-! ## Machine integers and buffers -/

/-- Two's-complement wrap of an integer into the signed range of `w` bits. -/
def wrap_s (w : Nat) (x : Int) : Int :=
  (x + 2 ^ (w - 1)) % 2 ^ w - 2 ^ (w - 1)

/-- Little-endian image of the natural number `v` in `w` bytes. -/
def le_bytes : Nat → Nat → List Nat
  | 0, _ => []
  | w + 1, v => (v % 256) :: le_bytes w (v / 256)

/-- Value of a little-endian byte string. -/
def le_value : List Nat → Nat
  | [] => 0
  | b :: bs => b + 256 * le_value bs

/-- Bytes of the `w`-byte signed integer `x`, as `memcpy(dst, &x, w)` yields them. -/
def int_bytes (w : Nat) (x : Int) : List Nat :=
  le_bytes w (x % 2 ^ (8 * w)).toNat

/-- The `n` bytes of `buf` starting at offset `off`: the source of a `memcpy(&v, buf+off, n)`. -/
def rd_bytes (buf : List Nat) (off n : Nat) : List Nat :=
  (buf.drop off).take n

/-- Buffer after `memcpy(buf+off, src, src.length)`. -/
def wr_bytes (buf : List Nat) (off : Nat) (src : List Nat) : List Nat :=
  buf.take off ++ src ++ buf.drop (off + src.length)

/-- Read of a `long long` (8 bytes) at offset `off` of a buffer. -/
def rd_i64 (buf : List Nat) (off : Nat) : Int :=
  wrap_s 64 (le_value (rd_bytes buf off 8))

/-- Read of an `int` (4 bytes) at offset `off` of a buffer. -/
def rd_i32 (buf : List Nat) (off : Nat) : Int :=
  wrap_s 32 (le_value (rd_bytes buf off 4))

/-! ## Records and the global state -/

/-- NVR_TYPE_COPYALL of nvr.h. -/
def NVR_TYPE_COPYALL : Int := 0
/-- NVR_TYPE_MDATA of nvr.h. -/
def NVR_TYPE_MDATA : Int := 1
/-- NVR_TYPE_DATA of nvr.h. -/
def NVR_TYPE_DATA : Int := 2
/-- NVR_TYPE_UNLINK of nvr.h. -/
def NVR_TYPE_UNLINK : Int := 3
/-- NVR_TYPE_SIZE of nvr.h. -/
def NVR_TYPE_SIZE : Int := 8
/-- NVR_TYPE_DBDATA of nvr.h. -/
def NVR_TYPE_DBDATA : Int := 9
/-- NVR_TYPE_RENAME of nvr.h. -/
def NVR_TYPE_RENAME : Int := 128

/-- Modelled from the spec: the tag `TYPE_DATA` of the header cdi_repitem.h, which is not
among the sources; it is the DataWrite tag, the value the write hook passes as
`NVR_TYPE_DATA`. -/
def TYPE_DATA : Int := NVR_TYPE_DATA

/-- Modelled from the spec: the tag `TYPE_SIZE` of the header cdi_repitem.h, which is not
among the sources; it is the SizeChange tag, the value the seek and truncate hooks pass as
`NVR_TYPE_SIZE`. -/
def TYPE_SIZE : Int := NVR_TYPE_SIZE

/-- The record `struct cdi_record`. `name` holds the path bytes without the terminating
NUL (the C field `name` is these bytes followed by one NUL byte), `buf` the payload.
The C fields `len` and `bsize` are set once by `nvr_get_repitem` to the size of `name`
(terminator included) and of `buf` and never change: they are the functions
`cdi_record.len` and `cdi_record.bsize`. -/
structure cdi_record where
  sequence : Nat
  timestamp : Nat
  type : Int
  name : List Nat
  buf : List Nat
  pid : Int
deriving DecidableEq, Repr

/-- The bytes of the C string `r->name`: the path and its terminator. -/
def cdi_record.cstr (r : cdi_record) : List Nat := r.name ++ [0]

/-- The field `r->len`: length of the name, terminator included. -/
def cdi_record.len (r : cdi_record) : Nat := r.name.length + 1

/-- The field `r->bsize`: size of the payload buffer. -/
def cdi_record.bsize (r : cdi_record) : Nat := r.buf.length

/-- The globals of nvr_device.c and nvr_queue.c. -/
structure nvr_state where
  nvr_sys_queue : List cdi_record
  nvr_sys_queue_count : Int
  repitem_seq : Nat
  repitem_count : Int
  highwater : Int
  highcount : Int
  highwater_broken : Int
  pause : Int
  xfer_skip : Int
  replication_active : Int
  logit : Int
  nvr_sys_queue_lock : Int
deriving DecidableEq, Repr

/-- The state after module initialisation: empty queue, `highwater = 50000`, every other
global zero, the semaphore free (count 1). -/
def nvr_init : nvr_state :=
  { nvr_sys_queue := [], nvr_sys_queue_count := 0, repitem_seq := 0, repitem_count := 0,
    highwater := 50000, highcount := 0, highwater_broken := 0, pause := 0, xfer_skip := 0,
    replication_active := 0, logit := 0, nvr_sys_queue_lock := 1 }

/-- The wrapper `nvr_down` on `nvr_sys_queue_lock`. -/
def nvr_down (s : nvr_state) : nvr_state :=
  { s with nvr_sys_queue_lock := s.nvr_sys_queue_lock - 1 }

/-- The wrapper `nvr_up` on `nvr_sys_queue_lock`. -/
def nvr_up (s : nvr_state) : nvr_state :=
  { s with nvr_sys_queue_lock := s.nvr_sys_queue_lock + 1 }

/-- The macro `MAX(x, y)` of nvfs.h. -/
def MAX (x y : Int) : Int := if x > y then x else y

/-! ## nvr_queue.c -/

/-- Function `nvr_get_repitem`: builds the record for the first `len` bytes of `s`, type
`type` and payload `buf` (`none` is a NULL pointer) of size `blen`, stamped `now`
milliseconds; the sequence number is `++repitem_seq` on the 64-bit counter. -/
def nvr_get_repitem (st : nvr_state) (now : Nat) (s : List Nat) (len : Nat) (type : Int)
    (buf : Option (List Nat)) (blen : Nat) : cdi_record × nvr_state :=
  let seq := (st.repitem_seq + 1) % 2 ^ 64
  let b := match buf with
    | some b => if blen ≠ 0 then b.take blen else []
    | none => []
  ({ sequence := seq, timestamp := now, type := type, name := s.take len, buf := b,
     pid := -1 },
   { st with repitem_seq := seq, repitem_count := st.repitem_count + 1 })

/-- Function `nvr_put_repitem`: the record is freed and `repitem_count` decremented. -/
def nvr_put_repitem (st : nvr_state) : nvr_state :=
  { st with repitem_count := st.repitem_count - 1 }

/-- The string "/dev/". -/
def path_dev : List Nat := [47, 100, 101, 118, 47]
/-- The string "/proc/". -/
def path_proc : List Nat := [47, 112, 114, 111, 99, 47]
/-- The string "/usr/netvault/replicator/". -/
def path_replicator : List Nat :=
  [47, 117, 115, 114, 47, 110, 101, 116, 118, 97, 117, 108, 116, 47,
   114, 101, 112, 108, 105, 99, 97, 116, 111, 114, 47]

/-- Function `item_name_okay`: the name is none of the three fixed strings. -/
def item_name_okay (fname : List Nat) : Bool :=
  decide (fname ≠ path_dev) && decide (fname ≠ path_proc) &&
    decide (fname ≠ path_replicator)

/-- The test `l->len != r->len || memcmp(l->name, r->name, r->len) != 0`. -/
def name_differs (l r : cdi_record) : Bool :=
  decide (l.len ≠ r.len) || decide (l.cstr.take r.len ≠ r.cstr.take r.len)

/-- Function `coalesce_sizes` on the queue `q`: the return value (non-zero as `true`) and
the queue afterwards. -/
def coalesce_sizes (q : List cdi_record) (r : cdi_record) : Bool × List cdi_record :=
  if r.type ≠ TYPE_SIZE then (false, q) else
  match q.getLast? with
  | none => (false, q)
  | some l =>
    if l.pid ≠ -1 then (false, q) else
    if l.type ≠ TYPE_SIZE then (false, q) else
    if name_differs l r then (false, q) else
    let off1 := rd_i64 l.buf 0
    let off2 := rd_i64 r.buf 0
    if off2 < off1 then (false, q) else
    (true, q.dropLast ++ [{ l with buf := wr_bytes l.buf 0 (rd_bytes r.buf 0 8) }])

/-- Function `coalesce_writes` on the queue `q`: the return value (non-zero as `true`) and
the queue afterwards. -/
def coalesce_writes (q : List cdi_record) (r : cdi_record) : Bool × List cdi_record :=
  if r.type ≠ TYPE_DATA then (false, q) else
  match q.getLast? with
  | none => (false, q)
  | some l =>
    if l.pid ≠ -1 then (false, q) else
    if l.type ≠ TYPE_DATA then (false, q) else
    if name_differs l r then (false, q) else
    let pos1 := rd_i64 l.buf 0
    let pos2 := rd_i64 r.buf 0
    let len1 := rd_i32 l.buf 8
    let len2 := rd_i32 r.buf 8
    if pos1 = pos2 ∧ (len1 = len2 ∨ len1 > len2) then (true, q) else
    if pos1 < pos2 ∧ wrap_s 64 (pos1 + len1) > wrap_s 64 (pos2 + len2) then (true, q) else
    if wrap_s 64 (pos1 + len1) ≠ pos2 then (false, q) else
    let len1 := wrap_s 32 (len1 + len2)
    (true, q.dropLast ++ [{ l with buf := wr_bytes l.buf 8 (int_bytes 4 len1) }])

/-- The loop `while (nvr_sys_queue_count >= highwater && i < 500)` of `nvr_add_queue`,
with `n` iterations left: the value of `highwater_broken` after it. -/
def highwater_spin : Nat → Int → Int → Int → Int
  | 0, _, _, broken => broken
  | n + 1, count, highwater, broken =>
    if count ≥ highwater then highwater_spin n count highwater 1 else broken

/-- The first statements of `nvr_add_queue` past the test of the caller:
`highcount = MAX(highcount, nvr_sys_queue_count)` and the loop on `highwater`. -/
def add_queue_prologue (s : nvr_state) : nvr_state :=
  let s := { s with highcount := MAX s.highcount s.nvr_sys_queue_count }
  let broken := highwater_spin 500 s.nvr_sys_queue_count s.highwater s.highwater_broken
  { s with highwater_broken := broken }

/-- The section of `nvr_add_queue` between `nvr_down` and the label `waitforit`: the two
coalescing attempts, else the append. -/
def add_queue_locked (s : nvr_state) (r : cdi_record) : nvr_state :=
  match coalesce_writes s.nvr_sys_queue r with
  | (true, q) => nvr_put_repitem { s with nvr_sys_queue := q }
  | (false, _) =>
    match coalesce_sizes s.nvr_sys_queue r with
    | (true, q) => nvr_put_repitem { s with nvr_sys_queue := q }
    | (false, _) =>
      { s with nvr_sys_queue_count := s.nvr_sys_queue_count + 1,
               nvr_sys_queue := s.nvr_sys_queue ++ [r] }

/-- Function `nvr_add_queue`, called by the process named `comm` (`current->comm`).
The loop on `QUEUE_HWAT_MARK` after the label `waitforit` only releases and retakes the
lock around `schedule()`, so it leaves the state as it is. -/
def nvr_add_queue (s : nvr_state) (comm : String) (r : cdi_record) : nvr_state :=
  if comm = "nvr_srv" then nvr_put_repitem s else
  let s := add_queue_prologue s
  if s.pause ≠ 0 ∧ s.nvr_sys_queue_count ≥ s.pause then nvr_put_repitem s
  else if item_name_okay r.name = true ∧ s.nvr_sys_queue_count ≥ s.highwater then
    nvr_put_repitem s
  else if s.xfer_skip ≠ 0 ∧ comm = "nvr_xfer" then nvr_put_repitem s
  else if s.replication_active ≠ 0 ∧ item_name_okay r.name = true then
    nvr_up (add_queue_locked (nvr_down s) r)
  else nvr_put_repitem s

/-- The record reaches the locked section of `nvr_add_queue`: none of the drop branches
is taken. -/
def admitted (s : nvr_state) (comm : String) (r : cdi_record) : Prop :=
  comm ≠ "nvr_srv" ∧
  ¬ (s.pause ≠ 0 ∧ s.nvr_sys_queue_count ≥ s.pause) ∧
  ¬ (item_name_okay r.name = true ∧ s.nvr_sys_queue_count ≥ s.highwater) ∧
  ¬ (s.xfer_skip ≠ 0 ∧ comm = "nvr_xfer") ∧
  (s.replication_active ≠ 0 ∧ item_name_okay r.name = true)

instance (s : nvr_state) (comm : String) (r : cdi_record) : Decidable (admitted s comm r) := by
  unfold admitted; infer_instance

/-- Function `nvr_add_name`: `nm` and `buf` are pointers (`none` is NULL), the name is
read up to its terminator; returns the status and the new state. -/
def nvr_add_name (s : nvr_state) (comm : String) (now : Nat) (nm : Option (List Nat))
    (type : Int) (buf : Option (List Nat)) (len : Nat) : Int × nvr_state :=
  match nm with
  | none => (1, s)
  | some nm =>
    if len ≠ 0 ∧ buf = none then (1, s) else
    let p := nvr_get_repitem s now nm nm.length type buf len
    (0, nvr_add_queue p.2 comm p.1)

/-! ## nvr_device.c -/

/-- The error number EFAULT defined in nvr_device.c. -/
def EFAULT : Int := 14

/-- Modelled from the spec: the widths of the fields of `struct cdi_record`, declared in
the header cdi_repitem.h, which is not among the sources: 8-byte sequence, 8-byte
timestamp, 4-byte type tag, 4-byte name length, 4-byte payload length. This is the size
`rec_size` that `nvr_register` computes. -/
def rec_size (r : cdi_record) : Nat :=
  8 + 8 + 4 + 4 + r.len + 4 + r.bsize

/-- The pieces that `nvr_register` copies for one record, one per `REG_COPY`, in order;
the payload piece is copied only `if (r->bsize)`. -/
def reg_fields (r : cdi_record) : List (List Nat) :=
  [ le_bytes 8 r.sequence, le_bytes 8 r.timestamp, int_bytes 4 r.type,
    int_bytes 4 r.len, r.cstr.take r.len, int_bytes 4 r.bsize ] ++
  (if r.bsize ≠ 0 then [r.buf.take r.bsize] else [])

/-- The macro `REG_COPY` run on each piece in turn. `out` is what the caller's buffer
holds so far, so `offset` is `out.length`; `ctu off n` tells whether
`nvr_copy_to_user(reg.data+off, _, n)` succeeds. The result is the buffer and whether
every copy succeeded (`false`: a copy failed and the code went to `out`). -/
def reg_copy (ctu : Nat → Nat → Bool) : List Nat → List (List Nat) → List Nat × Bool
  | out, [] => (out, true)
  | out, f :: fs =>
    if ctu out.length f.length then reg_copy ctu (out ++ f) fs else (out, false)

/-- What the loop of `nvr_register` leaves: the queue, the caller's buffer, and whether
a copy to user space failed. -/
structure walk_result where
  queue : List cdi_record
  out : List Nat
  fault : Bool
deriving DecidableEq, Repr

/-- The loop `list_for_each(tmp, &nvr_sys_queue)` of `nvr_register` for the capacity
`length`, from the record at the head of the list given. -/
def register_walk (length : Int) (ctu : Nat → Nat → Bool) :
    List Nat → List cdi_record → walk_result
  | out, [] => { queue := [], out := out, fault := false }
  | out, r :: rest =>
    if ((out.length + rec_size r : Nat) : Int) ≥ length then
      { queue := r :: rest, out := out, fault := false }
    else
      match reg_copy ctu out (reg_fields r) with
      | (out1, false) => { queue := r :: rest, out := out1, fault := true }
      | (out1, true) =>
        let w := register_walk length ctu out1 rest
        { queue := { r with pid := 1 } :: w.queue, out := w.out, fault := w.fault }

/-- Function `nvr_register`. `desc` is what `nvr_copy_from_user` reads of the request
descriptor: `none` when the copy fails, else the field `reg.length`; `ctu` describes the
copies to the caller's buffer. Returns the status `err`, the bytes written to the
caller's buffer, and the new state. The status is an `int` assigned from the `size_t`
offset. -/
def nvr_register (s : nvr_state) (desc : Option Int) (ctu : Nat → Nat → Bool) :
    Int × List Nat × nvr_state :=
  if s.replication_active = 0 then (0, [], nvr_up s) else
  if s.pause ≠ 0 then (0, [], nvr_up s) else
  match desc with
  | none => (-EFAULT, [], nvr_up s)
  | some length =>
    if length ≤ 0 then (-EFAULT, [], nvr_up s) else
    let s := nvr_down s
    let w := register_walk length ctu [] s.nvr_sys_queue
    let s := { s with nvr_sys_queue := w.queue }
    if w.fault then (-EFAULT, w.out, nvr_up s)
    else (wrap_s 32 w.out.length, w.out, nvr_up s)

/-- The loop `list_for_each_safe` of `nvr_unregister` from the record at the head of the
list given, with the current `nvr_sys_queue_count` and `repitem_count`: the list and
the two counters afterwards. -/
def unregister_walk : List cdi_record → Int → Int → List cdi_record × Int × Int
  | [], count, rcount => ([], count, rcount)
  | r :: rest, count, rcount =>
    if r.pid = 1 then unregister_walk rest (count - 1) (rcount - 1)
    else
      let w := unregister_walk rest count rcount
      (r :: w.1, w.2.1, w.2.2)

/-- Function `nvr_unregister`: the status and the new state. -/
def nvr_unregister (s : nvr_state) : Int × nvr_state :=
  let s := nvr_down s
  let w := unregister_walk s.nvr_sys_queue s.nvr_sys_queue_count s.repitem_count
  let s := { s with nvr_sys_queue := w.1, nvr_sys_queue_count := w.2.1,
                    repitem_count := w.2.2 }
  (0, nvr_up s)

/-- The command numbers of nvr_device.c. -/
def NVR_SET_HIGHWATER : Nat := 0x5301
/-- Command NVR_REP_PAUSE. -/
def NVR_REP_PAUSE : Nat := 0x5300
/-- Command NVR_SET_ACTIVE. -/
def NVR_SET_ACTIVE : Nat := 0x5297
/-- Command NVR_SET_LOGGING. -/
def NVR_SET_LOGGING : Nat := 0x5296
/-- Command NVR_SET_XFER_SKIP. -/
def NVR_SET_XFER_SKIP : Nat := 0x5294
/-- Command NVR_SEQUENCE_NUMBER. -/
def NVR_SEQUENCE_NUMBER : Nat := 0x5293

/-- The effect on the globals of the commands of `nvr_dev_ioctl` that copy a number from
user space into a global; `v` is the value the global holds after
`nvr_copy_from_user`. Other commands leave these globals as they are. -/
def ioctl_set (s : nvr_state) (cmd : Nat) (v : Int) : nvr_state :=
  if cmd = NVR_REP_PAUSE then { s with pause := v }
  else if cmd = NVR_SET_HIGHWATER then { s with highwater := v, highwater_broken := 0 }
  else if cmd = NVR_SET_XFER_SKIP then { s with xfer_skip := v }
  else if cmd = NVR_SET_LOGGING then { s with logit := v }
  else if cmd = NVR_SET_ACTIVE then
    { s with replication_active := v, pause := if v ≠ 0 then 0 else s.pause }
  else if cmd = NVR_SEQUENCE_NUMBER then { s with repitem_seq := (v % 2 ^ 64).toNat }
  else s

/-! ## Runs of the queue -/

/-- One call into the plugin: an enqueue through `nvr_add_name` (for `nvr_add_dentry` the
name is the resolved path), a bare `nvr_add_queue` of a record built elsewhere, the two
consumer commands, or a command that sets a global. -/
inductive nvr_op where
  | add_name (comm : String) (now : Nat) (nm : Option (List Nat)) (type : Int)
      (buf : Option (List Nat)) (len : Nat)
  | add_queue (comm : String) (r : cdi_record)
  | register (desc : Option Int) (ctu : Nat → Nat → Bool)
  | unregister
  | ioctl (cmd : Nat) (v : Int)

/-- The state after one call. -/
def nvr_step (s : nvr_state) : nvr_op → nvr_state
  | .add_name comm now nm type buf len => (nvr_add_name s comm now nm type buf len).2
  | .add_queue comm r => nvr_add_queue s comm r
  | .register desc ctu => (nvr_register s desc ctu).2.2
  | .unregister => (nvr_unregister s).2
  | .ioctl cmd v => ioctl_set s cmd v

/-- The state after a sequence of calls. -/
def nvr_run (s : nvr_state) (ops : List nvr_op) : nvr_state :=
  ops.foldl nvr_step s

/-! ## Sample data -/

/-- The path "/data/x". -/
def path_data_x : List Nat := [47, 100, 97, 116, 97, 47, 120]

/-- The payload that the write hook `nvr_write` builds: the 8-byte position, then the
8-byte count. -/
def write_payload (pos count : Int) : List Nat :=
  int_bytes 8 pos ++ int_bytes 8 count

/-- The payload that the seek hook `nvr_llseek` builds: the 8-byte offset. -/
def size_payload (size : Int) : List Nat :=
  int_bytes 8 size

/-- A DataWrite record on "/data/x", not claimed by a drain. -/
def sample_write (seq ts : Nat) (pos count : Int) : cdi_record :=
  { sequence := seq, timestamp := ts, type := NVR_TYPE_DATA, name := path_data_x,
    buf := write_payload pos count, pid := -1 }

/-- A SizeChange record on "/data/x", not claimed by a drain. -/
def sample_size (seq ts : Nat) (size : Int) : cdi_record :=
  { sequence := seq, timestamp := ts, type := NVR_TYPE_SIZE, name := path_data_x,
    buf := size_payload size, pid := -1 }

/-- The initial state once replication has been switched on, holding the queue `q`. -/
def sample_state (q : List cdi_record) : nvr_state :=
  { nvr_init with replication_active := 1, nvr_sys_queue := q,
                  nvr_sys_queue_count := q.length, repitem_seq := q.length,
                  repitem_count := q.length }

/-! ## The wire format, as the specification words it -/

/-- The wire image of one record, following the specification: 8-byte sequence, 8-byte
timestamp, 4-byte type tag, 4-byte path length, the path bytes (that many: the path and
its terminator), 4-byte payload length, the payload bytes. -/
def wire_record (r : cdi_record) : List Nat :=
  le_bytes 8 r.sequence ++ le_bytes 8 r.timestamp ++ int_bytes 4 r.type ++
    int_bytes 4 r.len ++ r.cstr ++ int_bytes 4 r.bsize ++ r.buf

/-- The wire images of the records of a list, one after the other. -/
def wire_records : List cdi_record → List Nat
  | [] => []
  | r :: rs => wire_record r ++ wire_records rs

/-- The serialized size the specification gives a record: 28 bytes of fixed fields, the
path length and the payload length. -/
def wire_size (r : cdi_record) : Nat := 28 + r.len + r.bsize

/-- The sum of the serialized sizes of the records of a list. -/
def wire_total : List cdi_record → Nat
  | [] => 0
  | r :: rs => wire_size r + wire_total rs

/-- The record as a drain leaves it: tagged `pid = 1`. -/
def tagged (r : cdi_record) : cdi_record := { r with pid := 1 }

/-- The number of records, from the head of the list, that a drain of capacity `length`
starting at offset `off` serializes when no copy fails. -/
def drain_count (length : Int) : Nat → List cdi_record → Nat
  | _, [] => 0
  | off, r :: rest =>
    if ((off + rec_size r : Nat) : Int) ≥ length then 0
    else drain_count length (off + rec_size r) rest + 1

/-- The copies to user space that never fail. -/
def ctu_ok : Nat → Nat → Bool := fun _ _ => true

/-- The calls that leave the sequence counter to `nvr_get_repitem`: every enqueue goes
through `nvr_get_repitem` and no command is NVR_SEQUENCE_NUMBER. -/
def seq_safe : nvr_op → Prop
  | .add_queue _ _ => False
  | .ioctl cmd _ => cmd ≠ NVR_SEQUENCE_NUMBER
  | _ => True

/-- A short run: replication is switched on, two contiguous writes and a metadata change
are enqueued, the consumer drains 64 bytes, its own activity is ignored, it releases what
it drained, and a size change is enqueued. -/
def sample_ops : List nvr_op :=
  [ .ioctl NVR_SET_ACTIVE 1,
    .add_name "dd" 1000 (some path_data_x) NVR_TYPE_DATA (some (write_payload 0 10)) 16,
    .add_name "dd" 1001 (some path_data_x) NVR_TYPE_DATA (some (write_payload 10 5)) 16,
    .add_name "dd" 1002 (some path_data_x) NVR_TYPE_MDATA none 0,
    .register (some 64) ctu_ok,
    .add_name "nvr_srv" 1003 (some path_data_x) NVR_TYPE_MDATA none 0,
    .unregister,
    .add_name "dd" 1004 (some path_data_x) NVR_TYPE_SIZE (some (size_payload 4096)) 8 ]

/-- The queue is in sequence order, head to tail, and no record is ahead of the counter. -/
def seq_sorted (s : nvr_state) : Prop :=
  List.Pairwise (fun a b => a < b) (s.nvr_sys_queue.map cdi_record.sequence) ∧
  ∀ x ∈ s.nvr_sys_queue.map cdi_record.sequence, x ≤ s.repitem_seq

/-- The sequence number `k` has been handed out and is carried by no record of the
queue. -/
def seq_absent (k : Nat) (s : nvr_state) : Prop :=
  k ≤ s.repitem_seq ∧ k ∉ s.nvr_sys_queue.map cdi_record.sequence

/-- A MetadataChange record without payload on the two-byte path "/" `c`, not claimed by
a drain; its serialized size is 31 bytes. -/
def sample_note (seq ts c : Nat) : cdi_record :=
  { sequence := seq, timestamp := ts, type := NVR_TYPE_MDATA, name := [47, c], buf := [],
    pid := -1 }

/-- The state after `nvr_add_queue` has been called, by the process `comm`, on each
record of the list in turn. -/
def enqueue_all (s : nvr_state) (comm : String) : List cdi_record → nvr_state
  | [] => s
  | r :: rs => enqueue_all (nvr_add_queue s comm r) comm rs

/-- Every record of the list passes the admission checks of `nvr_add_queue` in the state
in which it is enqueued. -/
def all_admitted (s : nvr_state) (comm : String) : List cdi_record → Prop
  | [] => True
  | r :: rs => admitted s comm r ∧ all_admitted (nvr_add_queue s comm r) comm rs

/-- The state after a sequence of calls of `nvr_add_queue`, each given as the calling
process and the record. -/
def add_queue_calls (s : nvr_state) : List (String × cdi_record) → nvr_state
  | [] => s
  | c :: cs => add_queue_calls (nvr_add_queue s c.1 c.2) cs

/-- The globals `trans` and `multiwrite_files`. Entry `i` of the array is the C string it
points to (its bytes, without the terminator), or `none` when the entry was never set. -/
structure trans_state where
  trans : Int
  multiwrite_files : List (Option (List Nat))
deriving DecidableEq, Repr

/-- The loop `for (i = 0; i < trans; i++)` of `fn_trans_match` from index `i` with `n`
iterations left; `none` when it reads an entry that was never set. -/
def fn_trans_loop (files : List (Option (List Nat))) (filename : List Nat) :
    Nat → Nat → Option Int
  | _, 0 => some 0
  | i, n + 1 =>
    match files.get? i with
    | some (some fn) =>
      if fn.length < filename.length then
        if fn = filename.take fn.length then some 1
        else fn_trans_loop files filename (i + 1) n
      else if filename.length = fn.length then
        if fn = filename then some 1
        else fn_trans_loop files filename (i + 1) n
      else fn_trans_loop files filename (i + 1) n
    | _ => none

/-- Function `fn_trans_match`: `filename` is a pointer to a C string (`none` is NULL);
the result is `none` when the code reads an array entry that was never set. -/
def fn_trans_match (t : trans_state) (filename : Option (List Nat)) : Option Int :=
  match filename with
  | none => some 0
  | some f => fn_trans_loop t.multiwrite_files f 0 t.trans.toNat

/-- What `copy_from_user` yields: the value read, or a fault that leaves `left` bytes
uncopied (`left` is not zero). -/
inductive user_read (α : Type) where
  | ok (v : α)
  | fault (left : Int)

/-- The first loop of `nvr_set_trans`: the number of ';' before the terminator. -/
def count_semis : List Nat → Int
  | [] => 0
  | c :: rest => if c = 0 then 0 else (if c = 59 then 1 else 0) + count_semis rest

/-- The length `strlen(cp)` of the C string at index `cp` of `m`. -/
def strlen_at (m : List Nat) (cp : Nat) : Nat :=
  ((m.drop cp).takeWhile (fun c => decide (c ≠ 0))).length

/-- The nested loops of `nvr_set_trans` that fill the array, at the point where the inner
loop examines `*cp2`: `m` is `mstring`, `cp` the start of the current segment, `i` the
next entry. The result is the array at the label `done`, or `none` when the code reads
outside `mstring` or copies more bytes than it allocated. `fuel` bounds the number of
characters examined. -/
def set_trans_fill : Nat → List Nat → Nat → Nat → Nat → List (Option (List Nat)) →
    Option (List (Option (List Nat)))
  | 0, _, _, _, _, _ => none
  | fuel + 1, m, cp, cp2, i, files =>
    match m.get? cp2 with
    | none => none
    | some c =>
      if c = 59 ∨ c = 0 then
        if cp2 - cp > strlen_at m cp + 1 then none else
        let entry := ((m.drop cp).take (cp2 - cp)).takeWhile (fun c => decide (c ≠ 0))
        if c = 0 then some (files.set i (some entry))
        else set_trans_fill fuel (m.set cp2 0) (cp2 + 1) (cp2 + 2) (i + 1)
          (files.set i (some entry))
      else set_trans_fill fuel m cp (cp2 + 1) i files

/-- Function `nvr_set_trans`. `desc` is the read of the request descriptor (the field
`reg.length`), `data` the read of `reg.length` bytes at `reg.data`. Returns the status
and the new globals, or `none` when the code reads outside `mstring` or overruns an
entry it allocated. The array is allocated anew, no entry set; that it is allocated with
`tmp` bytes is left out. -/
def nvr_set_trans (t : trans_state) (desc : user_read Int) (data : user_read (List Nat)) :
    Option (Int × trans_state) :=
  match desc with
  | .fault left => some (left, { t with trans := 0 })
  | .ok length =>
    if length < 0 then some (0, { t with trans := 0 }) else
    if length = 0 then some (0, { trans := 0, multiwrite_files := [] }) else
    match data with
    | .fault left => some (left, { t with trans := 0 })
    | .ok s =>
      let m := s.take length.toNat ++ [0]
      let tmp := count_semis m + 1
      let files := List.replicate tmp.toNat none
      if m.get? 0 = some 0 then some (0, { trans := tmp, multiwrite_files := files })
      else
        match set_trans_fill (m.length + 1) m 0 0 0 files with
        | none => none
        | some fs => some (0, { trans := tmp, multiwrite_files := fs })

/-- The segments of a string split at every ';', as the specification words the parsing
of SetTransactionPaths. -/
def split_semis : List Nat → List (List Nat)
  | [] => [[]]
  | c :: rest =>
    match split_semis rest with
    | [] => [[]]
    | seg :: segs => if c = 59 then [] :: seg :: segs else (c :: seg) :: segs

/-- The match the specification describes: the configured prefix `q` is equal to the
path, or is a proper string prefix of it that ends at a path-component boundary (`q`
ends with '/' or the character of the path right after `q` is '/'). -/
def boundary_match (q path : List Nat) : Bool :=
  decide (q = path) ||
    (decide (q.length < path.length) && q.isPrefixOf path &&
      (decide (q.getLast? = some 47) || decide (path.get? q.length = some 47)))

/-- The string "/data/xyz". -/
def path_data_xyz : List Nat := [47, 100, 97, 116, 97, 47, 120, 121, 122]

/-! ## The path resolver: nvr_queue.c -/

/-- The page size of the target (x86-64), a constant of the kernel headers. -/
def PAGE_SIZE : Nat := 4096

/-- The error number ENOMEM of the kernel headers. -/
def ENOMEM : Int := 12

/-- The error number ERANGE of the kernel headers. -/
def ERANGE : Int := 34

/-- The part of the kernel's dentry and mount graph that the resolver reads. Dentries and
mounts are named by numbers (their addresses). `d_name` gives the bytes of `d_name.name`,
of length `d_name.len`; `mnt_list` lists the mounts that `list_for_each` visits from the
root mount `rootmnt` of `init_task.fs`, in order. -/
structure vfs where
  d_parent : Nat → Nat
  d_name : Nat → List Nat
  mnt_root : Nat → Nat
  mnt_parent : Nat → Nat
  mnt_mountpoint : Nat → Nat
  mnt_list : List Nat
  rootmnt : Nat

/-- The loop `for (tmp = de; tmp->d_parent != tmp; tmp = tmp->d_parent)` of
`dentry_to_vfs`, at most `fuel` steps: the dentry it stops at. -/
def climb (v : vfs) : Nat → Nat → Option Nat
  | 0, _ => none
  | fuel + 1, tmp => if v.d_parent tmp ≠ tmp then climb v fuel (v.d_parent tmp) else some tmp

/-- Function `dentry_to_vfs`: the first mount of the list whose root is the top of the
dentry's tree, else the root mount. `none` when the climb does not end within `fuel`
steps. -/
def dentry_to_vfs (v : vfs) (fuel : Nat) (de : Nat) : Option Nat :=
  match climb v fuel de with
  | none => none
  | some tmp =>
    match v.mnt_list.find? (fun m => decide (tmp = v.mnt_root m)) with
    | some dmnt => some dmnt
    | none => some v.rootmnt

/-- The loop `for (;;)` of `dentry_fullpath` and the code after it. `buf` is the buffer,
`endp` and `retval` are the pointers `end` and `retval` as offsets into it, `len` is the
room left. The result is the buffer and the returned pointer, `none` when the walk does
not end within `fuel` steps. -/
def fullpath_loop (v : vfs) : Nat → Nat → Nat → List Nat → Nat → Int → Nat →
    Option (List Nat × Nat)
  | 0, _, _, _, _, _, _ => none
  | fuel + 1, de, dmnt, buf, endp, len, retval =>
    if de = v.mnt_root dmnt ∨ v.d_parent de = de then
      if v.mnt_parent dmnt = dmnt then
        let namelen : Int := (v.d_name de).length
        let len := len - namelen
        if len ≥ 0 then
          let retval := ((retval : Int) - (namelen - 1)).toNat
          some (wr_bytes buf retval (v.d_name de), retval)
        else some (buf, retval)
      else fullpath_loop v fuel (v.mnt_mountpoint dmnt) (v.mnt_parent dmnt) buf endp len retval
    else
      let namelen := (v.d_name de).length
      let len := len - ((namelen : Int) + 1)
      if len < 0 then some (buf, retval)
      else
        let endp := endp - namelen
        let buf := wr_bytes buf endp (v.d_name de)
        let endp := endp - 1
        let buf := wr_bytes buf endp [47]
        fullpath_loop v fuel (v.d_parent de) dmnt buf endp len endp

/-- Function `dentry_fullpath` on the buffer `buf` of size `len`: the buffer afterwards
and the returned pointer as an offset into it. -/
def dentry_fullpath (v : vfs) (fuel : Nat) (de dmnt : Nat) (buf : List Nat) (len : Nat) :
    Option (List Nat × Nat) :=
  let endp := len - 1
  let buf := wr_bytes buf endp [0]
  let retval := endp - 1
  let buf := wr_bytes buf retval [47]
  fullpath_loop v fuel de dmnt buf endp ((len : Int) - 1) retval

/-- Function `nvr_dcache_to_fn`. `page` is the page returned by `__get_free_page` with
whatever it holds (`none`: no page). The result is the status and the output buffer `fn`
of PAGE_SIZE bytes; `none` when a walk does not end within `fuel` steps. -/
def nvr_dcache_to_fn (v : vfs) (fuel : Nat) (de : Nat) (page : Option (List Nat)) :
    Option (Int × List Nat) :=
  let fn := List.replicate PAGE_SIZE 0
  match page with
  | none => some (-ENOMEM, fn)
  | some page =>
    match dentry_to_vfs v fuel de with
    | none => none
    | some dmnt =>
      match dentry_fullpath v fuel de dmnt page PAGE_SIZE with
      | none => none
      | some (buf, nm) =>
        let len := PAGE_SIZE - nm
        if len < PAGE_SIZE then
          some (((len : Int) - 1), wr_bytes fn 0 ((buf.drop nm).take len))
        else some (-ERANGE, fn)

/-- The names met from the root down to the dentry `de` seen in the mount `dmnt`, as the
specification words the walk: the walk ends at the root of a mount that is its own
parent, whose root dentry is named "/"; at the root of another mount it continues from
that mount's mount point in the parent mount; elsewhere the dentry's name comes after
the names of its parent. -/
inductive reaches (v : vfs) : Nat → Nat → List (List Nat) → Prop where
  | root (de dmnt : Nat) :
      (de = v.mnt_root dmnt ∨ v.d_parent de = de) → v.mnt_parent dmnt = dmnt →
      v.d_name de = [47] → reaches v de dmnt []
  | cross (de dmnt : Nat) (names : List (List Nat)) :
      (de = v.mnt_root dmnt ∨ v.d_parent de = de) → v.mnt_parent dmnt ≠ dmnt →
      reaches v (v.mnt_mountpoint dmnt) (v.mnt_parent dmnt) names → reaches v de dmnt names
  | step (de dmnt : Nat) (names : List (List Nat)) :
      ¬ (de = v.mnt_root dmnt ∨ v.d_parent de = de) →
      reaches v (v.d_parent de) dmnt names → reaches v de dmnt (names ++ [v.d_name de])

/-- The names from the root down, each preceded by '/'. -/
def slash_join : List (List Nat) → List Nat
  | [] => []
  | n :: ns => 47 :: n ++ slash_join ns

/-- The string "/n1/n2/.../nk", and "/" when there is no name. -/
def render_path (names : List (List Nat)) : List Nat :=
  if names = [] then [47] else slash_join names

/-- A graph with one mount, the root mount 0 with root dentry 0 named "/", and the chain
of dentries 1, 2, ..., each the child of the one before: dentry `i + 1` carries the name
number `i` of the list `names` (a dentry past the list is named "x"). -/
def chain_vfs (names : List (List Nat)) : vfs :=
  { d_parent := fun d => d - 1,
    d_name := fun d => if d = 0 then [47] else names.getD (d - 1) [120],
    mnt_root := fun _ => 0,
    mnt_parent := fun _ => 0,
    mnt_mountpoint := fun _ => 0,
    mnt_list := [],
    rootmnt := 0 }

/-- Sixteen names, fifteen of 255 bytes and one of 254 bytes: the path they render is
4095 bytes long. -/
def long_names : List (List Nat) :=
  List.replicate 15 (List.replicate 255 97) ++ [List.replicate 254 97]

/-- The names "data" and "x". -/
def data_x_names : List (List Nat) := [[100, 97, 116, 97], [120]]

/-- The dentry `top` is met on the way up from the dentry `de` inside the mount `dmnt`,
before the root of the mount: `names` are the names passed on the way, from the one
right below `top` down to the name of `de`. -/
inductive climbs (v : vfs) (dmnt : Nat) : Nat → Nat → List (List Nat) → Prop where
  | here (de : Nat) : climbs v dmnt de de []
  | step (de top : Nat) (names : List (List Nat)) :
      ¬ (de = v.mnt_root dmnt ∨ v.d_parent de = de) →
      climbs v dmnt (v.d_parent de) top names →
      climbs v dmnt de top (names ++ [v.d_name de])

/-- Seventeen names of 255 bytes, two of the letter 'b' and below them fifteen of the
letter 'a': the path they render is 4352 bytes long. -/
def deep_names : List (List Nat) :=
  List.replicate 2 (List.replicate 255 98) ++ List.replicate 15 (List.replicate 255 97)

/-! ## The hooks of the replication plug-in: nvr_main.c -/

/-- The C string that a buffer holds: its bytes before the first NUL. -/
def c_string (buf : List Nat) : List Nat :=
  buf.takeWhile (fun c => decide (c ≠ 0))

/-- Modelled from the spec: the tag `TYPE_DBDATA` of the header cdi_repitem.h, which is
not among the sources; it is the DbData tag, `NVR_TYPE_DBDATA` of nvr.h. -/
def TYPE_DBDATA : Int := NVR_TYPE_DBDATA

/-- Function `nvr_add_dentry`, with the graph `v`, the fuel and the page that
`nvr_dcache_to_fn` works with. The status and the new state; `none` when a walk of the
resolver does not end within `fuel` steps. -/
def nvr_add_dentry (v : vfs) (fuel : Nat) (page : Option (List Nat)) (s : nvr_state)
    (comm : String) (now : Nat) (d : Nat) (type : Int) (buf : Option (List Nat))
    (len : Nat) : Option (Int × nvr_state) :=
  match nvr_dcache_to_fn v fuel d page with
  | none => none
  | some (ret, nm) =>
    if ret ≥ 0 then
      let p := nvr_get_repitem s now nm ret.toNat type buf len
      some (0, nvr_add_queue p.2 comm p.1)
    else some (ret, s)

/-- Function `nvr_write_trans`: a record of type TYPE_DBDATA for the name `fn`, with the
position and the count as payload. The sequence file that `nvr_get_repitem` writes for
such a record is outside the state. -/
def nvr_write_trans (s : nvr_state) (comm : String) (now : Nat) (fn : List Nat) (len : Nat)
    (oldpos : Int) : nvr_state :=
  let p := nvr_get_repitem s now fn fn.length TYPE_DBDATA (some (write_payload oldpos len)) 16
  nvr_add_queue p.2 comm p.1

/-- The hook `nvr_write` on a file whose dentry is `f_dentry`, for `count` bytes at the
position `pos`. The status of `nvr_dcache_to_fn` is stored in `len` and not looked at;
the name is the C string that the output buffer holds. `none` when a walk of the
resolver does not end within `fuel` steps or the matcher reads an entry never set. -/
def nvr_write (v : vfs) (fuel : Nat) (page : Option (List Nat)) (t : trans_state)
    (s : nvr_state) (comm : String) (now : Nat) (f_dentry : Nat) (count : Nat) (pos : Int) :
    Option (Int × nvr_state) :=
  let buf := write_payload pos count
  match nvr_dcache_to_fn v fuel f_dentry page with
  | none => none
  | some (_, fnbuf) =>
    let fn := c_string fnbuf
    match fn_trans_match t (some fn) with
    | none => none
    | some m =>
      if m ≠ 0 then some (0, nvr_write_trans s comm now fn count pos)
      else some (0, (nvr_add_name s comm now (some fn) NVR_TYPE_DATA (some buf) 16).2)

/-- The hook `nvr_llseek` on a file whose dentry is `f_dentry` and whose inode has the
size `i_size`: a SizeChange record for a seek to or past the end of the file. The
status of `nvr_dcache_to_fn` is not looked at. The hook returns `offset`. -/
def nvr_llseek (v : vfs) (fuel : Nat) (page : Option (List Nat)) (s : nvr_state)
    (comm : String) (now : Nat) (f_dentry : Nat) (i_size offset : Int) :
    Option (Int × nvr_state) :=
  if offset ≥ i_size then
    match nvr_dcache_to_fn v fuel f_dentry page with
    | none => none
    | some (_, fnbuf) =>
      some (offset, (nvr_add_name s comm now (some (c_string fnbuf)) NVR_TYPE_SIZE
        (some (size_payload offset)) 8).2)
  else some (offset, s)

/-! ## The extension registry: nvfs_main.c and the dispatch macros -/

/-- The error number EINVAL of the kernel headers. -/
def EINVAL : Int := 22

/-- The attributes of `struct inode` that the module reads or writes. -/
structure inode where
  i_ino : Nat
  i_uid : Nat
  i_gid : Nat
  i_mode : Nat
  i_rdev : Nat
  i_nlink : Nat
  i_blkbits : Nat
  i_atime : Nat
  i_mtime : Nat
  i_ctime : Nat
  i_size : Int
  i_blocks : Nat
  i_flags : Nat
  i_version : Nat
deriving DecidableEq, Repr

/-- The fields of `struct file` that the module reads or writes; `f_ra` stands for the
whole read-ahead state. -/
structure file where
  f_pos : Int
  f_version : Nat
  f_ra : Nat
  f_flags : Nat
deriving DecidableEq, Repr

/-- The kernel objects. Inodes and files are named by their addresses; `rest` is
everything else the kernel and the backing file system keep (dentries, the dcache, the
data of the files). -/
structure world (φ : Type) where
  inodes : Nat → inode
  files : Nat → file
  rest : φ

/-- The arguments of a call through a function pointer: the macros hand `__VA_ARGS__` on
as they are. Pointers to kernel objects are given as addresses, numbers as they are (a
pointer to a number, as `&pos`, as the number it points to), a byte buffer as its
bytes. -/
structure cb_args where
  objs : List Nat
  nums : List Int
  data : List Nat
deriving DecidableEq, Repr

/-- A hook of a plug-in: it sees the arguments and the kernel objects and works on the
state `π` private to the plug-ins; it returns a status. -/
abbrev hook (φ π : Type) := cb_args → world φ → π → Int × π

/-- An operation table (`struct file_operations`, `struct inode_operations`, ...): the
function pointer stored under each member name, `none` for NULL. -/
abbrev op_table (φ π : Type) := String → Option (hook φ π)

/-- The descriptor `struct nvfs_callback_info`: six pointers to operation tables, `none`
for NULL. The member `next` is the link of the list `nvfs_callbacks`, which is kept
apart as the list of the addresses of the linked descriptors. -/
structure nvfs_callback_info (φ π : Type) where
  reg_f_op : Option (op_table φ π)
  reg_i_op : Option (op_table φ π)
  dir_i_op : Option (op_table φ π)
  sym_i_op : Option (op_table φ π)
  sb_op : Option (op_table φ π)
  d_op : Option (op_table φ π)

/-- The members of `struct nvfs_callback_info` that a dispatch macro can be given as
`op`. -/
inductive cb_op where
  | reg_f_op
  | reg_i_op
  | dir_i_op
  | sym_i_op
  | sb_op
  | d_op
deriving DecidableEq, Repr

/-- The member `cb->op`. -/
def nvfs_callback_info.op {φ π : Type} (cb : nvfs_callback_info φ π) :
    cb_op → Option (op_table φ π)
  | .reg_f_op => cb.reg_f_op
  | .reg_i_op => cb.reg_i_op
  | .dir_i_op => cb.dir_i_op
  | .sym_i_op => cb.sym_i_op
  | .sb_op => cb.sb_op
  | .d_op => cb.d_op

/-- What the module does that can be seen from outside it: the call of a hook of the
descriptor at the address `cb`, or a call into the backing file system or the VFS. -/
inductive call where
  | hook (cb : Nat) (op : cb_op) (func : String)
  | lower (func : String)
deriving DecidableEq, Repr

/-- Function `register_nvfs_callback` on the list `nvfs_callbacks`, head first:
`callback` is the address of the descriptor (0 is NULL). `list_add` links at the front,
`list_add_tail` at the back; the descriptor is not on the list already, as both
require. The status and the list. -/
def register_nvfs_callback (cbs : List Nat) (callback : Nat) (head : Int) : Int × List Nat :=
  if callback ≠ 0 then
    if head ≠ 0 then (0, callback :: cbs) else (0, cbs ++ [callback])
  else (-EINVAL, cbs)

/-- The loop `list_for_each_safe` of `unregister_nvfs_callback`: each entry that is
`callback` is unlinked by `list_del_init`. -/
def unregister_loop (callback : Nat) : List Nat → List Nat
  | [] => []
  | ptr :: rest =>
    if ptr = callback then unregister_loop callback rest
    else ptr :: unregister_loop callback rest

/-- Function `unregister_nvfs_callback`: the status and the list. -/
def unregister_nvfs_callback (cbs : List Nat) (callback : Nat) : Int × List Nat :=
  if callback ≠ 0 then (0, unregister_loop callback cbs) else (0, cbs)

/-- The test `cb && cb->op && cb->op->func` of the dispatch macros on the descriptor at
the address `cb`, `mem` giving the descriptor stored at an address: the function pointer
when the three are not NULL. -/
def cb_func {φ π : Type} (mem : Nat → nvfs_callback_info φ π) (op : cb_op) (func : String)
    (cb : Nat) : Option (hook φ π) :=
  if cb ≠ 0 then
    match (mem cb).op op with
    | some table => table func
    | none => none
  else none

/-- The loop `list_for_each_safe(tmp, safe, &nvfs_callbacks)` shared by the macros F_CB,
I_CB, S_CB and D_CB, from the entry at the head of the list given: the state of the
plug-ins after the hooks it calls, and these calls in order. The value a hook returns
is dropped. -/
def CB {φ π : Type} (mem : Nat → nvfs_callback_info φ π) (op : cb_op) (func : String)
    (args : cb_args) (w : world φ) : List Nat → π → π × List call
  | [], p => (p, [])
  | cb :: rest, p =>
    match cb_func mem op func cb with
    | some f =>
      let r := CB mem op func args w rest (f args w p).2
      (r.1, call.hook cb op func :: r.2)
    | none => CB mem op func args w rest p

/-- The macro `F_CB(op, func, ...)` of nvfs_file.c. -/
def F_CB {φ π : Type} (mem : Nat → nvfs_callback_info φ π) (cbs : List Nat) (op : cb_op)
    (func : String) (args : cb_args) (w : world φ) (p : π) : π × List call :=
  CB mem op func args w cbs p

/-- The macro `I_CB(op, func, ...)` of nvfs_inode.c. -/
def I_CB {φ π : Type} (mem : Nat → nvfs_callback_info φ π) (cbs : List Nat) (op : cb_op)
    (func : String) (args : cb_args) (w : world φ) (p : π) : π × List call :=
  CB mem op func args w cbs p

/-- The macro `S_CB(func, ...)` of nvfs_super.c, on the table `sb_op`. -/
def S_CB {φ π : Type} (mem : Nat → nvfs_callback_info φ π) (cbs : List Nat)
    (func : String) (args : cb_args) (w : world φ) (p : π) : π × List call :=
  CB mem cb_op.sb_op func args w cbs p

/-- The macro `D_CB(func, ...)` of nvfs_dentry.c, on the table `d_op`. -/
def D_CB {φ π : Type} (mem : Nat → nvfs_callback_info φ π) (cbs : List Nat)
    (func : String) (args : cb_args) (w : world φ) (p : π) : π × List call :=
  CB mem cb_op.d_op func args w cbs p

/-- The hooks that a dispatch is to call, as the specification words it: those of the
registered descriptors, in list order, that have a table for the category and a hook
in it. -/
def hooks_due {φ π : Type} (mem : Nat → nvfs_callback_info φ π) (op : cb_op) (func : String)
    (cbs : List Nat) : List Nat :=
  cbs.filter (fun cb => (cb_func mem op func cb).isSome)

/-- The state of the plug-ins after the hooks of the descriptors listed have run one
after the other, each on the state the one before left; a descriptor without the hook
leaves the state as it is. -/
def run_hooks {φ π : Type} (mem : Nat → nvfs_callback_info φ π) (op : cb_op) (func : String)
    (args : cb_args) (w : world φ) : List Nat → π → π
  | [], p => p
  | cb :: rest, p =>
    match cb_func mem op func cb with
    | some f => run_hooks mem op func args w rest (f args w p).2
    | none => run_hooks mem op func args w rest p

/-- The address of the descriptor whose hook a call is, 0 for a call that is no hook. -/
def call.cb : call → Nat
  | .hook cb _ _ => cb
  | .lower _ => 0

/-- A descriptor with the one table `reg_f_op`, holding the one hook `write`, which adds
`n` to a counter and returns `ret`. -/
def sample_cb (n : Nat) (ret : Int) : nvfs_callback_info Unit Nat :=
  { reg_f_op := some (fun func => if func = "write" then some (fun _ _ p => (ret, p + n))
      else none),
    reg_i_op := none, dir_i_op := none, sym_i_op := none, sb_op := none, d_op := none }

/-- A descriptor without any table. -/
def empty_cb : nvfs_callback_info Unit Nat :=
  { reg_f_op := none, reg_i_op := none, dir_i_op := none, sym_i_op := none, sb_op := none,
    d_op := none }

/-- Descriptors at the addresses 1, 2 and 3: the first and the third have a `write`
hook, the second has no table. -/
def sample_mem : Nat → nvfs_callback_info Unit Nat
  | 1 => sample_cb 1 0
  | 3 => sample_cb 10 (-1)
  | _ => empty_cb

/-- A world of zeroed inodes and files. -/
def sample_world : world Unit :=
  { inodes := fun _ => { i_ino := 0, i_uid := 0, i_gid := 0, i_mode := 0, i_rdev := 0,
                         i_nlink := 0, i_blkbits := 0, i_atime := 0, i_mtime := 0,
                         i_ctime := 0, i_size := 0, i_blocks := 0, i_flags := 0,
                         i_version := 0 },
    files := fun _ => { f_pos := 0, f_version := 0, f_ra := 0, f_flags := 0 },
    rest := () }

/-- No arguments. -/
def no_args : cb_args := { objs := [], nums := [], data := [] }

/-! ## The attribute mirror: nvfs.h -/

/-- An assignment through the pointer `p` to a member of the inode it points to: `f`
gives the inode its new value. -/
def set_inode (m : Nat → inode) (p : Nat) (f : inode → inode) : Nat → inode :=
  fun q => if q = p then f (m p) else m q

/-- Function `nvfs_copy_attr_atime` on the inodes `m`: `dest` and `src` are pointers. -/
def nvfs_copy_attr_atime (m : Nat → inode) (dest src : Nat) : Nat → inode :=
  set_inode m dest (fun d => { d with i_atime := (m src).i_atime })

/-- Function `nvfs_copy_attr_ctime`. -/
def nvfs_copy_attr_ctime (m : Nat → inode) (dest src : Nat) : Nat → inode :=
  set_inode m dest (fun d => { d with i_ctime := (m src).i_ctime })

/-- Function `nvfs_copy_attr_times`: three assignments, one after the other. -/
def nvfs_copy_attr_times (m : Nat → inode) (dest src : Nat) : Nat → inode :=
  let m := set_inode m dest (fun d => { d with i_atime := (m src).i_atime })
  let m := set_inode m dest (fun d => { d with i_mtime := (m src).i_mtime })
  set_inode m dest (fun d => { d with i_ctime := (m src).i_ctime })

/-- The macro `copy_inode_size(dst, src)`: `i_size_write(dst, i_size_read(src))`, then
the block count. -/
def copy_inode_size (m : Nat → inode) (dst src : Nat) : Nat → inode :=
  let m := set_inode m dst (fun d => { d with i_size := (m src).i_size })
  set_inode m dst (fun d => { d with i_blocks := (m src).i_blocks })

/-- Function `nvfs_copy_attr_timesizes`. -/
def nvfs_copy_attr_timesizes (m : Nat → inode) (dest src : Nat) : Nat → inode :=
  copy_inode_size (nvfs_copy_attr_times m dest src) dest src

/-- Function `nvfs_copy_attr_all`: the assignments in the order of the source. -/
def nvfs_copy_attr_all (m : Nat → inode) (dest src : Nat) : Nat → inode :=
  let m := set_inode m dest (fun d => { d with i_uid := (m src).i_uid })
  let m := set_inode m dest (fun d => { d with i_gid := (m src).i_gid })
  let m := set_inode m dest (fun d => { d with i_mode := (m src).i_mode })
  let m := set_inode m dest (fun d => { d with i_rdev := (m src).i_rdev })
  let m := set_inode m dest (fun d => { d with i_nlink := (m src).i_nlink })
  let m := set_inode m dest (fun d => { d with i_blkbits := (m src).i_blkbits })
  let m := nvfs_copy_attr_timesizes m dest src
  set_inode m dest (fun d => { d with i_flags := (m src).i_flags })

/-- Inodes that differ in every attribute: the inode at the address `q` holds `q` plus
the number of the attribute. -/
def sample_inodes : Nat → inode := fun q =>
  { i_ino := q, i_uid := q + 1, i_gid := q + 2, i_mode := q + 3, i_rdev := q + 4,
    i_nlink := q + 5, i_blkbits := q + 6, i_atime := q + 7, i_mtime := q + 8,
    i_ctime := q + 9, i_size := q + 10, i_blocks := q + 11, i_flags := q + 12,
    i_version := q + 13 }

/-! ## The stacking proxy: nvfs_main.c, nvfs_file.c, nvfs_inode.c, nvfs_super.c, nvfs_dentry.c

The functions are those compiled without `SUSE` for a kernel from 2.6.18 to 2.6.19. The
proxy objects and the objects of the backing file system they stand for
(`FILE_TO_LOWER`, `INODE_TO_LOWER`, `nvfs_lower_dentry`) are given to each function as
addresses. Reference counts, locks and the bookkeeping of the dcache (`dget`, `dput`,
`lock_inode`, `d_drop`, `d_delete`, the private data of a dentry) are left out. -/

/-- The error number EXDEV of the kernel headers. -/
def EXDEV : Int := 18
/-- The error number EACCES of the kernel headers. -/
def EACCES : Int := 13
/-- The error number ENOTSUPP of the kernel headers. -/
def ENOTSUPP : Int := 524
/-- The flag O_APPEND of the kernel headers (x86). -/
def O_APPEND : Nat := 1024
/-- The mode bits S_IALLUGO of the kernel headers. -/
def S_IALLUGO : Int := 4095

/-- The macro `S_ISLNK` of the kernel headers. -/
def S_ISLNK (mode : Nat) : Bool := decide (Nat.land mode 61440 = 40960)
/-- The macro `S_ISDIR` of the kernel headers. -/
def S_ISDIR (mode : Nat) : Bool := decide (Nat.land mode 61440 = 16384)
/-- The macro `IS_ERR` of the kernel headers on a pointer read as a signed number. -/
def IS_ERR (ptr : Int) : Bool := decide (-4095 ≤ ptr ∧ ptr < 0)

/-- A function of the backing file system or of the VFS: from the arguments and the
kernel objects, the value returned and the kernel objects afterwards. -/
abbrev lower_fn (φ : Type) := cb_args → world φ → Int × world φ

/-- The kernel and the backing file system as the proxy uses them.
`f_op file name` is the pointer `file->f_op->name` of the backing file at the address
`file`, `none` when `f_op` or the member is NULL; `i_op inode name`, `i_fop inode name`,
`s_op sb name` and `d_op dentry name` are the same for `inode->i_op`, `inode->i_fop`,
`sb->s_op` and `dentry->d_op`; `f_rw file name` is `file->f_op->name` for the members
`read`, `write` and `sendfile`, which also leave a position in `*ppos`; `vfs name` is
the kernel function of that name; `d_inode w d` is `d->d_inode` (0 for NULL) and
`i_sb w i` is `i->i_sb`. -/
structure kernel (φ : Type) where
  f_op : Nat → String → Option (lower_fn φ)
  f_rw : Nat → String → Option (cb_args → world φ → Int × world φ × Int)
  i_op : Nat → String → Option (lower_fn φ)
  i_fop : Nat → String → Option (lower_fn φ)
  s_op : Nat → String → Option (lower_fn φ)
  d_op : Nat → String → Option (lower_fn φ)
  vfs : String → lower_fn φ
  d_inode : world φ → Nat → Nat
  i_sb : world φ → Nat → Nat

/-- What a function of the proxy leaves: the value it returns, the kernel objects, the
state of the plug-ins, and the hooks and backing functions it called, in order. -/
structure outcome (φ π : Type) where
  ret : Int
  w : world φ
  plug : π
  trace : List call

/-- An assignment through the pointer `p` to a member of the file it points to. -/
def set_file {φ : Type} (w : world φ) (p : Nat) (f : file → file) : world φ :=
  { w with files := fun q => if q = p then f (w.files p) else w.files q }

/-- The choice of the table in `if (S_ISLNK(mode)) I_CB(sym_i_op, ...) else if
(S_ISDIR(mode)) I_CB(dir_i_op, ...) else I_CB(reg_i_op, ...)`. -/
def inode_cb_op (mode : Nat) : cb_op :=
  if S_ISLNK mode then cb_op.sym_i_op
  else if S_ISDIR mode then cb_op.dir_i_op
  else cb_op.reg_i_op

/-- Function `nvfs_interpose`; `lower_sb` is `SUPERBLOCK_TO_LOWER(sb)`. `iget` returns
the address of the proxy inode (0 for NULL). The status and the kernel objects. -/
def nvfs_interpose {φ : Type} (k : kernel φ) (w : world φ)
    (lower_dentry dentry sb lower_sb : Nat) (flag : Int) : Int × world φ :=
  let lower_inode := k.d_inode w lower_dentry
  if k.i_sb w lower_inode ≠ lower_sb then (-EXDEV, w)
  else
    let r := k.vfs "iget"
      { objs := [sb], nums := [((w.inodes lower_inode).i_ino : Int)], data := [] } w
    let inode := r.1.toNat
    let w := r.2
    if inode = 0 then (-EACCES, w)
    else
      let r := k.vfs (if flag ≠ 0 then "d_add" else "d_instantiate")
        { objs := [dentry, inode], nums := [], data := [] } w
      let w := r.2
      (0, { w with inodes := nvfs_copy_attr_all w.inodes inode lower_inode })

/-- Function `nvfs_llseek`; `lower_file` is `FILE_TO_LOWER(file)`. The value returned is
`(int) err` converted back to `loff_t`. -/
def nvfs_llseek {φ π : Type} (k : kernel φ) (mem : Nat → nvfs_callback_info φ π)
    (cbs : List Nat) (w : world φ) (p : π) (file lower_file : Nat) (offset origin : Int) :
    outcome φ π :=
  let w := set_file w lower_file (fun l => { l with f_pos := (w.files file).f_pos })
  let w := set_file w lower_file (fun l => { l with f_ra := (w.files file).f_ra })
  let args : cb_args := { objs := [lower_file], nums := [offset, origin], data := [] }
  let d := F_CB mem cbs cb_op.reg_f_op "llseek" args w p
  let r := match k.f_op lower_file "llseek" with
    | some f => (f args w, "llseek")
    | none => (k.vfs "generic_file_llseek" args w, "generic_file_llseek")
  let err := r.1.1
  let w := r.1.2
  let tr := d.2 ++ [call.lower r.2]
  if err < 0 then { ret := wrap_s 32 err, w := w, plug := d.1, trace := tr }
  else
    let w := if err ≠ (w.files file).f_pos then
        set_file w file (fun f => { f with f_pos := err,
                                           f_version := (f.f_version + 1) % 2 ^ 64 })
      else w
    { ret := wrap_s 32 err, w := w, plug := d.1, trace := tr }

/-- Function `nvfs_write`; `inode` is `file->f_dentry->d_inode`, `lower_inode` is
`INODE_TO_LOWER(inode)`, `ppos` the number `*ppos`. The outcome and the number left in
`*ppos`. The status of the backing write is stored in the `int err`. -/
def nvfs_write {φ π : Type} (k : kernel φ) (mem : Nat → nvfs_callback_info φ π)
    (cbs : List Nat) (w : world φ) (p : π) (file lower_file inode lower_inode : Nat)
    (buf : List Nat) (count : Nat) (ppos : Int) : outcome φ π × Int :=
  let pos := if Nat.land (w.files file).f_flags O_APPEND ≠ 0 ∧ count ≠ 0
    then (w.inodes inode).i_size else ppos
  let args : cb_args := { objs := [lower_file], nums := [(count : Int), pos], data := buf }
  let d := F_CB mem cbs cb_op.reg_f_op "write" args w p
  match k.f_rw lower_file "write" with
  | none => ({ ret := -EINVAL, w := w, plug := d.1, trace := d.2 }, ppos)
  | some f =>
    let r := if count ≠ 0 then
        let x := f args w
        (wrap_s 32 x.1, x.2.1, x.2.2, [call.lower "write"])
      else (0, w, pos, [])
    let err := r.1
    let w := r.2.1
    let pos := r.2.2.1
    let w := if err ≥ 0 then
        { w with inodes := nvfs_copy_attr_times w.inodes inode lower_inode }
      else w
    let w := set_file w lower_file (fun l => { l with f_pos := pos })
    let w := if pos > (w.inodes inode).i_size then
        { w with inodes := set_inode w.inodes inode (fun i => { i with i_size := pos }) }
      else w
    ({ ret := err, w := w, plug := d.1, trace := d.2 ++ r.2.2.2 }, pos)

/-- Function `nvfs_readdir`; `inode` is `file->f_dentry->d_inode` and `lower_inode` is
`lower_file->f_dentry->d_inode`. -/
def nvfs_readdir {φ π : Type} (k : kernel φ) (mem : Nat → nvfs_callback_info φ π)
    (cbs : List Nat) (w : world φ) (p : π) (file lower_file inode lower_inode : Nat)
    (dirent filldir : Nat) : outcome φ π :=
  let w := set_file w lower_file (fun l => { l with f_pos := (w.files file).f_pos })
  let d := F_CB mem cbs cb_op.reg_f_op "readdir"
    { objs := [lower_file, dirent, filldir], nums := [], data := [] } w p
  let r := k.vfs "vfs_readdir" { objs := [lower_file, filldir, dirent], nums := [], data := [] } w
  let err := r.1
  let w := r.2
  let w := set_file w file (fun f => { f with f_pos := (w.files lower_file).f_pos })
  let w := if err ≥ 0 then
      { w with inodes := nvfs_copy_attr_atime w.inodes inode lower_inode }
    else w
  { ret := err, w := w, plug := d.1, trace := d.2 ++ [call.lower "vfs_readdir"] }

/-- Function `nvfs_create`; `lower_dentry` is `nvfs_lower_dentry(dentry)`,
`lower_dir_inode` the inode of its parent, `sb` is `dir->i_sb`. `nvfs_lock_parent`
returns the parent dentry, which is no error pointer. -/
def nvfs_create {φ π : Type} (k : kernel φ) (mem : Nat → nvfs_callback_info φ π)
    (cbs : List Nat) (w : world φ) (p : π)
    (dir dentry lower_dentry lower_dir_inode sb lower_sb : Nat) (mode : Int) (nd : Nat) :
    outcome φ π :=
  let args : cb_args := { objs := [lower_dir_inode, lower_dentry, nd], nums := [mode], data := [] }
  let r := k.vfs "vfs_create" args w
  let r := if r.1 ≠ 0 then r
    else
      let i := nvfs_interpose k r.2 lower_dentry dentry sb lower_sb 0
      if i.1 ≠ 0 then i
      else (i.1, { i.2 with inodes := nvfs_copy_attr_timesizes i.2.inodes dir lower_dir_inode })
  let d := I_CB mem cbs cb_op.dir_i_op "create" args r.2 p
  { ret := r.1, w := r.2, plug := d.1, trace := call.lower "vfs_create" :: d.2 }

/-- Function `nvfs_lookup`; `lower_dir_dentry` is `nvfs_lower_dentry(dentry->d_parent)`
and `lower_dir_inode` its inode. `lookup_one_len` returns the address of the backing
dentry or an error pointer. The value returned is `ERR_PTR(err)`. -/
def nvfs_lookup {φ π : Type} (k : kernel φ) (mem : Nat → nvfs_callback_info φ π)
    (cbs : List Nat) (w : world φ) (p : π)
    (dir dentry lower_dir_dentry lower_dir_inode sb lower_sb : Nat) (name : List Nat)
    (unused : Nat) : outcome φ π :=
  let r := k.vfs "lookup_one_len"
    { objs := [lower_dir_dentry], nums := [(name.length : Int)], data := name } w
  let lower_dentry := r.1
  let w := r.2
  let d := I_CB mem cbs cb_op.dir_i_op "lookup"
    { objs := [lower_dir_inode, unused], nums := [lower_dentry], data := [] } w p
  let tr := call.lower "lookup_one_len" :: d.2
  if IS_ERR lower_dentry then { ret := lower_dentry, w := w, plug := d.1, trace := tr }
  else
    let w := { w with inodes := nvfs_copy_attr_atime w.inodes dir lower_dir_inode }
    if k.d_inode w lower_dentry.toNat = 0 then
      let r := k.vfs "d_add" { objs := [dentry, 0], nums := [], data := [] } w
      { ret := 0, w := r.2, plug := d.1, trace := tr }
    else
      let i := nvfs_interpose k w lower_dentry.toNat dentry sb lower_sb 1
      { ret := i.1, w := i.2, plug := d.1, trace := tr }

/-- Function `nvfs_link`; `old_inode` is `old_dentry->d_inode` and `lower_old_inode` is
`INODE_TO_LOWER(old_inode)`. -/
def nvfs_link {φ π : Type} (k : kernel φ) (mem : Nat → nvfs_callback_info φ π)
    (cbs : List Nat) (w : world φ) (p : π)
    (dir new_dentry lower_old_dentry lower_new_dentry lower_dir_inode old_inode
      lower_old_inode sb lower_sb : Nat) : outcome φ π :=
  let args : cb_args :=
    { objs := [lower_old_dentry, lower_dir_inode, lower_new_dentry], nums := [], data := [] }
  let d := I_CB mem cbs cb_op.dir_i_op "link" args w p
  let r := k.vfs "vfs_link" args w
  let tr := d.2 ++ [call.lower "vfs_link"]
  if r.1 ≠ 0 ∨ k.d_inode r.2 lower_new_dentry = 0 then
    { ret := r.1, w := r.2, plug := d.1, trace := tr }
  else
    let i := nvfs_interpose k r.2 lower_new_dentry new_dentry sb lower_sb 0
    if i.1 ≠ 0 then { ret := i.1, w := i.2, plug := d.1, trace := tr }
    else
      let m := nvfs_copy_attr_timesizes i.2.inodes dir lower_dir_inode
      let m := set_inode m old_inode (fun o => { o with i_nlink := (m lower_old_inode).i_nlink })
      { ret := i.1, w := { i.2 with inodes := m }, plug := d.1, trace := tr }

/-- Function `nvfs_unlink`; `lower_dir` is `INODE_TO_LOWER(dir)`, `inode` is
`dentry->d_inode` and `lower_inode` is `INODE_TO_LOWER(inode)`. -/
def nvfs_unlink {φ π : Type} (k : kernel φ) (mem : Nat → nvfs_callback_info φ π)
    (cbs : List Nat) (w : world φ) (p : π)
    (dir lower_dir lower_dentry inode lower_inode : Nat) : outcome φ π :=
  let args : cb_args := { objs := [lower_dir, lower_dentry], nums := [], data := [] }
  let d := I_CB mem cbs cb_op.dir_i_op "unlink" args w p
  let r := k.vfs "vfs_unlink" args w
  let m := nvfs_copy_attr_times r.2.inodes dir lower_dir
  let m := set_inode m inode (fun i => { i with i_nlink := (m lower_inode).i_nlink })
  let m := nvfs_copy_attr_ctime m inode dir
  { ret := r.1, w := { r.2 with inodes := m }, plug := d.1,
    trace := d.2 ++ [call.lower "vfs_unlink"] }

/-- Function `nvfs_symlink`. -/
def nvfs_symlink {φ π : Type} (k : kernel φ) (mem : Nat → nvfs_callback_info φ π)
    (cbs : List Nat) (w : world φ) (p : π)
    (dir dentry lower_dentry lower_dir_inode sb lower_sb : Nat) (symname : List Nat) :
    outcome φ π :=
  let d := I_CB mem cbs cb_op.dir_i_op "symlink"
    { objs := [lower_dir_inode, lower_dentry], nums := [], data := symname } w p
  let r := k.vfs "vfs_symlink"
    { objs := [lower_dir_inode, lower_dentry], nums := [S_IALLUGO], data := symname } w
  let tr := d.2 ++ [call.lower "vfs_symlink"]
  if r.1 ≠ 0 ∨ k.d_inode r.2 lower_dentry = 0 then
    { ret := r.1, w := r.2, plug := d.1, trace := tr }
  else
    let i := nvfs_interpose k r.2 lower_dentry dentry sb lower_sb 0
    if i.1 ≠ 0 then { ret := i.1, w := i.2, plug := d.1, trace := tr }
    else
      { ret := i.1,
        w := { i.2 with inodes := nvfs_copy_attr_timesizes i.2.inodes dir lower_dir_inode },
        plug := d.1, trace := tr }

/-- Function `nvfs_mkdir`. -/
def nvfs_mkdir {φ π : Type} (k : kernel φ) (mem : Nat → nvfs_callback_info φ π)
    (cbs : List Nat) (w : world φ) (p : π)
    (dir dentry lower_dentry lower_dir_inode sb lower_sb : Nat) (mode : Int) : outcome φ π :=
  let args : cb_args := { objs := [lower_dir_inode, lower_dentry], nums := [mode], data := [] }
  let d := I_CB mem cbs cb_op.dir_i_op "mkdir" args w p
  let r := k.vfs "vfs_mkdir" args w
  let tr := d.2 ++ [call.lower "vfs_mkdir"]
  if r.1 ≠ 0 ∨ k.d_inode r.2 lower_dentry = 0 then
    { ret := r.1, w := r.2, plug := d.1, trace := tr }
  else
    let i := nvfs_interpose k r.2 lower_dentry dentry sb lower_sb 0
    if i.1 ≠ 0 then { ret := i.1, w := i.2, plug := d.1, trace := tr }
    else
      let m := nvfs_copy_attr_timesizes i.2.inodes dir lower_dir_inode
      let m := set_inode m dir (fun o => { o with i_nlink := (m lower_dir_inode).i_nlink })
      { ret := i.1, w := { i.2 with inodes := m }, plug := d.1, trace := tr }

/-- Function `nvfs_rmdir`. -/
def nvfs_rmdir {φ π : Type} (k : kernel φ) (mem : Nat → nvfs_callback_info φ π)
    (cbs : List Nat) (w : world φ) (p : π)
    (dir lower_dentry lower_dir_inode : Nat) : outcome φ π :=
  let args : cb_args := { objs := [lower_dir_inode, lower_dentry], nums := [], data := [] }
  let d := I_CB mem cbs cb_op.dir_i_op "rmdir" args w p
  let r := k.vfs "vfs_rmdir" args w
  let m := nvfs_copy_attr_times r.2.inodes dir lower_dir_inode
  let m := set_inode m dir (fun o => { o with i_nlink := (m lower_dir_inode).i_nlink })
  { ret := r.1, w := { r.2 with inodes := m }, plug := d.1,
    trace := d.2 ++ [call.lower "vfs_rmdir"] }

/-- Function `nvfs_mknod`. -/
def nvfs_mknod {φ π : Type} (k : kernel φ) (mem : Nat → nvfs_callback_info φ π)
    (cbs : List Nat) (w : world φ) (p : π)
    (dir dentry lower_dentry lower_dir_inode sb lower_sb : Nat) (mode dev : Int) :
    outcome φ π :=
  let args : cb_args :=
    { objs := [lower_dir_inode, lower_dentry], nums := [mode, dev], data := [] }
  let d := I_CB mem cbs cb_op.dir_i_op "mknod" args w p
  let r := k.vfs "vfs_mknod" args w
  let tr := d.2 ++ [call.lower "vfs_mknod"]
  if r.1 ≠ 0 ∨ k.d_inode r.2 lower_dentry = 0 then
    { ret := r.1, w := r.2, plug := d.1, trace := tr }
  else
    let i := nvfs_interpose k r.2 lower_dentry dentry sb lower_sb 0
    if i.1 ≠ 0 then { ret := i.1, w := i.2, plug := d.1, trace := tr }
    else
      { ret := i.1,
        w := { i.2 with inodes := nvfs_copy_attr_timesizes i.2.inodes dir lower_dir_inode },
        plug := d.1, trace := tr }

/-- Function `nvfs_rename`. -/
def nvfs_rename {φ π : Type} (k : kernel φ) (mem : Nat → nvfs_callback_info φ π)
    (cbs : List Nat) (w : world φ) (p : π)
    (old_dir new_dir lower_old_dentry lower_new_dentry lower_old_dir_inode
      lower_new_dir_inode : Nat) : outcome φ π :=
  let args : cb_args :=
    { objs := [lower_old_dir_inode, lower_old_dentry, lower_new_dir_inode, lower_new_dentry],
      nums := [], data := [] }
  let d := I_CB mem cbs cb_op.dir_i_op "rename" args w p
  let r := k.vfs "vfs_rename" args w
  let tr := d.2 ++ [call.lower "vfs_rename"]
  if r.1 ≠ 0 then { ret := r.1, w := r.2, plug := d.1, trace := tr }
  else
    let m := nvfs_copy_attr_all r.2.inodes new_dir lower_new_dir_inode
    let m := if new_dir ≠ old_dir then nvfs_copy_attr_all m old_dir lower_old_dir_inode else m
    { ret := r.1, w := { r.2 with inodes := m }, plug := d.1, trace := tr }

/-- Function `nvfs_setattr`; `inode` is `dentry->d_inode`, `lower_inode` is
`INODE_TO_LOWER(inode)`, `ia` the members of `struct iattr`. -/
def nvfs_setattr {φ π : Type} (k : kernel φ) (mem : Nat → nvfs_callback_info φ π)
    (cbs : List Nat) (w : world φ) (p : π)
    (lower_dentry inode lower_inode : Nat) (ia : List Int) : outcome φ π :=
  let args : cb_args := { objs := [lower_dentry], nums := ia, data := [] }
  let d := I_CB mem cbs (inode_cb_op (w.inodes lower_inode).i_mode) "setattr" args w p
  let r := k.vfs "notify_change" args w
  { ret := r.1, w := { r.2 with inodes := nvfs_copy_attr_all r.2.inodes inode lower_inode },
    plug := d.1, trace := d.2 ++ [call.lower "notify_change"] }

/-- Function `nvfs_getxattr`; `value` is the address of the output buffer: -ENOTSUPP when the member
`getxattr` of `lower_dentry->d_inode->i_op` is NULL, else the dispatch by the mode of that
inode and the call, whose value is stored in the `int err`. -/
def nvfs_getxattr {φ π : Type} (k : kernel φ) (mem : Nat → nvfs_callback_info φ π)
    (cbs : List Nat) (w : world φ) (p : π) (lower_dentry : Nat) (name : List Nat)
    (value size : Nat) : outcome φ π :=
  let lower_inode := k.d_inode w lower_dentry
  let args : cb_args := { objs := [lower_dentry, value], nums := [(size : Int)], data := name }
  match k.i_op lower_inode "getxattr" with
  | none => { ret := -ENOTSUPP, w := w, plug := p, trace := [] }
  | some f =>
    let d := I_CB mem cbs (inode_cb_op (w.inodes lower_inode).i_mode) "getxattr" args w p
    let r := f args w
    { ret := wrap_s 32 r.1, w := r.2, plug := d.1, trace := d.2 ++ [call.lower "getxattr"] }

/-- Function `nvfs_setxattr`; `value` is the address of the `size` bytes to set:
-ENOTSUPP when the member `setxattr` of `lower_dentry->d_inode->i_op` is NULL, else the
dispatch by the mode of that inode and the call, whose value is stored in the
`int err`. -/
def nvfs_setxattr {φ π : Type} (k : kernel φ) (mem : Nat → nvfs_callback_info φ π)
    (cbs : List Nat) (w : world φ) (p : π) (lower_dentry : Nat) (name : List Nat)
    (value size : Nat) (flags : Int) : outcome φ π :=
  let lower_inode := k.d_inode w lower_dentry
  let args : cb_args :=
    { objs := [lower_dentry, value], nums := [(size : Int), flags], data := name }
  match k.i_op lower_inode "setxattr" with
  | none => { ret := -ENOTSUPP, w := w, plug := p, trace := [] }
  | some f =>
    let d := I_CB mem cbs (inode_cb_op (w.inodes lower_inode).i_mode) "setxattr" args w p
    let r := f args w
    { ret := wrap_s 32 r.1, w := r.2, plug := d.1, trace := d.2 ++ [call.lower "setxattr"] }

/-- Function `nvfs_removexattr`: -ENOTSUPP when the member
`removexattr` of `lower_dentry->d_inode->i_op` is NULL, else the dispatch by the mode of that
inode and the call, whose value is stored in the `int err`. -/
def nvfs_removexattr {φ π : Type} (k : kernel φ) (mem : Nat → nvfs_callback_info φ π)
    (cbs : List Nat) (w : world φ) (p : π) (lower_dentry : Nat) (name : List Nat) :
    outcome φ π :=
  let lower_inode := k.d_inode w lower_dentry
  let args : cb_args := { objs := [lower_dentry], nums := [], data := name }
  match k.i_op lower_inode "removexattr" with
  | none => { ret := -ENOTSUPP, w := w, plug := p, trace := [] }
  | some f =>
    let d := I_CB mem cbs (inode_cb_op (w.inodes lower_inode).i_mode) "removexattr" args w p
    let r := f args w
    { ret := wrap_s 32 r.1, w := r.2, plug := d.1, trace := d.2 ++ [call.lower "removexattr"] }

/-- Function `nvfs_listxattr`; `list` is the address of the output buffer: -ENOTSUPP when the member
`listxattr` of `lower_dentry->d_inode->i_op` is NULL, else the dispatch by the mode of that
inode and the call, whose value is stored in the `int err`. -/
def nvfs_listxattr {φ π : Type} (k : kernel φ) (mem : Nat → nvfs_callback_info φ π)
    (cbs : List Nat) (w : world φ) (p : π) (lower_dentry list size : Nat) :
    outcome φ π :=
  let lower_inode := k.d_inode w lower_dentry
  let args : cb_args := { objs := [lower_dentry, list], nums := [(size : Int)], data := [] }
  match k.i_op lower_inode "listxattr" with
  | none => { ret := -ENOTSUPP, w := w, plug := p, trace := [] }
  | some f =>
    let d := I_CB mem cbs (inode_cb_op (w.inodes lower_inode).i_mode) "listxattr" args w p
    let r := f args w
    { ret := wrap_s 32 r.1, w := r.2, plug := d.1, trace := d.2 ++ [call.lower "listxattr"] }

/-- The error number ENOTTY of the kernel headers. -/
def ENOTTY : Int := 25
/-- The error number ENODEV of the kernel headers. -/
def ENODEV : Int := 19
/-- The macro DEFAULT_POLLMASK: POLLIN | POLLOUT | POLLRDNORM | POLLWRNORM. -/
def DEFAULT_POLLMASK : Int := 325

/-- Function `nvfs_read`; `inode` is `file->f_dentry->d_inode`, `lower_inode` is
`lower_file->f_dentry->d_inode`, `buf` the address of the caller's buffer, `ppos` the
number `*ppos`. The outcome and the number left in `*ppos`. -/
def nvfs_read {φ π : Type} (k : kernel φ) (mem : Nat → nvfs_callback_info φ π)
    (cbs : List Nat) (w : world φ) (p : π) (file lower_file inode lower_inode buf : Nat)
    (count : Nat) (ppos : Int) : outcome φ π × Int :=
  let args : cb_args := { objs := [lower_file, buf], nums := [(count : Int), ppos], data := [] }
  match k.f_rw lower_file "read" with
  | none => ({ ret := -EINVAL, w := w, plug := p, trace := [] }, ppos)
  | some f =>
    let d := F_CB mem cbs cb_op.reg_f_op "read" args w p
    let x := f args w
    let err := wrap_s 32 x.1
    let w := x.2.1
    let pos := x.2.2
    let w := if err ≥ 0 then
        { w with inodes := nvfs_copy_attr_atime w.inodes inode lower_inode }
      else w
    let w := set_file w lower_file (fun l => { l with f_pos := pos })
    let w := set_file w file (fun f => { f with f_ra := (w.files lower_file).f_ra })
    ({ ret := err, w := w, plug := d.1, trace := d.2 ++ [call.lower "read"] }, pos)

/-- Function `nvfs_poll`. -/
def nvfs_poll {φ π : Type} (k : kernel φ) (mem : Nat → nvfs_callback_info φ π)
    (cbs : List Nat) (w : world φ) (p : π) (lower_file wait : Nat) : outcome φ π :=
  let args : cb_args := { objs := [lower_file, wait], nums := [], data := [] }
  let d := F_CB mem cbs cb_op.reg_f_op "poll" args w p
  match k.f_op lower_file "poll" with
  | none => { ret := DEFAULT_POLLMASK, w := w, plug := d.1, trace := d.2 }
  | some f =>
    let r := f args w
    { ret := r.1, w := r.2, plug := d.1, trace := d.2 ++ [call.lower "poll"] }

/-- Function `nvfs_ioctl`; `lower_file` is `FILE_TO_LOWER(file)` (0 for NULL) and
`lower_inode` is `INODE_TO_LOWER(inode)`. -/
def nvfs_ioctl {φ π : Type} (k : kernel φ) (mem : Nat → nvfs_callback_info φ π)
    (cbs : List Nat) (w : world φ) (p : π) (lower_inode lower_file : Nat) (cmd arg : Int) :
    outcome φ π :=
  let args : cb_args := { objs := [lower_inode, lower_file], nums := [cmd, arg], data := [] }
  match (if lower_file ≠ 0 then k.f_op lower_file "ioctl" else none) with
  | some f =>
    let d := F_CB mem cbs cb_op.reg_f_op "ioctl" args w p
    let r := f args w
    { ret := r.1, w := r.2, plug := d.1, trace := d.2 ++ [call.lower "ioctl"] }
  | none => { ret := -ENOTTY, w := w, plug := p, trace := [] }

/-- Function `nvfs_mmap`; `vma` is the address of the area. -/
def nvfs_mmap {φ π : Type} (k : kernel φ) (mem : Nat → nvfs_callback_info φ π)
    (cbs : List Nat) (w : world φ) (p : π) (lower_file vma : Nat) : outcome φ π :=
  let args : cb_args := { objs := [lower_file, vma], nums := [], data := [] }
  match k.f_op lower_file "mmap" with
  | none => { ret := -ENODEV, w := w, plug := p, trace := [] }
  | some f =>
    let d := F_CB mem cbs cb_op.reg_f_op "mmap" args w p
    let r := f args w
    { ret := r.1, w := r.2, plug := d.1, trace := d.2 ++ [call.lower "mmap"] }

/-- Function `nvfs_open`; `lower_dentry` is `nvfs_lower_dentry(file->f_dentry)`,
`lower_mnt` is `DENTRY_TO_LVFSMNT(file->f_dentry)`. `dentry_open` returns the address of
the backing file or an error pointer. -/
def nvfs_open {φ π : Type} (k : kernel φ) (mem : Nat → nvfs_callback_info φ π)
    (cbs : List Nat) (w : world φ) (p : π) (file lower_inode lower_dentry lower_mnt : Nat) :
    outcome φ π :=
  let r := k.vfs "dentry_open"
    { objs := [lower_dentry, lower_mnt], nums := [((w.files file).f_flags : Int)], data := [] } w
  let lower_file := r.1
  if IS_ERR lower_file then
    { ret := lower_file, w := r.2, plug := p, trace := [call.lower "dentry_open"] }
  else
    let d := F_CB mem cbs cb_op.reg_f_op "open"
      { objs := [lower_inode], nums := [lower_file], data := [] } r.2 p
    { ret := 0, w := r.2, plug := d.1, trace := call.lower "dentry_open" :: d.2 }

/-- Function `nvfs_flush`. -/
def nvfs_flush {φ π : Type} (k : kernel φ) (mem : Nat → nvfs_callback_info φ π)
    (cbs : List Nat) (w : world φ) (p : π) (lower_file id : Nat) : outcome φ π :=
  let args : cb_args := { objs := [lower_file, id], nums := [], data := [] }
  let d := F_CB mem cbs cb_op.reg_f_op "flush" args w p
  match k.f_op lower_file "flush" with
  | none => { ret := 0, w := w, plug := d.1, trace := d.2 }
  | some f =>
    let r := f args w
    { ret := r.1, w := r.2, plug := d.1, trace := d.2 ++ [call.lower "flush"] }

/-- Function `nvfs_release`: after the dispatch the backing file is put. -/
def nvfs_release {φ π : Type} (k : kernel φ) (mem : Nat → nvfs_callback_info φ π)
    (cbs : List Nat) (w : world φ) (p : π) (inode lower_inode lower_file : Nat) :
    outcome φ π :=
  let d := F_CB mem cbs cb_op.reg_f_op "release"
    { objs := [lower_inode, lower_file], nums := [], data := [] } w p
  let r := k.vfs "fput" { objs := [lower_file], nums := [], data := [] } w
  let m := set_inode r.2.inodes inode
    (fun i => { i with i_blocks := (r.2.inodes lower_inode).i_blocks })
  { ret := 0, w := { r.2 with inodes := m }, plug := d.1, trace := d.2 ++ [call.lower "fput"] }

/-- Function `nvfs_fsync`; `file` is 0 for NULL, `has_private` says whether
`FILE_TO_PRIVATE(file)` is not NULL, `lower_dentry` is `nvfs_lower_dentry(dentry)`. -/
def nvfs_fsync {φ π : Type} (k : kernel φ) (mem : Nat → nvfs_callback_info φ π)
    (cbs : List Nat) (w : world φ) (p : π) (file : Nat) (has_private : Bool)
    (lower_file lower_dentry : Nat) (datasync : Int) : outcome φ π :=
  if file = 0 then
    let args : cb_args := { objs := [0, lower_dentry], nums := [datasync], data := [] }
    match k.i_fop (k.d_inode w lower_dentry) "fsync" with
    | some f =>
      let d := F_CB mem cbs cb_op.reg_f_op "fsync" args w p
      let r := f args w
      { ret := r.1, w := r.2, plug := d.1, trace := d.2 ++ [call.lower "fsync"] }
    | none => { ret := -EINVAL, w := w, plug := p, trace := [] }
  else if has_private then
    let args : cb_args := { objs := [lower_file, lower_dentry], nums := [datasync], data := [] }
    let d := F_CB mem cbs cb_op.reg_f_op "fsync" args w p
    match k.f_op lower_file "fsync" with
    | some f =>
      let r := f args w
      { ret := r.1, w := r.2, plug := d.1, trace := d.2 ++ [call.lower "fsync"] }
    | none => { ret := -EINVAL, w := w, plug := d.1, trace := d.2 }
  else { ret := -EINVAL, w := w, plug := p, trace := [] }

/-- Function `nvfs_fasync`. -/
def nvfs_fasync {φ π : Type} (k : kernel φ) (mem : Nat → nvfs_callback_info φ π)
    (cbs : List Nat) (w : world φ) (p : π) (fd : Int) (lower_file : Nat) (flag : Int) :
    outcome φ π :=
  let args : cb_args := { objs := [lower_file], nums := [fd, flag], data := [] }
  let d := F_CB mem cbs cb_op.reg_f_op "fasync" args w p
  match k.f_op lower_file "fasync" with
  | none => { ret := 0, w := w, plug := d.1, trace := d.2 }
  | some f =>
    let r := f args w
    { ret := r.1, w := r.2, plug := d.1, trace := d.2 ++ [call.lower "fasync"] }

/-- Function `nvfs_sendfile`; `ppos` is the number `*ppos`, `actor` and `target` are
addresses. The outcome and the number left in `*ppos`; the status of the backing call is
stored in the `int err`. -/
def nvfs_sendfile {φ π : Type} (k : kernel φ) (mem : Nat → nvfs_callback_info φ π)
    (cbs : List Nat) (w : world φ) (p : π) (lower_file : Nat) (ppos : Int) (count : Nat)
    (actor target : Nat) : outcome φ π × Int :=
  let args : cb_args :=
    { objs := [lower_file, actor, target], nums := [ppos, (count : Int)], data := [] }
  let d := F_CB mem cbs cb_op.reg_f_op "sendfile" args w p
  match k.f_rw lower_file "sendfile" with
  | none => ({ ret := -EINVAL, w := w, plug := d.1, trace := d.2 }, ppos)
  | some f =>
    let x := f args w
    ({ ret := wrap_s 32 x.1, w := x.2.1, plug := d.1,
       trace := d.2 ++ [call.lower "sendfile"] }, x.2.2)

/-- Function `nvfs_readlink`; `inode` is `dentry->d_inode`, `buf` the address of the
caller's buffer. -/
def nvfs_readlink {φ π : Type} (k : kernel φ) (mem : Nat → nvfs_callback_info φ π)
    (cbs : List Nat) (w : world φ) (p : π) (inode lower_dentry buf : Nat) (bufsiz : Int) :
    outcome φ π :=
  let args : cb_args := { objs := [lower_dentry, buf], nums := [bufsiz], data := [] }
  match k.i_op (k.d_inode w lower_dentry) "readlink" with
  | none => { ret := -EINVAL, w := w, plug := p, trace := [] }
  | some f =>
    let d := I_CB mem cbs cb_op.sym_i_op "readlink" args w p
    let r := f args w
    let w := if r.1 > 0 then
        { r.2 with inodes := nvfs_copy_attr_atime r.2.inodes inode (k.d_inode r.2 lower_dentry) }
      else r.2
    { ret := r.1, w := w, plug := d.1, trace := d.2 ++ [call.lower "readlink"] }

/-- Function `nvfs_permission`, the one with the argument `nd`; `lower_inode` is
`INODE_TO_LOWER(inode)`. -/
def nvfs_permission {φ π : Type} (k : kernel φ) (mem : Nat → nvfs_callback_info φ π)
    (cbs : List Nat) (w : world φ) (p : π) (lower_inode : Nat) (mask : Int) (nd : Nat) :
    outcome φ π :=
  let args : cb_args := { objs := [lower_inode, nd], nums := [mask], data := [] }
  let d := I_CB mem cbs (inode_cb_op (w.inodes lower_inode).i_mode) "permission" args w p
  let r := k.vfs "permission" args w
  { ret := r.1, w := r.2, plug := d.1, trace := d.2 ++ [call.lower "permission"] }

/-- Function `nvfs_statfs`; `lower` is the backing dentry. -/
def nvfs_statfs {φ π : Type} (k : kernel φ) (mem : Nat → nvfs_callback_info φ π)
    (cbs : List Nat) (w : world φ) (p : π) (lower buf : Nat) : outcome φ π :=
  let args : cb_args := { objs := [lower, buf], nums := [], data := [] }
  let d := S_CB mem cbs "statfs" args w p
  let r := k.vfs "vfs_statfs" args w
  { ret := r.1, w := r.2, plug := d.1, trace := d.2 ++ [call.lower "vfs_statfs"] }

/-- Function `nvfs_umount_begin`, the one on a `struct vfsmount`; it returns nothing
(`ret` is 0). `lower_sb` is `SUPERBLOCK_TO_LOWER(sb)`. -/
def nvfs_umount_begin {φ π : Type} (k : kernel φ) (mem : Nat → nvfs_callback_info φ π)
    (cbs : List Nat) (w : world φ) (p : π) (lower_sb lower_vfsmnt : Nat) (flags : Int) :
    outcome φ π :=
  let args : cb_args := { objs := [lower_vfsmnt], nums := [flags], data := [] }
  let d := S_CB mem cbs "umount_begin" args w p
  match k.s_op lower_sb "umount_begin" with
  | none => { ret := 0, w := w, plug := d.1, trace := d.2 }
  | some f =>
    { ret := 0, w := (f args w).2, plug := d.1, trace := d.2 ++ [call.lower "umount_begin"] }

/-- Function `nvfs_d_revalidate`; `lower_dentry` is 0 for NULL. -/
def nvfs_d_revalidate {φ π : Type} (k : kernel φ) (mem : Nat → nvfs_callback_info φ π)
    (cbs : List Nat) (w : world φ) (p : π) (lower_dentry nd : Nat) : outcome φ π :=
  let args : cb_args := { objs := [lower_dentry, nd], nums := [], data := [] }
  let d := D_CB mem cbs "d_revalidate" args w p
  match (if lower_dentry ≠ 0 then k.d_op lower_dentry "d_revalidate" else none) with
  | none => { ret := 1, w := w, plug := d.1, trace := d.2 }
  | some f =>
    let r := f args w
    { ret := r.1, w := r.2, plug := d.1, trace := d.2 ++ [call.lower "d_revalidate"] }

/-- Function `nvfs_d_hash`; `name` is the address of the `struct qstr`. -/
def nvfs_d_hash {φ π : Type} (k : kernel φ) (mem : Nat → nvfs_callback_info φ π)
    (cbs : List Nat) (w : world φ) (p : π) (lower_dentry name : Nat) : outcome φ π :=
  let args : cb_args := { objs := [lower_dentry, name], nums := [], data := [] }
  let d := D_CB mem cbs "d_hash" args w p
  match (if lower_dentry ≠ 0 then k.d_op lower_dentry "d_hash" else none) with
  | none => { ret := 0, w := w, plug := d.1, trace := d.2 }
  | some f =>
    let r := f args w
    { ret := r.1, w := r.2, plug := d.1, trace := d.2 ++ [call.lower "d_hash"] }

/-- Function `nvfs_d_compare`; `a` and `b` are the addresses of the two `struct qstr`,
`a_name` and `b_name` their bytes. Without a backing `d_compare` the value is
`(a->len != b->len) || memcmp(a->name, b->name, b->len)`. -/
def nvfs_d_compare {φ π : Type} (k : kernel φ) (mem : Nat → nvfs_callback_info φ π)
    (cbs : List Nat) (w : world φ) (p : π) (lower_dentry a b : Nat)
    (a_name b_name : List Nat) : outcome φ π :=
  let args : cb_args := { objs := [lower_dentry, a, b], nums := [], data := [] }
  let d := D_CB mem cbs "d_compare" args w p
  match (if lower_dentry ≠ 0 then k.d_op lower_dentry "d_compare" else none) with
  | some f =>
    let r := f args w
    { ret := r.1, w := r.2, plug := d.1, trace := d.2 ++ [call.lower "d_compare"] }
  | none =>
    { ret := if a_name.length ≠ b_name.length ∨ a_name.take b_name.length ≠ b_name then 1
        else 0,
      w := w, plug := d.1, trace := d.2 }

/-- Function `nvfs_d_delete`; `dentry` and `lower_dentry` are 0 for NULL, `has_private`
says whether `DENTRY_TO_PRIVATE(dentry)` is not NULL. -/
def nvfs_d_delete {φ π : Type} (k : kernel φ) (mem : Nat → nvfs_callback_info φ π)
    (cbs : List Nat) (w : world φ) (p : π) (dentry : Nat) (has_private : Bool)
    (lower_dentry : Nat) : outcome φ π :=
  if dentry = 0 ∨ has_private = false ∨ lower_dentry = 0 then
    { ret := 0, w := w, plug := p, trace := [] }
  else
    let args : cb_args := { objs := [lower_dentry], nums := [], data := [] }
    let d := D_CB mem cbs "d_delete" args w p
    match k.d_op lower_dentry "d_delete" with
    | none => { ret := 0, w := w, plug := d.1, trace := d.2 }
    | some f =>
      let r := f args w
      { ret := r.1, w := r.2, plug := d.1, trace := d.2 ++ [call.lower "d_delete"] }

/-- Function `nvfs_d_release`; it returns nothing (`ret` is 0). What it frees and puts
after the dispatch is bookkeeping. -/
def nvfs_d_release {φ π : Type} (mem : Nat → nvfs_callback_info φ π) (cbs : List Nat)
    (w : world φ) (p : π) (dentry : Nat) (has_private : Bool) (lower_dentry : Nat) :
    outcome φ π :=
  if dentry = 0 ∨ has_private = false then { ret := 0, w := w, plug := p, trace := [] }
  else
    let d := D_CB mem cbs "d_release"
      { objs := [lower_dentry], nums := [], data := [] } w p
    { ret := 0, w := w, plug := d.1, trace := d.2 }

/-- Whether a call is the call of a hook. -/
def call.is_hook : call → Bool
  | .hook _ _ _ => true
  | .lower _ => false

/-- The order the specification asks of a proxy operation: no hook is called after a
call into the backing file system. -/
def dispatch_first (tr : List call) : Prop :=
  tr.Pairwise (fun a b => a.is_hook = false → b.is_hook = false)

/-- The calls of the hooks due at a dispatch, as they stand in a trace. -/
def hook_calls {φ π : Type} (mem : Nat → nvfs_callback_info φ π) (op : cb_op) (func : String)
    (cbs : List Nat) : List call :=
  (hooks_due mem op func cbs).map (fun cb => call.hook cb op func)

/-- A descriptor with the one table `dir_i_op`, in which every member is a hook that
adds one to a counter and returns 0. -/
def dir_cb : nvfs_callback_info Unit Nat :=
  { reg_f_op := none, reg_i_op := none,
    dir_i_op := some (fun _ => some (fun _ _ p => (0, p + 1))),
    sym_i_op := none, sb_op := none, d_op := none }

/-- A backing file system in which every function returns 0 and changes nothing, the
files and inodes have no operation tables, every dentry has the inode at the address 7
and every inode the superblock 0. -/
def sample_kernel : kernel Unit :=
  { f_op := fun _ _ => none,
    f_rw := fun _ _ => none,
    i_op := fun _ _ => none,
    i_fop := fun _ _ => none,
    s_op := fun _ _ => none,
    d_op := fun _ _ => none,
    vfs := fun _ _ w => (0, w),
    d_inode := fun _ _ => 7,
    i_sb := fun _ _ => 0 }

/-- Two runs of a proxy function end alike for the file system: the same value returned,
the same kernel objects (the attributes of the proxy and of the backing inodes and the
files among them), the same calls into the backing file system. -/
def same_outcome {φ π ρ : Type} (a : outcome φ π) (b : outcome φ ρ) : Prop :=
  a.ret = b.ret ∧ a.w = b.w ∧
    a.trace.filter (fun c => !c.is_hook) = b.trace.filter (fun c => !c.is_hook)

/-- A backing file system as `sample_kernel` whose files have the one operation
`llseek`, which returns the offset it is given. -/
def seek_kernel : kernel Unit :=
  { sample_kernel with
    f_op := fun _ name =>
      if name = "llseek" then some (fun a w => (a.nums.headD 0, w)) else none }

/-! ## The hooks of the replication plug-in on directories and attributes: nvr_main.c -/

/-- The flag ATTR_SIZE of the kernel headers. -/
def ATTR_SIZE : Nat := 8

/-- The hook `nvr_link`: a record for the old and one for the new dentry, stamped `now1`
and `now2`; the hook returns 0. `none` when a walk of the resolver does not end within
`fuel` steps. -/
def nvr_link (v : vfs) (fuel : Nat) (page : Option (List Nat)) (s : nvr_state)
    (comm : String) (now1 now2 : Nat) (odentry ndentry : Nat) : Option (Int × nvr_state) :=
  match nvr_add_dentry v fuel page s comm now1 odentry NVR_TYPE_COPYALL none 0 with
  | none => none
  | some r =>
    match nvr_add_dentry v fuel page r.2 comm now2 ndentry NVR_TYPE_COPYALL none 0 with
    | none => none
    | some r => some (0, r.2)

/-- The hook `nvr_mkdir`. -/
def nvr_mkdir (v : vfs) (fuel : Nat) (page : Option (List Nat)) (s : nvr_state)
    (comm : String) (now : Nat) (dentry : Nat) : Option (Int × nvr_state) :=
  match nvr_add_dentry v fuel page s comm now dentry NVR_TYPE_MDATA none 0 with
  | none => none
  | some r => some (0, r.2)

/-- The hook `nvr_rmdir`. -/
def nvr_rmdir (v : vfs) (fuel : Nat) (page : Option (List Nat)) (s : nvr_state)
    (comm : String) (now : Nat) (dentry : Nat) : Option (Int × nvr_state) :=
  match nvr_add_dentry v fuel page s comm now dentry NVR_TYPE_UNLINK none 0 with
  | none => none
  | some r => some (0, r.2)

/-- The hook `nvr_mknod`. -/
def nvr_mknod (v : vfs) (fuel : Nat) (page : Option (List Nat)) (s : nvr_state)
    (comm : String) (now : Nat) (dentry : Nat) : Option (Int × nvr_state) :=
  match nvr_add_dentry v fuel page s comm now dentry NVR_TYPE_MDATA none 0 with
  | none => none
  | some r => some (0, r.2)

/-- The hook `nvr_unlink`. -/
def nvr_unlink (v : vfs) (fuel : Nat) (page : Option (List Nat)) (s : nvr_state)
    (comm : String) (now : Nat) (dentry : Nat) : Option (Int × nvr_state) :=
  match nvr_add_dentry v fuel page s comm now dentry NVR_TYPE_MDATA none 0 with
  | none => none
  | some r => some (0, r.2)

/-- The hook `nvr_symlink`. -/
def nvr_symlink (v : vfs) (fuel : Nat) (page : Option (List Nat)) (s : nvr_state)
    (comm : String) (now : Nat) (dentry : Nat) : Option (Int × nvr_state) :=
  match nvr_add_dentry v fuel page s comm now dentry NVR_TYPE_MDATA none 0 with
  | none => none
  | some r => some (0, r.2)

/-- The hook `nvr_setattr`; `ia_valid` and `ia_size` are the members of `ia`. -/
def nvr_setattr (v : vfs) (fuel : Nat) (page : Option (List Nat)) (s : nvr_state)
    (comm : String) (now : Nat) (dentry : Nat) (ia_valid : Nat) (ia_size : Int) :
    Option (Int × nvr_state) :=
  let r := if Nat.land ia_valid ATTR_SIZE ≠ 0 then
      nvr_add_dentry v fuel page s comm now dentry NVR_TYPE_SIZE (some (size_payload ia_size)) 8
    else nvr_add_dentry v fuel page s comm now dentry NVR_TYPE_MDATA none 0
  match r with
  | none => none
  | some r => some (0, r.2)

/-- The hook `nvr_setxattr`. -/
def nvr_setxattr (v : vfs) (fuel : Nat) (page : Option (List Nat)) (s : nvr_state)
    (comm : String) (now : Nat) (dentry : Nat) : Option (Int × nvr_state) :=
  match nvr_add_dentry v fuel page s comm now dentry NVR_TYPE_MDATA none 0 with
  | none => none
  | some r => some (0, r.2)

/-- The hook `nvr_removexattr`. -/
def nvr_removexattr (v : vfs) (fuel : Nat) (page : Option (List Nat)) (s : nvr_state)
    (comm : String) (now : Nat) (dentry : Nat) : Option (Int × nvr_state) :=
  match nvr_add_dentry v fuel page s comm now dentry NVR_TYPE_MDATA none 0 with
  | none => none
  | some r => some (0, r.2)

/-- The path "/dev/null". -/
def path_dev_null : List Nat := [47, 100, 101, 118, 47, 110, 117, 108, 108]

/-- The names "dev" and "null". -/
def dev_null_names : List (List Nat) := [[100, 101, 118], [110, 117, 108, 108]]

/-- A descriptor with the one table `reg_f_op`, in which every member is a hook that
notes the position `f_pos` of the file it is handed (its first argument) and returns 0. -/
def pos_cb : nvfs_callback_info Unit Int :=
  { reg_f_op := some (fun _ => some (fun a w _ => (0, (w.files (a.objs.headD 0)).f_pos))),
    reg_i_op := none, dir_i_op := none, sym_i_op := none, sb_op := none, d_op := none }

/-- A world as `sample_world` in which the file at the address 1 stands at position 7;
every other file stands at position 0. -/
def pos_world : world Unit :=
  { sample_world with
    files := fun q => { f_pos := if q = 1 then 7 else 0, f_version := 0, f_ra := 0,
                        f_flags := 0 } }

/-! ## Lemmas -/

theorem le_value_le_bytes (w v : Nat) : le_value (le_bytes w v) = v % 256 ^ w := by
  induction w generalizing v with
  | zero => simp [le_bytes, le_value, Nat.mod_one]
  | succ w ih =>
    simp only [le_bytes, le_value, ih]
    rw [pow_succ, Nat.mul_comm (256 ^ w) 256, Nat.mod_mul]

theorem le_bytes_length (w v : Nat) : (le_bytes w v).length = w := by
  induction w generalizing v with
  | zero => rfl
  | succ w ih => simp [le_bytes, ih]

theorem wrap_s_64_of_range (x : Int) (h1 : -(2 ^ 63) ≤ x) (h2 : x < 2 ^ 63) :
    wrap_s 64 x = x := by
  unfold wrap_s
  norm_num
  omega

theorem wrap_s_32_of_range (x : Int) (h1 : -(2 ^ 31) ≤ x) (h2 : x < 2 ^ 31) :
    wrap_s 32 x = x := by
  unfold wrap_s
  norm_num
  omega

theorem name_differs_eq_false (l r : cdi_record) :
    name_differs l r = false ↔ l.name = r.name := by
  unfold name_differs cdi_record.len cdi_record.cstr
  constructor
  · intro h
    simp only [Bool.or_eq_false_iff, decide_eq_false_iff_not, not_not] at h
    obtain ⟨h1, h2⟩ := h
    have h3 : l.name.length = r.name.length := by omega
    rw [← h3, List.take_of_length_le (by simp), List.take_of_length_le (by simp [h3])] at h2
    exact List.append_cancel_right h2
  · intro h
    simp [h]

theorem wrap_s_64_range (x : Int) : -(2 ^ 63) ≤ wrap_s 64 x ∧ wrap_s 64 x < 2 ^ 63 := by
  unfold wrap_s
  norm_num
  omega

theorem wrap_s_32_range (x : Int) : -(2 ^ 31) ≤ wrap_s 32 x ∧ wrap_s 32 x < 2 ^ 31 := by
  unfold wrap_s
  norm_num
  omega

theorem int_bytes_length (w : Nat) (x : Int) : (int_bytes w x).length = w := by
  unfold int_bytes
  exact le_bytes_length _ _

theorem rd_bytes_wr_bytes_before (buf src : List Nat) (off : Nat) (h : off ≤ buf.length) :
    rd_bytes (wr_bytes buf off src) 0 off = rd_bytes buf 0 off := by
  unfold rd_bytes wr_bytes
  simp only [List.drop_zero, List.append_assoc]
  rw [List.take_append_of_le_length (by simp [h])]
  simp

theorem rd_bytes_wr_bytes_same (buf src : List Nat) (off : Nat) (h : off ≤ buf.length) :
    rd_bytes (wr_bytes buf off src) off src.length = src := by
  unfold rd_bytes wr_bytes
  have h1 : (List.take off buf).length = off := by simp [h]
  rw [List.append_assoc, List.drop_append_of_le_length (by omega)]
  rw [List.drop_of_length_le (by omega), List.nil_append]
  simp

theorem rd_i32_int_bytes (buf : List Nat) (x : Int) (h : 8 ≤ buf.length)
    (h1 : -(2 ^ 31) ≤ x) (h2 : x < 2 ^ 31) :
    rd_i32 (wr_bytes buf 8 (int_bytes 4 x)) 8 = x := by
  unfold rd_i32
  have h4 := rd_bytes_wr_bytes_same buf (int_bytes 4 x) 8 h
  rw [int_bytes_length] at h4
  rw [h4]
  unfold int_bytes
  rw [le_value_le_bytes]
  unfold wrap_s
  norm_num
  omega

theorem rd_i64_wr_bytes_8 (buf src : List Nat) (h : 8 ≤ buf.length) :
    rd_i64 (wr_bytes buf 8 src) 0 = rd_i64 buf 0 := by
  unfold rd_i64
  rw [rd_bytes_wr_bytes_before buf src 8 h]

theorem nvr_add_queue_of_admitted (s : nvr_state) (comm : String) (r : cdi_record)
    (h : admitted s comm r) :
    nvr_add_queue s comm r = nvr_up (add_queue_locked (nvr_down (add_queue_prologue s)) r) := by
  obtain ⟨h1, h2, h3, h4, h5⟩ := h
  unfold nvr_add_queue
  simp only [add_queue_prologue]
  rw [if_neg h1, if_neg h2, if_neg h3, if_neg h4, if_pos h5]

theorem getLast_snoc (q : List cdi_record) (l : cdi_record) :
    (q ++ [l]).getLast? = some l := by
  simp

theorem coalesce_writes_contiguous (q : List cdi_record) (l r : cdi_record) (o a b : Int)
    (hpid : l.pid = -1) (hlt : l.type = TYPE_DATA) (hrt : r.type = TYPE_DATA)
    (hname : l.name = r.name)
    (hlo : rd_i64 l.buf 0 = o) (hla : rd_i32 l.buf 8 = a)
    (hro : rd_i64 r.buf 0 = o + a) (hrb : rd_i32 r.buf 8 = b)
    (ha : 0 ≤ a) (hb : 0 ≤ b) (hend : o + a + b < 2 ^ 63) :
    coalesce_writes (q ++ [l]) r = (true, q ++ [l]) ∧ a = 0 ∧ b = 0 ∨
    coalesce_writes (q ++ [l]) r =
      (true, q ++ [{ l with buf := wr_bytes l.buf 8 (int_bytes 4 (wrap_s 32 (a + b))) }]) := by
  have hnd : name_differs l r = false := (name_differs_eq_false l r).2 hname
  have hor := wrap_s_64_range (le_value (rd_bytes l.buf 0 8))
  have hw1 : wrap_s 64 (o + a) = o + a := by
    rw [← hro]; unfold rd_i64
    exact wrap_s_64_of_range _ (wrap_s_64_range _).1 (wrap_s_64_range _).2
  have ho1 : -(2 ^ 63) ≤ o := by rw [← hlo]; exact (wrap_s_64_range _).1
  have hw2 : wrap_s 64 (o + a + b) = o + a + b :=
    wrap_s_64_of_range _ (by omega) hend
  unfold coalesce_writes
  rw [getLast_snoc]
  simp only [hrt, ne_eq, not_true_eq_false, if_false, hpid, hlt, hnd, Bool.false_eq_true,
    hlo, hla, hro, hrb, hw1, hw2, List.dropLast_concat]
  by_cases hc : o = o + a ∧ (a = b ∨ a > b)
  · left
    rw [if_pos hc]
    refine ⟨rfl, ?_, ?_⟩ <;> omega
  · right
    rw [if_neg hc, if_neg (by omega)]

/-! ## Claims -/

/-- Claim C1. Contiguous write coalescing: when the tail of the queue is an unclaimed
DataWrite record for a path with payload (offset `o`, length `a`), and `nvr_add_queue`
admits a DataWrite record for the same path with payload (offset `o + a`, length `b`),
with `0 ≤ a`, `0 ≤ b`, `a + b < 2^31` and the end `o + a + b` of the written range a
representable file offset, then the queue keeps its records but for the tail, the count
is unchanged, the tail has payload (`o`, `a + b`) and its former sequence number,
timestamp, path, type and tag, and the new record, whose sequence number is fresh, is
not in the queue. -/
theorem coalesce_contiguous_write (s : nvr_state) (comm : String) (q : List cdi_record)
    (l r : cdi_record) (o a b : Int)
    (hq : s.nvr_sys_queue = q ++ [l])
    (hpid : l.pid = -1) (hlt : l.type = TYPE_DATA) (hrt : r.type = TYPE_DATA)
    (hname : l.name = r.name) (hlen : 12 ≤ l.buf.length)
    (hlo : rd_i64 l.buf 0 = o) (hla : rd_i32 l.buf 8 = a)
    (hro : rd_i64 r.buf 0 = o + a) (hrb : rd_i32 r.buf 8 = b)
    (ha : 0 ≤ a) (hb : 0 ≤ b) (hab : a + b < 2 ^ 31) (hend : o + a + b < 2 ^ 63)
    (hadm : admitted s comm r) :
    (nvr_add_queue s comm r).nvr_sys_queue.length = s.nvr_sys_queue.length ∧
    (nvr_add_queue s comm r).nvr_sys_queue_count = s.nvr_sys_queue_count ∧
    (∃ l1, (nvr_add_queue s comm r).nvr_sys_queue = q ++ [l1] ∧
      rd_i64 l1.buf 0 = o ∧ rd_i32 l1.buf 8 = a + b ∧
      l1.sequence = l.sequence ∧ l1.timestamp = l.timestamp ∧ l1.name = l.name ∧
      l1.type = l.type ∧ l1.pid = l.pid) ∧
    ((∀ x ∈ s.nvr_sys_queue, x.sequence ≠ r.sequence) →
      r ∉ (nvr_add_queue s comm r).nvr_sys_queue) := by
  rw [nvr_add_queue_of_admitted s comm r hadm]
  have hcw := coalesce_writes_contiguous q l r o a b hpid hlt hrt hname hlo hla hro hrb ha hb hend
  have key : ∃ l1, (nvr_up (add_queue_locked (nvr_down (add_queue_prologue s)) r)).nvr_sys_queue
        = q ++ [l1] ∧
      (nvr_up (add_queue_locked (nvr_down (add_queue_prologue s)) r)).nvr_sys_queue_count
        = s.nvr_sys_queue_count ∧
      rd_i64 l1.buf 0 = o ∧ rd_i32 l1.buf 8 = a + b ∧
      l1.sequence = l.sequence ∧ l1.timestamp = l.timestamp ∧ l1.name = l.name ∧
      l1.type = l.type ∧ l1.pid = l.pid := by
    rcases hcw with ⟨h, ha0, hb0⟩ | h
    · refine ⟨l, ?_, ?_, hlo, ?_, rfl, rfl, rfl, rfl, rfl⟩
      · simp [add_queue_locked, nvr_down, nvr_up, add_queue_prologue, nvr_put_repitem, hq, h]
      · simp [add_queue_locked, nvr_down, nvr_up, add_queue_prologue, nvr_put_repitem, hq, h]
      · rw [hla, hb0]; simp
    · refine ⟨{ l with buf := wr_bytes l.buf 8 (int_bytes 4 (wrap_s 32 (a + b))) },
        ?_, ?_, ?_, ?_, rfl, rfl, rfl, rfl, rfl⟩
      · simp [add_queue_locked, nvr_down, nvr_up, add_queue_prologue, nvr_put_repitem, hq, h]
      · simp [add_queue_locked, nvr_down, nvr_up, add_queue_prologue, nvr_put_repitem, hq, h]
      · show rd_i64 (wr_bytes l.buf 8 _) 0 = o
        rw [rd_i64_wr_bytes_8 _ _ (by omega), hlo]
      · show rd_i32 (wr_bytes l.buf 8 _) 8 = a + b
        rw [wrap_s_32_of_range (a + b) (by omega) hab]
        exact rd_i32_int_bytes _ _ (by omega) (by omega) hab
  obtain ⟨l1, h1, h2, h3, h4, h5, h6, h7, h8, h9⟩ := key
  refine ⟨?_, h2, ⟨l1, h1, h3, h4, h5, h6, h7, h8, h9⟩, ?_⟩
  · rw [h1, hq]; simp
  · intro hfresh hmem
    rw [h1] at hmem
    rcases List.mem_append.1 hmem with hm | hm
    · exact hfresh r (by rw [hq]; exact List.mem_append_left _ hm) rfl
    · have : r = l1 := by simpa using hm
      exact hfresh l (by rw [hq]; simp) (by rw [this, h5])

/-- Witness of `coalesce_contiguous_write`: on "/data/x", (0, 10) then (10, 5) leaves one
record with payload (0, 15), and (0, 4096) then (4096, 4096) one with (0, 8192). -/
theorem coalesce_contiguous_write_witness :
    ((nvr_add_queue (sample_state [sample_write 1 1000 0 10]) "dd" (sample_write 2 1001 10 5)).nvr_sys_queue.length
        = (sample_state [sample_write 1 1000 0 10]).nvr_sys_queue.length ∧
      (nvr_add_queue (sample_state [sample_write 1 1000 0 10]) "dd" (sample_write 2 1001 10 5)).nvr_sys_queue_count
        = (sample_state [sample_write 1 1000 0 10]).nvr_sys_queue_count ∧
      (∃ l1, (nvr_add_queue (sample_state [sample_write 1 1000 0 10]) "dd" (sample_write 2 1001 10 5)).nvr_sys_queue = [] ++ [l1] ∧
        rd_i64 l1.buf 0 = 0 ∧ rd_i32 l1.buf 8 = 10 + 5 ∧
        l1.sequence = (sample_write 1 1000 0 10).sequence ∧ l1.timestamp = (sample_write 1 1000 0 10).timestamp ∧
        l1.name = (sample_write 1 1000 0 10).name ∧ l1.type = (sample_write 1 1000 0 10).type ∧ l1.pid = (sample_write 1 1000 0 10).pid) ∧
      ((∀ x ∈ (sample_state [sample_write 1 1000 0 10]).nvr_sys_queue, x.sequence ≠ (sample_write 2 1001 10 5).sequence) →
        sample_write 2 1001 10 5 ∉ (nvr_add_queue (sample_state [sample_write 1 1000 0 10]) "dd" (sample_write 2 1001 10 5)).nvr_sys_queue)) ∧
    ((nvr_add_queue (sample_state [sample_write 1 1000 0 4096]) "dd" (sample_write 2 1001 4096 4096)).nvr_sys_queue.length
        = (sample_state [sample_write 1 1000 0 4096]).nvr_sys_queue.length ∧
      (nvr_add_queue (sample_state [sample_write 1 1000 0 4096]) "dd" (sample_write 2 1001 4096 4096)).nvr_sys_queue_count
        = (sample_state [sample_write 1 1000 0 4096]).nvr_sys_queue_count ∧
      (∃ l1, (nvr_add_queue (sample_state [sample_write 1 1000 0 4096]) "dd" (sample_write 2 1001 4096 4096)).nvr_sys_queue = [] ++ [l1] ∧
        rd_i64 l1.buf 0 = 0 ∧ rd_i32 l1.buf 8 = 4096 + 4096 ∧
        l1.sequence = (sample_write 1 1000 0 4096).sequence ∧ l1.timestamp = (sample_write 1 1000 0 4096).timestamp ∧
        l1.name = (sample_write 1 1000 0 4096).name ∧ l1.type = (sample_write 1 1000 0 4096).type ∧ l1.pid = (sample_write 1 1000 0 4096).pid) ∧
      ((∀ x ∈ (sample_state [sample_write 1 1000 0 4096]).nvr_sys_queue, x.sequence ≠ (sample_write 2 1001 4096 4096).sequence) →
        sample_write 2 1001 4096 4096 ∉ (nvr_add_queue (sample_state [sample_write 1 1000 0 4096]) "dd" (sample_write 2 1001 4096 4096)).nvr_sys_queue)) :=
  ⟨coalesce_contiguous_write (sample_state [sample_write 1 1000 0 10]) "dd" [] (sample_write 1 1000 0 10) (sample_write 2 1001 10 5) 0 10 5
      (by rfl) (by rfl) (by rfl) (by rfl) (by decide) (by decide) (by decide) (by decide)
      (by decide) (by decide) (by decide) (by decide) (by decide) (by decide) (by decide),
   coalesce_contiguous_write (sample_state [sample_write 1 1000 0 4096]) "dd" [] (sample_write 1 1000 0 4096) (sample_write 2 1001 4096 4096) 0 4096 4096
      (by rfl) (by rfl) (by rfl) (by rfl) (by decide) (by decide) (by decide) (by decide)
      (by decide) (by decide) (by decide) (by decide) (by decide) (by decide) (by decide)⟩

theorem add_queue_locked_eq (s : nvr_state) (r : cdi_record) :
    add_queue_locked s r =
      if (coalesce_writes s.nvr_sys_queue r).1 = true then
        nvr_put_repitem { s with nvr_sys_queue := (coalesce_writes s.nvr_sys_queue r).2 }
      else if (coalesce_sizes s.nvr_sys_queue r).1 = true then
        nvr_put_repitem { s with nvr_sys_queue := (coalesce_sizes s.nvr_sys_queue r).2 }
      else { s with nvr_sys_queue_count := s.nvr_sys_queue_count + 1,
                    nvr_sys_queue := s.nvr_sys_queue ++ [r] } := by
  unfold add_queue_locked
  rcases hw : coalesce_writes s.nvr_sys_queue r with ⟨b1, q1⟩
  rcases hs : coalesce_sizes s.nvr_sys_queue r with ⟨b2, q2⟩
  cases b1 <;> cases b2 <;> simp

theorem coalesce_writes_other_type (q : List cdi_record) (r : cdi_record)
    (h : r.type ≠ TYPE_DATA) : coalesce_writes q r = (false, q) := by
  unfold coalesce_writes
  rw [if_pos h]

theorem coalesce_sizes_other_type (q : List cdi_record) (r : cdi_record)
    (h : r.type ≠ TYPE_SIZE) : coalesce_sizes q r = (false, q) := by
  unfold coalesce_sizes
  rw [if_pos h]

theorem coalesce_writes_nil (r : cdi_record) : coalesce_writes [] r = (false, []) := by
  unfold coalesce_writes
  split <;> rfl

theorem coalesce_sizes_nil (r : cdi_record) : coalesce_sizes [] r = (false, []) := by
  unfold coalesce_sizes
  split <;> rfl

theorem coalesce_sizes_snoc (q : List cdi_record) (l r : cdi_record)
    (hpid : l.pid = -1) (hlt : l.type = TYPE_SIZE) (hrt : r.type = TYPE_SIZE)
    (hname : l.name = r.name) :
    coalesce_sizes (q ++ [l]) r =
      if rd_i64 r.buf 0 < rd_i64 l.buf 0 then (false, q ++ [l])
      else (true, q ++ [{ l with buf := wr_bytes l.buf 0 (rd_bytes r.buf 0 8) }]) := by
  have hnd : name_differs l r = false := (name_differs_eq_false l r).2 hname
  unfold coalesce_sizes
  rw [getLast_snoc]
  simp only [hrt, ne_eq, not_true_eq_false, if_false, hpid, hlt, hnd, Bool.false_eq_true,
    List.dropLast_concat]

theorem type_size_ne_data : TYPE_SIZE ≠ TYPE_DATA := by decide

/-- The state that `nvr_add_queue` leaves when it appends the record. -/
theorem nvr_add_queue_append (s : nvr_state) (comm : String) (r : cdi_record)
    (hadm : admitted s comm r)
    (hw : (coalesce_writes s.nvr_sys_queue r).1 = false)
    (hs : (coalesce_sizes s.nvr_sys_queue r).1 = false) :
    (nvr_add_queue s comm r).nvr_sys_queue = s.nvr_sys_queue ++ [r] ∧
    (nvr_add_queue s comm r).nvr_sys_queue_count = s.nvr_sys_queue_count + 1 := by
  rw [nvr_add_queue_of_admitted s comm r hadm, add_queue_locked_eq]
  simp [nvr_down, nvr_up, add_queue_prologue, hw, hs]

/-- The state that `nvr_add_queue` leaves when the size coalescing takes the record. -/
theorem nvr_add_queue_sizes (s : nvr_state) (comm : String) (r : cdi_record)
    (hadm : admitted s comm r)
    (hw : (coalesce_writes s.nvr_sys_queue r).1 = false)
    (hs : (coalesce_sizes s.nvr_sys_queue r).1 = true) :
    (nvr_add_queue s comm r).nvr_sys_queue = (coalesce_sizes s.nvr_sys_queue r).2 ∧
    (nvr_add_queue s comm r).nvr_sys_queue_count = s.nvr_sys_queue_count := by
  rw [nvr_add_queue_of_admitted s comm r hadm, add_queue_locked_eq]
  simp [nvr_down, nvr_up, add_queue_prologue, nvr_put_repitem, hw, hs]

/-- The state that `nvr_add_queue` leaves when the write coalescing takes the record. -/
theorem nvr_add_queue_writes (s : nvr_state) (comm : String) (r : cdi_record)
    (hadm : admitted s comm r)
    (hw : (coalesce_writes s.nvr_sys_queue r).1 = true) :
    (nvr_add_queue s comm r).nvr_sys_queue = (coalesce_writes s.nvr_sys_queue r).2 ∧
    (nvr_add_queue s comm r).nvr_sys_queue_count = s.nvr_sys_queue_count := by
  rw [nvr_add_queue_of_admitted s comm r hadm, add_queue_locked_eq]
  simp [nvr_down, nvr_up, add_queue_prologue, nvr_put_repitem, hw]

/-- Claim C2, refuted as stated: from the empty queue, SizeChange(100), SizeChange(50),
SizeChange(200) for "/data/x", all admitted, do not leave a single record of size 200;
the queue holds two records, of sizes 100 and 200. -/
theorem size_coalescing_single_record_counterexample :
    (nvr_add_queue (nvr_add_queue (nvr_add_queue (sample_state []) "dd"
        (sample_size 1 1000 100)) "dd" (sample_size 2 1001 50)) "dd"
        (sample_size 3 1002 200)).nvr_sys_queue
      = [sample_size 1 1000 100, sample_size 2 1001 200] ∧
    ¬ (∃ r, (nvr_add_queue (nvr_add_queue (nvr_add_queue (sample_state []) "dd"
        (sample_size 1 1000 100)) "dd" (sample_size 2 1001 50)) "dd"
        (sample_size 3 1002 200)).nvr_sys_queue = [r] ∧ rd_i64 r.buf 0 = 200) := by
  have h : (nvr_add_queue (nvr_add_queue (nvr_add_queue (sample_state []) "dd"
        (sample_size 1 1000 100)) "dd" (sample_size 2 1001 50)) "dd"
        (sample_size 3 1002 200)).nvr_sys_queue
      = [sample_size 1 1000 100, sample_size 2 1001 200] := by decide
  refine ⟨h, ?_⟩
  rintro ⟨r, h1, _⟩
  rw [h] at h1
  simp at h1

/-- Claim C2, amended: from the empty queue, three admitted unclaimed SizeChange records
for one path with sizes 100, 50, 200 leave exactly two records: the first record with
size 100, then the second record with its payload overwritten by the size 200 (the
size 50, smaller than the pending 100, is appended as a record of its own, and the
third record is merged into it and dropped); the count grows by two. -/
theorem size_coalescing_100_50_200 (s : nvr_state) (comm : String) (r1 r2 r3 : cdi_record)
    (hq : s.nvr_sys_queue = [])
    (ht1 : r1.type = TYPE_SIZE) (ht2 : r2.type = TYPE_SIZE) (ht3 : r3.type = TYPE_SIZE)
    (hp1 : r1.pid = -1) (hp2 : r2.pid = -1)
    (hn2 : r1.name = r2.name) (hn3 : r2.name = r3.name)
    (hb1 : r1.buf = size_payload 100) (hb2 : r2.buf = size_payload 50)
    (hb3 : r3.buf = size_payload 200)
    (hadm1 : admitted s comm r1)
    (hadm2 : admitted (nvr_add_queue s comm r1) comm r2)
    (hadm3 : admitted (nvr_add_queue (nvr_add_queue s comm r1) comm r2) comm r3) :
    (nvr_add_queue (nvr_add_queue (nvr_add_queue s comm r1) comm r2) comm r3).nvr_sys_queue
      = [r1, { r2 with buf := size_payload 200 }] ∧
    (nvr_add_queue (nvr_add_queue (nvr_add_queue s comm r1) comm r2) comm r3).nvr_sys_queue_count
      = s.nvr_sys_queue_count + 2 := by
  have hd1 : r1.type ≠ TYPE_DATA := by rw [ht1]; exact type_size_ne_data
  have hd2 : r2.type ≠ TYPE_DATA := by rw [ht2]; exact type_size_ne_data
  have hd3 : r3.type ≠ TYPE_DATA := by rw [ht3]; exact type_size_ne_data
  -- first record: the queue is empty
  obtain ⟨q1, c1⟩ := nvr_add_queue_append s comm r1 hadm1
    (by rw [coalesce_writes_other_type _ _ hd1])
    (by rw [hq, coalesce_sizes_nil])
  rw [hq, List.nil_append] at q1
  -- second record: 50 < 100, no coalescing
  have hs2 : coalesce_sizes (nvr_add_queue s comm r1).nvr_sys_queue r2 = (false, [] ++ [r1]) := by
    rw [q1]
    show coalesce_sizes ([] ++ [r1]) r2 = (false, [] ++ [r1])
    rw [coalesce_sizes_snoc [] r1 r2 hp1 ht1 ht2 hn2, hb1, hb2, if_pos (by decide)]
  obtain ⟨q2, c2⟩ := nvr_add_queue_append (nvr_add_queue s comm r1) comm r2 hadm2
    (by rw [coalesce_writes_other_type _ _ hd2])
    (by rw [hs2])
  rw [q1] at q2
  -- third record: 200 ≥ 50, merged into the second
  have hs3 : coalesce_sizes (nvr_add_queue (nvr_add_queue s comm r1) comm r2).nvr_sys_queue r3
      = (true, [r1] ++ [{ r2 with buf := size_payload 200 }]) := by
    rw [q2, coalesce_sizes_snoc [r1] r2 r3 hp2 ht2 ht3 hn3, hb2, hb3]
    rw [if_neg (by decide)]
    have : wr_bytes (size_payload 50) 0 (rd_bytes (size_payload 200) 0 8) = size_payload 200 := by
      decide
    rw [this]
  obtain ⟨q3, c3⟩ := nvr_add_queue_sizes (nvr_add_queue (nvr_add_queue s comm r1) comm r2) comm r3
    hadm3 (by rw [coalesce_writes_other_type _ _ hd3]) (by rw [hs3])
  rw [hs3] at q3
  refine ⟨by simpa using q3, ?_⟩
  rw [c3, c2, c1]
  ring

/-- Witness of `size_coalescing_100_50_200` on "/data/x". -/
theorem size_coalescing_100_50_200_witness :
    (nvr_add_queue (nvr_add_queue (nvr_add_queue (sample_state []) "dd"
        (sample_size 1 1000 100)) "dd" (sample_size 2 1001 50)) "dd"
        (sample_size 3 1002 200)).nvr_sys_queue
      = [sample_size 1 1000 100, { sample_size 2 1001 50 with buf := size_payload 200 }] ∧
    (nvr_add_queue (nvr_add_queue (nvr_add_queue (sample_state []) "dd"
        (sample_size 1 1000 100)) "dd" (sample_size 2 1001 50)) "dd"
        (sample_size 3 1002 200)).nvr_sys_queue_count
      = (sample_state []).nvr_sys_queue_count + 2 :=
  size_coalescing_100_50_200 (sample_state []) "dd" (sample_size 1 1000 100)
    (sample_size 2 1001 50) (sample_size 3 1002 200)
    (by rfl) (by rfl) (by rfl) (by rfl) (by rfl) (by rfl) (by rfl) (by rfl) (by rfl) (by rfl)
    (by rfl) (by decide) (by decide) (by decide)

theorem coalesce_writes_shape (q : List cdi_record) (r : cdi_record) :
    (coalesce_writes q r).2 = q ∨
    ∃ q0 l b, q = q0 ++ [l] ∧ l.pid = -1 ∧ (coalesce_writes q r).2 = q0 ++ [{ l with buf := b }] := by
  generalize hres : coalesce_writes q r = res
  unfold coalesce_writes at hres
  by_cases h1 : r.type ≠ TYPE_DATA
  · rw [if_pos h1] at hres; rw [← hres]; exact Or.inl rfl
  rw [if_neg h1] at hres
  cases hl : q.getLast? with
  | none => rw [hl] at hres; rw [← hres]; exact Or.inl rfl
  | some l =>
    have hq : q.dropLast ++ [l] = q := List.dropLast_append_getLast? l hl
    rw [hl] at hres
    simp only [] at hres
    by_cases h2 : l.pid ≠ -1
    · rw [if_pos h2] at hres; rw [← hres]; exact Or.inl rfl
    rw [if_neg h2] at hres
    by_cases h3 : l.type ≠ TYPE_DATA
    · rw [if_pos h3] at hres; rw [← hres]; exact Or.inl rfl
    rw [if_neg h3] at hres
    by_cases h4 : name_differs l r = true
    · rw [if_pos h4] at hres; rw [← hres]; exact Or.inl rfl
    rw [if_neg h4] at hres
    by_cases h5 : rd_i64 l.buf 0 = rd_i64 r.buf 0 ∧
        (rd_i32 l.buf 8 = rd_i32 r.buf 8 ∨ rd_i32 l.buf 8 > rd_i32 r.buf 8)
    · rw [if_pos h5] at hres; rw [← hres]; exact Or.inl rfl
    rw [if_neg h5] at hres
    by_cases h6 : rd_i64 l.buf 0 < rd_i64 r.buf 0 ∧
        wrap_s 64 (rd_i64 l.buf 0 + rd_i32 l.buf 8) > wrap_s 64 (rd_i64 r.buf 0 + rd_i32 r.buf 8)
    · rw [if_pos h6] at hres; rw [← hres]; exact Or.inl rfl
    rw [if_neg h6] at hres
    by_cases h7 : wrap_s 64 (rd_i64 l.buf 0 + rd_i32 l.buf 8) ≠ rd_i64 r.buf 0
    · rw [if_pos h7] at hres; rw [← hres]; exact Or.inl rfl
    rw [if_neg h7] at hres
    right
    rw [← hres]
    exact ⟨q.dropLast, l, _, hq.symm, by simpa using h2, rfl⟩

theorem coalesce_sizes_shape (q : List cdi_record) (r : cdi_record) :
    (coalesce_sizes q r).2 = q ∨
    ∃ q0 l b, q = q0 ++ [l] ∧ l.pid = -1 ∧ (coalesce_sizes q r).2 = q0 ++ [{ l with buf := b }] := by
  generalize hres : coalesce_sizes q r = res
  unfold coalesce_sizes at hres
  by_cases h1 : r.type ≠ TYPE_SIZE
  · rw [if_pos h1] at hres; rw [← hres]; exact Or.inl rfl
  rw [if_neg h1] at hres
  cases hl : q.getLast? with
  | none => rw [hl] at hres; rw [← hres]; exact Or.inl rfl
  | some l =>
    have hq : q.dropLast ++ [l] = q := List.dropLast_append_getLast? l hl
    rw [hl] at hres
    simp only [] at hres
    by_cases h2 : l.pid ≠ -1
    · rw [if_pos h2] at hres; rw [← hres]; exact Or.inl rfl
    rw [if_neg h2] at hres
    by_cases h3 : l.type ≠ TYPE_SIZE
    · rw [if_pos h3] at hres; rw [← hres]; exact Or.inl rfl
    rw [if_neg h3] at hres
    by_cases h4 : name_differs l r = true
    · rw [if_pos h4] at hres; rw [← hres]; exact Or.inl rfl
    rw [if_neg h4] at hres
    by_cases h5 : rd_i64 r.buf 0 < rd_i64 l.buf 0
    · rw [if_pos h5] at hres; rw [← hres]; exact Or.inl rfl
    rw [if_neg h5] at hres
    right
    rw [← hres]
    exact ⟨q.dropLast, l, _, hq.symm, by simpa using h2, rfl⟩

theorem coalesce_writes_seqs (q : List cdi_record) (r : cdi_record) :
    (coalesce_writes q r).2.map cdi_record.sequence = q.map cdi_record.sequence ∧
    (coalesce_writes q r).2.length = q.length := by
  rcases coalesce_writes_shape q r with h | ⟨q0, l, b, h1, _, h2⟩
  · rw [h]; exact ⟨rfl, rfl⟩
  · rw [h2, h1]; simp

theorem coalesce_sizes_seqs (q : List cdi_record) (r : cdi_record) :
    (coalesce_sizes q r).2.map cdi_record.sequence = q.map cdi_record.sequence ∧
    (coalesce_sizes q r).2.length = q.length := by
  rcases coalesce_sizes_shape q r with h | ⟨q0, l, b, h1, _, h2⟩
  · rw [h]; exact ⟨rfl, rfl⟩
  · rw [h2, h1]; simp

/-- The branch of `nvr_add_queue` taken: a drop (the state is `nvr_put_repitem` of the
state after the prologue, or of the state itself for the consumer), else the locked
section. -/
theorem nvr_add_queue_cases (s : nvr_state) (comm : String) (r : cdi_record) :
    nvr_add_queue s comm r = nvr_put_repitem s ∨
    nvr_add_queue s comm r = nvr_put_repitem (add_queue_prologue s) ∨
    (admitted s comm r ∧
      nvr_add_queue s comm r = nvr_up (add_queue_locked (nvr_down (add_queue_prologue s)) r)) := by
  by_cases hadm : admitted s comm r
  · exact Or.inr (Or.inr ⟨hadm, nvr_add_queue_of_admitted s comm r hadm⟩)
  · unfold nvr_add_queue
    by_cases h1 : comm = "nvr_srv"
    · rw [if_pos h1]; exact Or.inl rfl
    rw [if_neg h1]
    right; left
    simp only []
    by_cases h2 : (add_queue_prologue s).pause ≠ 0 ∧
        (add_queue_prologue s).nvr_sys_queue_count ≥ (add_queue_prologue s).pause
    · rw [if_pos h2]
    rw [if_neg h2]
    by_cases h3 : item_name_okay r.name = true ∧
        (add_queue_prologue s).nvr_sys_queue_count ≥ (add_queue_prologue s).highwater
    · rw [if_pos h3]
    rw [if_neg h3]
    by_cases h4 : (add_queue_prologue s).xfer_skip ≠ 0 ∧ comm = "nvr_xfer"
    · rw [if_pos h4]
    rw [if_neg h4]
    by_cases h5 : (add_queue_prologue s).replication_active ≠ 0 ∧ item_name_okay r.name = true
    · exact absurd ⟨h1, h2, h3, h4, h5⟩ hadm
    rw [if_neg h5]

/-- What `nvr_add_queue` does to the queue, its count and the sequence counter: either
no record is linked (a drop or a coalescing), or the record is appended. -/
theorem nvr_add_queue_shape (s : nvr_state) (comm : String) (r : cdi_record) :
    (nvr_add_queue s comm r).repitem_seq = s.repitem_seq ∧
    (((nvr_add_queue s comm r).nvr_sys_queue.map cdi_record.sequence
          = s.nvr_sys_queue.map cdi_record.sequence ∧
        (nvr_add_queue s comm r).nvr_sys_queue.length = s.nvr_sys_queue.length ∧
        (nvr_add_queue s comm r).nvr_sys_queue_count = s.nvr_sys_queue_count) ∨
      ((nvr_add_queue s comm r).nvr_sys_queue = s.nvr_sys_queue ++ [r] ∧
        (nvr_add_queue s comm r).nvr_sys_queue_count = s.nvr_sys_queue_count + 1)) := by
  rcases nvr_add_queue_cases s comm r with h | h | ⟨_, h⟩
  · rw [h]; exact ⟨rfl, Or.inl ⟨rfl, rfl, rfl⟩⟩
  · rw [h]; exact ⟨rfl, Or.inl ⟨rfl, rfl, rfl⟩⟩
  · rw [h, add_queue_locked_eq]
    by_cases hw : (coalesce_writes (nvr_down (add_queue_prologue s)).nvr_sys_queue r).1 = true
    · rw [if_pos hw]
      exact ⟨rfl, Or.inl ⟨(coalesce_writes_seqs _ _).1, (coalesce_writes_seqs _ _).2, rfl⟩⟩
    · rw [if_neg hw]
      by_cases hs : (coalesce_sizes (nvr_down (add_queue_prologue s)).nvr_sys_queue r).1 = true
      · rw [if_pos hs]
        exact ⟨rfl, Or.inl ⟨(coalesce_sizes_seqs _ _).1, (coalesce_sizes_seqs _ _).2, rfl⟩⟩
      · rw [if_neg hs]
        exact ⟨rfl, Or.inr ⟨rfl, rfl⟩⟩

theorem reg_copy_ok (out : List Nat) (fs : List (List Nat)) :
    reg_copy ctu_ok out fs = (out ++ fs.flatten, true) := by
  induction fs generalizing out with
  | nil => simp [reg_copy]
  | cons f fs ih => simp [reg_copy, ctu_ok, ih]

theorem reg_fields_flatten (r : cdi_record) : (reg_fields r).flatten = wire_record r := by
  have hc : List.take (r.name.length + 1) (r.name ++ [0]) = r.name ++ [0] :=
    List.take_of_length_le (by simp)
  unfold reg_fields wire_record cdi_record.len cdi_record.cstr cdi_record.bsize
  by_cases h : r.buf.length = 0
  · have hb : r.buf = [] := List.length_eq_zero.1 h
    simp [hb, hc]
  · simp [h, hc]

theorem wire_record_length (r : cdi_record) : (wire_record r).length = rec_size r := by
  unfold wire_record rec_size cdi_record.len cdi_record.cstr cdi_record.bsize
  simp [le_bytes_length, int_bytes_length]
  omega

theorem wire_size_eq (r : cdi_record) : wire_size r = rec_size r := by
  unfold wire_size rec_size; omega

theorem wire_records_append (a b : List cdi_record) :
    wire_records (a ++ b) = wire_records a ++ wire_records b := by
  induction a with
  | nil => rfl
  | cons r a ih => simp [wire_records, ih]

theorem wire_records_length (q : List cdi_record) :
    (wire_records q).length = wire_total q := by
  induction q with
  | nil => rfl
  | cons r q ih => simp [wire_records, wire_total, ih, wire_record_length, wire_size_eq]

/-- The loop of `nvr_register` when no copy fails: the first `drain_count` records are
serialized and tagged, the others are left alone. -/
theorem register_walk_ok (length : Int) (out : List Nat) (q : List cdi_record) :
    register_walk length ctu_ok out q =
      { queue := (q.take (drain_count length out.length q)).map tagged ++
                   q.drop (drain_count length out.length q),
        out := out ++ wire_records (q.take (drain_count length out.length q)),
        fault := false } := by
  induction q generalizing out with
  | nil => simp [register_walk, drain_count, wire_records]
  | cons r rest ih =>
    unfold register_walk drain_count
    by_cases h : ((out.length + rec_size r : Nat) : Int) ≥ length
    · rw [if_pos h, if_pos h]
      simp [wire_records]
    · rw [if_neg h, if_neg h, reg_copy_ok, reg_fields_flatten]
      simp only []
      rw [ih]
      simp [wire_records, wire_record_length, tagged]

theorem register_walk_seqs (length : Int) (ctu : Nat → Nat → Bool) (out : List Nat)
    (q : List cdi_record) :
    (register_walk length ctu out q).queue.map cdi_record.sequence = q.map cdi_record.sequence ∧
    (register_walk length ctu out q).queue.length = q.length := by
  induction q generalizing out with
  | nil => exact ⟨rfl, rfl⟩
  | cons r rest ih =>
    unfold register_walk
    by_cases h : ((out.length + rec_size r : Nat) : Int) ≥ length
    · rw [if_pos h]; exact ⟨rfl, rfl⟩
    · rw [if_neg h]
      rcases hc : reg_copy ctu out (reg_fields r) with ⟨out1, ok⟩
      cases ok with
      | false => exact ⟨rfl, rfl⟩
      | true =>
        simp only [List.map_cons, List.length_cons]
        rw [(ih out1).1, (ih out1).2]
        exact ⟨rfl, rfl⟩

theorem unregister_walk_eq (q : List cdi_record) (count rcount : Int) :
    unregister_walk q count rcount =
      (q.filter (fun r => decide (r.pid ≠ 1)),
       count - ((q.filter (fun r => decide (r.pid = 1))).length : Nat),
       rcount - ((q.filter (fun r => decide (r.pid = 1))).length : Nat)) := by
  induction q generalizing count rcount with
  | nil => simp [unregister_walk]
  | cons r rest ih =>
    unfold unregister_walk
    by_cases h : r.pid = 1
    · rw [if_pos h, ih]
      simp [h]
      constructor <;> ring
    · rw [if_neg h, ih]
      simp [h]

theorem nvr_register_shape (s : nvr_state) (desc : Option Int) (ctu : Nat → Nat → Bool) :
    (nvr_register s desc ctu).2.2.repitem_seq = s.repitem_seq ∧
    (nvr_register s desc ctu).2.2.nvr_sys_queue_count = s.nvr_sys_queue_count ∧
    (nvr_register s desc ctu).2.2.nvr_sys_queue.map cdi_record.sequence
      = s.nvr_sys_queue.map cdi_record.sequence ∧
    (nvr_register s desc ctu).2.2.nvr_sys_queue.length = s.nvr_sys_queue.length := by
  unfold nvr_register
  by_cases h1 : s.replication_active = 0
  · rw [if_pos h1]; exact ⟨rfl, rfl, rfl, rfl⟩
  rw [if_neg h1]
  by_cases h2 : s.pause ≠ 0
  · rw [if_pos h2]; exact ⟨rfl, rfl, rfl, rfl⟩
  rw [if_neg h2]
  cases desc with
  | none => exact ⟨rfl, rfl, rfl, rfl⟩
  | some length =>
    simp only []
    by_cases h3 : length ≤ 0
    · rw [if_pos h3]; exact ⟨rfl, rfl, rfl, rfl⟩
    rw [if_neg h3]
    have hw := register_walk_seqs length ctu [] (nvr_down s).nvr_sys_queue
    by_cases h4 : (register_walk length ctu [] (nvr_down s).nvr_sys_queue).fault = true
    · rw [if_pos h4]; exact ⟨rfl, rfl, hw.1, hw.2⟩
    · rw [if_neg h4]; exact ⟨rfl, rfl, hw.1, hw.2⟩

theorem nvr_unregister_state (s : nvr_state) :
    (nvr_unregister s).2.nvr_sys_queue = s.nvr_sys_queue.filter (fun r => decide (r.pid ≠ 1)) ∧
    (nvr_unregister s).2.nvr_sys_queue_count =
      s.nvr_sys_queue_count - ((s.nvr_sys_queue.filter (fun r => decide (r.pid = 1))).length : Nat) ∧
    (nvr_unregister s).2.repitem_seq = s.repitem_seq := by
  unfold nvr_unregister
  simp [nvr_down, nvr_up, unregister_walk_eq]

theorem ioctl_set_queue (s : nvr_state) (cmd : Nat) (v : Int) :
    (ioctl_set s cmd v).nvr_sys_queue = s.nvr_sys_queue ∧
    (ioctl_set s cmd v).nvr_sys_queue_count = s.nvr_sys_queue_count := by
  unfold ioctl_set
  split_ifs <;> exact ⟨rfl, rfl⟩

theorem ioctl_set_seq (s : nvr_state) (cmd : Nat) (v : Int) (h : cmd ≠ NVR_SEQUENCE_NUMBER) :
    (ioctl_set s cmd v).repitem_seq = s.repitem_seq := by
  unfold ioctl_set
  split_ifs <;> rfl

theorem filter_pid_length (q : List cdi_record) :
    (q.filter (fun r => decide (r.pid ≠ 1))).length +
      (q.filter (fun r => decide (r.pid = 1))).length = q.length := by
  induction q with
  | nil => rfl
  | cons r rest ih =>
    simp only [ne_eq, decide_not] at ih ⊢
    by_cases h : r.pid = 1
    · simp [h]; omega
    · simp [h]; omega

theorem nvr_get_repitem_state (st : nvr_state) (now : Nat) (s : List Nat) (len : Nat)
    (type : Int) (buf : Option (List Nat)) (blen : Nat) :
    (nvr_get_repitem st now s len type buf blen).2.nvr_sys_queue = st.nvr_sys_queue ∧
    (nvr_get_repitem st now s len type buf blen).2.nvr_sys_queue_count = st.nvr_sys_queue_count ∧
    (nvr_get_repitem st now s len type buf blen).2.repitem_seq = (st.repitem_seq + 1) % 2 ^ 64 ∧
    (nvr_get_repitem st now s len type buf blen).1.sequence = (st.repitem_seq + 1) % 2 ^ 64 :=
  ⟨rfl, rfl, rfl, rfl⟩

/-- The state after `nvr_add_name`: untouched when an argument is refused, else the state
after `nvr_get_repitem` and `nvr_add_queue`. -/
theorem nvr_add_name_state (s : nvr_state) (comm : String) (now : Nat)
    (nm : Option (List Nat)) (type : Int) (buf : Option (List Nat)) (len : Nat) :
    (nvr_add_name s comm now nm type buf len).2 = s ∨
    ∃ n, nm = some n ∧ (nvr_add_name s comm now nm type buf len).2 =
      nvr_add_queue (nvr_get_repitem s now n n.length type buf len).2 comm
        (nvr_get_repitem s now n n.length type buf len).1 := by
  cases nm with
  | none => exact Or.inl rfl
  | some n =>
    unfold nvr_add_name
    simp only []
    by_cases hb : len ≠ 0 ∧ buf = none
    · rw [if_pos hb]; exact Or.inl rfl
    · rw [if_neg hb]; exact Or.inr ⟨n, rfl, rfl⟩

/-- One call keeps `nvr_sys_queue_count` equal to the number of linked records. -/
theorem count_step (s : nvr_state) (op : nvr_op)
    (h : s.nvr_sys_queue_count = s.nvr_sys_queue.length) :
    (nvr_step s op).nvr_sys_queue_count = (nvr_step s op).nvr_sys_queue.length := by
  cases op with
  | add_name comm now nm type buf len =>
    have e : nvr_step s (.add_name comm now nm type buf len)
        = (nvr_add_name s comm now nm type buf len).2 := rfl
    rw [e]
    rcases nvr_add_name_state s comm now nm type buf len with h1 | ⟨n, _, h1⟩
    · rw [h1]; exact h
    · rw [h1]
      obtain ⟨hq, hc, _, _⟩ := nvr_get_repitem_state s now n n.length type buf len
      rcases (nvr_add_queue_shape (nvr_get_repitem s now n n.length type buf len).2 comm
        (nvr_get_repitem s now n n.length type buf len).1).2 with ⟨_, h2, h3⟩ | ⟨h2, h3⟩
      · rw [h3, h2, hq, hc]; exact h
      · rw [h3, h2, hq, hc, h]; simp
  | add_queue comm r =>
    have e : nvr_step s (.add_queue comm r) = nvr_add_queue s comm r := rfl
    rw [e]
    rcases (nvr_add_queue_shape s comm r).2 with ⟨_, h2, h3⟩ | ⟨h2, h3⟩
    · rw [h3, h2]; exact h
    · rw [h3, h2, h]; simp
  | register desc ctu =>
    have e : nvr_step s (.register desc ctu) = (nvr_register s desc ctu).2.2 := rfl
    rw [e]
    obtain ⟨_, h2, _, h4⟩ := nvr_register_shape s desc ctu
    rw [h2, h4]; exact h
  | unregister =>
    have e : nvr_step s .unregister = (nvr_unregister s).2 := rfl
    rw [e]
    obtain ⟨h1, h2, _⟩ := nvr_unregister_state s
    rw [h1, h2, h]
    have := filter_pid_length s.nvr_sys_queue
    omega
  | ioctl cmd v =>
    have e : nvr_step s (.ioctl cmd v) = ioctl_set s cmd v := rfl
    rw [e, (ioctl_set_queue s cmd v).1, (ioctl_set_queue s cmd v).2]; exact h

theorem nvr_run_cons (s : nvr_state) (op : nvr_op) (ops : List nvr_op) :
    nvr_run s (op :: ops) = nvr_run (nvr_step s op) ops := rfl

theorem nvr_run_append (s : nvr_state) (a b : List nvr_op) :
    nvr_run s (a ++ b) = nvr_run (nvr_run s a) b := by
  unfold nvr_run
  exact List.foldl_append _ _ _ _

/-- Claim C4. Count invariant: from any state in which `nvr_sys_queue_count` equals the
number of linked records (the initial empty queue with count 0 is one), every sequence
of calls of `nvr_add_queue` (bare or through `nvr_add_name`, whatever branch it takes),
`nvr_register`, `nvr_unregister` and of commands setting the tunables leads to a state
in which `nvr_sys_queue_count` equals the number of records linked in `nvr_sys_queue`. -/
theorem count_invariant (s0 : nvr_state) (ops : List nvr_op)
    (h0 : s0.nvr_sys_queue_count = s0.nvr_sys_queue.length) :
    (nvr_run s0 ops).nvr_sys_queue_count = (nvr_run s0 ops).nvr_sys_queue.length := by
  induction ops generalizing s0 with
  | nil => exact h0
  | cons op ops ih =>
    rw [nvr_run_cons]
    exact ih (nvr_step s0 op) (count_step s0 op h0)

/-- Witness of `count_invariant`: the sample run from the initial state. -/
theorem count_invariant_witness :
    (nvr_run nvr_init sample_ops).nvr_sys_queue_count
      = (nvr_run nvr_init sample_ops).nvr_sys_queue.length :=
  count_invariant nvr_init sample_ops (by rfl)

/-- What one call does to the sequence counter and to the sequence numbers in the queue:
either the counter stays and the sequence numbers are a sublist of the former ones, or
the counter is incremented and the sequence numbers are the former ones, possibly
followed by the new value of the counter. -/
theorem nvr_step_seqs (s : nvr_state) (op : nvr_op) (hop : seq_safe op) :
    ((nvr_step s op).repitem_seq = s.repitem_seq ∧
      List.Sublist ((nvr_step s op).nvr_sys_queue.map cdi_record.sequence)
        (s.nvr_sys_queue.map cdi_record.sequence)) ∨
    ((nvr_step s op).repitem_seq = (s.repitem_seq + 1) % 2 ^ 64 ∧
      (((nvr_step s op).nvr_sys_queue.map cdi_record.sequence
          = s.nvr_sys_queue.map cdi_record.sequence ∧
        (nvr_step s op).nvr_sys_queue.length = s.nvr_sys_queue.length) ∨
       ((nvr_step s op).nvr_sys_queue.map cdi_record.sequence
          = s.nvr_sys_queue.map cdi_record.sequence ++ [(nvr_step s op).repitem_seq] ∧
        (nvr_step s op).nvr_sys_queue.length = s.nvr_sys_queue.length + 1))) := by
  cases op with
  | add_name comm now nm type buf len =>
    have e : nvr_step s (.add_name comm now nm type buf len)
        = (nvr_add_name s comm now nm type buf len).2 := rfl
    rw [e]
    rcases nvr_add_name_state s comm now nm type buf len with h1 | ⟨n, _, h1⟩
    · rw [h1]; exact Or.inl ⟨rfl, List.Sublist.refl _⟩
    · rw [h1]
      right
      obtain ⟨hq, _, hs, hr⟩ := nvr_get_repitem_state s now n n.length type buf len
      obtain ⟨h0, h2⟩ := nvr_add_queue_shape (nvr_get_repitem s now n n.length type buf len).2
        comm (nvr_get_repitem s now n n.length type buf len).1
      refine ⟨by rw [h0, hs], ?_⟩
      rcases h2 with ⟨h2, h3, _⟩ | ⟨h2, _⟩
      · left; rw [h2, h3, hq]; exact ⟨rfl, rfl⟩
      · right; rw [h2, h0, hq, hs]; simp [hr]
  | add_queue comm r => exact absurd hop (by simp [seq_safe])
  | register desc ctu =>
    have e : nvr_step s (.register desc ctu) = (nvr_register s desc ctu).2.2 := rfl
    rw [e]
    obtain ⟨h1, _, h3, _⟩ := nvr_register_shape s desc ctu
    left; rw [h1, h3]; exact ⟨rfl, List.Sublist.refl _⟩
  | unregister =>
    have e : nvr_step s .unregister = (nvr_unregister s).2 := rfl
    rw [e]
    obtain ⟨h1, _, h3⟩ := nvr_unregister_state s
    left; rw [h1, h3]
    exact ⟨rfl, List.Sublist.map _ (List.filter_sublist _)⟩
  | ioctl cmd v =>
    have e : nvr_step s (.ioctl cmd v) = ioctl_set s cmd v := rfl
    rw [e]
    left; rw [(ioctl_set_queue s cmd v).1, ioctl_set_seq s cmd v (by simpa [seq_safe] using hop)]
    exact ⟨rfl, List.Sublist.refl _⟩

theorem nvr_step_seq_le (s : nvr_state) (op : nvr_op) (hop : seq_safe op) :
    (nvr_step s op).repitem_seq ≤ s.repitem_seq + 1 := by
  rcases nvr_step_seqs s op hop with ⟨h, _⟩ | ⟨h, _⟩
  · omega
  · rw [h]; exact Nat.mod_le _ _

theorem seq_sorted_step (s : nvr_state) (op : nvr_op) (hop : seq_safe op)
    (hw : s.repitem_seq + 1 < 2 ^ 64) (h : seq_sorted s) : seq_sorted (nvr_step s op) := by
  obtain ⟨hp, hb⟩ := h
  rcases nvr_step_seqs s op hop with ⟨h1, h2⟩ | ⟨h1, h2⟩
  · refine ⟨hp.sublist h2, ?_⟩
    intro x hx
    rw [h1]
    exact hb x (h2.subset hx)
  · rw [Nat.mod_eq_of_lt hw] at h1
    rcases h2 with ⟨h2, _⟩ | ⟨h2, _⟩
    · rw [seq_sorted, h2, h1]
      exact ⟨hp, fun x hx => Nat.le_succ_of_le (hb x hx)⟩
    · rw [seq_sorted, h2, h1]
      constructor
      · rw [List.pairwise_append]
        refine ⟨hp, List.pairwise_singleton _ _, ?_⟩
        intro a ha b hb1
        have : b = s.repitem_seq + 1 := by simpa using hb1
        have := hb a ha
        omega
      · intro x hx
        rcases List.mem_append.1 hx with hx | hx
        · exact Nat.le_succ_of_le (hb x hx)
        · have : x = s.repitem_seq + 1 := by simpa using hx
          omega

theorem seq_absent_step (k : Nat) (s : nvr_state) (op : nvr_op) (hop : seq_safe op)
    (hw : s.repitem_seq + 1 < 2 ^ 64) (h : seq_absent k s) : seq_absent k (nvr_step s op) := by
  obtain ⟨hk, hn⟩ := h
  rcases nvr_step_seqs s op hop with ⟨h1, h2⟩ | ⟨h1, h2⟩
  · exact ⟨by rw [h1]; exact hk, fun hx => hn (h2.subset hx)⟩
  · rw [Nat.mod_eq_of_lt hw] at h1
    rcases h2 with ⟨h2, _⟩ | ⟨h2, _⟩
    · exact ⟨by rw [h1]; omega, by rw [h2]; exact hn⟩
    · refine ⟨by rw [h1]; omega, ?_⟩
      rw [h2, h1]
      intro hx
      rcases List.mem_append.1 hx with hx | hx
      · exact hn hx
      · have : k = s.repitem_seq + 1 := by simpa using hx
        omega

/-- A property kept by every safe call made before the counter wraps is kept by a run
of safe calls that does not wrap the counter. -/
theorem nvr_run_keeps (P : nvr_state → Prop)
    (hstep : ∀ s op, seq_safe op → s.repitem_seq + 1 < 2 ^ 64 → P s → P (nvr_step s op))
    (ops : List nvr_op) (s : nvr_state) (hsafe : ∀ op ∈ ops, seq_safe op)
    (hw : s.repitem_seq + ops.length < 2 ^ 64) (h : P s) :
    P (nvr_run s ops) ∧ (nvr_run s ops).repitem_seq ≤ s.repitem_seq + ops.length := by
  induction ops generalizing s with
  | nil => exact ⟨h, Nat.le_refl _⟩
  | cons op ops ih =>
    rw [nvr_run_cons]
    have hop : seq_safe op := hsafe op (List.mem_cons_self _ _)
    have hle := nvr_step_seq_le s op hop
    simp only [List.length_cons] at hw ⊢
    have := ih (nvr_step s op) (fun o ho => hsafe o (List.mem_cons_of_mem _ ho)) (by omega)
      (hstep s op hop (by omega) h)
    exact ⟨this.1, by omega⟩

theorem pairwise_take_seqs (q : List cdi_record) (n : Nat)
    (h : List.Pairwise (fun a b => a < b) (q.map cdi_record.sequence)) :
    List.Pairwise (fun a b => a < b) ((q.take n).map cdi_record.sequence) :=
  h.sublist (List.Sublist.map _ (List.take_sublist n q))

/-- The bytes written and the status returned by `nvr_register` when it runs the drain
and no copy fails. -/
theorem nvr_register_ok (s : nvr_state) (length : Int)
    (ha : s.replication_active ≠ 0) (hp : s.pause = 0) (hl : 0 < length) :
    nvr_register s (some length) ctu_ok =
      (wrap_s 32 (wire_records (s.nvr_sys_queue.take (drain_count length 0 s.nvr_sys_queue))).length,
       wire_records (s.nvr_sys_queue.take (drain_count length 0 s.nvr_sys_queue)),
       nvr_up
         { (nvr_down s) with
           nvr_sys_queue :=
             (s.nvr_sys_queue.take (drain_count length 0 s.nvr_sys_queue)).map tagged ++
               s.nvr_sys_queue.drop (drain_count length 0 s.nvr_sys_queue) }) := by
  unfold nvr_register
  rw [if_neg ha, if_neg (by simp [hp])]
  simp only []
  rw [if_neg (by omega), register_walk_ok]
  simp [nvr_down]

/-- With copies that never fail, `nvr_register` writes the wire image of a prefix of the
queue, whatever the state and the request. -/
theorem nvr_register_writes_prefix (s : nvr_state) (desc : Option Int) :
    ∃ n, (nvr_register s desc ctu_ok).2.1 = wire_records (s.nvr_sys_queue.take n) := by
  by_cases ha : s.replication_active = 0
  · exact ⟨0, by simp [nvr_register, ha, wire_records]⟩
  by_cases hp : s.pause = 0
  · cases desc with
    | none => exact ⟨0, by simp [nvr_register, ha, hp, wire_records]⟩
    | some length =>
      by_cases hl : 0 < length
      · exact ⟨_, by rw [nvr_register_ok s length ha hp hl]⟩
      · exact ⟨0, by simp [nvr_register, ha, hp, wire_records, not_lt.1 hl]⟩
  · exact ⟨0, by simp [nvr_register, ha, hp, wire_records]⟩

/-- Claim C3. Sequence monotonicity: after any run, from a state with an empty queue, of
enqueues through `nvr_add_name` (`nvr_get_repitem` followed by `nvr_add_queue`), of
`nvr_register`, `nvr_unregister` and of commands other than NVR_SEQUENCE_NUMBER, short
enough for the 64-bit counter not to wrap: the sequence numbers of the queue increase
strictly from head to tail; what a call of `nvr_register` whose copies succeed writes is
the wire image of a prefix of the queue, whose sequence numbers increase strictly; and
the sequence number given to a record that was not linked (dropped, or coalesced away)
is carried by no record of the queue at any later point of the run. -/
theorem sequence_monotone (s0 : nvr_state) (ops : List nvr_op)
    (h0 : s0.nvr_sys_queue = [])
    (hsafe : ∀ op ∈ ops, seq_safe op)
    (hwrap : s0.repitem_seq + ops.length < 2 ^ 64) :
    List.Pairwise (fun a b => a < b)
      ((nvr_run s0 ops).nvr_sys_queue.map cdi_record.sequence) ∧
    (∀ desc, ∃ n,
      (nvr_register (nvr_run s0 ops) desc ctu_ok).2.1
        = wire_records ((nvr_run s0 ops).nvr_sys_queue.take n) ∧
      List.Pairwise (fun a b => a < b)
        (((nvr_run s0 ops).nvr_sys_queue.take n).map cdi_record.sequence)) ∧
    (∀ ops1 op ops2, ops = ops1 ++ op :: ops2 →
      (nvr_step (nvr_run s0 ops1) op).repitem_seq ≠ (nvr_run s0 ops1).repitem_seq →
      (nvr_step (nvr_run s0 ops1) op).nvr_sys_queue.length
        = (nvr_run s0 ops1).nvr_sys_queue.length →
      (nvr_step (nvr_run s0 ops1) op).repitem_seq ∉
        (nvr_run s0 ops).nvr_sys_queue.map cdi_record.sequence) := by
  have hs0 : seq_sorted s0 := by
    unfold seq_sorted
    rw [h0]
    exact ⟨List.Pairwise.nil, fun x hx => absurd hx (List.not_mem_nil x)⟩
  have hfin := (nvr_run_keeps seq_sorted seq_sorted_step ops s0 hsafe hwrap hs0).1
  refine ⟨hfin.1, ?_, ?_⟩
  · intro desc
    obtain ⟨n, hn⟩ := nvr_register_writes_prefix (nvr_run s0 ops) desc
    exact ⟨n, hn, pairwise_take_seqs _ n hfin.1⟩
  · intro ops1 op ops2 hops hseq hlen
    have hlen_ops : ops.length = ops1.length + (ops2.length + 1) := by
      rw [hops]; simp
    have hsafe1 : ∀ o ∈ ops1, seq_safe o := fun o ho =>
      hsafe o (by rw [hops]; exact List.mem_append_left _ ho)
    have hop : seq_safe op := hsafe op (by rw [hops]; simp)
    have hsafe2 : ∀ o ∈ ops2, seq_safe o := fun o ho =>
      hsafe o (by rw [hops]; exact List.mem_append_right _ (List.mem_cons_of_mem _ ho))
    obtain ⟨h1s, h1b⟩ := nvr_run_keeps seq_sorted seq_sorted_step ops1 s0 hsafe1 (by omega) hs0
    have hw1 : (nvr_run s0 ops1).repitem_seq + 1 < 2 ^ 64 := by omega
    have habs : seq_absent (nvr_step (nvr_run s0 ops1) op).repitem_seq
        (nvr_step (nvr_run s0 ops1) op) := by
      rcases nvr_step_seqs (nvr_run s0 ops1) op hop with ⟨h1, _⟩ | ⟨h1, h2⟩
      · exact absurd h1 hseq
      · rw [Nat.mod_eq_of_lt hw1] at h1
        rcases h2 with ⟨h2, _⟩ | ⟨_, h2⟩
        · refine ⟨Nat.le_refl _, ?_⟩
          rw [h2, h1]
          intro hx
          have := h1s.2 _ hx
          omega
        · omega
    have hrun : nvr_run s0 ops = nvr_run (nvr_step (nvr_run s0 ops1) op) ops2 := by
      rw [hops, nvr_run_append, nvr_run_cons]
    have hle := nvr_step_seq_le (nvr_run s0 ops1) op hop
    rw [hrun]
    exact (nvr_run_keeps (seq_absent (nvr_step (nvr_run s0 ops1) op).repitem_seq)
      (seq_absent_step _) ops2 _ hsafe2 (by omega) habs).1.2

theorem sample_ops_safe : ∀ op ∈ sample_ops, seq_safe op := by
  intro op hop
  simp only [sample_ops, List.mem_cons, List.mem_singleton, List.not_mem_nil, or_false] at hop
  rcases hop with h | h | h | h | h | h | h | h <;> rw [h] <;>
    simp [seq_safe, NVR_SET_ACTIVE, NVR_SEQUENCE_NUMBER]

/-- Witness of `sequence_monotone`: the sample run from the initial state. -/
theorem sequence_monotone_witness :
    List.Pairwise (fun a b => a < b)
      ((nvr_run nvr_init sample_ops).nvr_sys_queue.map cdi_record.sequence) ∧
    (∀ desc, ∃ n,
      (nvr_register (nvr_run nvr_init sample_ops) desc ctu_ok).2.1
        = wire_records ((nvr_run nvr_init sample_ops).nvr_sys_queue.take n) ∧
      List.Pairwise (fun a b => a < b)
        (((nvr_run nvr_init sample_ops).nvr_sys_queue.take n).map cdi_record.sequence)) ∧
    (∀ ops1 op ops2, sample_ops = ops1 ++ op :: ops2 →
      (nvr_step (nvr_run nvr_init ops1) op).repitem_seq ≠ (nvr_run nvr_init ops1).repitem_seq →
      (nvr_step (nvr_run nvr_init ops1) op).nvr_sys_queue.length
        = (nvr_run nvr_init ops1).nvr_sys_queue.length →
      (nvr_step (nvr_run nvr_init ops1) op).repitem_seq ∉
        (nvr_run nvr_init sample_ops).nvr_sys_queue.map cdi_record.sequence) :=
  sequence_monotone nvr_init sample_ops (by rfl) sample_ops_safe (by decide)

theorem wire_total_take_succ (r : cdi_record) (rest : List cdi_record) (k : Nat) :
    wire_total ((r :: rest).take (k + 1)) = wire_size r + wire_total (rest.take k) := rfl

/-- Record `k` of the list is among the records a drain serializes exactly when the
bytes of the records up to and including it stay strictly below the capacity. -/
theorem drain_count_iff (length : Int) (off : Nat) (q : List cdi_record) (k : Nat)
    (hk : k < q.length) :
    k < drain_count length off q ↔ ((off + wire_total (q.take (k + 1)) : Nat) : Int) < length := by
  induction q generalizing off k with
  | nil => simp at hk
  | cons r rest ih =>
    unfold drain_count
    rw [wire_total_take_succ, wire_size_eq]
    by_cases h : ((off + rec_size r : Nat) : Int) ≥ length
    · rw [if_pos h]
      constructor
      · intro h0; omega
      · intro h1; push_cast at h h1; omega
    · rw [if_neg h]
      cases k with
      | zero =>
        simp only [List.take_zero, wire_total]
        constructor
        · intro _; push_cast at h ⊢; omega
        · intro _; omega
      | succ k =>
        have hk1 : k < rest.length := by simpa using hk
        have := ih (off + rec_size r) k hk1
        constructor
        · intro h0
          have := this.1 (by omega)
          push_cast at this ⊢; omega
        · intro h1
          have := this.2 (by push_cast at h1 ⊢; omega)
          omega

theorem drain_count_le (length : Int) (off : Nat) (q : List cdi_record) :
    drain_count length off q ≤ q.length := by
  induction q generalizing off with
  | nil => simp [drain_count]
  | cons r rest ih =>
    unfold drain_count
    split
    · omega
    · have := ih (off + rec_size r); simp only [List.length_cons]; omega

/-- What a drain serializes stays strictly below the capacity. -/
theorem drain_total_lt (length : Int) (off : Nat) (q : List cdi_record)
    (h : (off : Int) < length) :
    ((off + wire_total (q.take (drain_count length off q)) : Nat) : Int) < length := by
  induction q generalizing off with
  | nil => simpa [drain_count, wire_total] using h
  | cons r rest ih =>
    unfold drain_count
    by_cases hc : ((off + rec_size r : Nat) : Int) ≥ length
    · rw [if_pos hc]; simpa [wire_total] using h
    · rw [if_neg hc, wire_total_take_succ, wire_size_eq]
      have := ih (off + rec_size r) (by omega)
      push_cast at this ⊢; omega

/-- Claim C5. Drain wire format: when replication is active, pause is 0, the request
descriptor is read with a capacity `length > 0` (an `int`, so below 2^31) and every copy
to user space succeeds, `nvr_register` writes the wire images of the first `n` records
of the queue, in queue order: for each the 8-byte sequence, 8-byte timestamp, 4-byte
type, 4-byte path length, the path bytes, 4-byte payload length and the payload bytes
(none when the payload length is 0). The number `n` is fixed by the capacity: record `k`
(counted from 0) is written exactly when the images of the records up to and including
it take fewer bytes than the capacity. These `n` records are the ones it tags; its
return value is the number of bytes written, which is the sum over these records of
28 + path length + payload length. -/
theorem drain_wire_format (s : nvr_state) (length : Int)
    (ha : s.replication_active ≠ 0) (hp : s.pause = 0)
    (hl : 0 < length) (hint : length < 2 ^ 31) :
    ∃ n, n ≤ s.nvr_sys_queue.length ∧
      (∀ k, k < s.nvr_sys_queue.length →
        (k < n ↔ ((wire_total (s.nvr_sys_queue.take (k + 1)) : Nat) : Int) < length)) ∧
      (nvr_register s (some length) ctu_ok).2.1 = wire_records (s.nvr_sys_queue.take n) ∧
      (nvr_register s (some length) ctu_ok).1
        = ((nvr_register s (some length) ctu_ok).2.1.length : Nat) ∧
      (nvr_register s (some length) ctu_ok).1 = (wire_total (s.nvr_sys_queue.take n) : Nat) ∧
      (nvr_register s (some length) ctu_ok).2.2.nvr_sys_queue
        = (s.nvr_sys_queue.take n).map tagged ++ s.nvr_sys_queue.drop n := by
  refine ⟨drain_count length 0 s.nvr_sys_queue, drain_count_le _ _ _, ?_, ?_⟩
  · intro k hk
    have h := drain_count_iff length 0 s.nvr_sys_queue k hk
    rw [Nat.zero_add] at h
    exact h
  rw [nvr_register_ok s length ha hp hl]
  have hlt := drain_total_lt length 0 s.nvr_sys_queue (by simpa using hl)
  rw [Nat.zero_add] at hlt
  have hw : wrap_s 32 ((wire_records
      (s.nvr_sys_queue.take (drain_count length 0 s.nvr_sys_queue))).length : Nat)
      = ((wire_records
      (s.nvr_sys_queue.take (drain_count length 0 s.nvr_sys_queue))).length : Nat) := by
    rw [wire_records_length]
    exact wrap_s_32_of_range _ (by omega) (by omega)
  refine ⟨rfl, hw, ?_, rfl⟩
  show wrap_s 32 _ = _
  rw [hw, wire_records_length]

/-- Witness of `drain_wire_format`: a queue of a write record (52 bytes on the wire) and a
metadata record without payload (31 bytes). Drained with a capacity of 64 bytes, the
theorem gives `n = 1`: the buffer holds the wire image of the write record, the status
is 52, and that record alone is tagged. Drained with a capacity of 100 bytes, it gives
`n = 2`: the buffer holds both images, the status is 83, and both records are tagged. -/
theorem drain_wire_format_witness :
    ((nvr_register (sample_state [sample_write 1 1000 0 15, sample_note 2 1001 97])
        (some 64) ctu_ok).2.1 = wire_record (sample_write 1 1000 0 15) ∧
      (nvr_register (sample_state [sample_write 1 1000 0 15, sample_note 2 1001 97])
        (some 64) ctu_ok).1 = 52 ∧
      (nvr_register (sample_state [sample_write 1 1000 0 15, sample_note 2 1001 97])
        (some 64) ctu_ok).2.2.nvr_sys_queue
        = [tagged (sample_write 1 1000 0 15), sample_note 2 1001 97]) ∧
    ((nvr_register (sample_state [sample_write 1 1000 0 15, sample_note 2 1001 97])
        (some 100) ctu_ok).2.1
        = wire_record (sample_write 1 1000 0 15) ++ wire_record (sample_note 2 1001 97) ∧
      (nvr_register (sample_state [sample_write 1 1000 0 15, sample_note 2 1001 97])
        (some 100) ctu_ok).1 = 83 ∧
      (nvr_register (sample_state [sample_write 1 1000 0 15, sample_note 2 1001 97])
        (some 100) ctu_ok).2.2.nvr_sys_queue
        = [tagged (sample_write 1 1000 0 15), tagged (sample_note 2 1001 97)]) := by
  constructor
  · obtain ⟨n, _, hiff, hout, _, hret, hq⟩ :=
      drain_wire_format (sample_state [sample_write 1 1000 0 15, sample_note 2 1001 97]) 64
        (by decide) (by rfl) (by decide) (by decide)
    have h0 : 0 < n := (hiff 0 (by decide)).2 (by decide)
    have h1 : ¬ 1 < n := fun h => absurd ((hiff 1 (by decide)).1 h) (by decide)
    have hn1 : n = 1 := by omega
    subst hn1
    exact ⟨by rw [hout]; decide, by rw [hret]; decide, by rw [hq]; rfl⟩
  · obtain ⟨n, hn, hiff, hout, _, hret, hq⟩ :=
      drain_wire_format (sample_state [sample_write 1 1000 0 15, sample_note 2 1001 97]) 100
        (by decide) (by rfl) (by decide) (by decide)
    have h1 : 1 < n := (hiff 1 (by decide)).2 (by decide)
    have h2 : n ≤ 2 := hn
    have hn2 : n = 2 := by omega
    subst hn2
    exact ⟨by rw [hout]; decide, by rw [hret]; decide, by rw [hq]; rfl⟩

/-- Claim C6, refuted as stated: a record whose serialized size (31 bytes) exactly equals
the remaining capacity (31 bytes, nothing written yet) is not written: `nvr_register`
returns 0, writes nothing and tags nothing. -/
theorem drain_exact_fit_counterexample :
    ((0 + wire_size (sample_note 1 1000 97) : Nat) : Int) ≤ 31 ∧
    (nvr_register (sample_state [sample_note 1 1000 97]) (some 31) ctu_ok).1 = 0 ∧
    (nvr_register (sample_state [sample_note 1 1000 97]) (some 31) ctu_ok).2.1 = [] ∧
    (nvr_register (sample_state [sample_note 1 1000 97]) (some 31) ctu_ok).2.2.nvr_sys_queue
      = [sample_note 1 1000 97] := by
  decide

/-- Claim C6, amended: when the drain runs and no copy fails, `nvr_register` serializes
the records from the head and stops at the first one that does not fit, where a record
fits exactly when the bytes already written plus its serialized size are strictly below
the capacity: the record at position `k` is among the `n` records written if and only if
the serialized sizes of the records up to and including it sum to less than `length`. -/
theorem drain_budget_boundary (s : nvr_state) (length : Int)
    (ha : s.replication_active ≠ 0) (hp : s.pause = 0) (hl : 0 < length) :
    ∃ n, n ≤ s.nvr_sys_queue.length ∧
      (nvr_register s (some length) ctu_ok).2.1 = wire_records (s.nvr_sys_queue.take n) ∧
      (nvr_register s (some length) ctu_ok).2.2.nvr_sys_queue
        = (s.nvr_sys_queue.take n).map tagged ++ s.nvr_sys_queue.drop n ∧
      ∀ k, k < s.nvr_sys_queue.length →
        (k < n ↔ ((wire_total (s.nvr_sys_queue.take (k + 1)) : Nat) : Int) < length) := by
  refine ⟨drain_count length 0 s.nvr_sys_queue, drain_count_le _ _ _, ?_⟩
  rw [nvr_register_ok s length ha hp hl]
  refine ⟨rfl, rfl, ?_⟩
  intro k hk
  have := drain_count_iff length 0 s.nvr_sys_queue k hk
  rw [Nat.zero_add] at this
  exact this

/-- Witness of `drain_budget_boundary`: two records of 31 bytes each and a capacity of 62
bytes; the first record is written, the second, which would fill the buffer exactly, is
not. -/
theorem drain_budget_boundary_witness :
    ∃ n, n ≤ (sample_state [sample_note 1 1000 97, sample_note 2 1001 98]).nvr_sys_queue.length ∧
      (nvr_register (sample_state [sample_note 1 1000 97, sample_note 2 1001 98])
          (some 62) ctu_ok).2.1
        = wire_records ((sample_state
            [sample_note 1 1000 97, sample_note 2 1001 98]).nvr_sys_queue.take n) ∧
      (nvr_register (sample_state [sample_note 1 1000 97, sample_note 2 1001 98])
          (some 62) ctu_ok).2.2.nvr_sys_queue
        = ((sample_state
            [sample_note 1 1000 97, sample_note 2 1001 98]).nvr_sys_queue.take n).map tagged ++
          (sample_state [sample_note 1 1000 97, sample_note 2 1001 98]).nvr_sys_queue.drop n ∧
      ∀ k, k < (sample_state
            [sample_note 1 1000 97, sample_note 2 1001 98]).nvr_sys_queue.length →
        (k < n ↔ ((wire_total ((sample_state
            [sample_note 1 1000 97, sample_note 2 1001 98]).nvr_sys_queue.take (k + 1)) : Nat)
              : Int) < 62) :=
  drain_budget_boundary (sample_state [sample_note 1 1000 97, sample_note 2 1001 98]) 62
    (by decide) (by rfl) (by decide)

theorem wire_record_tagged (r : cdi_record) : wire_record (tagged r) = wire_record r := rfl

theorem map_wire_record_tagged (q : List cdi_record) (n : Nat) :
    ((q.take n).map tagged ++ q.drop n).map wire_record = q.map wire_record := by
  rw [List.map_append, List.map_map]
  have : wire_record ∘ tagged = wire_record := funext wire_record_tagged
  rw [this, ← List.map_append, List.take_append_drop]

/-- The wire image of a prefix depends on the records' wire images only. -/
theorem wire_records_take_congr (q q1 : List cdi_record) (m : Nat)
    (h : q1.map wire_record = q.map wire_record) :
    wire_records (q1.take m) = wire_records (q.take m) := by
  induction q generalizing q1 m with
  | nil =>
    have : q1 = [] := by simpa using h
    rw [this]
  | cons r rest ih =>
    cases q1 with
    | nil => simp at h
    | cons r1 rest1 =>
      simp only [List.map_cons, List.cons.injEq] at h
      cases m with
      | zero => rfl
      | succ m =>
        simp only [List.take_succ_cons, wire_records]
        rw [h.1, ih rest1 m h.2]

/-- The number of records a drain serializes depends on the records' wire images only. -/
theorem drain_count_congr (length : Int) (off : Nat) (q q1 : List cdi_record)
    (h : q1.map wire_record = q.map wire_record) :
    drain_count length off q1 = drain_count length off q := by
  induction q generalizing q1 off with
  | nil =>
    have : q1 = [] := by simpa using h
    rw [this]
  | cons r rest ih =>
    cases q1 with
    | nil => simp at h
    | cons r1 rest1 =>
      simp only [List.map_cons, List.cons.injEq] at h
      have hs : rec_size r1 = rec_size r := by
        rw [← wire_record_length, ← wire_record_length, h.1]
      unfold drain_count
      rw [hs, ih (off + rec_size r) rest1 h.2]

theorem drain_count_mono (l1 l2 : Int) (h : l1 ≤ l2) (off : Nat) (q : List cdi_record) :
    drain_count l1 off q ≤ drain_count l2 off q := by
  induction q generalizing off with
  | nil => simp [drain_count]
  | cons r rest ih =>
    unfold drain_count
    by_cases h1 : ((off + rec_size r : Nat) : Int) ≥ l1
    · rw [if_pos h1]; exact Nat.zero_le _
    · rw [if_neg h1, if_neg (by omega)]
      exact Nat.succ_le_succ (ih (off + rec_size r))

theorem wire_records_take_prefix (q : List cdi_record) (n m : Nat) (h : n ≤ m) :
    wire_records (q.take n) <+: wire_records (q.take m) := by
  have h1 : q.take n = (q.take m).take n := by
    rw [List.take_take, Nat.min_eq_left h]
  have h2 : q.take m = (q.take m).take n ++ (q.take m).drop n := (List.take_append_drop _ _).symm
  rw [h2, wire_records_append, ← h1]
  exact List.prefix_append _ _

/-- Claim C7, refuted as stated: a first `nvr_register` with capacity 32 serializes and
tags the first of two records; a second `nvr_register` with capacity 100, with no
`nvr_unregister` in between, serializes that tagged record again, ahead of the untagged
one. -/
theorem drain_skips_assigned_counterexample :
    (nvr_register (sample_state [sample_note 1 1000 97, sample_note 2 1001 98])
        (some 32) ctu_ok).2.1 = wire_record (sample_note 1 1000 97) ∧
    (nvr_register (sample_state [sample_note 1 1000 97, sample_note 2 1001 98])
        (some 32) ctu_ok).2.2.nvr_sys_queue
      = [tagged (sample_note 1 1000 97), sample_note 2 1001 98] ∧
    (tagged (sample_note 1 1000 97)).pid = 1 ∧
    (nvr_register
        (nvr_register (sample_state [sample_note 1 1000 97, sample_note 2 1001 98])
          (some 32) ctu_ok).2.2 (some 100) ctu_ok).2.1
      = wire_record (tagged (sample_note 1 1000 97)) ++ wire_record (sample_note 2 1001 98) := by
  decide

/-- Claim C7, amended: the tags play no part in the drain. After a first `nvr_register`
that ran, a second `nvr_register` with no `nvr_unregister` in between walks the queue
from its head again, tagged records included: it writes the bytes and returns the status
it would have given on the queue before the first call, so when its capacity is not
smaller than the first call's, its output starts with the whole output of the first
call. -/
theorem drain_ignores_tags (s : nvr_state) (l1 l2 : Int)
    (ha : s.replication_active ≠ 0) (hp : s.pause = 0) (h1 : 0 < l1) (h2 : 0 < l2) :
    (nvr_register (nvr_register s (some l1) ctu_ok).2.2 (some l2) ctu_ok).2.1
      = (nvr_register s (some l2) ctu_ok).2.1 ∧
    (nvr_register (nvr_register s (some l1) ctu_ok).2.2 (some l2) ctu_ok).1
      = (nvr_register s (some l2) ctu_ok).1 ∧
    (l1 ≤ l2 →
      (nvr_register s (some l1) ctu_ok).2.1 <+:
        (nvr_register (nvr_register s (some l1) ctu_ok).2.2 (some l2) ctu_ok).2.1) := by
  have hq := map_wire_record_tagged s.nvr_sys_queue (drain_count l1 0 s.nvr_sys_queue)
  have key : (nvr_register (nvr_register s (some l1) ctu_ok).2.2 (some l2) ctu_ok).2.1
      = (nvr_register s (some l2) ctu_ok).2.1 ∧
    (nvr_register (nvr_register s (some l1) ctu_ok).2.2 (some l2) ctu_ok).1
      = (nvr_register s (some l2) ctu_ok).1 := by
    rw [nvr_register_ok s l1 ha hp h1, nvr_register_ok s l2 ha hp h2,
      nvr_register_ok _ l2 (by simpa [nvr_up, nvr_down] using ha)
        (by simpa [nvr_up, nvr_down] using hp) h2]
    simp only [nvr_up, nvr_down]
    rw [drain_count_congr l2 0 _ _ hq, wire_records_take_congr _ _ _ hq]
    exact ⟨rfl, rfl⟩
  refine ⟨key.1, key.2, ?_⟩
  intro hle
  rw [key.1, nvr_register_ok s l1 ha hp h1, nvr_register_ok s l2 ha hp h2]
  exact wire_records_take_prefix _ _ _ (drain_count_mono l1 l2 hle 0 _)

/-- Witness of `drain_ignores_tags`: two records, a first drain of capacity 32 and a
second of capacity 100. -/
theorem drain_ignores_tags_witness :
    (nvr_register (nvr_register (sample_state [sample_note 1 1000 97, sample_note 2 1001 98])
        (some 32) ctu_ok).2.2 (some 100) ctu_ok).2.1
      = (nvr_register (sample_state [sample_note 1 1000 97, sample_note 2 1001 98])
        (some 100) ctu_ok).2.1 ∧
    (nvr_register (nvr_register (sample_state [sample_note 1 1000 97, sample_note 2 1001 98])
        (some 32) ctu_ok).2.2 (some 100) ctu_ok).1
      = (nvr_register (sample_state [sample_note 1 1000 97, sample_note 2 1001 98])
        (some 100) ctu_ok).1 ∧
    ((32 : Int) ≤ 100 →
      (nvr_register (sample_state [sample_note 1 1000 97, sample_note 2 1001 98])
        (some 32) ctu_ok).2.1 <+:
        (nvr_register (nvr_register (sample_state [sample_note 1 1000 97, sample_note 2 1001 98])
          (some 32) ctu_ok).2.2 (some 100) ctu_ok).2.1) :=
  drain_ignores_tags (sample_state [sample_note 1 1000 97, sample_note 2 1001 98]) 32 100
    (by decide) (by rfl) (by decide) (by decide)

/-- Claim C8. release_assigned: for every state, `nvr_unregister` returns 0 and leaves
the queue equal to the former queue without its records tagged `pid = 1`, the other
records staying in their order and unchanged; `nvr_sys_queue_count` decreases by the
number of removed records, which is the number by which the queue got shorter. -/
theorem release_assigned (s : nvr_state) :
    (nvr_unregister s).1 = 0 ∧
    (nvr_unregister s).2.nvr_sys_queue = s.nvr_sys_queue.filter (fun r => decide (r.pid ≠ 1)) ∧
    (nvr_unregister s).2.nvr_sys_queue_count =
      s.nvr_sys_queue_count -
        ((s.nvr_sys_queue.filter (fun r => decide (r.pid = 1))).length : Nat) ∧
    (nvr_unregister s).2.nvr_sys_queue.length +
        (s.nvr_sys_queue.filter (fun r => decide (r.pid = 1))).length
      = s.nvr_sys_queue.length ∧
    (∀ r ∈ (nvr_unregister s).2.nvr_sys_queue, r.pid ≠ 1) := by
  obtain ⟨h1, h2, _⟩ := nvr_unregister_state s
  refine ⟨rfl, h1, h2, ?_, ?_⟩
  · rw [h1]; exact filter_pid_length s.nvr_sys_queue
  · intro r hr
    rw [h1] at hr
    simpa using (List.mem_filter.1 hr).2

theorem coalesce_writes_claimed (q : List cdi_record) (l r : cdi_record) (h : l.pid ≠ -1) :
    coalesce_writes (q ++ [l]) r = (false, q ++ [l]) := by
  unfold coalesce_writes
  by_cases ht : r.type ≠ TYPE_DATA
  · rw [if_pos ht]
  · rw [if_neg ht, getLast_snoc]
    simp only []
    rw [if_pos h]

theorem coalesce_sizes_claimed (q : List cdi_record) (l r : cdi_record) (h : l.pid ≠ -1) :
    coalesce_sizes (q ++ [l]) r = (false, q ++ [l]) := by
  unfold coalesce_sizes
  by_cases ht : r.type ≠ TYPE_SIZE
  · rw [if_pos ht]
  · rw [if_neg ht, getLast_snoc]
    simp only []
    rw [if_pos h]

/-- Claim C9. Coalescing never touches a claimed record: when the tail of the queue has
been tagged by a drain (`pid ≠ -1`), every record that `nvr_add_queue` admits, whatever
its type, path and payload (so also a DataWrite contiguous with the tail or a SizeChange
not smaller than it), is appended as a separate record: the former records, the tail and
its payload included, are unchanged and the count increases by 1. -/
theorem claimed_tail_untouched (s : nvr_state) (comm : String) (q : List cdi_record)
    (l r : cdi_record)
    (hq : s.nvr_sys_queue = q ++ [l]) (hpid : l.pid ≠ -1) (hadm : admitted s comm r) :
    (nvr_add_queue s comm r).nvr_sys_queue = q ++ [l] ++ [r] ∧
    (nvr_add_queue s comm r).nvr_sys_queue_count = s.nvr_sys_queue_count + 1 := by
  have := nvr_add_queue_append s comm r hadm
    (by rw [hq, coalesce_writes_claimed q l r hpid])
    (by rw [hq, coalesce_sizes_claimed q l r hpid])
  rw [hq] at this
  exact this

/-- Witness of `claimed_tail_untouched`: the tail (0, 10) on "/data/x" has been drained;
the contiguous write (10, 5) on the same path is appended, not merged. -/
theorem claimed_tail_untouched_witness :
    (nvr_add_queue (sample_state [tagged (sample_write 1 1000 0 10)]) "dd"
        (sample_write 2 1001 10 5)).nvr_sys_queue
      = [] ++ [tagged (sample_write 1 1000 0 10)] ++ [sample_write 2 1001 10 5] ∧
    (nvr_add_queue (sample_state [tagged (sample_write 1 1000 0 10)]) "dd"
        (sample_write 2 1001 10 5)).nvr_sys_queue_count
      = (sample_state [tagged (sample_write 1 1000 0 10)]).nvr_sys_queue_count + 1 :=
  claimed_tail_untouched (sample_state [tagged (sample_write 1 1000 0 10)]) "dd" []
    (tagged (sample_write 1 1000 0 10)) (sample_write 2 1001 10 5)
    (by rfl) (by decide) (by decide)

theorem type_data_ne_size : TYPE_DATA ≠ TYPE_SIZE := by decide

/-- The decision of `coalesce_writes` on an unclaimed DataWrite tail of the same path,
with the offsets and lengths read from the two payloads. -/
theorem coalesce_writes_snoc (q : List cdi_record) (l r : cdi_record)
    (hpid : l.pid = -1) (hlt : l.type = TYPE_DATA) (hrt : r.type = TYPE_DATA)
    (hname : l.name = r.name) :
    coalesce_writes (q ++ [l]) r =
      if rd_i64 l.buf 0 = rd_i64 r.buf 0 ∧
          (rd_i32 l.buf 8 = rd_i32 r.buf 8 ∨ rd_i32 l.buf 8 > rd_i32 r.buf 8) then
        (true, q ++ [l])
      else if rd_i64 l.buf 0 < rd_i64 r.buf 0 ∧
          wrap_s 64 (rd_i64 l.buf 0 + rd_i32 l.buf 8)
            > wrap_s 64 (rd_i64 r.buf 0 + rd_i32 r.buf 8) then
        (true, q ++ [l])
      else if wrap_s 64 (rd_i64 l.buf 0 + rd_i32 l.buf 8) ≠ rd_i64 r.buf 0 then
        (false, q ++ [l])
      else
        (true, q ++ [{ l with
          buf := wr_bytes l.buf 8 (int_bytes 4 (wrap_s 32 (rd_i32 l.buf 8 + rd_i32 r.buf 8))) }]) := by
  have hnd : name_differs l r = false := (name_differs_eq_false l r).2 hname
  unfold coalesce_writes
  rw [getLast_snoc]
  simp only [hrt, ne_eq, not_true_eq_false, if_false, hpid, hlt, hnd, Bool.false_eq_true,
    List.dropLast_concat]

/-- Claim C10, refuted as stated: the tail is the unclaimed write (10, 5) on "/data/x" and
the new write (0, 100) on the same path contains it in both directions (0 < 10 and
100 > 15); the new record is not discarded, it is appended. -/
theorem containing_write_counterexample :
    (nvr_add_queue (sample_state [sample_write 1 1000 10 5]) "dd"
        (sample_write 2 1001 0 100)).nvr_sys_queue
      = [sample_write 1 1000 10 5, sample_write 2 1001 0 100] ∧
    (nvr_add_queue (sample_state [sample_write 1 1000 10 5]) "dd"
        (sample_write 2 1001 0 100)).nvr_sys_queue
      ≠ (sample_state [sample_write 1 1000 10 5]).nvr_sys_queue := by
  decide

/-- The discard rule of `coalesce_writes` on ranges: with an unclaimed DataWrite tail of
payload (`o1`, `n1`) and an admitted DataWrite record for the same path of payload
(`o2`, `n2`) whose range lies strictly inside the old one, the new record is discarded
and the queue is unchanged. -/
theorem inner_write_discarded (s : nvr_state) (comm : String) (q : List cdi_record)
    (l r : cdi_record) (o1 n1 o2 n2 : Int)
    (hq : s.nvr_sys_queue = q ++ [l])
    (hpid : l.pid = -1) (hlt : l.type = TYPE_DATA) (hrt : r.type = TYPE_DATA)
    (hname : l.name = r.name)
    (hlo : rd_i64 l.buf 0 = o1) (hln : rd_i32 l.buf 8 = n1)
    (hro : rd_i64 r.buf 0 = o2) (hrn : rd_i32 r.buf 8 = n2)
    (hn1 : 0 ≤ n1) (hn2 : 0 ≤ n2)
    (h1 : o1 < o2) (h2 : o1 + n1 > o2 + n2) (h3 : o1 + n1 < 2 ^ 63)
    (hadm : admitted s comm r) :
    (nvr_add_queue s comm r).nvr_sys_queue = q ++ [l] ∧
    (nvr_add_queue s comm r).nvr_sys_queue_count = s.nvr_sys_queue_count := by
  have hcw := coalesce_writes_snoc q l r hpid hlt hrt hname
  rw [hlo, hln, hro, hrn] at hcw
  have ho1 : -(2 ^ 63) ≤ o1 ∧ o1 < 2 ^ 63 := by rw [← hlo]; exact wrap_s_64_range _
  have ho2 : -(2 ^ 63) ≤ o2 ∧ o2 < 2 ^ 63 := by rw [← hro]; exact wrap_s_64_range _
  have hw1 : wrap_s 64 (o1 + n1) = o1 + n1 := wrap_s_64_of_range _ (by omega) h3
  have hw2 : wrap_s 64 (o2 + n2) = o2 + n2 := wrap_s_64_of_range _ (by omega) (by omega)
  rw [hw1, hw2, if_neg (by omega), if_pos ⟨h1, h2⟩] at hcw
  have := nvr_add_queue_writes s comm r hadm (by rw [hq, hcw])
  rw [hq, hcw] at this
  exact this

/-- Claim C10, amended: when the tail of the queue is an unclaimed DataWrite record for a
path, of payload (`o1`, `n1`) with `0 ≤ n1`, and `nvr_add_queue` admits a DataWrite
record for the same path of payload (`o2`, `n2`) whose range contains the old one in
both directions (`o2 < o1` and `o2 + n2 > o1 + n1`, its end a representable offset),
the new record is appended as a separate record: the old record, its offset and length
included, is unchanged and the count increases by 1. -/
theorem containing_write_appended (s : nvr_state) (comm : String) (q : List cdi_record)
    (l r : cdi_record) (o1 n1 o2 n2 : Int)
    (hq : s.nvr_sys_queue = q ++ [l])
    (hpid : l.pid = -1) (hlt : l.type = TYPE_DATA) (hrt : r.type = TYPE_DATA)
    (hname : l.name = r.name)
    (hlo : rd_i64 l.buf 0 = o1) (hln : rd_i32 l.buf 8 = n1)
    (hro : rd_i64 r.buf 0 = o2) (hrn : rd_i32 r.buf 8 = n2)
    (hn1 : 0 ≤ n1)
    (h1 : o2 < o1) (h2 : o2 + n2 > o1 + n1) (h3 : o2 + n2 < 2 ^ 63)
    (hadm : admitted s comm r) :
    (nvr_add_queue s comm r).nvr_sys_queue = q ++ [l] ++ [r] ∧
    (nvr_add_queue s comm r).nvr_sys_queue_count = s.nvr_sys_queue_count + 1 := by
  have hcw := coalesce_writes_snoc q l r hpid hlt hrt hname
  rw [hlo, hln, hro, hrn] at hcw
  have ho1 : -(2 ^ 63) ≤ o1 ∧ o1 < 2 ^ 63 := by rw [← hlo]; exact wrap_s_64_range _
  have hw1 : wrap_s 64 (o1 + n1) = o1 + n1 := wrap_s_64_of_range _ (by omega) (by omega)
  rw [hw1, if_neg (by omega), if_neg (by omega), if_pos (by omega)] at hcw
  have := nvr_add_queue_append s comm r hadm (by rw [hq, hcw])
    (by rw [coalesce_sizes_other_type _ _ (by rw [hrt]; exact type_data_ne_size)])
  rw [hq] at this
  exact this

/-- Witness of `containing_write_appended`: the tail (10, 5) and the new write (0, 100). -/
theorem containing_write_appended_witness :
    (nvr_add_queue (sample_state [sample_write 1 1000 10 5]) "dd"
        (sample_write 2 1001 0 100)).nvr_sys_queue
      = [] ++ [sample_write 1 1000 10 5] ++ [sample_write 2 1001 0 100] ∧
    (nvr_add_queue (sample_state [sample_write 1 1000 10 5]) "dd"
        (sample_write 2 1001 0 100)).nvr_sys_queue_count
      = (sample_state [sample_write 1 1000 10 5]).nvr_sys_queue_count + 1 :=
  containing_write_appended (sample_state [sample_write 1 1000 10 5]) "dd" []
    (sample_write 1 1000 10 5) (sample_write 2 1001 0 100) 10 5 0 100
    (by rfl) (by rfl) (by rfl) (by rfl) (by rfl) (by decide) (by decide) (by decide)
    (by decide) (by decide) (by decide) (by decide) (by decide) (by decide)

/-- Claim C11, refuted as stated: the tail is the unclaimed write (0, 20) on "/data/x" and
the new write on the same path is (5, 5), which has another offset, does not contain the
old range and does not start at its end 20; the new record is not appended, it is
discarded and the queue is unchanged. -/
theorem unmatched_write_counterexample :
    ¬ ((5 : Int) = 0 ∧ (5 : Int) ≤ 20) ∧
    ¬ ((5 : Int) < 0 ∧ (5 : Int) + 5 > 0 + 20) ∧
    ¬ ((0 : Int) + 20 = 5) ∧
    (nvr_add_queue (sample_state [sample_write 1 1000 0 20]) "dd"
        (sample_write 2 1001 5 5)).nvr_sys_queue
      = [sample_write 1 1000 0 20] ∧
    (nvr_add_queue (sample_state [sample_write 1 1000 0 20]) "dd"
        (sample_write 2 1001 5 5)).nvr_sys_queue_count = 1 := by
  decide

/-- Claim C11, amended: when the tail of the queue is an unclaimed DataWrite record for a
path, of payload (`o1`, `n1`), and `nvr_add_queue` admits a DataWrite record for the same
path of payload (`o2`, `n2`), lengths not negative and the ends of both ranges
representable offsets, that is in none of the three relationships (a) `o2 = o1` and
`n2 ≤ n1`, (b) the new range lies strictly inside the old one (`o1 < o2` and
`o1 + n1 > o2 + n2`), (c) `o1 + n1 = o2`, then the new record is appended to the tail
unmodified, the count increases by 1 and every earlier record is unchanged. -/
theorem unmatched_write_appended (s : nvr_state) (comm : String) (q : List cdi_record)
    (l r : cdi_record) (o1 n1 o2 n2 : Int)
    (hq : s.nvr_sys_queue = q ++ [l])
    (hpid : l.pid = -1) (hlt : l.type = TYPE_DATA) (hrt : r.type = TYPE_DATA)
    (hname : l.name = r.name)
    (hlo : rd_i64 l.buf 0 = o1) (hln : rd_i32 l.buf 8 = n1)
    (hro : rd_i64 r.buf 0 = o2) (hrn : rd_i32 r.buf 8 = n2)
    (hn1 : 0 ≤ n1) (hn2 : 0 ≤ n2) (he1 : o1 + n1 < 2 ^ 63) (he2 : o2 + n2 < 2 ^ 63)
    (ha : ¬ (o2 = o1 ∧ n2 ≤ n1))
    (hb : ¬ (o1 < o2 ∧ o1 + n1 > o2 + n2))
    (hc : ¬ (o1 + n1 = o2))
    (hadm : admitted s comm r) :
    (nvr_add_queue s comm r).nvr_sys_queue = q ++ [l] ++ [r] ∧
    (nvr_add_queue s comm r).nvr_sys_queue_count = s.nvr_sys_queue_count + 1 := by
  have hcw := coalesce_writes_snoc q l r hpid hlt hrt hname
  rw [hlo, hln, hro, hrn] at hcw
  have ho1 : -(2 ^ 63) ≤ o1 ∧ o1 < 2 ^ 63 := by rw [← hlo]; exact wrap_s_64_range _
  have ho2 : -(2 ^ 63) ≤ o2 ∧ o2 < 2 ^ 63 := by rw [← hro]; exact wrap_s_64_range _
  have hw1 : wrap_s 64 (o1 + n1) = o1 + n1 := wrap_s_64_of_range _ (by omega) he1
  have hw2 : wrap_s 64 (o2 + n2) = o2 + n2 := wrap_s_64_of_range _ (by omega) he2
  rw [hw1, hw2, if_neg (by omega), if_neg hb, if_pos hc] at hcw
  have := nvr_add_queue_append s comm r hadm (by rw [hq, hcw])
    (by rw [coalesce_sizes_other_type _ _ (by rw [hrt]; exact type_data_ne_size)])
  rw [hq] at this
  exact this

/-- Witness of `unmatched_write_appended`: the tail (0, 20) and the new write (30, 5),
which leaves a gap after the old range. -/
theorem unmatched_write_appended_witness :
    (nvr_add_queue (sample_state [sample_write 1 1000 0 20]) "dd"
        (sample_write 2 1001 30 5)).nvr_sys_queue
      = [] ++ [sample_write 1 1000 0 20] ++ [sample_write 2 1001 30 5] ∧
    (nvr_add_queue (sample_state [sample_write 1 1000 0 20]) "dd"
        (sample_write 2 1001 30 5)).nvr_sys_queue_count
      = (sample_state [sample_write 1 1000 0 20]).nvr_sys_queue_count + 1 :=
  unmatched_write_appended (sample_state [sample_write 1 1000 0 20]) "dd" []
    (sample_write 1 1000 0 20) (sample_write 2 1001 30 5) 0 20 30 5
    (by rfl) (by rfl) (by rfl) (by rfl) (by rfl) (by decide) (by decide) (by decide)
    (by decide) (by decide) (by decide) (by decide) (by decide) (by decide) (by decide)
    (by decide) (by decide)

/-- Claim C13. Same-offset shorter write is discarded: when the tail of the queue is an
unclaimed DataWrite record for a path with payload (offset `o`, length `a`) and
`nvr_add_queue` admits a DataWrite record for the same path with payload (offset `o`,
length `b`), `b ≤ a`, the new record is discarded: the queue, its tail included, and the
count are unchanged, and the record is released. -/
theorem same_offset_shorter_discarded (s : nvr_state) (comm : String) (q : List cdi_record)
    (l r : cdi_record) (o a b : Int)
    (hq : s.nvr_sys_queue = q ++ [l])
    (hpid : l.pid = -1) (hlt : l.type = TYPE_DATA) (hrt : r.type = TYPE_DATA)
    (hname : l.name = r.name)
    (hlo : rd_i64 l.buf 0 = o) (hla : rd_i32 l.buf 8 = a)
    (hro : rd_i64 r.buf 0 = o) (hrb : rd_i32 r.buf 8 = b)
    (hba : b ≤ a)
    (hadm : admitted s comm r) :
    (nvr_add_queue s comm r).nvr_sys_queue = s.nvr_sys_queue ∧
    (nvr_add_queue s comm r).nvr_sys_queue_count = s.nvr_sys_queue_count ∧
    (nvr_add_queue s comm r).repitem_count = s.repitem_count - 1 ∧
    (∃ l1, (nvr_add_queue s comm r).nvr_sys_queue.getLast? = some l1 ∧
      rd_i64 l1.buf 0 = o ∧ rd_i32 l1.buf 8 = a) := by
  have hcw := coalesce_writes_snoc q l r hpid hlt hrt hname
  rw [hlo, hla, hro, hrb, if_pos ⟨rfl, by omega⟩] at hcw
  have h := nvr_add_queue_writes s comm r hadm (by rw [hq, hcw])
  rw [hq, hcw] at h
  have hrc : (nvr_add_queue s comm r).repitem_count = s.repitem_count - 1 := by
    rw [nvr_add_queue_of_admitted s comm r hadm, add_queue_locked_eq]
    rw [if_pos (by simp [nvr_down, add_queue_prologue, hq, hcw])]
    simp [nvr_up, nvr_down, nvr_put_repitem, add_queue_prologue]
  refine ⟨by rw [hq]; exact h.1, h.2, hrc, l, ?_, hlo, hla⟩
  rw [h.1]; exact getLast_snoc q l

/-- Witness of `same_offset_shorter_discarded`: (0, 20) then (0, 5) on "/data/x" retains
only (0, 20). -/
theorem same_offset_shorter_discarded_witness :
    (nvr_add_queue (sample_state [sample_write 1 1000 0 20]) "dd"
        (sample_write 2 1001 0 5)).nvr_sys_queue
      = (sample_state [sample_write 1 1000 0 20]).nvr_sys_queue ∧
    (nvr_add_queue (sample_state [sample_write 1 1000 0 20]) "dd"
        (sample_write 2 1001 0 5)).nvr_sys_queue_count
      = (sample_state [sample_write 1 1000 0 20]).nvr_sys_queue_count ∧
    (nvr_add_queue (sample_state [sample_write 1 1000 0 20]) "dd"
        (sample_write 2 1001 0 5)).repitem_count
      = (sample_state [sample_write 1 1000 0 20]).repitem_count - 1 ∧
    (∃ l1, (nvr_add_queue (sample_state [sample_write 1 1000 0 20]) "dd"
        (sample_write 2 1001 0 5)).nvr_sys_queue.getLast? = some l1 ∧
      rd_i64 l1.buf 0 = 0 ∧ rd_i32 l1.buf 8 = 20) :=
  same_offset_shorter_discarded (sample_state [sample_write 1 1000 0 20]) "dd" []
    (sample_write 1 1000 0 20) (sample_write 2 1001 0 5) 0 20 5
    (by rfl) (by rfl) (by rfl) (by rfl) (by rfl) (by decide) (by decide) (by decide)
    (by decide) (by decide) (by decide)

theorem coalesce_sizes_no_match (q : List cdi_record) (r : cdi_record)
    (h : ∀ l, q.getLast? = some l → ¬ (l.pid = -1 ∧ l.type = TYPE_SIZE ∧ l.name = r.name)) :
    (coalesce_sizes q r).1 = false := by
  generalize hres : coalesce_sizes q r = res
  unfold coalesce_sizes at hres
  by_cases h1 : r.type ≠ TYPE_SIZE
  · rw [if_pos h1] at hres; rw [← hres]
  rw [if_neg h1] at hres
  cases hl : q.getLast? with
  | none => rw [hl] at hres; rw [← hres]
  | some l =>
    rw [hl] at hres
    simp only [] at hres
    by_cases h2 : l.pid ≠ -1
    · rw [if_pos h2] at hres; rw [← hres]
    rw [if_neg h2] at hres
    by_cases h3 : l.type ≠ TYPE_SIZE
    · rw [if_pos h3] at hres; rw [← hres]
    rw [if_neg h3] at hres
    by_cases h4 : name_differs l r = true
    · rw [if_pos h4] at hres; rw [← hres]
    exfalso
    have hn : l.name = r.name := (name_differs_eq_false l r).1 (by simpa using h4)
    exact h l hl ⟨not_not.1 h2, not_not.1 h3, hn⟩

theorem wr_bytes_whole (a b : List Nat) (ha : a.length = 8) (hb : b.length = 8) :
    wr_bytes a 0 (rd_bytes b 0 8) = b := by
  unfold wr_bytes rd_bytes
  have h1 : List.take 8 b = b := List.take_of_length_le (by omega)
  simp only [List.drop_zero, List.take_zero, List.nil_append, h1, hb, Nat.zero_add]
  rw [List.drop_of_length_le (by omega), List.append_nil]

/-- Size changes that do not decrease, enqueued behind an unclaimed SizeChange tail for
the same path, all merge into that tail. -/
theorem size_run (comm : String) (p : List Nat) (rs : List cdi_record) :
    ∀ (s : nvr_state) (q : List cdi_record) (l : cdi_record),
    s.nvr_sys_queue = q ++ [l] → l.pid = -1 → l.type = TYPE_SIZE → l.name = p →
    l.buf.length = 8 →
    (∀ r ∈ rs, r.type = TYPE_SIZE ∧ r.name = p ∧ r.buf.length = 8) →
    List.Chain (fun a b => a ≤ b) (rd_i64 l.buf 0) (rs.map (fun r => rd_i64 r.buf 0)) →
    all_admitted s comm rs →
    (enqueue_all s comm rs).nvr_sys_queue = q ++ [{ l with buf := (rs.getLastD l).buf }] ∧
    (enqueue_all s comm rs).nvr_sys_queue_count = s.nvr_sys_queue_count := by
  induction rs with
  | nil =>
    intro s q l hq _ _ _ _ _ _ _
    exact ⟨hq, rfl⟩
  | cons r rs ih =>
    intro s q l hq hpid hlt hln hlb hrec hchain hadm
    obtain ⟨hrt, hrn, hrb⟩ := hrec r (List.mem_cons_self _ _)
    simp only [List.map_cons, List.chain_cons] at hchain
    have hcs : coalesce_sizes (q ++ [l]) r
        = (true, q ++ [{ l with buf := r.buf }]) := by
      rw [coalesce_sizes_snoc q l r hpid hlt hrt (by rw [hln, hrn]), if_neg (by omega),
        wr_bytes_whole _ _ hlb hrb]
    have hstep := nvr_add_queue_sizes s comm r hadm.1
      (by rw [coalesce_writes_other_type _ _ (by rw [hrt]; exact type_size_ne_data)])
      (by rw [hq, hcs])
    rw [hq, hcs] at hstep
    have := ih (nvr_add_queue s comm r) q { l with buf := r.buf } hstep.1 hpid hlt hln hrb
      (fun x hx => hrec x (List.mem_cons_of_mem _ hx)) hchain.2 hadm.2
    have e : enqueue_all s comm (r :: rs) = enqueue_all (nvr_add_queue s comm r) comm rs := rfl
    rw [e, this.1, this.2, hstep.2]
    refine ⟨?_, rfl⟩
    cases rs with
    | nil => rfl
    | cons r2 rs2 => rfl

/-- Claim C12. Size coalescing rule: onto a queue whose tail is not an unclaimed
SizeChange record for the path `p`, enqueuing through `nvr_add_queue` a non-empty
sequence `r1, rs` of unclaimed SizeChange records for `p` whose sizes (the 8-byte
payloads) do not decrease, every admission check passing and no drain in between, adds
exactly one record to the queue: the first record, so with the sequence number of the
first enqueue, carrying the payload of the last record, the size `sn`. -/
theorem size_coalescing_rule (s : nvr_state) (comm : String) (p : List Nat)
    (r1 : cdi_record) (rs : List cdi_record)
    (htail : ∀ l, s.nvr_sys_queue.getLast? = some l →
      ¬ (l.pid = -1 ∧ l.type = TYPE_SIZE ∧ l.name = p))
    (hpid : r1.pid = -1)
    (hrec : ∀ r ∈ r1 :: rs, r.type = TYPE_SIZE ∧ r.name = p ∧ r.buf.length = 8)
    (hsorted : List.Pairwise (fun a b => a ≤ b) ((r1 :: rs).map (fun r => rd_i64 r.buf 0)))
    (hadm : all_admitted s comm (r1 :: rs)) :
    (enqueue_all s comm (r1 :: rs)).nvr_sys_queue
      = s.nvr_sys_queue ++ [{ r1 with buf := (rs.getLastD r1).buf }] ∧
    (enqueue_all s comm (r1 :: rs)).nvr_sys_queue_count = s.nvr_sys_queue_count + 1 := by
  obtain ⟨ht1, hn1, hb1⟩ := hrec r1 (List.mem_cons_self _ _)
  have hfirst := nvr_add_queue_append s comm r1 hadm.1
    (by rw [coalesce_writes_other_type _ _ (by rw [ht1]; exact type_size_ne_data)])
    (coalesce_sizes_no_match _ _ (by rw [hn1]; exact htail))
  have hrun := size_run comm p rs (nvr_add_queue s comm r1) s.nvr_sys_queue r1 hfirst.1 hpid
    ht1 hn1 hb1 (fun x hx => hrec x (List.mem_cons_of_mem _ hx))
    (List.Pairwise.chain' hsorted) hadm.2
  exact ⟨hrun.1, hrun.2.trans hfirst.2⟩

/-- Witness of `size_coalescing_rule`: on the empty queue, the sizes 100, 200, 200, 4096
for "/data/x" leave one record, the first one, with the size 4096. -/
theorem size_coalescing_rule_witness :
    (enqueue_all (sample_state []) "dd" (sample_size 1 1000 100 ::
        [sample_size 2 1001 200, sample_size 3 1002 200, sample_size 4 1003 4096])).nvr_sys_queue
      = (sample_state []).nvr_sys_queue ++ [{ sample_size 1 1000 100 with
          buf := (List.getLastD [sample_size 2 1001 200, sample_size 3 1002 200,
            sample_size 4 1003 4096] (sample_size 1 1000 100)).buf }] ∧
    (enqueue_all (sample_state []) "dd" (sample_size 1 1000 100 ::
        [sample_size 2 1001 200, sample_size 3 1002 200,
          sample_size 4 1003 4096])).nvr_sys_queue_count
      = (sample_state []).nvr_sys_queue_count + 1 :=
  size_coalescing_rule (sample_state []) "dd" path_data_x (sample_size 1 1000 100)
    [sample_size 2 1001 200, sample_size 3 1002 200, sample_size 4 1003 4096]
    (by decide) (by rfl) (by decide) (by decide)
    ⟨by decide, by decide, by decide, by decide, trivial⟩

/-- The three ways through `nvr_add_queue`: the consumer's own record is released at once;
a record that is not admitted is released after the prologue; an admitted record goes
through the locked section. -/
theorem nvr_add_queue_branch (s : nvr_state) (comm : String) (r : cdi_record) :
    (comm = "nvr_srv" ∧ nvr_add_queue s comm r = nvr_put_repitem s) ∨
    (comm ≠ "nvr_srv" ∧ ¬ admitted s comm r ∧
      nvr_add_queue s comm r = nvr_put_repitem (add_queue_prologue s)) ∨
    (admitted s comm r ∧
      nvr_add_queue s comm r = nvr_up (add_queue_locked (nvr_down (add_queue_prologue s)) r)) := by
  by_cases hadm : admitted s comm r
  · exact Or.inr (Or.inr ⟨hadm, nvr_add_queue_of_admitted s comm r hadm⟩)
  · unfold nvr_add_queue
    by_cases h1 : comm = "nvr_srv"
    · rw [if_pos h1]; exact Or.inl ⟨h1, rfl⟩
    rw [if_neg h1]
    right; left
    refine ⟨h1, hadm, ?_⟩
    simp only []
    by_cases h2 : (add_queue_prologue s).pause ≠ 0 ∧
        (add_queue_prologue s).nvr_sys_queue_count ≥ (add_queue_prologue s).pause
    · rw [if_pos h2]
    rw [if_neg h2]
    by_cases h3 : item_name_okay r.name = true ∧
        (add_queue_prologue s).nvr_sys_queue_count ≥ (add_queue_prologue s).highwater
    · rw [if_pos h3]
    rw [if_neg h3]
    by_cases h4 : (add_queue_prologue s).xfer_skip ≠ 0 ∧ comm = "nvr_xfer"
    · rw [if_pos h4]
    rw [if_neg h4]
    by_cases h5 : (add_queue_prologue s).replication_active ≠ 0 ∧ item_name_okay r.name = true
    · exact absurd ⟨h1, h2, h3, h4, h5⟩ hadm
    rw [if_neg h5]

/-- A record that is not admitted is dropped: the queue and its count stay and the record
is released. -/
theorem nvr_add_queue_dropped (s : nvr_state) (comm : String) (r : cdi_record)
    (h : ¬ admitted s comm r) :
    (nvr_add_queue s comm r).nvr_sys_queue = s.nvr_sys_queue ∧
    (nvr_add_queue s comm r).nvr_sys_queue_count = s.nvr_sys_queue_count ∧
    (nvr_add_queue s comm r).repitem_count = s.repitem_count - 1 := by
  rcases nvr_add_queue_branch s comm r with ⟨_, h1⟩ | ⟨_, _, h1⟩ | ⟨h1, _⟩
  · rw [h1]; exact ⟨rfl, rfl, rfl⟩
  · rw [h1]; exact ⟨rfl, rfl, rfl⟩
  · exact absurd h1 h

/-- The tunables are left alone by `nvr_add_queue`, and the count grows by at most one,
and only for an admitted record. -/
theorem nvr_add_queue_frame (s : nvr_state) (comm : String) (r : cdi_record) :
    (nvr_add_queue s comm r).highwater = s.highwater ∧
    (nvr_add_queue s comm r).pause = s.pause ∧
    (nvr_add_queue s comm r).xfer_skip = s.xfer_skip ∧
    (nvr_add_queue s comm r).replication_active = s.replication_active ∧
    ((nvr_add_queue s comm r).nvr_sys_queue_count = s.nvr_sys_queue_count ∨
      (admitted s comm r ∧
        (nvr_add_queue s comm r).nvr_sys_queue_count = s.nvr_sys_queue_count + 1)) ∧
    (nvr_add_queue s comm r).highcount =
      (if comm = "nvr_srv" then s.highcount else MAX s.highcount s.nvr_sys_queue_count) := by
  rcases nvr_add_queue_branch s comm r with ⟨h0, h1⟩ | ⟨h0, _, h1⟩ | ⟨hadm, h1⟩
  · rw [h1, if_pos h0]; exact ⟨rfl, rfl, rfl, rfl, Or.inl rfl, rfl⟩
  · rw [h1, if_neg h0]; exact ⟨rfl, rfl, rfl, rfl, Or.inl rfl, rfl⟩
  · rw [h1, if_neg hadm.1, add_queue_locked_eq]
    by_cases hw : (coalesce_writes (nvr_down (add_queue_prologue s)).nvr_sys_queue r).1 = true
    · rw [if_pos hw]; exact ⟨rfl, rfl, rfl, rfl, Or.inl rfl, rfl⟩
    · rw [if_neg hw]
      by_cases hs : (coalesce_sizes (nvr_down (add_queue_prologue s)).nvr_sys_queue r).1 = true
      · rw [if_pos hs]; exact ⟨rfl, rfl, rfl, rfl, Or.inl rfl, rfl⟩
      · rw [if_neg hs]; exact ⟨rfl, rfl, rfl, rfl, Or.inr ⟨hadm, rfl⟩, rfl⟩

theorem admitted_below_highwater (s : nvr_state) (comm : String) (r : cdi_record)
    (h : admitted s comm r) : s.nvr_sys_queue_count < s.highwater := by
  obtain ⟨_, _, h3, _, h5⟩ := h
  by_contra hc
  exact h3 ⟨h5.2, by omega⟩

/-- Claim C14. High-water bound, in the sequential model: for every state, caller and
record, `nvr_add_queue` links nothing when `nvr_sys_queue_count >= highwater` (the queue
and its count are unchanged), it leaves `highwater` alone, and the count afterwards is at
most the larger of the count before and `highwater`; hence `count <= highwater` is kept
by every enqueue; and with `highwater = 1`, from the empty queue, once a first record has
been admitted, the queue holds that record only and a second enqueue, whatever its path
and caller, is dropped. -/
theorem highwater_bound (s : nvr_state) (comm : String) (r : cdi_record) :
    (s.nvr_sys_queue_count ≥ s.highwater →
      (nvr_add_queue s comm r).nvr_sys_queue = s.nvr_sys_queue ∧
      (nvr_add_queue s comm r).nvr_sys_queue_count = s.nvr_sys_queue_count) ∧
    (nvr_add_queue s comm r).highwater = s.highwater ∧
    (nvr_add_queue s comm r).nvr_sys_queue_count ≤ max s.nvr_sys_queue_count s.highwater ∧
    (s.nvr_sys_queue_count ≤ s.highwater →
      (nvr_add_queue s comm r).nvr_sys_queue_count ≤ (nvr_add_queue s comm r).highwater) ∧
    (∀ comm2 r2, s.highwater = 1 → s.nvr_sys_queue = [] → s.nvr_sys_queue_count = 0 →
      admitted s comm r →
      (nvr_add_queue s comm r).nvr_sys_queue = [r] ∧
      (nvr_add_queue (nvr_add_queue s comm r) comm2 r2).nvr_sys_queue = [r] ∧
      (nvr_add_queue (nvr_add_queue s comm r) comm2 r2).nvr_sys_queue_count = 1) := by
  obtain ⟨hhw, _, _, _, hcnt, _⟩ := nvr_add_queue_frame s comm r
  have hdrop : s.nvr_sys_queue_count ≥ s.highwater →
      (nvr_add_queue s comm r).nvr_sys_queue = s.nvr_sys_queue ∧
      (nvr_add_queue s comm r).nvr_sys_queue_count = s.nvr_sys_queue_count := by
    intro h
    have hna : ¬ admitted s comm r := fun ha => by
      have := admitted_below_highwater s comm r ha
      omega
    exact ⟨(nvr_add_queue_dropped s comm r hna).1, (nvr_add_queue_dropped s comm r hna).2.1⟩
  refine ⟨hdrop, hhw, ?_, ?_, ?_⟩
  · rcases hcnt with h | ⟨ha, h⟩
    · rw [h]; exact le_max_left _ _
    · have := admitted_below_highwater s comm r ha
      rw [h]
      exact le_trans (by omega) (le_max_right _ _)
  · intro hle
    rw [hhw]
    rcases hcnt with h | ⟨ha, h⟩
    · rw [h]; exact hle
    · have := admitted_below_highwater s comm r ha
      omega
  · intro comm2 r2 hw1 hq hc hadm
    have happ := nvr_add_queue_append s comm r hadm
      (by rw [hq, coalesce_writes_nil]) (by rw [hq, coalesce_sizes_nil])
    rw [hq, List.nil_append] at happ
    rw [hc] at happ
    have hna : ¬ admitted (nvr_add_queue s comm r) comm2 r2 := fun ha => by
      have := admitted_below_highwater _ comm2 r2 ha
      rw [hhw, hw1, happ.2] at this
      omega
    obtain ⟨h1, h2, _⟩ := nvr_add_queue_dropped (nvr_add_queue s comm r) comm2 r2 hna
    exact ⟨happ.1, by rw [h1, happ.1], by rw [h2, happ.2]; rfl⟩

/-- Witness of `highwater_bound` for `highwater = 1`: of two records enqueued on the
empty queue, a write to "/data/x" and a change of "/b", the second is dropped. -/
theorem highwater_bound_witness :
    (nvr_add_queue { sample_state [] with highwater := 1 } "dd"
        (sample_write 1 1000 0 10)).nvr_sys_queue = [sample_write 1 1000 0 10] ∧
    (nvr_add_queue (nvr_add_queue { sample_state [] with highwater := 1 } "dd"
        (sample_write 1 1000 0 10)) "dd" (sample_note 2 1001 98)).nvr_sys_queue
      = [sample_write 1 1000 0 10] ∧
    (nvr_add_queue (nvr_add_queue { sample_state [] with highwater := 1 } "dd"
        (sample_write 1 1000 0 10)) "dd" (sample_note 2 1001 98)).nvr_sys_queue_count = 1 :=
  (highwater_bound { sample_state [] with highwater := 1 } "dd"
      (sample_write 1 1000 0 10)).2.2.2.2 "dd" (sample_note 2 1001 98)
    (by rfl) (by rfl) (by rfl) (by decide)

/-- Claim C15, refuted as stated: after one admitted enqueue on the empty queue with
`highcount = 0`, the count is 1, the largest value it has taken, and `highcount` is
still 0. -/
theorem peak_tracking_counterexample :
    (sample_state []).highcount = 0 ∧
    (add_queue_calls (sample_state []) [("dd", sample_note 1 1000 97)]).nvr_sys_queue_count = 1 ∧
    (add_queue_calls (sample_state []) [("dd", sample_note 1 1000 97)]).highcount = 0 ∧
    ¬ ((add_queue_calls (sample_state []) [("dd", sample_note 1 1000 97)]).highcount ≥
      (add_queue_calls (sample_state []) [("dd", sample_note 1 1000 97)]).nvr_sys_queue_count) := by
  decide

theorem peak_step (s : nvr_state) (comm : String) (r : cdi_record)
    (h : s.highcount ≤ s.nvr_sys_queue_count ∧ s.nvr_sys_queue_count ≤ s.highcount + 1) :
    (nvr_add_queue s comm r).highcount ≤ (nvr_add_queue s comm r).nvr_sys_queue_count ∧
    (nvr_add_queue s comm r).nvr_sys_queue_count ≤ (nvr_add_queue s comm r).highcount + 1 ∧
    (comm ≠ "nvr_srv" → (nvr_add_queue s comm r).highcount = s.nvr_sys_queue_count) := by
  obtain ⟨_, _, _, _, hcnt, hhc⟩ := nvr_add_queue_frame s comm r
  by_cases hc : comm = "nvr_srv"
  · rw [if_pos hc] at hhc
    have hna : ¬ admitted s comm r := fun ha => ha.1 hc
    have := (nvr_add_queue_dropped s comm r hna).2.1
    rw [hhc, this]
    exact ⟨h.1, h.2, fun h0 => absurd hc h0⟩
  · rw [if_neg hc] at hhc
    have hmax : MAX s.highcount s.nvr_sys_queue_count = s.nvr_sys_queue_count := by
      unfold MAX
      rw [if_neg (by omega)]
    rw [hmax] at hhc
    rw [hhc]
    rcases hcnt with h1 | ⟨_, h1⟩
    · rw [h1]; exact ⟨le_refl _, by omega, fun _ => rfl⟩
    · rw [h1]; exact ⟨by omega, le_refl _, fun _ => rfl⟩

theorem peak_calls (cs : List (String × cdi_record)) :
    ∀ s : nvr_state,
    s.highcount ≤ s.nvr_sys_queue_count ∧ s.nvr_sys_queue_count ≤ s.highcount + 1 →
    (add_queue_calls s cs).highcount ≤ (add_queue_calls s cs).nvr_sys_queue_count ∧
    (add_queue_calls s cs).nvr_sys_queue_count ≤ (add_queue_calls s cs).highcount + 1 := by
  induction cs with
  | nil => intro s h; exact h
  | cons c cs ih =>
    intro s h
    have hs := peak_step s c.1 c.2 h
    exact ih (nvr_add_queue s c.1 c.2) ⟨hs.1, hs.2.1⟩

/-- Claim C15, amended: `highcount` is brought up to the count on entry to
`nvr_add_queue`, before the record is linked. After any sequence of `nvr_add_queue`
calls starting with count 0 and `highcount = 0` (no drain in between), `highcount` is
at most the count and at least the count minus one, and a further call by a process
other than the consumer leaves `highcount` equal to the count on entry to that call:
the value reached by the last append shows in `highcount` only at the next enqueue. -/
theorem peak_tracking (s0 : nvr_state) (cs : List (String × cdi_record))
    (hc : s0.nvr_sys_queue_count = 0) (hh : s0.highcount = 0) :
    (add_queue_calls s0 cs).highcount ≤ (add_queue_calls s0 cs).nvr_sys_queue_count ∧
    (add_queue_calls s0 cs).nvr_sys_queue_count ≤ (add_queue_calls s0 cs).highcount + 1 ∧
    (∀ comm r, comm ≠ "nvr_srv" →
      (nvr_add_queue (add_queue_calls s0 cs) comm r).highcount
        = (add_queue_calls s0 cs).nvr_sys_queue_count) := by
  have h := peak_calls cs s0 (by rw [hc, hh]; decide)
  exact ⟨h.1, h.2, fun comm r hne => (peak_step _ comm r h).2.2 hne⟩

/-- Witness of `peak_tracking`: two records enqueued on the empty queue. -/
theorem peak_tracking_witness :
    (add_queue_calls (sample_state [])
        [("dd", sample_note 1 1000 97), ("cp", sample_note 2 1001 98)]).highcount
      ≤ (add_queue_calls (sample_state [])
        [("dd", sample_note 1 1000 97), ("cp", sample_note 2 1001 98)]).nvr_sys_queue_count ∧
    (add_queue_calls (sample_state [])
        [("dd", sample_note 1 1000 97), ("cp", sample_note 2 1001 98)]).nvr_sys_queue_count
      ≤ (add_queue_calls (sample_state [])
        [("dd", sample_note 1 1000 97), ("cp", sample_note 2 1001 98)]).highcount + 1 ∧
    (∀ comm r, comm ≠ "nvr_srv" →
      (nvr_add_queue (add_queue_calls (sample_state [])
        [("dd", sample_note 1 1000 97), ("cp", sample_note 2 1001 98)]) comm r).highcount
        = (add_queue_calls (sample_state [])
          [("dd", sample_note 1 1000 97), ("cp", sample_note 2 1001 98)]).nvr_sys_queue_count) :=
  peak_tracking (sample_state [])
    [("dd", sample_note 1 1000 97), ("cp", sample_note 2 1001 98)] (by rfl) (by rfl)

/-- The names "dev" and "null" render the path "/dev/null". -/
theorem render_dev_null : render_path dev_null_names = path_dev_null := by decide

/-- Claim C17. Admission drops: for every state and record, `nvr_add_queue` leaves the
queue and `nvr_sys_queue_count` unchanged and releases the record (`repitem_count` goes
down by one) whenever the caller is "nvr_srv", or `pause` is non-zero and the count has
reached it, or `xfer_skip` is non-zero and the caller is "nvr_xfer", or
`replication_active` is 0. -/
theorem admission_drops (s : nvr_state) (comm : String) (r : cdi_record)
    (h : comm = "nvr_srv" ∨ (s.pause ≠ 0 ∧ s.nvr_sys_queue_count ≥ s.pause) ∨
      (s.xfer_skip ≠ 0 ∧ comm = "nvr_xfer") ∨ s.replication_active = 0) :
    (nvr_add_queue s comm r).nvr_sys_queue = s.nvr_sys_queue ∧
    (nvr_add_queue s comm r).nvr_sys_queue_count = s.nvr_sys_queue_count ∧
    (nvr_add_queue s comm r).repitem_count = s.repitem_count - 1 := by
  have hna : ¬ admitted s comm r := by
    rintro ⟨h1, h2, _, h4, h5⟩
    rcases h with h | h | h | h
    · exact h1 h
    · exact h2 h
    · exact h4 h
    · exact h5.1 h
  exact nvr_add_queue_dropped s comm r hna

/-- Witness of `admission_drops`, one state for each of the four conditions: the
consumer itself; a pause threshold of 1 reached by a queue of one record; the transfer
process with `xfer_skip` set; replication inactive. -/
theorem admission_drops_witness :
    ((nvr_add_queue (sample_state []) "nvr_srv" (sample_note 1 1000 97)).nvr_sys_queue
        = (sample_state []).nvr_sys_queue ∧
      (nvr_add_queue (sample_state []) "nvr_srv" (sample_note 1 1000 97)).nvr_sys_queue_count
        = (sample_state []).nvr_sys_queue_count ∧
      (nvr_add_queue (sample_state []) "nvr_srv" (sample_note 1 1000 97)).repitem_count
        = (sample_state []).repitem_count - 1) ∧
    ((nvr_add_queue { sample_state [sample_note 1 1000 97] with pause := 1 } "dd"
          (sample_note 2 1001 98)).nvr_sys_queue
        = ({ sample_state [sample_note 1 1000 97] with pause := 1 }).nvr_sys_queue ∧
      (nvr_add_queue { sample_state [sample_note 1 1000 97] with pause := 1 } "dd"
          (sample_note 2 1001 98)).nvr_sys_queue_count
        = ({ sample_state [sample_note 1 1000 97] with pause := 1 }).nvr_sys_queue_count ∧
      (nvr_add_queue { sample_state [sample_note 1 1000 97] with pause := 1 } "dd"
          (sample_note 2 1001 98)).repitem_count
        = ({ sample_state [sample_note 1 1000 97] with pause := 1 }).repitem_count - 1) ∧
    ((nvr_add_queue { sample_state [] with xfer_skip := 1 } "nvr_xfer"
          (sample_note 1 1000 97)).nvr_sys_queue
        = ({ sample_state [] with xfer_skip := 1 }).nvr_sys_queue ∧
      (nvr_add_queue { sample_state [] with xfer_skip := 1 } "nvr_xfer"
          (sample_note 1 1000 97)).nvr_sys_queue_count
        = ({ sample_state [] with xfer_skip := 1 }).nvr_sys_queue_count ∧
      (nvr_add_queue { sample_state [] with xfer_skip := 1 } "nvr_xfer"
          (sample_note 1 1000 97)).repitem_count
        = ({ sample_state [] with xfer_skip := 1 }).repitem_count - 1) ∧
    ((nvr_add_queue nvr_init "dd" (sample_note 1 1000 97)).nvr_sys_queue
        = nvr_init.nvr_sys_queue ∧
      (nvr_add_queue nvr_init "dd" (sample_note 1 1000 97)).nvr_sys_queue_count
        = nvr_init.nvr_sys_queue_count ∧
      (nvr_add_queue nvr_init "dd" (sample_note 1 1000 97)).repitem_count
        = nvr_init.repitem_count - 1) :=
  ⟨admission_drops (sample_state []) "nvr_srv" (sample_note 1 1000 97) (Or.inl rfl),
   admission_drops { sample_state [sample_note 1 1000 97] with pause := 1 } "dd"
     (sample_note 2 1001 98) (Or.inr (Or.inl (by decide))),
   admission_drops { sample_state [] with xfer_skip := 1 } "nvr_xfer"
     (sample_note 1 1000 97) (Or.inr (Or.inr (Or.inl (by decide)))),
   admission_drops nvr_init "dd" (sample_note 1 1000 97) (Or.inr (Or.inr (Or.inr rfl)))⟩

/-- The test that `fn_trans_match` makes on one entry succeeds exactly when the entry is
equal to the path or a proper string prefix of it. -/
theorem fn_trans_loop_step (files : List (Option (List Nat))) (filename fn : List Nat)
    (i n : Nat) (h : files.get? i = some (some fn)) :
    fn_trans_loop files filename i (n + 1) =
      if fn = filename ∨ (fn.length < filename.length ∧ fn <+: filename) then some 1
      else fn_trans_loop files filename (i + 1) n := by
  rw [fn_trans_loop, h]
  simp only []
  by_cases h1 : fn.length < filename.length
  · rw [if_pos h1]
    by_cases h2 : fn = filename.take fn.length
    · rw [if_pos h2, if_pos (Or.inr ⟨h1, List.prefix_iff_eq_take.2 h2⟩)]
    · rw [if_neg h2, if_neg]
      rintro (h3 | ⟨_, h3⟩)
      · rw [h3] at h1; omega
      · exact h2 (List.prefix_iff_eq_take.1 h3)
  · rw [if_neg h1]
    by_cases h2 : filename.length = fn.length
    · rw [if_pos h2]
      by_cases h3 : fn = filename
      · rw [if_pos h3, if_pos (Or.inl h3)]
      · rw [if_neg h3, if_neg]
        rintro (h4 | ⟨h4, _⟩)
        · exact h3 h4
        · exact h1 h4
    · rw [if_neg h2, if_neg]
      rintro (h4 | ⟨h4, _⟩)
      · exact h2 (by rw [h4])
      · exact h1 h4

theorem fn_trans_loop_spec (qs : List (List Nat)) (filename : List Nat) (n : Nat) :
    ∀ i, i + n = qs.length →
    fn_trans_loop (qs.map some) filename i n =
      if ∃ q ∈ qs.drop i, q = filename ∨ (q.length < filename.length ∧ q <+: filename)
      then some 1 else some 0 := by
  induction n with
  | zero =>
    intro i hi
    have : qs.drop i = [] := List.drop_of_length_le (by omega)
    rw [this, fn_trans_loop]
    simp
  | succ n ih =>
    intro i hi
    have hlt : i < qs.length := by omega
    have hget : (qs.map some).get? i = some (some (qs.get ⟨i, hlt⟩)) := by
      rw [List.get?_eq_getElem?, List.getElem?_map, List.getElem?_eq_getElem hlt]; rfl
    have hdrop : qs.drop i = qs.get ⟨i, hlt⟩ :: qs.drop (i + 1) := by
      exact List.drop_eq_getElem_cons hlt
    rw [fn_trans_loop_step _ _ _ _ _ hget, ih (i + 1) (by omega), hdrop]
    by_cases h1 : qs.get ⟨i, hlt⟩ = filename ∨
        ((qs.get ⟨i, hlt⟩).length < filename.length ∧ qs.get ⟨i, hlt⟩ <+: filename)
    · rw [if_pos h1, if_pos ⟨_, List.mem_cons_self _ _, h1⟩]
    · rw [if_neg h1]
      by_cases h2 : ∃ q ∈ qs.drop (i + 1),
          q = filename ∨ (q.length < filename.length ∧ q <+: filename)
      · obtain ⟨q, hq, hm⟩ := h2
        rw [if_pos ⟨q, hq, hm⟩, if_pos ⟨q, List.mem_cons_of_mem _ hq, hm⟩]
      · rw [if_neg h2, if_neg]
        rintro ⟨q, hq, hm⟩
        rcases List.mem_cons.1 hq with h3 | h3
        · rw [h3] at hm; exact h1 hm
        · exact h2 ⟨q, h3, hm⟩

/-- Claim C18, refuted as stated: with the configured prefix "/data/x", the path
"/data/xyz" is matched (`fn_trans_match` returns 1) although the prefix neither equals
the path nor ends at a path-component boundary of it. -/
theorem trans_match_counterexample :
    fn_trans_match { trans := 1, multiwrite_files := [some path_data_x] } (some path_data_xyz)
      = some 1 ∧
    boundary_match path_data_x path_data_xyz = false := by
  decide

/-- Claim C18, amended: for every configured prefix set `qs` (`trans` entries, all set)
and every path, `fn_trans_match` returns 1 if and only if some configured prefix is
equal to the path or is a proper string prefix of it, with no condition on where the
prefix ends; otherwise it returns 0; for a null path it returns 0. -/
theorem trans_match_prefix (qs : List (List Nat)) (path : List Nat) :
    (fn_trans_match { trans := qs.length, multiwrite_files := qs.map some } (some path) = some 1 ↔
      ∃ q ∈ qs, q = path ∨ (q.length < path.length ∧ q <+: path)) ∧
    (fn_trans_match { trans := qs.length, multiwrite_files := qs.map some } (some path) = some 1 ∨
      fn_trans_match { trans := qs.length, multiwrite_files := qs.map some } (some path) = some 0) ∧
    fn_trans_match { trans := qs.length, multiwrite_files := qs.map some } none = some 0 := by
  have h : fn_trans_match { trans := qs.length, multiwrite_files := qs.map some } (some path)
      = if ∃ q ∈ qs, q = path ∨ (q.length < path.length ∧ q <+: path)
        then some 1 else some 0 := by
    unfold fn_trans_match
    simp only [Int.toNat_ofNat]
    rw [fn_trans_loop_spec qs path qs.length 0 (by omega), List.drop_zero]
  rw [h]
  by_cases hm : ∃ q ∈ qs, q = path ∨ (q.length < path.length ∧ q <+: path)
  · rw [if_pos hm]; exact ⟨⟨fun _ => hm, fun _ => rfl⟩, Or.inl rfl, rfl⟩
  · rw [if_neg hm]
    exact ⟨⟨fun h0 => absurd h0 (by decide), fun h0 => absurd h0 hm⟩, Or.inr rfl, rfl⟩

/-- Claim C19 on the code. For the input "ab;cd" `nvr_set_trans` stores the two segments
and sets `trans = 2`. For "a;;b", whose segments are "a", "", "b", it sets `trans = 3`
but stores "a" and ";b" and leaves the third entry unset, so that `fn_trans_match` on
the segment "b" runs into the unset entry. For "a;", whose segments are "a" and "", it
reads past the end of its copy of the string. -/
theorem set_trans_empty_segment :
    nvr_set_trans { trans := 0, multiwrite_files := [] } (.ok 5) (.ok [97, 98, 59, 99, 100])
      = some (0, { trans := 2, multiwrite_files := [some [97, 98], some [99, 100]] }) ∧
    split_semis [97, 98, 59, 99, 100] = [[97, 98], [99, 100]] ∧
    nvr_set_trans { trans := 0, multiwrite_files := [] } (.ok 4) (.ok [97, 59, 59, 98])
      = some (0, { trans := 3, multiwrite_files := [some [97], some [59, 98], none] }) ∧
    split_semis [97, 59, 59, 98] = [[97], [], [98]] ∧
    fn_trans_match { trans := 3, multiwrite_files := [some [97], some [59, 98], none] }
      (some [98]) = none ∧
    nvr_set_trans { trans := 0, multiwrite_files := [] } (.ok 2) (.ok [97, 59]) = none ∧
    split_semis [97, 59] = [[97], []] := by
  decide

theorem wr_bytes_length (buf src : List Nat) (off : Nat) (h : off + src.length ≤ buf.length) :
    (wr_bytes buf off src).length = buf.length := by
  unfold wr_bytes
  simp only [List.length_append, List.length_take, List.length_drop]
  omega

theorem drop_wr_bytes (buf src : List Nat) (off : Nat) (h : off + src.length ≤ buf.length) :
    (wr_bytes buf off src).drop off = src ++ buf.drop (off + src.length) := by
  unfold wr_bytes
  have h1 : (List.take off buf).length = off := by simp; omega
  rw [List.append_assoc, List.drop_append_of_le_length (by omega)]
  rw [List.drop_of_length_le (by omega), List.nil_append]

theorem wr_bytes_same (buf src rest : List Nat) (off : Nat)
    (h : buf.drop off = src ++ rest) : wr_bytes buf off src = buf := by
  unfold wr_bytes
  have h2 : buf.drop (off + src.length) = rest := by
    rw [← List.drop_drop, h, List.drop_left]
  rw [h2, List.append_assoc, ← h, List.take_append_drop]

theorem slash_join_append (a b : List (List Nat)) :
    slash_join (a ++ b) = slash_join a ++ slash_join b := by
  induction a with
  | nil => rfl
  | cons n a ih => simp [slash_join, ih]

theorem slash_join_snoc (a : List (List Nat)) (n : List Nat) :
    slash_join (a ++ [n]) = slash_join a ++ 47 :: n := by
  rw [slash_join_append]
  simp [slash_join]

theorem climb_mono (v : vfs) (n : Nat) :
    ∀ de top, climb v n de = some top → ∀ m, n ≤ m → climb v m de = some top := by
  induction n with
  | zero => intro de top h; simp [climb] at h
  | succ n ih =>
    intro de top h m hm
    obtain ⟨m', rfl⟩ : ∃ m', m = m' + 1 := ⟨m - 1, by omega⟩
    unfold climb at h ⊢
    by_cases hp : v.d_parent de ≠ de
    · rw [if_pos hp] at h ⊢
      exact ih _ _ h m' (by omega)
    · rw [if_neg hp] at h ⊢
      exact h

theorem dentry_to_vfs_mono (v : vfs) (n : Nat) (de dmnt : Nat)
    (h : dentry_to_vfs v n de = some dmnt) (m : Nat) (hm : n ≤ m) :
    dentry_to_vfs v m de = some dmnt := by
  unfold dentry_to_vfs at h ⊢
  cases hc : climb v n de with
  | none => rw [hc] at h; simp at h
  | some top =>
    rw [hc] at h
    rw [climb_mono v n de top hc m hm]
    exact h

/-- The loop of `dentry_fullpath` along a walk that reaches the global root, when the
names still to come fit before `endp`: `acc` is what has been rendered so far, which
sits at `endp`. With enough fuel the loop returns the buffer holding the names, each
after a '/', in front of `acc`; before any name was rendered (`acc` empty) the string
"/" stands at `retval`, one byte before `endp`. -/
theorem fullpath_loop_reaches (v : vfs) (de dmnt : Nat) (names : List (List Nat))
    (h : reaches v de dmnt names) :
    ∀ (buf : List Nat) (endp retval : Nat) (acc : List Nat),
    endp < buf.length → buf.drop endp = acc ++ [0] →
    (slash_join names).length ≤ endp →
    ((acc = [] ∧ retval + 1 = endp ∧ buf.drop retval = 47 :: buf.drop endp) ∨
      (∃ rest, acc = 47 :: rest) ∧ retval = endp) →
    ∃ N, ∀ fuel, N ≤ fuel → ∃ buf1 retval1,
      fullpath_loop v fuel de dmnt buf endp (endp : Int) retval = some (buf1, retval1) ∧
      buf1.length = buf.length ∧
      buf1.drop retval1 =
        (if names = [] ∧ acc = [] then [47] else slash_join names ++ acc) ++ [0] ∧
      retval1 = (if names = [] ∧ acc = [] then retval else endp - (slash_join names).length) := by
  induction h with
  | root de dmnt hroot hglobal hname =>
    intro buf endp retval acc hend hdrop _ hmode
    refine ⟨1, fun fuel hfuel => ?_⟩
    obtain ⟨f, rfl⟩ : ∃ f, fuel = f + 1 := ⟨fuel - 1, by omega⟩
    have hsame : wr_bytes buf retval [47] = buf := by
      rcases hmode with ⟨_, _, h3⟩ | ⟨⟨rest, h1⟩, h2⟩
      · exact wr_bytes_same buf [47] (buf.drop endp) retval h3
      · exact wr_bytes_same buf [47] (rest ++ [0]) retval (by rw [h2, hdrop, h1]; rfl)
    have hres : fullpath_loop v (f + 1) de dmnt buf endp (endp : Int) retval
        = some (buf, retval) := by
      unfold fullpath_loop
      rw [if_pos hroot, if_pos hglobal, hname]
      simp only [List.length_singleton, Nat.cast_one, sub_self, sub_zero, Int.toNat_ofNat]
      rw [hsame]
      split <;> rfl
    refine ⟨buf, retval, hres, rfl, ?_, ?_⟩
    · rcases hmode with ⟨h1, _, h3⟩ | ⟨⟨rest, h1⟩, h2⟩
      · rw [if_pos ⟨rfl, h1⟩, h3, hdrop, h1]; rfl
      · rw [if_neg (by rw [h1]; simp), h2, hdrop]; rfl
    · rcases hmode with ⟨h1, _, _⟩ | ⟨⟨rest, h1⟩, h2⟩
      · rw [if_pos ⟨rfl, h1⟩]
      · rw [if_neg (by rw [h1]; simp), h2]; simp [slash_join]
  | cross de dmnt names hroot hnot _ ih =>
    intro buf endp retval acc hend hdrop hfit hmode
    obtain ⟨N, hN⟩ := ih buf endp retval acc hend hdrop hfit hmode
    refine ⟨N + 1, fun fuel hfuel => ?_⟩
    obtain ⟨f, rfl⟩ : ∃ f, fuel = f + 1 := ⟨fuel - 1, by omega⟩
    obtain ⟨buf1, retval1, h1, h2, h3, h4⟩ := hN f (by omega)
    refine ⟨buf1, retval1, ?_, h2, h3, h4⟩
    rw [← h1]
    conv_lhs => unfold fullpath_loop
    rw [if_pos hroot, if_neg hnot]
  | step de dmnt names hnot _ ih =>
    intro buf endp retval acc hend hdrop hfit hmode
    rw [slash_join_snoc] at hfit
    simp only [List.length_append, List.length_cons] at hfit
    have hn : (v.d_name de).length + 1 ≤ endp := by omega
    -- the two writes of this step
    have hl1 : (wr_bytes buf (endp - (v.d_name de).length) (v.d_name de)).length = buf.length :=
      wr_bytes_length _ _ _ (by omega)
    have hd1 : (wr_bytes buf (endp - (v.d_name de).length) (v.d_name de)).drop
        (endp - (v.d_name de).length) = v.d_name de ++ (acc ++ [0]) := by
      rw [drop_wr_bytes _ _ _ (by omega), Nat.sub_add_cancel (by omega), hdrop]
    have hl2 : (wr_bytes (wr_bytes buf (endp - (v.d_name de).length) (v.d_name de))
        (endp - (v.d_name de).length - 1) [47]).length = buf.length := by
      rw [wr_bytes_length _ _ _ (by rw [hl1]; simp; omega), hl1]
    have hd2 : (wr_bytes (wr_bytes buf (endp - (v.d_name de).length) (v.d_name de))
        (endp - (v.d_name de).length - 1) [47]).drop (endp - (v.d_name de).length - 1)
        = (47 :: v.d_name de ++ acc) ++ [0] := by
      rw [drop_wr_bytes _ _ _ (by rw [hl1]; simp; omega)]
      simp only [List.length_singleton]
      rw [Nat.sub_add_cancel (by omega), hd1]
      simp
    obtain ⟨N, hN⟩ := ih _ (endp - (v.d_name de).length - 1)
      (endp - (v.d_name de).length - 1) (47 :: v.d_name de ++ acc)
      (by rw [hl2]; omega) hd2 (by omega) (Or.inr ⟨⟨_, rfl⟩, rfl⟩)
    refine ⟨N + 1, fun fuel hfuel => ?_⟩
    obtain ⟨f, rfl⟩ : ∃ f, fuel = f + 1 := ⟨fuel - 1, by omega⟩
    obtain ⟨buf1, retval1, h1, h2, h3, h4⟩ := hN f (by omega)
    have hcast : ((endp : Int) - (((v.d_name de).length : Int) + 1))
        = ((endp - (v.d_name de).length - 1 : Nat) : Int) := by omega
    refine ⟨buf1, retval1, ?_, by rw [h2, hl2], ?_, ?_⟩
    · rw [← h1]
      conv_lhs => unfold fullpath_loop
      rw [if_neg hnot]
      simp only []
      rw [if_neg (by omega), hcast]
    · rw [h3, if_neg (by simp), if_neg (by simp), slash_join_snoc]
      simp
    · rw [h4, if_neg (by simp), if_neg (by simp), slash_join_snoc]
      simp only [List.length_append, List.length_cons]
      omega

/-- Function `dentry_fullpath` along a walk that reaches the global root, when the path
and its terminator fit the buffer: with enough fuel it returns a pointer to the rendered
path, NUL-terminated, which ends the buffer. -/
theorem dentry_fullpath_reaches (v : vfs) (de dmnt : Nat) (names : List (List Nat))
    (h : reaches v de dmnt names) (page : List Nat) (hl : 2 ≤ page.length)
    (hfit : (render_path names).length + 1 ≤ page.length) :
    ∃ N, ∀ fuel, N ≤ fuel → ∃ buf nm,
      dentry_fullpath v fuel de dmnt page page.length = some (buf, nm) ∧
      buf.length = page.length ∧
      buf.drop nm = render_path names ++ [0] ∧
      nm + (render_path names).length + 1 = page.length := by
  have hl0 : (wr_bytes page (page.length - 1) [0]).length = page.length :=
    wr_bytes_length _ _ _ (by simp; omega)
  have hd0 : (wr_bytes page (page.length - 1) [0]).drop (page.length - 1) = [0] := by
    rw [drop_wr_bytes _ _ _ (by simp; omega)]
    simp only [List.length_singleton]
    rw [List.drop_of_length_le (by omega)]
    rfl
  have hl1 : (wr_bytes (wr_bytes page (page.length - 1) [0]) (page.length - 1 - 1) [47]).length
      = page.length := by
    rw [wr_bytes_length _ _ _ (by rw [hl0]; simp; omega), hl0]
  have hd1 : (wr_bytes (wr_bytes page (page.length - 1) [0]) (page.length - 1 - 1) [47]).drop
      (page.length - 1 - 1) = [47, 0] := by
    rw [drop_wr_bytes _ _ _ (by rw [hl0]; simp; omega)]
    simp only [List.length_singleton]
    rw [Nat.sub_add_cancel (by omega), hd0]
    rfl
  have hd2 : (wr_bytes (wr_bytes page (page.length - 1) [0]) (page.length - 1 - 1) [47]).drop
      (page.length - 1) = [0] := by
    have e : List.drop (page.length - 1)
        (wr_bytes (wr_bytes page (page.length - 1) [0]) (page.length - 1 - 1) [47])
        = List.drop 1 (List.drop (page.length - 1 - 1)
          (wr_bytes (wr_bytes page (page.length - 1) [0]) (page.length - 1 - 1) [47])) := by
      rw [List.drop_drop]
      congr 1
      omega
    rw [e, hd1]
    rfl
  have hfit2 : (slash_join names).length ≤ page.length - 1 := by
    unfold render_path at hfit
    by_cases hn : names = []
    · rw [hn]; simp [slash_join]
    · rw [if_neg hn] at hfit; omega
  obtain ⟨N, hN⟩ := fullpath_loop_reaches v de dmnt names h
    (wr_bytes (wr_bytes page (page.length - 1) [0]) (page.length - 1 - 1) [47])
    (page.length - 1) (page.length - 1 - 1) []
    (by rw [hl1]; omega) (by rw [hd2]; rfl) hfit2
    (Or.inl ⟨rfl, by omega, by rw [hd1, hd2]⟩)
  refine ⟨N, fun fuel hfuel => ?_⟩
  obtain ⟨buf1, retval1, h1, h2, h3, h4⟩ := hN fuel hfuel
  have hcast : ((page.length : Int) - 1) = ((page.length - 1 : Nat) : Int) := by omega
  refine ⟨buf1, retval1, ?_, by rw [h2, hl1], ?_, ?_⟩
  · unfold dentry_fullpath
    simp only []
    rw [hcast]
    exact h1
  · rw [h3]
    unfold render_path
    by_cases hn : names = []
    · rw [if_pos ⟨hn, rfl⟩, if_pos hn]
    · rw [if_neg (fun hc => hn hc.1), if_neg hn, List.append_nil]
  · rw [h4]
    unfold render_path at hfit ⊢
    by_cases hn : names = []
    · rw [if_pos ⟨hn, rfl⟩, if_pos hn]
      simp only [List.length_singleton]
      omega
    · rw [if_neg (fun hc => hn hc.1), if_neg hn]
      rw [if_neg hn] at hfit
      omega

theorem page_size_eq : PAGE_SIZE = 4096 := rfl

/-- Function `nvr_dcache_to_fn` on a dentry whose walk reaches the global root, for each
size of the rendered path that fits the page: below PAGE_SIZE with its terminator, the
path is copied out and its length returned; at exactly PAGE_SIZE with its terminator,
the status is -ERANGE and nothing is copied. -/
theorem nvr_dcache_to_fn_reaches (v : vfs) (de dmnt : Nat) (names : List (List Nat))
    (n0 : Nat) (hm : dentry_to_vfs v n0 de = some dmnt)
    (h : reaches v de dmnt names) (page : List Nat) (hl : page.length = PAGE_SIZE)
    (hfit : (render_path names).length + 1 ≤ PAGE_SIZE) :
    ∃ N, ∀ fuel, N ≤ fuel →
      nvr_dcache_to_fn v fuel de (some page) =
        if (render_path names).length + 1 < PAGE_SIZE then
          some ((((render_path names).length : Nat) : Int),
            render_path names ++ 0 ::
              List.replicate (PAGE_SIZE - (render_path names).length - 1) 0)
        else some (-ERANGE, List.replicate PAGE_SIZE 0) := by
  obtain ⟨N, hN⟩ := dentry_fullpath_reaches v de dmnt names h page
    (by rw [hl, page_size_eq]; omega) (by rw [hl]; exact hfit)
  refine ⟨max N n0, fun fuel hfuel => ?_⟩
  obtain ⟨buf, nm, h1, h2, h3, h4⟩ := hN fuel (le_trans (le_max_left _ _) hfuel)
  rw [hl] at h1 h4
  unfold nvr_dcache_to_fn
  simp only []
  rw [dentry_to_vfs_mono v n0 de dmnt hm fuel (le_trans (le_max_right _ _) hfuel)]
  simp only []
  rw [h1]
  simp only []
  by_cases hlt : (render_path names).length + 1 < PAGE_SIZE
  · have hlen : PAGE_SIZE - nm = (render_path names).length + 1 := by omega
    rw [if_pos hlt, if_pos (by omega), hlen, h3]
    have htake : List.take ((render_path names).length + 1) (render_path names ++ [0])
        = render_path names ++ [0] := List.take_of_length_le (by simp)
    rw [htake]
    congr 2
    · push_cast; omega
    · unfold wr_bytes
      simp only [List.take_zero, List.nil_append, Nat.zero_add, List.drop_replicate,
        List.length_append, List.length_singleton, List.append_assoc, List.singleton_append]
      congr 3
  · have hlen : PAGE_SIZE - nm = PAGE_SIZE := by omega
    rw [if_neg hlt, hlen, if_neg (by omega)]

theorem chain_reaches (names : List (List Nat)) (k : Nat) (hk : k ≤ names.length) :
    reaches (chain_vfs names) k 0 (names.take k) := by
  induction k with
  | zero => exact reaches.root 0 0 (Or.inl rfl) rfl rfl
  | succ k ih =>
    have hlt : k < names.length := by omega
    have hname : (chain_vfs names).d_name (k + 1) = names.get ⟨k, hlt⟩ := by
      show (if k + 1 = 0 then [47] else names.getD (k + 1 - 1) [120]) = _
      rw [if_neg (by omega), Nat.add_sub_cancel, List.getD_eq_getElem _ _ hlt]
      rfl
    have htake : names.take (k + 1) = names.take k ++ [(chain_vfs names).d_name (k + 1)] := by
      rw [hname, List.take_succ, List.getElem?_eq_getElem hlt]
      rfl
    rw [htake]
    refine reaches.step (k + 1) 0 (names.take k) ?_ (ih (by omega))
    show ¬ (k + 1 = 0 ∨ k + 1 - 1 = k + 1)
    omega

theorem chain_climb (names : List (List Nat)) (k : Nat) :
    climb (chain_vfs names) (k + 1) k = some 0 := by
  induction k with
  | zero => rfl
  | succ k ih =>
    unfold climb
    have hp : (chain_vfs names).d_parent (k + 1) = k := rfl
    rw [hp, if_pos (by omega)]
    exact ih

theorem chain_dentry_to_vfs (names : List (List Nat)) (k : Nat) :
    dentry_to_vfs (chain_vfs names) (k + 1) k = some 0 := by
  unfold dentry_to_vfs
  rw [chain_climb]
  rfl

theorem slash_join_length (names : List (List Nat)) :
    (slash_join names).length = (names.map (fun n => n.length + 1)).sum := by
  induction names with
  | nil => rfl
  | cons n ns ih => simp [slash_join, ih]; omega

theorem long_names_count : long_names.length = 16 := by
  rw [long_names, List.length_append, List.length_replicate]
  rfl

theorem long_names_length : (render_path long_names).length + 1 = PAGE_SIZE := by
  have h : long_names ≠ [] := fun hc => by
    have := long_names_count
    rw [hc] at this
    exact absurd this (by decide)
  unfold render_path
  rw [if_neg h, slash_join_length, long_names, List.map_append, List.map_replicate,
    List.sum_append, List.sum_replicate, List.map_singleton, List.sum_singleton,
    List.length_replicate, List.length_replicate]
  rfl

/-- Claim C20, refuted as stated: the sixteen names of `long_names`, below a root mount
whose root is named "/", render a path of 4095 bytes, which with its terminator fits
the page of 4096 bytes exactly; `nvr_dcache_to_fn` on the deepest dentry returns
-ERANGE and copies nothing to its output. -/
theorem path_resolution_counterexample :
    reaches (chain_vfs long_names) 16 0 long_names ∧
    (render_path long_names).length + 1 = PAGE_SIZE ∧
    ∃ N, ∀ fuel, N ≤ fuel →
      nvr_dcache_to_fn (chain_vfs long_names) fuel 16 (some (List.replicate PAGE_SIZE 0))
        = some (-ERANGE, List.replicate PAGE_SIZE 0) := by
  have hr : reaches (chain_vfs long_names) 16 0 long_names := by
    have := chain_reaches long_names 16 (by rw [long_names_count])
    rwa [List.take_of_length_le (by rw [long_names_count])] at this
  refine ⟨hr, long_names_length, ?_⟩
  obtain ⟨N, hN⟩ := nvr_dcache_to_fn_reaches (chain_vfs long_names) 16 0 long_names 17
    (chain_dentry_to_vfs long_names 16) hr (List.replicate PAGE_SIZE 0)
    (List.length_replicate _ _)
    (by rw [long_names_length])
  refine ⟨N, fun fuel hfuel => ?_⟩
  rw [hN fuel hfuel, if_neg (by rw [long_names_length]; omega)]

/-- Claim C20, amended: for every dentry `de` whose walk, from the mount `dmnt` that
`dentry_to_vfs` finds for it, reaches the global root mount (a mount that is its own
parent, with root dentry named "/") along the names `n1..nk`, when the rendered path
with its terminator takes fewer than PAGE_SIZE bytes, both walks end and
`dentry_fullpath` returns a pointer to the string "/n1/n2/.../nk" ("/" when `k = 0`),
NUL-terminated, and `nvr_dcache_to_fn` returns its length in bytes with the output
holding that string followed by NUL bytes. -/
theorem path_resolution (v : vfs) (de dmnt : Nat) (names : List (List Nat)) (n0 : Nat)
    (hm : dentry_to_vfs v n0 de = some dmnt) (h : reaches v de dmnt names)
    (page : List Nat) (hl : page.length = PAGE_SIZE)
    (hfit : (render_path names).length + 1 < PAGE_SIZE) :
    ∃ N, ∀ fuel, N ≤ fuel →
      (∃ buf nm, dentry_fullpath v fuel de dmnt page PAGE_SIZE = some (buf, nm) ∧
        buf.drop nm = render_path names ++ [0]) ∧
      nvr_dcache_to_fn v fuel de (some page) =
        some ((((render_path names).length : Nat) : Int),
          render_path names ++ 0 ::
            List.replicate (PAGE_SIZE - (render_path names).length - 1) 0) := by
  obtain ⟨N1, hN1⟩ := dentry_fullpath_reaches v de dmnt names h page
    (by rw [hl, page_size_eq]; omega) (by rw [hl]; omega)
  obtain ⟨N2, hN2⟩ := nvr_dcache_to_fn_reaches v de dmnt names n0 hm h page hl (by omega)
  refine ⟨max N1 N2, fun fuel hfuel => ⟨?_, ?_⟩⟩
  · obtain ⟨buf, nm, h1, _, h3, _⟩ := hN1 fuel (le_trans (le_max_left _ _) hfuel)
    rw [hl] at h1
    exact ⟨buf, nm, h1, h3⟩
  · rw [hN2 fuel (le_trans (le_max_right _ _) hfuel), if_pos hfit]

/-- Witness of `path_resolution`: the dentry "x" below "data" below the root, which
resolves to "/data/x". -/
theorem path_resolution_witness :
    ∃ N, ∀ fuel, N ≤ fuel →
      (∃ buf nm, dentry_fullpath (chain_vfs data_x_names) fuel 2 0
          (List.replicate PAGE_SIZE 255) PAGE_SIZE = some (buf, nm) ∧
        buf.drop nm = render_path data_x_names ++ [0]) ∧
      nvr_dcache_to_fn (chain_vfs data_x_names) fuel 2 (some (List.replicate PAGE_SIZE 255)) =
        some ((((render_path data_x_names).length : Nat) : Int),
          render_path data_x_names ++ 0 ::
            List.replicate (PAGE_SIZE - (render_path data_x_names).length - 1) 0) :=
  path_resolution (chain_vfs data_x_names) 2 0 data_x_names 3
    (chain_dentry_to_vfs data_x_names 2) (chain_reaches data_x_names 2 (by decide))
    (List.replicate PAGE_SIZE 255) (List.length_replicate _ _) (by decide)

theorem render_data_x : render_path data_x_names = path_data_x := by decide

/-- A rendered path of one name or more ends in the last byte of the last name. -/
theorem slash_join_getLast (names : List (List Nat)) (n : List Nat) (c : Nat)
    (hc : n.getLast? = some c) : (slash_join (names ++ [n])).getLast? = some c := by
  rw [slash_join_snoc]
  cases n with
  | nil => simp at hc
  | cons x xs =>
    rw [List.getLast?_append_cons, List.getLast?_cons_cons]
    exact hc

/-- The filter `item_name_okay` compares the whole name, and each of its three strings
ends in '/': a path rendered from names that are not empty and hold no '/', as the names
of dentries are, is none of them, so the filter lets it pass. -/
theorem rendered_path_okay (names : List (List Nat))
    (h : ∀ n ∈ names, n ≠ [] ∧ 47 ∉ n) : item_name_okay (render_path names) = true := by
  unfold render_path
  by_cases hn : names = []
  · rw [if_pos hn]; decide
  · rw [if_neg hn]
    obtain ⟨ns, n, rfl⟩ : ∃ ns n, names = ns ++ [n] :=
      ⟨names.dropLast, names.getLast hn, (List.dropLast_append_getLast hn).symm⟩
    obtain ⟨hne, h47⟩ := h n (by simp)
    obtain ⟨c, hc⟩ : ∃ c, n.getLast? = some c :=
      ⟨n.getLast hne, List.getLast?_eq_getLast n hne⟩
    have hcn : c ∈ n := List.mem_of_getLast?_eq_some hc
    have hc47 : c ≠ 47 := fun e => h47 (e ▸ hcn)
    have hl := slash_join_getLast ns n c hc
    have hd : slash_join (ns ++ [n]) ≠ path_dev := fun e => by
      rw [e] at hl
      exact hc47 (by simpa [path_dev] using hl.symm)
    have hp : slash_join (ns ++ [n]) ≠ path_proc := fun e => by
      rw [e] at hl
      exact hc47 (by simpa [path_proc] using hl.symm)
    have hr : slash_join (ns ++ [n]) ≠ path_replicator := fun e => by
      rw [e] at hl
      exact hc47 (by simpa [path_replicator] using hl.symm)
    unfold item_name_okay
    simp [hd, hp, hr]

/-- The loop of `dentry_fullpath` from `de` up to a dentry `top` of the same mount, when
the names passed fit before `endp`: after as many rounds as there are names the loop is
at `top`, the names stand rendered in front of what was there (`acc`), and `end`,
`len` and `retval` have moved down by their length. -/
theorem fullpath_loop_climbs (v : vfs) (dmnt de top : Nat) (names : List (List Nat))
    (h : climbs v dmnt de top names) :
    ∀ (buf : List Nat) (endp retval : Nat) (acc : List Nat),
    endp < buf.length → buf.drop endp = acc ++ [0] →
    (slash_join names).length ≤ endp →
    ∃ k, ∀ fuel, ∃ buf1,
      fullpath_loop v (fuel + k) de dmnt buf endp (endp : Int) retval =
        fullpath_loop v fuel top dmnt buf1 (endp - (slash_join names).length)
          ((endp - (slash_join names).length : Nat) : Int)
          (if names = [] then retval else endp - (slash_join names).length) ∧
      buf1.length = buf.length ∧
      buf1.drop (endp - (slash_join names).length) = slash_join names ++ acc ++ [0] ∧
      (names = [] → buf1 = buf) := by
  induction h with
  | here de =>
    intro buf endp retval acc _ hdrop _
    refine ⟨0, fun fuel => ⟨buf, ?_, rfl, ?_, fun _ => rfl⟩⟩
    · simp [slash_join]
    · simp [slash_join, hdrop]
  | step de top names hnot _ ih =>
    intro buf endp retval acc hend hdrop hfit
    rw [slash_join_snoc] at hfit
    simp only [List.length_append, List.length_cons] at hfit
    have hn : (v.d_name de).length + 1 ≤ endp := by omega
    have hl1 : (wr_bytes buf (endp - (v.d_name de).length) (v.d_name de)).length = buf.length :=
      wr_bytes_length _ _ _ (by omega)
    have hd1 : (wr_bytes buf (endp - (v.d_name de).length) (v.d_name de)).drop
        (endp - (v.d_name de).length) = v.d_name de ++ (acc ++ [0]) := by
      rw [drop_wr_bytes _ _ _ (by omega), Nat.sub_add_cancel (by omega), hdrop]
    have hl2 : (wr_bytes (wr_bytes buf (endp - (v.d_name de).length) (v.d_name de))
        (endp - (v.d_name de).length - 1) [47]).length = buf.length := by
      rw [wr_bytes_length _ _ _ (by rw [hl1]; simp; omega), hl1]
    have hd2 : (wr_bytes (wr_bytes buf (endp - (v.d_name de).length) (v.d_name de))
        (endp - (v.d_name de).length - 1) [47]).drop (endp - (v.d_name de).length - 1)
        = (47 :: v.d_name de ++ acc) ++ [0] := by
      rw [drop_wr_bytes _ _ _ (by rw [hl1]; simp; omega)]
      simp only [List.length_singleton]
      rw [Nat.sub_add_cancel (by omega), hd1]
      simp
    obtain ⟨k, hk⟩ := ih _ (endp - (v.d_name de).length - 1)
      (endp - (v.d_name de).length - 1) (47 :: v.d_name de ++ acc)
      (by rw [hl2]; omega) hd2 (by omega)
    refine ⟨k + 1, fun fuel => ?_⟩
    obtain ⟨buf1, h1, h2, h3, _⟩ := hk fuel
    have hcast : ((endp : Int) - (((v.d_name de).length : Int) + 1))
        = ((endp - (v.d_name de).length - 1 : Nat) : Int) := by omega
    have hlen : endp - (slash_join (names ++ [v.d_name de])).length
        = endp - (v.d_name de).length - 1 - (slash_join names).length := by
      rw [slash_join_snoc]
      simp only [List.length_append, List.length_cons]
      omega
    have hret : (if names = [] then endp - (v.d_name de).length - 1
        else endp - (v.d_name de).length - 1 - (slash_join names).length)
        = endp - (v.d_name de).length - 1 - (slash_join names).length := by
      by_cases hnil : names = []
      · rw [if_pos hnil, hnil]; simp [slash_join]
      · rw [if_neg hnil]
    refine ⟨buf1, ?_, by rw [h2, hl2], ?_, fun hc => absurd hc (by simp)⟩
    · rw [hret] at h1
      rw [hlen, if_neg (by simp), ← h1]
      have e : fuel + (k + 1) = (fuel + k) + 1 := by omega
      rw [e]
      conv_lhs => unfold fullpath_loop
      rw [if_neg hnot]
      simp only []
      rw [if_neg (by omega), hcast]
    · rw [hlen, h3, slash_join_snoc]
      simp

/-- One round of the loop of `dentry_fullpath` at a dentry that is not the root of its
mount and whose name, with the '/' before it, does not fit the room left: the loop is
left and the pointer `retval` returned as it is. -/
theorem fullpath_loop_break (v : vfs) (fuel de dmnt : Nat) (buf : List Nat) (endp retval : Nat)
    (hnot : ¬ (de = v.mnt_root dmnt ∨ v.d_parent de = de))
    (hbig : endp < (v.d_name de).length + 1) :
    fullpath_loop v (fuel + 1) de dmnt buf endp (endp : Int) retval = some (buf, retval) := by
  unfold fullpath_loop
  rw [if_neg hnot]
  simp only []
  rw [if_pos (by omega)]


/-- Function `dentry_fullpath` on a dentry `de` below a dentry `top` of the same mount
that is not the root of the mount, when the names from below `top` down to `de` fit the
buffer and the name of `top` does not fit the room they leave: with enough fuel the
function returns a pointer to the path of those names alone, NUL-terminated. -/
theorem dentry_fullpath_climbs (v : vfs) (dmnt de top : Nat) (names : List (List Nat))
    (h : climbs v dmnt de top names)
    (hnot : ¬ (top = v.mnt_root dmnt ∨ v.d_parent top = top))
    (page : List Nat) (hl : 2 ≤ page.length)
    (hfit : (slash_join names).length ≤ page.length - 1)
    (hbig : page.length - 1 - (slash_join names).length < (v.d_name top).length + 1) :
    ∃ N, ∀ fuel, N ≤ fuel → ∃ buf nm,
      dentry_fullpath v fuel de dmnt page page.length = some (buf, nm) ∧
      buf.drop nm = render_path names ++ [0] ∧
      nm + (render_path names).length + 1 = page.length := by
  have hl0 : (wr_bytes page (page.length - 1) [0]).length = page.length :=
    wr_bytes_length _ _ _ (by simp; omega)
  have hd0 : (wr_bytes page (page.length - 1) [0]).drop (page.length - 1) = [0] := by
    rw [drop_wr_bytes _ _ _ (by simp; omega)]
    simp only [List.length_singleton]
    rw [List.drop_of_length_le (by omega)]
    rfl
  have hl1 : (wr_bytes (wr_bytes page (page.length - 1) [0]) (page.length - 1 - 1) [47]).length
      = page.length := by
    rw [wr_bytes_length _ _ _ (by rw [hl0]; simp; omega), hl0]
  have hd1 : (wr_bytes (wr_bytes page (page.length - 1) [0]) (page.length - 1 - 1) [47]).drop
      (page.length - 1 - 1) = [47, 0] := by
    rw [drop_wr_bytes _ _ _ (by rw [hl0]; simp; omega)]
    simp only [List.length_singleton]
    rw [Nat.sub_add_cancel (by omega), hd0]
    rfl
  have hd2 : (wr_bytes (wr_bytes page (page.length - 1) [0]) (page.length - 1 - 1) [47]).drop
      (page.length - 1) = [0] := by
    have e : List.drop (page.length - 1)
        (wr_bytes (wr_bytes page (page.length - 1) [0]) (page.length - 1 - 1) [47])
        = List.drop 1 (List.drop (page.length - 1 - 1)
          (wr_bytes (wr_bytes page (page.length - 1) [0]) (page.length - 1 - 1) [47])) := by
      rw [List.drop_drop]
      congr 1
      omega
    rw [e, hd1]
    rfl
  obtain ⟨k, hk⟩ := fullpath_loop_climbs v dmnt de top names h
    (wr_bytes (wr_bytes page (page.length - 1) [0]) (page.length - 1 - 1) [47])
    (page.length - 1) (page.length - 1 - 1) []
    (by rw [hl1]; omega) (by rw [hd2]; rfl) hfit
  refine ⟨k + 1, fun fuel hfuel => ?_⟩
  obtain ⟨f, rfl⟩ : ∃ f, fuel = (f + 1) + k := ⟨fuel - (k + 1), by omega⟩
  obtain ⟨buf1, h1, _, h3, h4⟩ := hk (f + 1)
  rw [fullpath_loop_break v f top dmnt buf1 _ _ hnot hbig] at h1
  have hcast : ((page.length : Int) - 1) = ((page.length - 1 : Nat) : Int) := by omega
  refine ⟨buf1, (if names = [] then page.length - 1 - 1
    else page.length - 1 - (slash_join names).length), ?_, ?_, ?_⟩
  · unfold dentry_fullpath
    simp only []
    rw [hcast]
    exact h1
  · unfold render_path
    by_cases hn : names = []
    · rw [if_pos hn, if_pos hn, h4 hn, hd1]
      rfl
    · rw [if_neg hn, if_neg hn, h3, List.append_nil]
  · unfold render_path
    by_cases hn : names = []
    · rw [if_pos hn, if_pos hn]
      simp only [List.length_singleton]
      omega
    · rw [if_neg hn, if_neg hn]
      omega

/-- Function `nvr_dcache_to_fn` on such a dentry: with enough fuel it returns the length
of the path of the names below `top` alone, a non-negative status, and copies that path
out. -/
theorem nvr_dcache_to_fn_climbs (v : vfs) (dmnt de top : Nat) (names : List (List Nat))
    (n0 : Nat) (hm : dentry_to_vfs v n0 de = some dmnt)
    (h : climbs v dmnt de top names)
    (hnot : ¬ (top = v.mnt_root dmnt ∨ v.d_parent top = top))
    (page : List Nat) (hl : page.length = PAGE_SIZE)
    (hfit : (render_path names).length + 1 < PAGE_SIZE)
    (hbig : PAGE_SIZE - 1 - (slash_join names).length < (v.d_name top).length + 1) :
    ∃ N, ∀ fuel, N ≤ fuel →
      nvr_dcache_to_fn v fuel de (some page) =
        some ((((render_path names).length : Nat) : Int),
          render_path names ++ 0 ::
            List.replicate (PAGE_SIZE - (render_path names).length - 1) 0) := by
  have hfit2 : (slash_join names).length ≤ page.length - 1 := by
    unfold render_path at hfit
    by_cases hn : names = []
    · rw [hn]; simp [slash_join]
    · rw [if_neg hn] at hfit; omega
  obtain ⟨N, hN⟩ := dentry_fullpath_climbs v dmnt de top names h hnot page
    (by rw [hl, page_size_eq]; omega) hfit2 (by rw [hl]; exact hbig)
  refine ⟨max N n0, fun fuel hfuel => ?_⟩
  obtain ⟨buf, nm, h1, h3, h4⟩ := hN fuel (le_trans (le_max_left _ _) hfuel)
  rw [hl] at h1 h4
  unfold nvr_dcache_to_fn
  simp only []
  rw [dentry_to_vfs_mono v n0 de dmnt hm fuel (le_trans (le_max_right _ _) hfuel)]
  simp only []
  rw [h1]
  simp only []
  have hlen : PAGE_SIZE - nm = (render_path names).length + 1 := by omega
  rw [if_pos (by omega), hlen, h3]
  have htake : List.take ((render_path names).length + 1) (render_path names ++ [0])
      = render_path names ++ [0] := List.take_of_length_le (by simp)
  rw [htake]
  congr 2
  · push_cast; omega
  · unfold wr_bytes
    simp only [List.take_zero, List.nil_append, Nat.zero_add, List.drop_replicate,
      List.length_append, List.length_singleton, List.append_assoc, List.singleton_append]
    congr 3


theorem chain_climbs (names : List (List Nat)) (j k : Nat) (hjk : j ≤ k)
    (hk : k ≤ names.length) :
    climbs (chain_vfs names) 0 k j ((names.take k).drop j) := by
  induction k, hjk using Nat.le_induction with
  | base =>
    rw [List.drop_of_length_le (by simp)]
    exact climbs.here j
  | succ k hjk ih =>
    have hlt : k < names.length := by omega
    have hname : (chain_vfs names).d_name (k + 1) = names.get ⟨k, hlt⟩ := by
      show (if k + 1 = 0 then [47] else names.getD (k + 1 - 1) [120]) = _
      rw [if_neg (by omega), Nat.add_sub_cancel, List.getD_eq_getElem _ _ hlt]
      rfl
    have htake : (names.take (k + 1)).drop j
        = (names.take k).drop j ++ [(chain_vfs names).d_name (k + 1)] := by
      rw [hname, List.take_succ, List.getElem?_eq_getElem hlt,
        List.drop_append_of_le_length (by simp; omega)]
      rfl
    rw [htake]
    refine climbs.step (k + 1) j _ ?_ (ih (by omega))
    show ¬ (k + 1 = 0 ∨ k + 1 - 1 = k + 1)
    omega

theorem deep_names_count : deep_names.length = 17 := by
  rw [deep_names, List.length_append, List.length_replicate, List.length_replicate]

theorem deep_names_drop : deep_names.drop 2 = List.replicate 15 (List.replicate 255 97) := by
  rw [deep_names]
  exact List.drop_left' (List.length_replicate _ _)

theorem deep_names_length : (render_path deep_names).length = 4352 := by
  have h : deep_names ≠ [] := fun hc => by
    have := deep_names_count
    rw [hc] at this
    exact absurd this (by decide)
  unfold render_path
  rw [if_neg h, slash_join_length, deep_names, List.map_append, List.map_replicate,
    List.map_replicate, List.sum_append, List.sum_replicate, List.sum_replicate,
    List.length_replicate, List.length_replicate]
  rfl

theorem deep_tail_length : (slash_join (deep_names.drop 2)).length = 3840 := by
  rw [deep_names_drop, slash_join_length, List.map_replicate, List.sum_replicate,
    List.length_replicate]
  rfl

theorem deep_tail_render : render_path (deep_names.drop 2) = slash_join (deep_names.drop 2) := by
  unfold render_path
  rw [if_neg]
  intro hc
  have := deep_tail_length
  rw [hc] at this
  exact absurd this (by decide)

/-- Claim C21 on the code: the dentry at depth 17 of a chain of directories with names of
255 bytes has a path of 4352 bytes, which does not fit the page of 4096 bytes. The loop
of `dentry_fullpath` leaves at the second directory from the top, whose name no longer
fits, and `nvr_dcache_to_fn` returns the status 3840, not a negative one, with the path
of the fifteen lowest names alone in its output: the two leading components are
missing. -/
theorem path_overflow_truncated :
    reaches (chain_vfs deep_names) 17 0 deep_names ∧
    (render_path deep_names).length = 4352 ∧
    (render_path (deep_names.drop 2)).length = 3840 ∧
    ∃ N, ∀ fuel, N ≤ fuel →
      nvr_dcache_to_fn (chain_vfs deep_names) fuel 17 (some (List.replicate PAGE_SIZE 0)) =
        some (3840, render_path (deep_names.drop 2) ++ 0 :: List.replicate 255 0) := by
  have hr : reaches (chain_vfs deep_names) 17 0 deep_names := by
    have := chain_reaches deep_names 17 (by rw [deep_names_count])
    rwa [List.take_of_length_le (by rw [deep_names_count])] at this
  have hc : climbs (chain_vfs deep_names) 0 17 2 (deep_names.drop 2) := by
    have := chain_climbs deep_names 2 17 (by omega) (by rw [deep_names_count])
    rwa [List.take_of_length_le (by rw [deep_names_count])] at this
  have hlen : (render_path (deep_names.drop 2)).length = 3840 := by
    rw [deep_tail_render, deep_tail_length]
  have hname : ((chain_vfs deep_names).d_name 2).length = 255 := by
    have e : (chain_vfs deep_names).d_name 2 = List.replicate 255 98 := rfl
    rw [e, List.length_replicate]
  refine ⟨hr, deep_names_length, hlen, ?_⟩
  obtain ⟨N, hN⟩ := nvr_dcache_to_fn_climbs (chain_vfs deep_names) 0 17 2 (deep_names.drop 2)
    18 (chain_dentry_to_vfs deep_names 17) hc
    (by show ¬ (2 = 0 ∨ 2 - 1 = 2); omega)
    (List.replicate PAGE_SIZE 0) (List.length_replicate _ _)
    (by rw [hlen, page_size_eq]; omega)
    (by rw [deep_tail_length, hname, page_size_eq]; omega)
  refine ⟨N, fun fuel hfuel => ?_⟩
  rw [hN fuel hfuel, hlen, page_size_eq]
  rfl

theorem c_string_zeros (n : Nat) : c_string (List.replicate n 0) = [] := by
  cases n with
  | zero => rfl
  | succ n => rfl

/-- Claim C22 on the code: the file at depth 16 of `long_names` has a path of 4095 bytes,
for which `nvr_dcache_to_fn` returns -ERANGE and leaves the name buffer zeroed. The
hooks `nvr_write` and `nvr_llseek` do not look at that status and enqueue a DataWrite
and a SizeChange record whose path is empty. A call of `nvr_add_name` with the empty
string enqueues an empty path as well. -/
theorem empty_path_enqueued :
    (∃ N, ∀ fuel, N ≤ fuel →
      nvr_write (chain_vfs long_names) fuel (some (List.replicate PAGE_SIZE 0))
          { trans := 0, multiwrite_files := [] } (sample_state []) "dd" 1000 16 10 0 =
        some (0, { sample_state [] with
          nvr_sys_queue := [{ sequence := 1, timestamp := 1000, type := NVR_TYPE_DATA,
                              name := [], buf := write_payload 0 10, pid := -1 }],
          nvr_sys_queue_count := 1, repitem_seq := 1, repitem_count := 1 }) ∧
      nvr_llseek (chain_vfs long_names) fuel (some (List.replicate PAGE_SIZE 0))
          (sample_state []) "dd" 1000 16 0 4096 =
        some (4096, { sample_state [] with
          nvr_sys_queue := [{ sequence := 1, timestamp := 1000, type := NVR_TYPE_SIZE,
                              name := [], buf := size_payload 4096, pid := -1 }],
          nvr_sys_queue_count := 1, repitem_seq := 1, repitem_count := 1 })) ∧
    (nvr_add_name (sample_state []) "dd" 1000 (some []) NVR_TYPE_MDATA none 0).2.nvr_sys_queue =
      [{ sequence := 1, timestamp := 1000, type := NVR_TYPE_MDATA, name := [], buf := [],
         pid := -1 }] := by
  refine ⟨?_, by decide⟩
  have hr : reaches (chain_vfs long_names) 16 0 long_names := by
    have := chain_reaches long_names 16 (by rw [long_names_count])
    rwa [List.take_of_length_le (by rw [long_names_count])] at this
  obtain ⟨N, hN⟩ := nvr_dcache_to_fn_reaches (chain_vfs long_names) 16 0 long_names 17
    (chain_dentry_to_vfs long_names 16) hr (List.replicate PAGE_SIZE 0)
    (List.length_replicate _ _)
    (by rw [long_names_length])
  refine ⟨N, fun fuel hfuel => ⟨?_, ?_⟩⟩
  · unfold nvr_write
    simp only []
    rw [hN fuel hfuel, if_neg (by rw [long_names_length]; omega)]
    simp only []
    rw [c_string_zeros]
    decide
  · unfold nvr_llseek
    rw [if_pos (by decide), hN fuel hfuel, if_neg (by rw [long_names_length]; omega)]
    simp only []
    rw [c_string_zeros]
    decide

theorem unregister_loop_eq (callback : Nat) (cbs : List Nat) :
    unregister_loop callback cbs = cbs.filter (fun ptr => decide (ptr ≠ callback)) := by
  induction cbs with
  | nil => rfl
  | cons ptr rest ih =>
    unfold unregister_loop
    by_cases h : ptr = callback
    · rw [if_pos h, ih, List.filter_cons_of_neg (by simp [h])]
    · rw [if_neg h, ih, List.filter_cons_of_pos (by simp [h])]

/-- The loop of the dispatch macros calls the hooks due, in list order, once for each
entry of the list, and leaves the state their successive runs give. -/
theorem CB_spec {φ π : Type} (mem : Nat → nvfs_callback_info φ π) (op : cb_op) (func : String)
    (args : cb_args) (w : world φ) (cbs : List Nat) (p : π) :
    (CB mem op func args w cbs p).2
      = (hooks_due mem op func cbs).map (fun cb => call.hook cb op func) ∧
    (CB mem op func args w cbs p).1 = run_hooks mem op func args w cbs p := by
  induction cbs generalizing p with
  | nil => exact ⟨rfl, rfl⟩
  | cons cb rest ih =>
    unfold CB run_hooks hooks_due
    cases h : cb_func mem op func cb with
    | none =>
      simp only []
      rw [List.filter_cons_of_neg (by simp [h])]
      exact ih p
    | some f =>
      simp only []
      rw [List.filter_cons_of_pos (by simp [h])]
      exact ⟨congrArg (fun l => call.hook cb op func :: l) (ih _).1, (ih _).2⟩


/-- The loop of the dispatch macros does not look at what the hooks return: descriptors
whose hooks, where present, change the state of the plug-ins alike give the same calls
and the same state. -/
theorem CB_ignores_status {φ π : Type} (mem mem2 : Nat → nvfs_callback_info φ π) (op : cb_op)
    (func : String) (args : cb_args) (w : world φ)
    (h : ∀ cb p, (cb_func mem2 op func cb).map (fun f => (f args w p).2)
      = (cb_func mem op func cb).map (fun f => (f args w p).2))
    (cbs : List Nat) (p : π) :
    CB mem2 op func args w cbs p = CB mem op func args w cbs p := by
  induction cbs generalizing p with
  | nil => rfl
  | cons cb rest ih =>
    have hcb := h cb p
    unfold CB
    cases h1 : cb_func mem op func cb with
    | none =>
      cases h2 : cb_func mem2 op func cb with
      | none => exact ih p
      | some f2 => rw [h1, h2] at hcb; simp at hcb
    | some f =>
      cases h2 : cb_func mem2 op func cb with
      | none => rw [h1, h2] at hcb; simp at hcb
      | some f2 =>
        rw [h1, h2] at hcb
        simp only [Option.map_some', Option.some.injEq] at hcb
        simp only []
        rw [hcb, ih]

theorem hooks_due_count {φ π : Type} (mem : Nat → nvfs_callback_info φ π) (op : cb_op)
    (func : String) (cbs : List Nat) (hnd : cbs.Nodup) (a : Nat) :
    (hooks_due mem op func cbs).count a
      = if a ∈ cbs ∧ (cb_func mem op func a).isSome = true then 1 else 0 := by
  have hn : (hooks_due mem op func cbs).Nodup := hnd.filter _
  have hm : a ∈ hooks_due mem op func cbs ↔ a ∈ cbs ∧ (cb_func mem op func a).isSome = true := by
    unfold hooks_due
    rw [List.mem_filter]
  by_cases hc : a ∈ cbs ∧ (cb_func mem op func a).isSome = true
  · rw [if_pos hc]
    exact List.count_eq_one_of_mem hn (hm.2 hc)
  · rw [if_neg hc]
    exact List.count_eq_zero_of_not_mem (fun hin => hc (hm.1 hin))

theorem map_cb_hook (op : cb_op) (func : String) (l : List Nat) :
    (l.map (fun cb => call.hook cb op func)).map call.cb = l := by
  induction l with
  | nil => rfl
  | cons a l ih => simp [call.cb, ih]

/-- Claim C23. Registry dispatch order, on a list `nvfs_callbacks` whose descriptors are
linked once each and for a descriptor `cb` that is not linked: `register_nvfs_callback`
puts `cb` at the front for `head != 0` and at the back for `head = 0`, and returns
-EINVAL and leaves the list for a null `cb`; a dispatch (F_CB, I_CB, S_CB, D_CB) calls,
in list order and exactly once each, the hooks of the registered descriptors that have
a table for the category and a hook in it, skipping the others, runs each on the state
the one before left, and gives the same calls and state whatever the hooks return;
`unregister_nvfs_callback` removes `cb` and keeps the order of the rest. -/
theorem registry_dispatch_order {φ π : Type} (mem : Nat → nvfs_callback_info φ π)
    (cbs : List Nat) (cb : Nat) (head : Int) (op : cb_op) (func : String) (args : cb_args)
    (w : world φ) (p : π) (hnd : cbs.Nodup) (hfresh : cb ∉ cbs) :
    (cb ≠ 0 → head ≠ 0 → register_nvfs_callback cbs cb head = (0, cb :: cbs)) ∧
    (cb ≠ 0 → head = 0 → register_nvfs_callback cbs cb head = (0, cbs ++ [cb])) ∧
    register_nvfs_callback cbs 0 head = (-EINVAL, cbs) ∧
    (register_nvfs_callback cbs cb head).2.Nodup ∧
    (F_CB mem cbs op func args w p).2
      = (hooks_due mem op func cbs).map (fun cb => call.hook cb op func) ∧
    (∀ a, ((F_CB mem cbs op func args w p).2.map call.cb).count a
      = if a ∈ cbs ∧ (cb_func mem op func a).isSome = true then 1 else 0) ∧
    (F_CB mem cbs op func args w p).1 = run_hooks mem op func args w cbs p ∧
    (∀ mem2 : Nat → nvfs_callback_info φ π,
      (∀ cb p, (cb_func mem2 op func cb).map (fun f => (f args w p).2)
        = (cb_func mem op func cb).map (fun f => (f args w p).2)) →
      F_CB mem2 cbs op func args w p = F_CB mem cbs op func args w p) ∧
    I_CB mem cbs op func args w p = F_CB mem cbs op func args w p ∧
    S_CB mem cbs func args w p = F_CB mem cbs cb_op.sb_op func args w p ∧
    D_CB mem cbs func args w p = F_CB mem cbs cb_op.d_op func args w p ∧
    (unregister_nvfs_callback (register_nvfs_callback cbs cb head).2 cb).2 = cbs ∧
    (∀ other, other ≠ 0 → unregister_nvfs_callback cbs other
      = (0, cbs.filter (fun ptr => decide (ptr ≠ other)))) ∧
    unregister_nvfs_callback cbs 0 = (0, cbs) := by
  have hspec := CB_spec mem op func args w cbs p
  have hfilter : cbs.filter (fun ptr => decide (ptr ≠ cb)) = cbs := by
    rw [List.filter_eq_self]
    intro a ha
    simp only [ne_eq, decide_not, Bool.not_eq_true', decide_eq_false_iff_not]
    exact fun hc => hfresh (hc ▸ ha)
  refine ⟨?_, ?_, ?_, ?_, hspec.1, ?_, hspec.2, ?_, rfl, rfl, rfl, ?_, ?_, ?_⟩
  · intro h0 hh
    unfold register_nvfs_callback
    rw [if_pos h0, if_pos hh]
  · intro h0 hh
    unfold register_nvfs_callback
    rw [if_pos h0, if_neg (by simp [hh])]
  · unfold register_nvfs_callback
    rw [if_neg (by simp)]
  · unfold register_nvfs_callback
    by_cases h0 : cb ≠ 0
    · rw [if_pos h0]
      by_cases hh : head ≠ 0
      · rw [if_pos hh]
        exact List.nodup_cons.2 ⟨hfresh, hnd⟩
      · rw [if_neg hh]
        exact List.Nodup.append hnd (List.nodup_singleton cb)
          (fun a ha hb => hfresh (by rw [List.mem_singleton] at hb; exact hb ▸ ha))
    · rw [if_neg h0]
      exact hnd
  · intro a
    unfold F_CB
    rw [hspec.1, map_cb_hook]
    exact hooks_due_count mem op func cbs hnd a
  · intro mem2 h
    exact CB_ignores_status mem mem2 op func args w h cbs p
  · unfold register_nvfs_callback unregister_nvfs_callback
    by_cases h0 : cb ≠ 0
    · rw [if_pos h0, if_pos h0]
      by_cases hh : head ≠ 0
      · rw [if_pos hh]
        simp only []
        rw [unregister_loop_eq, List.filter_cons_of_neg (by simp), hfilter]
      · rw [if_neg hh]
        simp only []
        rw [unregister_loop_eq, List.filter_append, hfilter]
        simp
    · rw [if_neg h0, if_neg h0]
  · intro other h0
    unfold unregister_nvfs_callback
    rw [if_pos h0, unregister_loop_eq]
  · unfold unregister_nvfs_callback
    rw [if_neg (by simp)]


/-- Witness of `registry_dispatch_order`: the descriptor at 3 is registered at the back
of the list of the descriptors at 1 and 2; a dispatch of `write` on the three calls the
hook of the first, skips the second, which has no table, and calls the hook of the
third although the first returned; unregistering the third gives the list back. -/
theorem registry_dispatch_order_witness :
    register_nvfs_callback [1, 2] 3 0 = (0, [1, 2, 3]) ∧
    (F_CB sample_mem [1, 2, 3] cb_op.reg_f_op "write" no_args sample_world 0).2
      = [call.hook 1 cb_op.reg_f_op "write", call.hook 3 cb_op.reg_f_op "write"] ∧
    (F_CB sample_mem [1, 2, 3] cb_op.reg_f_op "write" no_args sample_world 0).1 = 11 ∧
    (unregister_nvfs_callback (register_nvfs_callback [1, 2] 3 0).2 3).2 = [1, 2] :=
  ⟨(registry_dispatch_order sample_mem [1, 2] 3 0 cb_op.reg_f_op "write" no_args sample_world 0
      (by decide) (by decide)).2.1 (by decide) rfl,
   (registry_dispatch_order sample_mem [1, 2, 3] 4 0 cb_op.reg_f_op "write" no_args
      sample_world 0 (by decide) (by decide)).2.2.2.2.1.trans rfl,
   (registry_dispatch_order sample_mem [1, 2, 3] 4 0 cb_op.reg_f_op "write" no_args
      sample_world 0 (by decide) (by decide)).2.2.2.2.2.2.1.trans rfl,
   (registry_dispatch_order sample_mem [1, 2] 3 0 cb_op.reg_f_op "write" no_args sample_world 0
      (by decide) (by decide)).2.2.2.2.2.2.2.2.2.2.2.1⟩

/-- Function `nvfs_copy_attr_all` in one step: the inode at `dest` takes the twelve
attributes of the inode at `src` and keeps its inode number and version; every other
inode is left alone. -/
theorem nvfs_copy_attr_all_eq (m : Nat → inode) (dest src : Nat) :
    nvfs_copy_attr_all m dest src = fun q =>
      if q = dest then
        { (m src) with i_ino := (m dest).i_ino, i_version := (m dest).i_version }
      else m q := by
  funext q
  by_cases hq : q = dest
  · by_cases hs : src = dest
    · subst hq; subst hs
      simp [nvfs_copy_attr_all, nvfs_copy_attr_timesizes, nvfs_copy_attr_times,
        copy_inode_size, set_inode]
    · subst hq
      simp [nvfs_copy_attr_all, nvfs_copy_attr_timesizes, nvfs_copy_attr_times,
        copy_inode_size, set_inode, hs]
  · simp [nvfs_copy_attr_all, nvfs_copy_attr_timesizes, nvfs_copy_attr_times,
      copy_inode_size, set_inode, hq]

/-- Claim C28. Attribute mirroring idempotence: for every two inodes, given by the
pointers `dest` and `src` (which may be the same), `nvfs_copy_attr_all` applied twice
leaves the inodes as applied once; after it the owner, group, mode, device id, link
count, block-size bits, access, modify and change times, size, block count and flags of
`dest` are those `src` had, `src` is as it was, and no other inode is touched. -/
theorem copy_attr_all_idempotent (m : Nat → inode) (dest src : Nat) :
    nvfs_copy_attr_all (nvfs_copy_attr_all m dest src) dest src = nvfs_copy_attr_all m dest src ∧
    (nvfs_copy_attr_all m dest src dest).i_uid = (m src).i_uid ∧
    (nvfs_copy_attr_all m dest src dest).i_gid = (m src).i_gid ∧
    (nvfs_copy_attr_all m dest src dest).i_mode = (m src).i_mode ∧
    (nvfs_copy_attr_all m dest src dest).i_rdev = (m src).i_rdev ∧
    (nvfs_copy_attr_all m dest src dest).i_nlink = (m src).i_nlink ∧
    (nvfs_copy_attr_all m dest src dest).i_blkbits = (m src).i_blkbits ∧
    (nvfs_copy_attr_all m dest src dest).i_atime = (m src).i_atime ∧
    (nvfs_copy_attr_all m dest src dest).i_mtime = (m src).i_mtime ∧
    (nvfs_copy_attr_all m dest src dest).i_ctime = (m src).i_ctime ∧
    (nvfs_copy_attr_all m dest src dest).i_size = (m src).i_size ∧
    (nvfs_copy_attr_all m dest src dest).i_blocks = (m src).i_blocks ∧
    (nvfs_copy_attr_all m dest src dest).i_flags = (m src).i_flags ∧
    nvfs_copy_attr_all m dest src src = m src ∧
    (∀ q, q ≠ dest → nvfs_copy_attr_all m dest src q = m q) := by
  rw [nvfs_copy_attr_all_eq (nvfs_copy_attr_all m dest src), nvfs_copy_attr_all_eq m]
  refine ⟨?_, ?_⟩
  · funext q
    by_cases hq : q = dest
    · by_cases hs : src = dest
      · simp [hq, hs]
      · simp [hq, hs]
    · simp [hq]
  · by_cases hs : src = dest
    · subst hs
      simp
      intro q hq
      simp [hq]
    · simp [hs]
      intro q hq
      simp [hq]


/-- Witness of `copy_attr_all_idempotent`: the inode at 1 mirrors the inode at 2 and the
inode at 3 is left alone. -/
theorem copy_attr_all_idempotent_witness :
    (nvfs_copy_attr_all sample_inodes 1 2 1).i_size = 12 ∧
    nvfs_copy_attr_all sample_inodes 1 2 3 = sample_inodes 3 :=
  ⟨(copy_attr_all_idempotent sample_inodes 1 2).2.2.2.2.2.2.2.2.2.2.1.trans (by decide),
   (copy_attr_all_idempotent sample_inodes 1 2).2.2.2.2.2.2.2.2.2.2.2.2.2.2 3 (by decide)⟩

theorem hook_calls_all {φ π : Type} (mem : Nat → nvfs_callback_info φ π) (op : cb_op)
    (func : String) (cbs : List Nat) :
    ∀ c ∈ hook_calls mem op func cbs, c.is_hook = true := by
  intro c hc
  unfold hook_calls at hc
  rw [List.mem_map] at hc
  obtain ⟨cb, _, rfl⟩ := hc
  rfl

theorem I_CB_trace {φ π : Type} (mem : Nat → nvfs_callback_info φ π) (cbs : List Nat)
    (op : cb_op) (func : String) (args : cb_args) (w : world φ) (p : π) :
    (I_CB mem cbs op func args w p).2 = hook_calls mem op func cbs :=
  (CB_spec mem op func args w cbs p).1

theorem F_CB_trace {φ π : Type} (mem : Nat → nvfs_callback_info φ π) (cbs : List Nat)
    (op : cb_op) (func : String) (args : cb_args) (w : world φ) (p : π) :
    (F_CB mem cbs op func args w p).2 = hook_calls mem op func cbs :=
  (CB_spec mem op func args w cbs p).1

/-- Hooks followed by calls into the backing file system are in the order asked. -/
theorem dispatch_first_append (hs ls : List call) (hh : ∀ c ∈ hs, c.is_hook = true)
    (hl : ∀ c ∈ ls, c.is_hook = false) : dispatch_first (hs ++ ls) := by
  unfold dispatch_first
  rw [List.pairwise_append]
  refine ⟨?_, ?_, ?_⟩
  · exact List.Pairwise.imp_of_mem
      (fun {a b} ha _ _ hf => by rw [hh a ha] at hf; exact absurd hf (by decide))
      (List.pairwise_of_forall (fun _ _ => trivial))
  · exact List.Pairwise.imp_of_mem
      (fun {a b} _ hb _ _ => hl b hb)
      (List.pairwise_of_forall (fun _ _ => trivial))
  · intro a ha b hb _
    exact hl b hb


theorem nvfs_write_trace {φ π : Type} (k : kernel φ) (mem : Nat → nvfs_callback_info φ π)
    (cbs : List Nat) (w : world φ) (p : π) (file lower_file inode lower_inode : Nat)
    (buf : List Nat) (count : Nat) (ppos : Int) :
    (nvfs_write k mem cbs w p file lower_file inode lower_inode buf count ppos).1.trace
      = hook_calls mem cb_op.reg_f_op "write" cbs ++
        (if (k.f_rw lower_file "write").isSome = true ∧ count ≠ 0 then [call.lower "write"]
         else []) := by
  unfold nvfs_write
  simp only [F_CB_trace]
  cases k.f_rw lower_file "write" with
  | none => simp
  | some f =>
    by_cases hc : count ≠ 0
    · simp [hc]
    · simp [hc]

theorem nvfs_llseek_trace {φ π : Type} (k : kernel φ) (mem : Nat → nvfs_callback_info φ π)
    (cbs : List Nat) (w : world φ) (p : π) (file lower_file : Nat) (offset origin : Int) :
    (nvfs_llseek k mem cbs w p file lower_file offset origin).trace
      = hook_calls mem cb_op.reg_f_op "llseek" cbs ++
        [call.lower (if (k.f_op lower_file "llseek").isSome = true then "llseek"
          else "generic_file_llseek")] := by
  unfold nvfs_llseek
  simp only [F_CB_trace]
  cases k.f_op lower_file "llseek" with
  | none => simp only []; split <;> rfl
  | some f => simp only []; split <;> rfl


theorem nvfs_readdir_trace {φ π : Type} (k : kernel φ) (mem : Nat → nvfs_callback_info φ π)
    (cbs : List Nat) (w : world φ) (p : π) (file lower_file inode lower_inode : Nat)
    (dirent filldir : Nat) :
    (nvfs_readdir k mem cbs w p file lower_file inode lower_inode dirent filldir).trace
      = hook_calls mem cb_op.reg_f_op "readdir" cbs ++ [call.lower "vfs_readdir"] := by
  unfold nvfs_readdir
  simp only [F_CB_trace]

theorem nvfs_link_trace {φ π : Type} (k : kernel φ) (mem : Nat → nvfs_callback_info φ π)
    (cbs : List Nat) (w : world φ) (p : π)
    (dir new_dentry lower_old_dentry lower_new_dentry lower_dir_inode old_inode
      lower_old_inode sb lower_sb : Nat) :
    (nvfs_link k mem cbs w p dir new_dentry lower_old_dentry lower_new_dentry
        lower_dir_inode old_inode lower_old_inode sb lower_sb).trace
      = hook_calls mem cb_op.dir_i_op "link" cbs ++ [call.lower "vfs_link"] := by
  unfold nvfs_link
  simp only [I_CB_trace]
  split
  · rfl
  · split <;> rfl

theorem nvfs_unlink_trace {φ π : Type} (k : kernel φ) (mem : Nat → nvfs_callback_info φ π)
    (cbs : List Nat) (w : world φ) (p : π)
    (dir lower_dir lower_dentry inode lower_inode : Nat) :
    (nvfs_unlink k mem cbs w p dir lower_dir lower_dentry inode lower_inode).trace
      = hook_calls mem cb_op.dir_i_op "unlink" cbs ++ [call.lower "vfs_unlink"] := by
  unfold nvfs_unlink
  simp only [I_CB_trace]

theorem nvfs_symlink_trace {φ π : Type} (k : kernel φ) (mem : Nat → nvfs_callback_info φ π)
    (cbs : List Nat) (w : world φ) (p : π)
    (dir dentry lower_dentry lower_dir_inode sb lower_sb : Nat) (symname : List Nat) :
    (nvfs_symlink k mem cbs w p dir dentry lower_dentry lower_dir_inode sb lower_sb
        symname).trace
      = hook_calls mem cb_op.dir_i_op "symlink" cbs ++ [call.lower "vfs_symlink"] := by
  unfold nvfs_symlink
  simp only [I_CB_trace]
  split
  · rfl
  · split <;> rfl

theorem nvfs_mkdir_trace {φ π : Type} (k : kernel φ) (mem : Nat → nvfs_callback_info φ π)
    (cbs : List Nat) (w : world φ) (p : π)
    (dir dentry lower_dentry lower_dir_inode sb lower_sb : Nat) (mode : Int) :
    (nvfs_mkdir k mem cbs w p dir dentry lower_dentry lower_dir_inode sb lower_sb mode).trace
      = hook_calls mem cb_op.dir_i_op "mkdir" cbs ++ [call.lower "vfs_mkdir"] := by
  unfold nvfs_mkdir
  simp only [I_CB_trace]
  split
  · rfl
  · split <;> rfl

theorem nvfs_rmdir_trace {φ π : Type} (k : kernel φ) (mem : Nat → nvfs_callback_info φ π)
    (cbs : List Nat) (w : world φ) (p : π) (dir lower_dentry lower_dir_inode : Nat) :
    (nvfs_rmdir k mem cbs w p dir lower_dentry lower_dir_inode).trace
      = hook_calls mem cb_op.dir_i_op "rmdir" cbs ++ [call.lower "vfs_rmdir"] := by
  unfold nvfs_rmdir
  simp only [I_CB_trace]

theorem nvfs_mknod_trace {φ π : Type} (k : kernel φ) (mem : Nat → nvfs_callback_info φ π)
    (cbs : List Nat) (w : world φ) (p : π)
    (dir dentry lower_dentry lower_dir_inode sb lower_sb : Nat) (mode dev : Int) :
    (nvfs_mknod k mem cbs w p dir dentry lower_dentry lower_dir_inode sb lower_sb mode
        dev).trace
      = hook_calls mem cb_op.dir_i_op "mknod" cbs ++ [call.lower "vfs_mknod"] := by
  unfold nvfs_mknod
  simp only [I_CB_trace]
  split
  · rfl
  · split <;> rfl

theorem nvfs_rename_trace {φ π : Type} (k : kernel φ) (mem : Nat → nvfs_callback_info φ π)
    (cbs : List Nat) (w : world φ) (p : π)
    (old_dir new_dir lower_old_dentry lower_new_dentry lower_old_dir_inode
      lower_new_dir_inode : Nat) :
    (nvfs_rename k mem cbs w p old_dir new_dir lower_old_dentry lower_new_dentry
        lower_old_dir_inode lower_new_dir_inode).trace
      = hook_calls mem cb_op.dir_i_op "rename" cbs ++ [call.lower "vfs_rename"] := by
  unfold nvfs_rename
  simp only [I_CB_trace]
  split <;> rfl

theorem nvfs_setattr_trace {φ π : Type} (k : kernel φ) (mem : Nat → nvfs_callback_info φ π)
    (cbs : List Nat) (w : world φ) (p : π) (lower_dentry inode lower_inode : Nat)
    (ia : List Int) :
    (nvfs_setattr k mem cbs w p lower_dentry inode lower_inode ia).trace
      = hook_calls mem (inode_cb_op (w.inodes lower_inode).i_mode) "setattr" cbs ++
        [call.lower "notify_change"] := by
  unfold nvfs_setattr
  simp only [I_CB_trace]

theorem nvfs_getxattr_trace {φ π : Type} (k : kernel φ) (mem : Nat → nvfs_callback_info φ π)
    (cbs : List Nat) (w : world φ) (p : π) (lower_dentry : Nat) (name : List Nat)
    (value size : Nat) :
    (nvfs_getxattr k mem cbs w p lower_dentry name value size).trace
      = if (k.i_op (k.d_inode w lower_dentry) "getxattr").isSome = true then
          hook_calls mem (inode_cb_op (w.inodes (k.d_inode w lower_dentry)).i_mode)
            "getxattr" cbs ++ [call.lower "getxattr"]
        else [] := by
  unfold nvfs_getxattr
  simp only [I_CB_trace]
  cases k.i_op (k.d_inode w lower_dentry) "getxattr" <;> simp

theorem nvfs_setxattr_trace {φ π : Type} (k : kernel φ) (mem : Nat → nvfs_callback_info φ π)
    (cbs : List Nat) (w : world φ) (p : π) (lower_dentry : Nat) (name : List Nat)
    (value size : Nat) (flags : Int) :
    (nvfs_setxattr k mem cbs w p lower_dentry name value size flags).trace
      = if (k.i_op (k.d_inode w lower_dentry) "setxattr").isSome = true then
          hook_calls mem (inode_cb_op (w.inodes (k.d_inode w lower_dentry)).i_mode)
            "setxattr" cbs ++ [call.lower "setxattr"]
        else [] := by
  unfold nvfs_setxattr
  simp only [I_CB_trace]
  cases k.i_op (k.d_inode w lower_dentry) "setxattr" <;> simp

theorem nvfs_removexattr_trace {φ π : Type} (k : kernel φ)
    (mem : Nat → nvfs_callback_info φ π) (cbs : List Nat) (w : world φ) (p : π)
    (lower_dentry : Nat) (name : List Nat) :
    (nvfs_removexattr k mem cbs w p lower_dentry name).trace
      = if (k.i_op (k.d_inode w lower_dentry) "removexattr").isSome = true then
          hook_calls mem (inode_cb_op (w.inodes (k.d_inode w lower_dentry)).i_mode)
            "removexattr" cbs ++ [call.lower "removexattr"]
        else [] := by
  unfold nvfs_removexattr
  simp only [I_CB_trace]
  cases k.i_op (k.d_inode w lower_dentry) "removexattr" <;> simp

theorem nvfs_listxattr_trace {φ π : Type} (k : kernel φ) (mem : Nat → nvfs_callback_info φ π)
    (cbs : List Nat) (w : world φ) (p : π) (lower_dentry list size : Nat) :
    (nvfs_listxattr k mem cbs w p lower_dentry list size).trace
      = if (k.i_op (k.d_inode w lower_dentry) "listxattr").isSome = true then
          hook_calls mem (inode_cb_op (w.inodes (k.d_inode w lower_dentry)).i_mode)
            "listxattr" cbs ++ [call.lower "listxattr"]
        else [] := by
  unfold nvfs_listxattr
  simp only [I_CB_trace]
  cases k.i_op (k.d_inode w lower_dentry) "listxattr" <;> simp

theorem nvfs_create_trace {φ π : Type} (k : kernel φ) (mem : Nat → nvfs_callback_info φ π)
    (cbs : List Nat) (w : world φ) (p : π)
    (dir dentry lower_dentry lower_dir_inode sb lower_sb : Nat) (mode : Int) (nd : Nat) :
    (nvfs_create k mem cbs w p dir dentry lower_dentry lower_dir_inode sb lower_sb mode
        nd).trace
      = call.lower "vfs_create" :: hook_calls mem cb_op.dir_i_op "create" cbs := by
  unfold nvfs_create
  simp only [I_CB_trace]

theorem nvfs_lookup_trace {φ π : Type} (k : kernel φ) (mem : Nat → nvfs_callback_info φ π)
    (cbs : List Nat) (w : world φ) (p : π)
    (dir dentry lower_dir_dentry lower_dir_inode sb lower_sb : Nat) (name : List Nat)
    (unused : Nat) :
    (nvfs_lookup k mem cbs w p dir dentry lower_dir_dentry lower_dir_inode sb lower_sb name
        unused).trace
      = call.lower "lookup_one_len" :: hook_calls mem cb_op.dir_i_op "lookup" cbs := by
  unfold nvfs_lookup
  simp only [I_CB_trace]
  split
  · rfl
  · split <;> rfl


theorem nvfs_open_trace {φ π : Type} (k : kernel φ) (mem : Nat → nvfs_callback_info φ π)
    (cbs : List Nat) (w : world φ) (p : π) (file lower_inode lower_dentry lower_mnt : Nat) :
    (nvfs_open k mem cbs w p file lower_inode lower_dentry lower_mnt).trace
      = call.lower "dentry_open" ::
        (if IS_ERR (k.vfs "dentry_open"
            { objs := [lower_dentry, lower_mnt], nums := [((w.files file).f_flags : Int)],
              data := [] } w).1 = true
          then [] else hook_calls mem cb_op.reg_f_op "open" cbs) := by
  unfold nvfs_open
  simp only [F_CB_trace]
  split <;> rfl

theorem dispatch_first_hooks_then {φ π : Type} (mem : Nat → nvfs_callback_info φ π)
    (op : cb_op) (func : String) (cbs : List Nat) (ls : List call)
    (hl : ∀ c ∈ ls, c.is_hook = false) :
    dispatch_first (hook_calls mem op func cbs ++ ls) :=
  dispatch_first_append _ _ (hook_calls_all mem op func cbs) hl

theorem lower_single (name : String) : ∀ c ∈ [call.lower name], c.is_hook = false := by
  intro c hc
  rw [List.mem_singleton] at hc
  rw [hc]
  rfl

theorem I_CB_plug {φ π : Type} (mem : Nat → nvfs_callback_info φ π) (cbs : List Nat)
    (op : cb_op) (func : String) (args : cb_args) (w : world φ) (p : π) :
    (I_CB mem cbs op func args w p).1 = run_hooks mem op func args w cbs p :=
  (CB_spec mem op func args w cbs p).2

theorem F_CB_plug {φ π : Type} (mem : Nat → nvfs_callback_info φ π) (cbs : List Nat)
    (op : cb_op) (func : String) (args : cb_args) (w : world φ) (p : π) :
    (F_CB mem cbs op func args w p).1 = run_hooks mem op func args w cbs p :=
  (CB_spec mem op func args w cbs p).2

theorem nvfs_write_plug {φ π : Type} (k : kernel φ) (mem : Nat → nvfs_callback_info φ π)
    (cbs : List Nat) (w : world φ) (p : π) (file lower_file inode lower_inode : Nat)
    (buf : List Nat) (count : Nat) (ppos : Int) :
    (nvfs_write k mem cbs w p file lower_file inode lower_inode buf count ppos).1.plug
      = run_hooks mem cb_op.reg_f_op "write"
          { objs := [lower_file],
            nums := [(count : Int),
              if Nat.land (w.files file).f_flags O_APPEND ≠ 0 ∧ count ≠ 0
                then (w.inodes inode).i_size else ppos],
            data := buf } w cbs p := by
  unfold nvfs_write
  simp only [F_CB_plug]
  cases k.f_rw lower_file "write" <;> rfl

theorem nvfs_llseek_plug {φ π : Type} (k : kernel φ) (mem : Nat → nvfs_callback_info φ π)
    (cbs : List Nat) (w : world φ) (p : π) (file lower_file : Nat) (offset origin : Int) :
    (nvfs_llseek k mem cbs w p file lower_file offset origin).plug
      = run_hooks mem cb_op.reg_f_op "llseek"
          { objs := [lower_file], nums := [offset, origin], data := [] }
          (set_file (set_file w lower_file (fun l => { l with f_pos := (w.files file).f_pos }))
            lower_file
            (fun l => { l with f_ra :=
              ((set_file w lower_file
                (fun l => { l with f_pos := (w.files file).f_pos })).files file).f_ra }))
          cbs p := by
  unfold nvfs_llseek
  simp only [F_CB_plug]
  split <;> rfl

theorem nvfs_readdir_plug {φ π : Type} (k : kernel φ) (mem : Nat → nvfs_callback_info φ π)
    (cbs : List Nat) (w : world φ) (p : π) (file lower_file inode lower_inode : Nat)
    (dirent filldir : Nat) :
    (nvfs_readdir k mem cbs w p file lower_file inode lower_inode dirent filldir).plug
      = run_hooks mem cb_op.reg_f_op "readdir"
          { objs := [lower_file, dirent, filldir], nums := [], data := [] }
          (set_file w lower_file (fun l => { l with f_pos := (w.files file).f_pos }))
          cbs p := by
  unfold nvfs_readdir
  simp only [F_CB_plug]

theorem llseek_sync_eq {φ : Type} (w : world φ) (file lower_file : Nat) :
    set_file (set_file w lower_file (fun l => { l with f_pos := (w.files file).f_pos }))
        lower_file
        (fun l => { l with f_ra :=
          ((set_file w lower_file
            (fun l => { l with f_pos := (w.files file).f_pos })).files file).f_ra })
      = set_file w lower_file
          (fun l => { l with f_pos := (w.files file).f_pos, f_ra := (w.files file).f_ra }) := by
  unfold set_file
  congr 1
  funext q
  by_cases hq : q = lower_file
  · by_cases hf : file = lower_file
    · simp [hq, hf]
    · simp [hq, hf]
  · simp [hq]

theorem nvfs_link_plug {φ π : Type} (k : kernel φ) (mem : Nat → nvfs_callback_info φ π)
    (cbs : List Nat) (w : world φ) (p : π)
    (dir new_dentry lower_old_dentry lower_new_dentry lower_dir_inode old_inode
      lower_old_inode sb lower_sb : Nat) :
    (nvfs_link k mem cbs w p dir new_dentry lower_old_dentry lower_new_dentry
        lower_dir_inode old_inode lower_old_inode sb lower_sb).plug
      = run_hooks mem cb_op.dir_i_op "link"
          { objs := [lower_old_dentry, lower_dir_inode, lower_new_dentry], nums := [],
            data := [] } w cbs p := by
  unfold nvfs_link
  simp only [I_CB_plug]
  split
  · rfl
  · split <;> rfl

theorem nvfs_unlink_plug {φ π : Type} (k : kernel φ) (mem : Nat → nvfs_callback_info φ π)
    (cbs : List Nat) (w : world φ) (p : π)
    (dir lower_dir lower_dentry inode lower_inode : Nat) :
    (nvfs_unlink k mem cbs w p dir lower_dir lower_dentry inode lower_inode).plug
      = run_hooks mem cb_op.dir_i_op "unlink"
          { objs := [lower_dir, lower_dentry], nums := [], data := [] } w cbs p := by
  unfold nvfs_unlink
  simp only [I_CB_plug]

theorem nvfs_symlink_plug {φ π : Type} (k : kernel φ) (mem : Nat → nvfs_callback_info φ π)
    (cbs : List Nat) (w : world φ) (p : π)
    (dir dentry lower_dentry lower_dir_inode sb lower_sb : Nat) (symname : List Nat) :
    (nvfs_symlink k mem cbs w p dir dentry lower_dentry lower_dir_inode sb lower_sb
        symname).plug
      = run_hooks mem cb_op.dir_i_op "symlink"
          { objs := [lower_dir_inode, lower_dentry], nums := [], data := symname } w cbs p := by
  unfold nvfs_symlink
  simp only [I_CB_plug]
  split
  · rfl
  · split <;> rfl

theorem nvfs_mkdir_plug {φ π : Type} (k : kernel φ) (mem : Nat → nvfs_callback_info φ π)
    (cbs : List Nat) (w : world φ) (p : π)
    (dir dentry lower_dentry lower_dir_inode sb lower_sb : Nat) (mode : Int) :
    (nvfs_mkdir k mem cbs w p dir dentry lower_dentry lower_dir_inode sb lower_sb mode).plug
      = run_hooks mem cb_op.dir_i_op "mkdir"
          { objs := [lower_dir_inode, lower_dentry], nums := [mode], data := [] } w cbs p := by
  unfold nvfs_mkdir
  simp only [I_CB_plug]
  split
  · rfl
  · split <;> rfl

theorem nvfs_rmdir_plug {φ π : Type} (k : kernel φ) (mem : Nat → nvfs_callback_info φ π)
    (cbs : List Nat) (w : world φ) (p : π) (dir lower_dentry lower_dir_inode : Nat) :
    (nvfs_rmdir k mem cbs w p dir lower_dentry lower_dir_inode).plug
      = run_hooks mem cb_op.dir_i_op "rmdir"
          { objs := [lower_dir_inode, lower_dentry], nums := [], data := [] } w cbs p := by
  unfold nvfs_rmdir
  simp only [I_CB_plug]

theorem nvfs_mknod_plug {φ π : Type} (k : kernel φ) (mem : Nat → nvfs_callback_info φ π)
    (cbs : List Nat) (w : world φ) (p : π)
    (dir dentry lower_dentry lower_dir_inode sb lower_sb : Nat) (mode dev : Int) :
    (nvfs_mknod k mem cbs w p dir dentry lower_dentry lower_dir_inode sb lower_sb mode
        dev).plug
      = run_hooks mem cb_op.dir_i_op "mknod"
          { objs := [lower_dir_inode, lower_dentry], nums := [mode, dev], data := [] }
          w cbs p := by
  unfold nvfs_mknod
  simp only [I_CB_plug]
  split
  · rfl
  · split <;> rfl

theorem nvfs_rename_plug {φ π : Type} (k : kernel φ) (mem : Nat → nvfs_callback_info φ π)
    (cbs : List Nat) (w : world φ) (p : π)
    (old_dir new_dir lower_old_dentry lower_new_dentry lower_old_dir_inode
      lower_new_dir_inode : Nat) :
    (nvfs_rename k mem cbs w p old_dir new_dir lower_old_dentry lower_new_dentry
        lower_old_dir_inode lower_new_dir_inode).plug
      = run_hooks mem cb_op.dir_i_op "rename"
          { objs := [lower_old_dir_inode, lower_old_dentry, lower_new_dir_inode,
              lower_new_dentry],
            nums := [], data := [] } w cbs p := by
  unfold nvfs_rename
  simp only [I_CB_plug]
  split <;> rfl

theorem nvfs_setattr_plug {φ π : Type} (k : kernel φ) (mem : Nat → nvfs_callback_info φ π)
    (cbs : List Nat) (w : world φ) (p : π) (lower_dentry inode lower_inode : Nat)
    (ia : List Int) :
    (nvfs_setattr k mem cbs w p lower_dentry inode lower_inode ia).plug
      = run_hooks mem (inode_cb_op (w.inodes lower_inode).i_mode) "setattr"
          { objs := [lower_dentry], nums := ia, data := [] } w cbs p := by
  unfold nvfs_setattr
  simp only [I_CB_plug]

theorem nvfs_getxattr_plug {φ π : Type} (k : kernel φ) (mem : Nat → nvfs_callback_info φ π)
    (cbs : List Nat) (w : world φ) (p : π) (lower_dentry : Nat) (name : List Nat)
    (value size : Nat) :
    (nvfs_getxattr k mem cbs w p lower_dentry name value size).plug
      = if (k.i_op (k.d_inode w lower_dentry) "getxattr").isSome = true then
          run_hooks mem (inode_cb_op (w.inodes (k.d_inode w lower_dentry)).i_mode) "getxattr"
            { objs := [lower_dentry, value], nums := [(size : Int)], data := name } w cbs p
        else p := by
  unfold nvfs_getxattr
  simp only [I_CB_plug]
  cases k.i_op (k.d_inode w lower_dentry) "getxattr" <;> simp

theorem nvfs_setxattr_plug {φ π : Type} (k : kernel φ) (mem : Nat → nvfs_callback_info φ π)
    (cbs : List Nat) (w : world φ) (p : π) (lower_dentry : Nat) (name : List Nat)
    (value size : Nat) (flags : Int) :
    (nvfs_setxattr k mem cbs w p lower_dentry name value size flags).plug
      = if (k.i_op (k.d_inode w lower_dentry) "setxattr").isSome = true then
          run_hooks mem (inode_cb_op (w.inodes (k.d_inode w lower_dentry)).i_mode) "setxattr"
            { objs := [lower_dentry, value], nums := [(size : Int), flags], data := name }
            w cbs p
        else p := by
  unfold nvfs_setxattr
  simp only [I_CB_plug]
  cases k.i_op (k.d_inode w lower_dentry) "setxattr" <;> simp

theorem nvfs_removexattr_plug {φ π : Type} (k : kernel φ)
    (mem : Nat → nvfs_callback_info φ π) (cbs : List Nat) (w : world φ) (p : π)
    (lower_dentry : Nat) (name : List Nat) :
    (nvfs_removexattr k mem cbs w p lower_dentry name).plug
      = if (k.i_op (k.d_inode w lower_dentry) "removexattr").isSome = true then
          run_hooks mem (inode_cb_op (w.inodes (k.d_inode w lower_dentry)).i_mode)
            "removexattr" { objs := [lower_dentry], nums := [], data := name } w cbs p
        else p := by
  unfold nvfs_removexattr
  simp only [I_CB_plug]
  cases k.i_op (k.d_inode w lower_dentry) "removexattr" <;> simp

theorem nvfs_listxattr_plug {φ π : Type} (k : kernel φ) (mem : Nat → nvfs_callback_info φ π)
    (cbs : List Nat) (w : world φ) (p : π) (lower_dentry list size : Nat) :
    (nvfs_listxattr k mem cbs w p lower_dentry list size).plug
      = if (k.i_op (k.d_inode w lower_dentry) "listxattr").isSome = true then
          run_hooks mem (inode_cb_op (w.inodes (k.d_inode w lower_dentry)).i_mode) "listxattr"
            { objs := [lower_dentry, list], nums := [(size : Int)], data := [] } w cbs p
        else p := by
  unfold nvfs_listxattr
  simp only [I_CB_plug]
  cases k.i_op (k.d_inode w lower_dentry) "listxattr" <;> simp

theorem nvfs_lookup_plug {φ π : Type} (k : kernel φ) (mem : Nat → nvfs_callback_info φ π)
    (cbs : List Nat) (w : world φ) (p : π)
    (dir dentry lower_dir_dentry lower_dir_inode sb lower_sb : Nat) (name : List Nat)
    (unused : Nat) :
    (nvfs_lookup k mem cbs w p dir dentry lower_dir_dentry lower_dir_inode sb lower_sb name
        unused).plug
      = run_hooks mem cb_op.dir_i_op "lookup"
          { objs := [lower_dir_inode, unused],
            nums := [(k.vfs "lookup_one_len"
              { objs := [lower_dir_dentry], nums := [(name.length : Int)], data := name } w).1],
            data := [] }
          (k.vfs "lookup_one_len"
            { objs := [lower_dir_dentry], nums := [(name.length : Int)], data := name } w).2
          cbs p := by
  unfold nvfs_lookup
  simp only [I_CB_plug]
  split
  · rfl
  · split <;> rfl

/-- Claim C24, refuted as stated, on two counts. `nvfs_lookup`, with a plug-in that has a
`lookup` hook, calls `lookup_one_len` and then the hook, to which it hands the dentry the
lookup returned: the hook runs after the backing call. `nvfs_llseek` and `nvfs_readdir`,
on a proxy file (address 1) at position 7 whose backing file (address 2) stands at
position 0, with a plug-in whose hooks note the position of the file they are handed,
leave 7 noted: the hook runs before the backing call, but on a backing file whose
position the proxy has already overwritten. -/
theorem dispatch_order_counterexample :
    ((nvfs_lookup sample_kernel (fun _ => dir_cb) [1] sample_world 0 1 2 3 4 0 0 [120] 0).trace
        = [call.lower "lookup_one_len", call.hook 1 cb_op.dir_i_op "lookup"] ∧
      ¬ dispatch_first
        (nvfs_lookup sample_kernel (fun _ => dir_cb) [1] sample_world 0 1 2 3 4 0 0 [120]
          0).trace) ∧
    ((pos_world.files 2).f_pos = 0 ∧
      (nvfs_llseek sample_kernel (fun _ => pos_cb) [1] pos_world 0 1 2 0 1).trace
        = [call.hook 1 cb_op.reg_f_op "llseek", call.lower "generic_file_llseek"] ∧
      (nvfs_llseek sample_kernel (fun _ => pos_cb) [1] pos_world 0 1 2 0 1).plug = 7) ∧
    ((nvfs_readdir sample_kernel (fun _ => pos_cb) [1] pos_world 0 1 2 3 4 0 0).trace
        = [call.hook 1 cb_op.reg_f_op "readdir", call.lower "vfs_readdir"] ∧
      (nvfs_readdir sample_kernel (fun _ => pos_cb) [1] pos_world 0 1 2 3 4 0 0).plug = 7) := by
  have h2 : (nvfs_lookup sample_kernel (fun _ => dir_cb) [1] sample_world 0 1 2 3 4 0 0 [120]
      0).trace = [call.lower "lookup_one_len", call.hook 1 cb_op.dir_i_op "lookup"] := by
    rw [nvfs_lookup_trace]; rfl
  refine ⟨⟨h2, ?_⟩, ⟨rfl, ?_, ?_⟩, ?_, ?_⟩
  · rw [h2]; unfold dispatch_first; decide
  · rw [nvfs_llseek_trace]; rfl
  · rw [nvfs_llseek_plug]; rfl
  · rw [nvfs_readdir_trace]; rfl
  · rw [nvfs_readdir_plug]; rfl

/-- Claim C24, amended: whatever the plug-ins, the backing file system, the objects
(`o1`, `o2`, ...) and the other arguments, in `nvfs_write`, `nvfs_link`, `nvfs_unlink`,
`nvfs_symlink`, `nvfs_mkdir`, `nvfs_rmdir`, `nvfs_mknod`, `nvfs_rename`, `nvfs_setattr`
and the four xattr operations no hook is called after a call into the backing file
system, and the hooks run on the kernel objects `w` as the operation found them: the
state of the plug-ins is what the hooks due leave when run on `w` (an xattr operation
that the backing inode lacks calls no hook). In `nvfs_llseek` and `nvfs_readdir` too no
hook is called after a backing call, and the hooks run on `w` changed in the backing
file alone, which has been given the position of the proxy file (and, in `nvfs_llseek`,
its read-ahead state). In `nvfs_lookup` the dispatch follows `lookup_one_len`: the hooks
run on the kernel objects that call leaves and are handed the dentry it returned. -/
theorem dispatch_order {φ π : Type} (k : kernel φ) (mem : Nat → nvfs_callback_info φ π)
    (cbs : List Nat) (w : world φ) (p : π) (o1 o2 o3 o4 o5 o6 o7 o8 o9 : Nat)
    (n1 n2 : Int) (bytes : List Nat) (ia : List Int) :
    (dispatch_first (nvfs_write k mem cbs w p o1 o2 o3 o4 bytes o5 n1).1.trace ∧
      (nvfs_write k mem cbs w p o1 o2 o3 o4 bytes o5 n1).1.plug
        = run_hooks mem cb_op.reg_f_op "write"
            { objs := [o2],
              nums := [(o5 : Int),
                if Nat.land (w.files o1).f_flags O_APPEND ≠ 0 ∧ o5 ≠ 0
                  then (w.inodes o3).i_size else n1],
              data := bytes } w cbs p) ∧
    (dispatch_first (nvfs_link k mem cbs w p o1 o2 o3 o4 o5 o6 o7 o8 o9).trace ∧
      (nvfs_link k mem cbs w p o1 o2 o3 o4 o5 o6 o7 o8 o9).plug
        = run_hooks mem cb_op.dir_i_op "link"
            { objs := [o3, o5, o4], nums := [], data := [] } w cbs p) ∧
    (dispatch_first (nvfs_unlink k mem cbs w p o1 o2 o3 o4 o5).trace ∧
      (nvfs_unlink k mem cbs w p o1 o2 o3 o4 o5).plug
        = run_hooks mem cb_op.dir_i_op "unlink"
            { objs := [o2, o3], nums := [], data := [] } w cbs p) ∧
    (dispatch_first (nvfs_symlink k mem cbs w p o1 o2 o3 o4 o5 o6 bytes).trace ∧
      (nvfs_symlink k mem cbs w p o1 o2 o3 o4 o5 o6 bytes).plug
        = run_hooks mem cb_op.dir_i_op "symlink"
            { objs := [o4, o3], nums := [], data := bytes } w cbs p) ∧
    (dispatch_first (nvfs_mkdir k mem cbs w p o1 o2 o3 o4 o5 o6 n1).trace ∧
      (nvfs_mkdir k mem cbs w p o1 o2 o3 o4 o5 o6 n1).plug
        = run_hooks mem cb_op.dir_i_op "mkdir"
            { objs := [o4, o3], nums := [n1], data := [] } w cbs p) ∧
    (dispatch_first (nvfs_rmdir k mem cbs w p o1 o2 o3).trace ∧
      (nvfs_rmdir k mem cbs w p o1 o2 o3).plug
        = run_hooks mem cb_op.dir_i_op "rmdir"
            { objs := [o3, o2], nums := [], data := [] } w cbs p) ∧
    (dispatch_first (nvfs_mknod k mem cbs w p o1 o2 o3 o4 o5 o6 n1 n2).trace ∧
      (nvfs_mknod k mem cbs w p o1 o2 o3 o4 o5 o6 n1 n2).plug
        = run_hooks mem cb_op.dir_i_op "mknod"
            { objs := [o4, o3], nums := [n1, n2], data := [] } w cbs p) ∧
    (dispatch_first (nvfs_rename k mem cbs w p o1 o2 o3 o4 o5 o6).trace ∧
      (nvfs_rename k mem cbs w p o1 o2 o3 o4 o5 o6).plug
        = run_hooks mem cb_op.dir_i_op "rename"
            { objs := [o5, o3, o6, o4], nums := [], data := [] } w cbs p) ∧
    (dispatch_first (nvfs_setattr k mem cbs w p o1 o2 o3 ia).trace ∧
      (nvfs_setattr k mem cbs w p o1 o2 o3 ia).plug
        = run_hooks mem (inode_cb_op (w.inodes o3).i_mode) "setattr"
            { objs := [o1], nums := ia, data := [] } w cbs p) ∧
    (dispatch_first (nvfs_getxattr k mem cbs w p o1 bytes o2 o3).trace ∧
      (nvfs_getxattr k mem cbs w p o1 bytes o2 o3).plug
        = if (k.i_op (k.d_inode w o1) "getxattr").isSome = true then
            run_hooks mem (inode_cb_op (w.inodes (k.d_inode w o1)).i_mode) "getxattr"
              { objs := [o1, o2], nums := [(o3 : Int)], data := bytes } w cbs p
          else p) ∧
    (dispatch_first (nvfs_setxattr k mem cbs w p o1 bytes o2 o3 n1).trace ∧
      (nvfs_setxattr k mem cbs w p o1 bytes o2 o3 n1).plug
        = if (k.i_op (k.d_inode w o1) "setxattr").isSome = true then
            run_hooks mem (inode_cb_op (w.inodes (k.d_inode w o1)).i_mode) "setxattr"
              { objs := [o1, o2], nums := [(o3 : Int), n1], data := bytes } w cbs p
          else p) ∧
    (dispatch_first (nvfs_removexattr k mem cbs w p o1 bytes).trace ∧
      (nvfs_removexattr k mem cbs w p o1 bytes).plug
        = if (k.i_op (k.d_inode w o1) "removexattr").isSome = true then
            run_hooks mem (inode_cb_op (w.inodes (k.d_inode w o1)).i_mode) "removexattr"
              { objs := [o1], nums := [], data := bytes } w cbs p
          else p) ∧
    (dispatch_first (nvfs_listxattr k mem cbs w p o1 o2 o3).trace ∧
      (nvfs_listxattr k mem cbs w p o1 o2 o3).plug
        = if (k.i_op (k.d_inode w o1) "listxattr").isSome = true then
            run_hooks mem (inode_cb_op (w.inodes (k.d_inode w o1)).i_mode) "listxattr"
              { objs := [o1, o2], nums := [(o3 : Int)], data := [] } w cbs p
          else p) ∧
    (dispatch_first (nvfs_llseek k mem cbs w p o1 o2 n1 n2).trace ∧
      (nvfs_llseek k mem cbs w p o1 o2 n1 n2).plug
        = run_hooks mem cb_op.reg_f_op "llseek"
            { objs := [o2], nums := [n1, n2], data := [] }
            (set_file w o2 (fun l =>
              { l with f_pos := (w.files o1).f_pos, f_ra := (w.files o1).f_ra }))
            cbs p) ∧
    (dispatch_first (nvfs_readdir k mem cbs w p o1 o2 o3 o4 o5 o6).trace ∧
      (nvfs_readdir k mem cbs w p o1 o2 o3 o4 o5 o6).plug
        = run_hooks mem cb_op.reg_f_op "readdir"
            { objs := [o2, o5, o6], nums := [], data := [] }
            (set_file w o2 (fun l => { l with f_pos := (w.files o1).f_pos })) cbs p) ∧
    ((nvfs_lookup k mem cbs w p o1 o2 o3 o4 o5 o6 bytes o7).trace
        = call.lower "lookup_one_len" :: hook_calls mem cb_op.dir_i_op "lookup" cbs ∧
      (nvfs_lookup k mem cbs w p o1 o2 o3 o4 o5 o6 bytes o7).plug
        = run_hooks mem cb_op.dir_i_op "lookup"
            { objs := [o4, o7],
              nums := [(k.vfs "lookup_one_len"
                { objs := [o3], nums := [(bytes.length : Int)], data := bytes } w).1],
              data := [] }
            (k.vfs "lookup_one_len"
              { objs := [o3], nums := [(bytes.length : Int)], data := bytes } w).2
            cbs p) := by
  refine ⟨⟨?_, nvfs_write_plug _ _ _ _ _ _ _ _ _ _ _ _⟩,
    ⟨?_, nvfs_link_plug _ _ _ _ _ _ _ _ _ _ _ _ _ _⟩,
    ⟨?_, nvfs_unlink_plug _ _ _ _ _ _ _ _ _ _⟩,
    ⟨?_, nvfs_symlink_plug _ _ _ _ _ _ _ _ _ _ _ _⟩,
    ⟨?_, nvfs_mkdir_plug _ _ _ _ _ _ _ _ _ _ _ _⟩,
    ⟨?_, nvfs_rmdir_plug _ _ _ _ _ _ _ _⟩,
    ⟨?_, nvfs_mknod_plug _ _ _ _ _ _ _ _ _ _ _ _ _⟩,
    ⟨?_, nvfs_rename_plug _ _ _ _ _ _ _ _ _ _ _⟩,
    ⟨?_, nvfs_setattr_plug _ _ _ _ _ _ _ _ _⟩,
    ⟨?_, nvfs_getxattr_plug _ _ _ _ _ _ _ _ _⟩,
    ⟨?_, nvfs_setxattr_plug _ _ _ _ _ _ _ _ _ _⟩,
    ⟨?_, nvfs_removexattr_plug _ _ _ _ _ _ _⟩,
    ⟨?_, nvfs_listxattr_plug _ _ _ _ _ _ _ _⟩,
    ⟨?_, ?_⟩,
    ⟨?_, nvfs_readdir_plug _ _ _ _ _ _ _ _ _ _ _⟩,
    ⟨nvfs_lookup_trace _ _ _ _ _ _ _ _ _ _ _ _ _, nvfs_lookup_plug _ _ _ _ _ _ _ _ _ _ _ _ _⟩⟩
  · rw [nvfs_write_trace]
    refine dispatch_first_hooks_then _ _ _ _ _ ?_
    split
    · exact lower_single _
    · intro c hc; simp at hc
  · rw [nvfs_link_trace]
    exact dispatch_first_hooks_then _ _ _ _ _ (lower_single _)
  · rw [nvfs_unlink_trace]
    exact dispatch_first_hooks_then _ _ _ _ _ (lower_single _)
  · rw [nvfs_symlink_trace]
    exact dispatch_first_hooks_then _ _ _ _ _ (lower_single _)
  · rw [nvfs_mkdir_trace]
    exact dispatch_first_hooks_then _ _ _ _ _ (lower_single _)
  · rw [nvfs_rmdir_trace]
    exact dispatch_first_hooks_then _ _ _ _ _ (lower_single _)
  · rw [nvfs_mknod_trace]
    exact dispatch_first_hooks_then _ _ _ _ _ (lower_single _)
  · rw [nvfs_rename_trace]
    exact dispatch_first_hooks_then _ _ _ _ _ (lower_single _)
  · rw [nvfs_setattr_trace]
    exact dispatch_first_hooks_then _ _ _ _ _ (lower_single _)
  · rw [nvfs_getxattr_trace]
    split
    · exact dispatch_first_hooks_then _ _ _ _ _ (lower_single _)
    · exact List.Pairwise.nil
  · rw [nvfs_setxattr_trace]
    split
    · exact dispatch_first_hooks_then _ _ _ _ _ (lower_single _)
    · exact List.Pairwise.nil
  · rw [nvfs_removexattr_trace]
    split
    · exact dispatch_first_hooks_then _ _ _ _ _ (lower_single _)
    · exact List.Pairwise.nil
  · rw [nvfs_listxattr_trace]
    split
    · exact dispatch_first_hooks_then _ _ _ _ _ (lower_single _)
    · exact List.Pairwise.nil
  · rw [nvfs_llseek_trace]
    exact dispatch_first_hooks_then _ _ _ _ _ (lower_single _)
  · rw [nvfs_llseek_plug, llseek_sync_eq]
  · rw [nvfs_readdir_trace]
    exact dispatch_first_hooks_then _ _ _ _ _ (lower_single _)

theorem filter_hook_calls {φ π : Type} (mem : Nat → nvfs_callback_info φ π) (op : cb_op)
    (func : String) (cbs : List Nat) (ls : List call) :
    (hook_calls mem op func cbs ++ ls).filter (fun c => !c.is_hook)
      = ls.filter (fun c => !c.is_hook) := by
  rw [List.filter_append]
  have h : (hook_calls mem op func cbs).filter (fun c => !c.is_hook) = [] := by
    rw [List.filter_eq_nil_iff]
    intro c hc
    rw [hook_calls_all mem op func cbs c hc]
    decide
  rw [h, List.nil_append]

theorem nvfs_mkdir_same {φ π ρ : Type} (k : kernel φ) (mem : Nat → nvfs_callback_info φ π)
    (mem2 : Nat → nvfs_callback_info φ ρ) (cbs cbs2 : List Nat) (w : world φ) (p : π) (p2 : ρ)
    (dir dentry lower_dentry lower_dir_inode sb lower_sb : Nat) (mode : Int) :
    same_outcome
      (nvfs_mkdir k mem cbs w p dir dentry lower_dentry lower_dir_inode sb lower_sb mode)
      (nvfs_mkdir k mem2 cbs2 w p2 dir dentry lower_dentry lower_dir_inode sb lower_sb mode) := by
  refine ⟨?_, ?_, ?_⟩
  · unfold nvfs_mkdir
    simp only []
    split_ifs <;> rfl
  · unfold nvfs_mkdir
    simp only []
    split_ifs <;> rfl
  · rw [nvfs_mkdir_trace, nvfs_mkdir_trace, filter_hook_calls, filter_hook_calls]


theorem nvfs_readdir_same {φ π ρ : Type} (k : kernel φ) (mem : Nat → nvfs_callback_info φ π)
    (mem2 : Nat → nvfs_callback_info φ ρ) (cbs cbs2 : List Nat) (w : world φ) (p : π) (p2 : ρ)
    (file lower_file inode lower_inode : Nat) (dirent filldir : Nat) :
    same_outcome
      (nvfs_readdir k mem cbs w p file lower_file inode lower_inode dirent filldir)
      (nvfs_readdir k mem2 cbs2 w p2 file lower_file inode lower_inode dirent filldir) := by
  refine ⟨?_, ?_, ?_⟩
  · unfold nvfs_readdir
    rfl
  · unfold nvfs_readdir
    rfl
  · rw [nvfs_readdir_trace, nvfs_readdir_trace]
    rw [filter_hook_calls, filter_hook_calls]

theorem nvfs_create_same {φ π ρ : Type} (k : kernel φ) (mem : Nat → nvfs_callback_info φ π)
    (mem2 : Nat → nvfs_callback_info φ ρ) (cbs cbs2 : List Nat) (w : world φ) (p : π) (p2 : ρ)
    (dir dentry lower_dentry lower_dir_inode sb lower_sb : Nat) (mode : Int) (nd : Nat) :
    same_outcome
      (nvfs_create k mem cbs w p dir dentry lower_dentry lower_dir_inode sb lower_sb mode nd)
      (nvfs_create k mem2 cbs2 w p2 dir dentry lower_dentry lower_dir_inode sb lower_sb mode
        nd) := by
  refine ⟨?_, ?_, ?_⟩
  · unfold nvfs_create
    rfl
  · unfold nvfs_create
    rfl
  · rw [nvfs_create_trace, nvfs_create_trace]
    have h1 := filter_hook_calls mem cb_op.dir_i_op "create" cbs []
    have h2 := filter_hook_calls mem2 cb_op.dir_i_op "create" cbs2 []
    rw [List.append_nil] at h1 h2
    rw [List.filter_cons, List.filter_cons, h1, h2]

theorem nvfs_lookup_same {φ π ρ : Type} (k : kernel φ) (mem : Nat → nvfs_callback_info φ π)
    (mem2 : Nat → nvfs_callback_info φ ρ) (cbs cbs2 : List Nat) (w : world φ) (p : π) (p2 : ρ)
    (dir dentry lower_dir_dentry lower_dir_inode sb lower_sb : Nat) (name : List Nat) (unused :
      Nat) :
    same_outcome
      (nvfs_lookup k mem cbs w p dir dentry lower_dir_dentry lower_dir_inode sb lower_sb name
        unused)
      (nvfs_lookup k mem2 cbs2 w p2 dir dentry lower_dir_dentry lower_dir_inode sb lower_sb
        name unused) := by
  refine ⟨?_, ?_, ?_⟩
  · unfold nvfs_lookup
    simp only []
    split_ifs <;> rfl
  · unfold nvfs_lookup
    simp only []
    split_ifs <;> rfl
  · rw [nvfs_lookup_trace, nvfs_lookup_trace]
    have h1 := filter_hook_calls mem cb_op.dir_i_op "lookup" cbs []
    have h2 := filter_hook_calls mem2 cb_op.dir_i_op "lookup" cbs2 []
    rw [List.append_nil] at h1 h2
    rw [List.filter_cons, List.filter_cons, h1, h2]

theorem nvfs_link_same {φ π ρ : Type} (k : kernel φ) (mem : Nat → nvfs_callback_info φ π)
    (mem2 : Nat → nvfs_callback_info φ ρ) (cbs cbs2 : List Nat) (w : world φ) (p : π) (p2 : ρ)
    (dir new_dentry lower_old_dentry lower_new_dentry lower_dir_inode old_inode lower_old_inode
      sb lower_sb : Nat) :
    same_outcome
      (nvfs_link k mem cbs w p dir new_dentry lower_old_dentry lower_new_dentry lower_dir_inode
        old_inode lower_old_inode sb lower_sb)
      (nvfs_link k mem2 cbs2 w p2 dir new_dentry lower_old_dentry lower_new_dentry
        lower_dir_inode old_inode lower_old_inode sb lower_sb) := by
  refine ⟨?_, ?_, ?_⟩
  · unfold nvfs_link
    simp only []
    split_ifs <;> rfl
  · unfold nvfs_link
    simp only []
    split_ifs <;> rfl
  · rw [nvfs_link_trace, nvfs_link_trace]
    rw [filter_hook_calls, filter_hook_calls]

theorem nvfs_unlink_same {φ π ρ : Type} (k : kernel φ) (mem : Nat → nvfs_callback_info φ π)
    (mem2 : Nat → nvfs_callback_info φ ρ) (cbs cbs2 : List Nat) (w : world φ) (p : π) (p2 : ρ)
    (dir lower_dir lower_dentry inode lower_inode : Nat) :
    same_outcome
      (nvfs_unlink k mem cbs w p dir lower_dir lower_dentry inode lower_inode)
      (nvfs_unlink k mem2 cbs2 w p2 dir lower_dir lower_dentry inode lower_inode) := by
  refine ⟨?_, ?_, ?_⟩
  · unfold nvfs_unlink
    rfl
  · unfold nvfs_unlink
    rfl
  · rw [nvfs_unlink_trace, nvfs_unlink_trace]
    rw [filter_hook_calls, filter_hook_calls]

theorem nvfs_symlink_same {φ π ρ : Type} (k : kernel φ) (mem : Nat → nvfs_callback_info φ π)
    (mem2 : Nat → nvfs_callback_info φ ρ) (cbs cbs2 : List Nat) (w : world φ) (p : π) (p2 : ρ)
    (dir dentry lower_dentry lower_dir_inode sb lower_sb : Nat) (symname : List Nat) :
    same_outcome
      (nvfs_symlink k mem cbs w p dir dentry lower_dentry lower_dir_inode sb lower_sb symname)
      (nvfs_symlink k mem2 cbs2 w p2 dir dentry lower_dentry lower_dir_inode sb lower_sb
        symname) := by
  refine ⟨?_, ?_, ?_⟩
  · unfold nvfs_symlink
    simp only []
    split_ifs <;> rfl
  · unfold nvfs_symlink
    simp only []
    split_ifs <;> rfl
  · rw [nvfs_symlink_trace, nvfs_symlink_trace]
    rw [filter_hook_calls, filter_hook_calls]

theorem nvfs_rmdir_same {φ π ρ : Type} (k : kernel φ) (mem : Nat → nvfs_callback_info φ π)
    (mem2 : Nat → nvfs_callback_info φ ρ) (cbs cbs2 : List Nat) (w : world φ) (p : π) (p2 : ρ)
    (dir lower_dentry lower_dir_inode : Nat) :
    same_outcome
      (nvfs_rmdir k mem cbs w p dir lower_dentry lower_dir_inode)
      (nvfs_rmdir k mem2 cbs2 w p2 dir lower_dentry lower_dir_inode) := by
  refine ⟨?_, ?_, ?_⟩
  · unfold nvfs_rmdir
    rfl
  · unfold nvfs_rmdir
    rfl
  · rw [nvfs_rmdir_trace, nvfs_rmdir_trace]
    rw [filter_hook_calls, filter_hook_calls]

theorem nvfs_mknod_same {φ π ρ : Type} (k : kernel φ) (mem : Nat → nvfs_callback_info φ π)
    (mem2 : Nat → nvfs_callback_info φ ρ) (cbs cbs2 : List Nat) (w : world φ) (p : π) (p2 : ρ)
    (dir dentry lower_dentry lower_dir_inode sb lower_sb : Nat) (mode dev : Int) :
    same_outcome
      (nvfs_mknod k mem cbs w p dir dentry lower_dentry lower_dir_inode sb lower_sb mode dev)
      (nvfs_mknod k mem2 cbs2 w p2 dir dentry lower_dentry lower_dir_inode sb lower_sb mode
        dev) := by
  refine ⟨?_, ?_, ?_⟩
  · unfold nvfs_mknod
    simp only []
    split_ifs <;> rfl
  · unfold nvfs_mknod
    simp only []
    split_ifs <;> rfl
  · rw [nvfs_mknod_trace, nvfs_mknod_trace]
    rw [filter_hook_calls, filter_hook_calls]

theorem nvfs_rename_same {φ π ρ : Type} (k : kernel φ) (mem : Nat → nvfs_callback_info φ π)
    (mem2 : Nat → nvfs_callback_info φ ρ) (cbs cbs2 : List Nat) (w : world φ) (p : π) (p2 : ρ)
    (old_dir new_dir lower_old_dentry lower_new_dentry lower_old_dir_inode lower_new_dir_inode
      : Nat) :
    same_outcome
      (nvfs_rename k mem cbs w p old_dir new_dir lower_old_dentry lower_new_dentry
        lower_old_dir_inode lower_new_dir_inode)
      (nvfs_rename k mem2 cbs2 w p2 old_dir new_dir lower_old_dentry lower_new_dentry
        lower_old_dir_inode lower_new_dir_inode) := by
  refine ⟨?_, ?_, ?_⟩
  · unfold nvfs_rename
    simp only []
    split_ifs <;> rfl
  · unfold nvfs_rename
    simp only []
    split_ifs <;> rfl
  · rw [nvfs_rename_trace, nvfs_rename_trace]
    rw [filter_hook_calls, filter_hook_calls]

theorem nvfs_setattr_same {φ π ρ : Type} (k : kernel φ) (mem : Nat → nvfs_callback_info φ π)
    (mem2 : Nat → nvfs_callback_info φ ρ) (cbs cbs2 : List Nat) (w : world φ) (p : π) (p2 : ρ)
    (lower_dentry inode lower_inode : Nat) (ia : List Int) :
    same_outcome
      (nvfs_setattr k mem cbs w p lower_dentry inode lower_inode ia)
      (nvfs_setattr k mem2 cbs2 w p2 lower_dentry inode lower_inode ia) := by
  refine ⟨?_, ?_, ?_⟩
  · unfold nvfs_setattr
    rfl
  · unfold nvfs_setattr
    rfl
  · rw [nvfs_setattr_trace, nvfs_setattr_trace]
    rw [filter_hook_calls, filter_hook_calls]

theorem nvfs_llseek_same {φ π ρ : Type} (k : kernel φ) (mem : Nat → nvfs_callback_info φ π)
    (mem2 : Nat → nvfs_callback_info φ ρ) (cbs cbs2 : List Nat) (w : world φ) (p : π) (p2 : ρ)
    (file lower_file : Nat) (offset origin : Int) :
    same_outcome
      (nvfs_llseek k mem cbs w p file lower_file offset origin)
      (nvfs_llseek k mem2 cbs2 w p2 file lower_file offset origin) := by
  refine ⟨?_, ?_, ?_⟩
  · unfold nvfs_llseek
    simp only []
    cases k.f_op lower_file "llseek" <;> simp only [] <;> split_ifs <;> rfl
  · unfold nvfs_llseek
    simp only []
    cases k.f_op lower_file "llseek" <;> simp only [] <;> split_ifs <;> rfl
  · rw [nvfs_llseek_trace, nvfs_llseek_trace]
    rw [filter_hook_calls, filter_hook_calls]

theorem nvfs_getxattr_same {φ π ρ : Type} (k : kernel φ) (mem : Nat → nvfs_callback_info φ π)
    (mem2 : Nat → nvfs_callback_info φ ρ) (cbs cbs2 : List Nat) (w : world φ) (p : π) (p2 : ρ)
    (lower_dentry : Nat) (name : List Nat) (value size : Nat) :
    same_outcome
      (nvfs_getxattr k mem cbs w p lower_dentry name value size)
      (nvfs_getxattr k mem2 cbs2 w p2 lower_dentry name value size) := by
  refine ⟨?_, ?_, ?_⟩
  · unfold nvfs_getxattr
    simp only []
    cases k.i_op (k.d_inode w lower_dentry) "getxattr" <;> rfl
  · unfold nvfs_getxattr
    simp only []
    cases k.i_op (k.d_inode w lower_dentry) "getxattr" <;> rfl
  · rw [nvfs_getxattr_trace, nvfs_getxattr_trace]
    split
    · rw [filter_hook_calls, filter_hook_calls]
    · rfl

theorem nvfs_setxattr_same {φ π ρ : Type} (k : kernel φ) (mem : Nat → nvfs_callback_info φ π)
    (mem2 : Nat → nvfs_callback_info φ ρ) (cbs cbs2 : List Nat) (w : world φ) (p : π) (p2 : ρ)
    (lower_dentry : Nat) (name : List Nat) (value size : Nat) (flags : Int) :
    same_outcome
      (nvfs_setxattr k mem cbs w p lower_dentry name value size flags)
      (nvfs_setxattr k mem2 cbs2 w p2 lower_dentry name value size flags) := by
  refine ⟨?_, ?_, ?_⟩
  · unfold nvfs_setxattr
    simp only []
    cases k.i_op (k.d_inode w lower_dentry) "setxattr" <;> rfl
  · unfold nvfs_setxattr
    simp only []
    cases k.i_op (k.d_inode w lower_dentry) "setxattr" <;> rfl
  · rw [nvfs_setxattr_trace, nvfs_setxattr_trace]
    split
    · rw [filter_hook_calls, filter_hook_calls]
    · rfl

theorem nvfs_removexattr_same {φ π ρ : Type} (k : kernel φ) (mem : Nat → nvfs_callback_info φ π)
    (mem2 : Nat → nvfs_callback_info φ ρ) (cbs cbs2 : List Nat) (w : world φ) (p : π) (p2 : ρ)
    (lower_dentry : Nat) (name : List Nat) :
    same_outcome
      (nvfs_removexattr k mem cbs w p lower_dentry name)
      (nvfs_removexattr k mem2 cbs2 w p2 lower_dentry name) := by
  refine ⟨?_, ?_, ?_⟩
  · unfold nvfs_removexattr
    simp only []
    cases k.i_op (k.d_inode w lower_dentry) "removexattr" <;> rfl
  · unfold nvfs_removexattr
    simp only []
    cases k.i_op (k.d_inode w lower_dentry) "removexattr" <;> rfl
  · rw [nvfs_removexattr_trace, nvfs_removexattr_trace]
    split
    · rw [filter_hook_calls, filter_hook_calls]
    · rfl

theorem nvfs_listxattr_same {φ π ρ : Type} (k : kernel φ) (mem : Nat → nvfs_callback_info φ π)
    (mem2 : Nat → nvfs_callback_info φ ρ) (cbs cbs2 : List Nat) (w : world φ) (p : π) (p2 : ρ)
    (lower_dentry list size : Nat) :
    same_outcome
      (nvfs_listxattr k mem cbs w p lower_dentry list size)
      (nvfs_listxattr k mem2 cbs2 w p2 lower_dentry list size) := by
  refine ⟨?_, ?_, ?_⟩
  · unfold nvfs_listxattr
    simp only []
    cases k.i_op (k.d_inode w lower_dentry) "listxattr" <;> rfl
  · unfold nvfs_listxattr
    simp only []
    cases k.i_op (k.d_inode w lower_dentry) "listxattr" <;> rfl
  · rw [nvfs_listxattr_trace, nvfs_listxattr_trace]
    split
    · rw [filter_hook_calls, filter_hook_calls]
    · rfl

theorem nvfs_write_same {φ π ρ : Type} (k : kernel φ) (mem : Nat → nvfs_callback_info φ π)
    (mem2 : Nat → nvfs_callback_info φ ρ) (cbs cbs2 : List Nat) (w : world φ) (p : π) (p2 : ρ)
    (file lower_file inode lower_inode : Nat) (buf : List Nat) (count : Nat) (ppos : Int) :
    same_outcome
      (nvfs_write k mem cbs w p file lower_file inode lower_inode buf count ppos).1
      (nvfs_write k mem2 cbs2 w p2 file lower_file inode lower_inode buf count ppos).1 ∧
    (nvfs_write k mem cbs w p file lower_file inode lower_inode buf count ppos).2
      = (nvfs_write k mem2 cbs2 w p2 file lower_file inode lower_inode buf count ppos).2 := by
  refine ⟨⟨?_, ?_, ?_⟩, ?_⟩
  · unfold nvfs_write
    simp only []
    cases k.f_rw lower_file "write" <;> rfl
  · unfold nvfs_write
    simp only []
    cases k.f_rw lower_file "write" <;> rfl
  · rw [nvfs_write_trace, nvfs_write_trace, filter_hook_calls, filter_hook_calls]
  · unfold nvfs_write
    simp only []
    cases k.f_rw lower_file "write" <;> rfl


theorem is_hook_lower (func : String) : (call.lower func).is_hook = false := rfl

theorem F_CB_lower {φ π : Type} (mem : Nat → nvfs_callback_info φ π) (cbs : List Nat)
    (op : cb_op) (func : String) (args : cb_args) (w : world φ) (p : π) :
    (F_CB mem cbs op func args w p).2.filter (fun c => !c.is_hook) = [] := by
  have h := filter_hook_calls mem op func cbs []
  rw [List.append_nil] at h
  rw [F_CB_trace, h]
  rfl

theorem I_CB_lower {φ π : Type} (mem : Nat → nvfs_callback_info φ π) (cbs : List Nat)
    (op : cb_op) (func : String) (args : cb_args) (w : world φ) (p : π) :
    (I_CB mem cbs op func args w p).2.filter (fun c => !c.is_hook) = [] :=
  F_CB_lower mem cbs op func args w p

theorem S_CB_lower {φ π : Type} (mem : Nat → nvfs_callback_info φ π) (cbs : List Nat)
    (func : String) (args : cb_args) (w : world φ) (p : π) :
    (S_CB mem cbs func args w p).2.filter (fun c => !c.is_hook) = [] :=
  F_CB_lower mem cbs cb_op.sb_op func args w p

theorem D_CB_lower {φ π : Type} (mem : Nat → nvfs_callback_info φ π) (cbs : List Nat)
    (func : String) (args : cb_args) (w : world φ) (p : π) :
    (D_CB mem cbs func args w p).2.filter (fun c => !c.is_hook) = [] :=
  F_CB_lower mem cbs cb_op.d_op func args w p

theorem nvfs_read_same {φ π ρ : Type} (k : kernel φ) (mem : Nat → nvfs_callback_info φ π)
    (mem2 : Nat → nvfs_callback_info φ ρ) (cbs cbs2 : List Nat) (w : world φ) (p : π) (p2 : ρ)
    (file lower_file inode lower_inode buf : Nat) (count : Nat) (ppos : Int) :
    same_outcome (nvfs_read k mem cbs w p file lower_file inode lower_inode buf count ppos).1
      (nvfs_read k mem2 cbs2 w p2 file lower_file inode lower_inode buf count ppos).1 ∧
    (nvfs_read k mem cbs w p file lower_file inode lower_inode buf count ppos).2
      = (nvfs_read k mem2 cbs2 w p2 file lower_file inode lower_inode buf count ppos).2 := by
  unfold same_outcome nvfs_read
  simp only []
  repeat' split
  all_goals simp_all [List.filter_append, F_CB_lower, I_CB_lower, S_CB_lower, D_CB_lower,
    is_hook_lower]

theorem nvfs_poll_same {φ π ρ : Type} (k : kernel φ) (mem : Nat → nvfs_callback_info φ π)
    (mem2 : Nat → nvfs_callback_info φ ρ) (cbs cbs2 : List Nat) (w : world φ) (p : π) (p2 : ρ)
    (lower_file wait : Nat) :
    same_outcome (nvfs_poll k mem cbs w p lower_file wait)
      (nvfs_poll k mem2 cbs2 w p2 lower_file wait) := by
  unfold same_outcome nvfs_poll
  simp only []
  repeat' split
  all_goals simp_all [List.filter_append, F_CB_lower, I_CB_lower, S_CB_lower, D_CB_lower,
    is_hook_lower]

theorem nvfs_ioctl_same {φ π ρ : Type} (k : kernel φ) (mem : Nat → nvfs_callback_info φ π)
    (mem2 : Nat → nvfs_callback_info φ ρ) (cbs cbs2 : List Nat) (w : world φ) (p : π) (p2 : ρ)
    (lower_inode lower_file : Nat) (cmd arg : Int) :
    same_outcome (nvfs_ioctl k mem cbs w p lower_inode lower_file cmd arg)
      (nvfs_ioctl k mem2 cbs2 w p2 lower_inode lower_file cmd arg) := by
  unfold same_outcome nvfs_ioctl
  simp only []
  repeat' split
  all_goals simp_all [List.filter_append, F_CB_lower, I_CB_lower, S_CB_lower, D_CB_lower,
    is_hook_lower]

theorem nvfs_mmap_same {φ π ρ : Type} (k : kernel φ) (mem : Nat → nvfs_callback_info φ π)
    (mem2 : Nat → nvfs_callback_info φ ρ) (cbs cbs2 : List Nat) (w : world φ) (p : π) (p2 : ρ)
    (lower_file vma : Nat) :
    same_outcome (nvfs_mmap k mem cbs w p lower_file vma)
      (nvfs_mmap k mem2 cbs2 w p2 lower_file vma) := by
  unfold same_outcome nvfs_mmap
  simp only []
  repeat' split
  all_goals simp_all [List.filter_append, F_CB_lower, I_CB_lower, S_CB_lower, D_CB_lower,
    is_hook_lower]

theorem nvfs_open_same {φ π ρ : Type} (k : kernel φ) (mem : Nat → nvfs_callback_info φ π)
    (mem2 : Nat → nvfs_callback_info φ ρ) (cbs cbs2 : List Nat) (w : world φ) (p : π) (p2 : ρ)
    (file lower_inode lower_dentry lower_mnt : Nat) :
    same_outcome (nvfs_open k mem cbs w p file lower_inode lower_dentry lower_mnt)
      (nvfs_open k mem2 cbs2 w p2 file lower_inode lower_dentry lower_mnt) := by
  unfold same_outcome nvfs_open
  simp only []
  repeat' split
  all_goals simp_all [List.filter_append, F_CB_lower, I_CB_lower, S_CB_lower, D_CB_lower,
    is_hook_lower]

theorem nvfs_flush_same {φ π ρ : Type} (k : kernel φ) (mem : Nat → nvfs_callback_info φ π)
    (mem2 : Nat → nvfs_callback_info φ ρ) (cbs cbs2 : List Nat) (w : world φ) (p : π) (p2 : ρ)
    (lower_file id : Nat) :
    same_outcome (nvfs_flush k mem cbs w p lower_file id)
      (nvfs_flush k mem2 cbs2 w p2 lower_file id) := by
  unfold same_outcome nvfs_flush
  simp only []
  repeat' split
  all_goals simp_all [List.filter_append, F_CB_lower, I_CB_lower, S_CB_lower, D_CB_lower,
    is_hook_lower]

theorem nvfs_release_same {φ π ρ : Type} (k : kernel φ) (mem : Nat → nvfs_callback_info φ π)
    (mem2 : Nat → nvfs_callback_info φ ρ) (cbs cbs2 : List Nat) (w : world φ) (p : π) (p2 : ρ)
    (inode lower_inode lower_file : Nat) :
    same_outcome (nvfs_release k mem cbs w p inode lower_inode lower_file)
      (nvfs_release k mem2 cbs2 w p2 inode lower_inode lower_file) := by
  unfold same_outcome nvfs_release
  simp only []
  all_goals simp_all [List.filter_append, F_CB_lower, I_CB_lower, S_CB_lower, D_CB_lower,
    is_hook_lower]

theorem nvfs_fsync_same {φ π ρ : Type} (k : kernel φ) (mem : Nat → nvfs_callback_info φ π)
    (mem2 : Nat → nvfs_callback_info φ ρ) (cbs cbs2 : List Nat) (w : world φ) (p : π) (p2 : ρ)
    (file : Nat) (has_private : Bool) (lower_file lower_dentry : Nat) (datasync : Int) :
    same_outcome (nvfs_fsync k mem cbs w p file has_private lower_file lower_dentry datasync)
      (nvfs_fsync k mem2 cbs2 w p2 file has_private lower_file lower_dentry datasync) := by
  unfold same_outcome nvfs_fsync
  simp only []
  repeat' split
  all_goals simp_all [List.filter_append, F_CB_lower, I_CB_lower, S_CB_lower, D_CB_lower,
    is_hook_lower]

theorem nvfs_fasync_same {φ π ρ : Type} (k : kernel φ) (mem : Nat → nvfs_callback_info φ π)
    (mem2 : Nat → nvfs_callback_info φ ρ) (cbs cbs2 : List Nat) (w : world φ) (p : π) (p2 : ρ)
    (fd : Int) (lower_file : Nat) (flag : Int) :
    same_outcome (nvfs_fasync k mem cbs w p fd lower_file flag)
      (nvfs_fasync k mem2 cbs2 w p2 fd lower_file flag) := by
  unfold same_outcome nvfs_fasync
  simp only []
  repeat' split
  all_goals simp_all [List.filter_append, F_CB_lower, I_CB_lower, S_CB_lower, D_CB_lower,
    is_hook_lower]

theorem nvfs_sendfile_same {φ π ρ : Type} (k : kernel φ) (mem : Nat → nvfs_callback_info φ π)
    (mem2 : Nat → nvfs_callback_info φ ρ) (cbs cbs2 : List Nat) (w : world φ) (p : π) (p2 : ρ)
    (lower_file : Nat) (ppos : Int) (count : Nat) (actor target : Nat) :
    same_outcome (nvfs_sendfile k mem cbs w p lower_file ppos count actor target).1
      (nvfs_sendfile k mem2 cbs2 w p2 lower_file ppos count actor target).1 ∧
    (nvfs_sendfile k mem cbs w p lower_file ppos count actor target).2
      = (nvfs_sendfile k mem2 cbs2 w p2 lower_file ppos count actor target).2 := by
  unfold same_outcome nvfs_sendfile
  simp only []
  repeat' split
  all_goals simp_all [List.filter_append, F_CB_lower, I_CB_lower, S_CB_lower, D_CB_lower,
    is_hook_lower]

theorem nvfs_readlink_same {φ π ρ : Type} (k : kernel φ) (mem : Nat → nvfs_callback_info φ π)
    (mem2 : Nat → nvfs_callback_info φ ρ) (cbs cbs2 : List Nat) (w : world φ) (p : π) (p2 : ρ)
    (inode lower_dentry buf : Nat) (bufsiz : Int) :
    same_outcome (nvfs_readlink k mem cbs w p inode lower_dentry buf bufsiz)
      (nvfs_readlink k mem2 cbs2 w p2 inode lower_dentry buf bufsiz) := by
  unfold same_outcome nvfs_readlink
  simp only []
  repeat' split
  all_goals simp_all [List.filter_append, F_CB_lower, I_CB_lower, S_CB_lower, D_CB_lower,
    is_hook_lower]

theorem nvfs_permission_same {φ π ρ : Type} (k : kernel φ) (mem : Nat → nvfs_callback_info φ π)
    (mem2 : Nat → nvfs_callback_info φ ρ) (cbs cbs2 : List Nat) (w : world φ) (p : π) (p2 : ρ)
    (lower_inode : Nat) (mask : Int) (nd : Nat) :
    same_outcome (nvfs_permission k mem cbs w p lower_inode mask nd)
      (nvfs_permission k mem2 cbs2 w p2 lower_inode mask nd) := by
  unfold same_outcome nvfs_permission
  simp only []
  all_goals simp_all [List.filter_append, F_CB_lower, I_CB_lower, S_CB_lower, D_CB_lower,
    is_hook_lower]

theorem nvfs_statfs_same {φ π ρ : Type} (k : kernel φ) (mem : Nat → nvfs_callback_info φ π)
    (mem2 : Nat → nvfs_callback_info φ ρ) (cbs cbs2 : List Nat) (w : world φ) (p : π) (p2 : ρ)
    (lower buf : Nat) :
    same_outcome (nvfs_statfs k mem cbs w p lower buf)
      (nvfs_statfs k mem2 cbs2 w p2 lower buf) := by
  unfold same_outcome nvfs_statfs
  simp only []
  all_goals simp_all [List.filter_append, F_CB_lower, I_CB_lower, S_CB_lower, D_CB_lower,
    is_hook_lower]

theorem nvfs_umount_begin_same {φ π ρ : Type} (k : kernel φ) (mem : Nat → nvfs_callback_info φ π)
    (mem2 : Nat → nvfs_callback_info φ ρ) (cbs cbs2 : List Nat) (w : world φ) (p : π) (p2 : ρ)
    (lower_sb lower_vfsmnt : Nat) (flags : Int) :
    same_outcome (nvfs_umount_begin k mem cbs w p lower_sb lower_vfsmnt flags)
      (nvfs_umount_begin k mem2 cbs2 w p2 lower_sb lower_vfsmnt flags) := by
  unfold same_outcome nvfs_umount_begin
  simp only []
  repeat' split
  all_goals simp_all [List.filter_append, F_CB_lower, I_CB_lower, S_CB_lower, D_CB_lower,
    is_hook_lower]

theorem nvfs_d_revalidate_same {φ π ρ : Type} (k : kernel φ) (mem : Nat → nvfs_callback_info φ π)
    (mem2 : Nat → nvfs_callback_info φ ρ) (cbs cbs2 : List Nat) (w : world φ) (p : π) (p2 : ρ)
    (lower_dentry nd : Nat) :
    same_outcome (nvfs_d_revalidate k mem cbs w p lower_dentry nd)
      (nvfs_d_revalidate k mem2 cbs2 w p2 lower_dentry nd) := by
  unfold same_outcome nvfs_d_revalidate
  simp only []
  repeat' split
  all_goals simp_all [List.filter_append, F_CB_lower, I_CB_lower, S_CB_lower, D_CB_lower,
    is_hook_lower]

theorem nvfs_d_hash_same {φ π ρ : Type} (k : kernel φ) (mem : Nat → nvfs_callback_info φ π)
    (mem2 : Nat → nvfs_callback_info φ ρ) (cbs cbs2 : List Nat) (w : world φ) (p : π) (p2 : ρ)
    (lower_dentry name : Nat) :
    same_outcome (nvfs_d_hash k mem cbs w p lower_dentry name)
      (nvfs_d_hash k mem2 cbs2 w p2 lower_dentry name) := by
  unfold same_outcome nvfs_d_hash
  simp only []
  repeat' split
  all_goals simp_all [List.filter_append, F_CB_lower, I_CB_lower, S_CB_lower, D_CB_lower,
    is_hook_lower]

theorem nvfs_d_compare_same {φ π ρ : Type} (k : kernel φ) (mem : Nat → nvfs_callback_info φ π)
    (mem2 : Nat → nvfs_callback_info φ ρ) (cbs cbs2 : List Nat) (w : world φ) (p : π) (p2 : ρ)
    (lower_dentry a b : Nat) (a_name b_name : List Nat) :
    same_outcome (nvfs_d_compare k mem cbs w p lower_dentry a b a_name b_name)
      (nvfs_d_compare k mem2 cbs2 w p2 lower_dentry a b a_name b_name) := by
  unfold same_outcome nvfs_d_compare
  simp only []
  repeat' split
  all_goals simp_all [List.filter_append, F_CB_lower, I_CB_lower, S_CB_lower, D_CB_lower,
    is_hook_lower]

theorem nvfs_d_delete_same {φ π ρ : Type} (k : kernel φ) (mem : Nat → nvfs_callback_info φ π)
    (mem2 : Nat → nvfs_callback_info φ ρ) (cbs cbs2 : List Nat) (w : world φ) (p : π) (p2 : ρ)
    (dentry : Nat) (has_private : Bool) (lower_dentry : Nat) :
    same_outcome (nvfs_d_delete k mem cbs w p dentry has_private lower_dentry)
      (nvfs_d_delete k mem2 cbs2 w p2 dentry has_private lower_dentry) := by
  unfold same_outcome nvfs_d_delete
  simp only []
  repeat' split
  all_goals simp_all [List.filter_append, F_CB_lower, I_CB_lower, S_CB_lower, D_CB_lower,
    is_hook_lower]

theorem nvfs_d_release_same {φ π ρ : Type} (mem : Nat → nvfs_callback_info φ π)
    (mem2 : Nat → nvfs_callback_info φ ρ) (cbs cbs2 : List Nat) (w : world φ) (p : π) (p2 : ρ)
    (dentry : Nat) (has_private : Bool) (lower_dentry : Nat) :
    same_outcome (nvfs_d_release mem cbs w p dentry has_private lower_dentry)
      (nvfs_d_release mem2 cbs2 w p2 dentry has_private lower_dentry) := by
  unfold same_outcome nvfs_d_release
  simp only []
  repeat' split
  all_goals simp_all [List.filter_append, F_CB_lower, I_CB_lower, S_CB_lower, D_CB_lower,
    is_hook_lower]

/-- Claim C25. Hooks are observational: for every backing file system, every state of
the kernel objects, every two lists of plug-ins with whatever descriptors, hooks and
plug-in states (hooks see the arguments and the kernel objects and change only the state
of the plug-ins, whatever they return, and whether a replication hook drops, coalesces
or enqueues its record), and all arguments, two runs of a proxy function return the same
status, leave the same kernel objects (the attributes of the proxy and of the backing
inodes among them) and make the same calls into the backing file system; for
`nvfs_write`, `nvfs_read` and `nvfs_sendfile` also the same position in `*ppos`. This
holds for `nvfs_write`, `nvfs_mkdir`, `nvfs_setattr` and every other function of the
proxy that dispatches to the plug-ins: the file, inode, superblock and dentry
operations. -/
theorem hooks_observational {φ π ρ : Type} (k : kernel φ) (mem : Nat → nvfs_callback_info φ π)
    (mem2 : Nat → nvfs_callback_info φ ρ) (cbs cbs2 : List Nat) (w : world φ) (p : π) (p2 : ρ)
    (o1 o2 o3 o4 o5 o6 o7 o8 o9 : Nat) (n1 n2 : Int) (bytes bytes2 : List Nat)
    (ia : List Int) (flag : Bool) :
    (same_outcome (nvfs_write k mem cbs w p o1 o2 o3 o4 bytes o5 n1).1
        (nvfs_write k mem2 cbs2 w p2 o1 o2 o3 o4 bytes o5 n1).1 ∧
      (nvfs_write k mem cbs w p o1 o2 o3 o4 bytes o5 n1).2
        = (nvfs_write k mem2 cbs2 w p2 o1 o2 o3 o4 bytes o5 n1).2) ∧
    same_outcome (nvfs_mkdir k mem cbs w p o1 o2 o3 o4 o5 o6 n1)
      (nvfs_mkdir k mem2 cbs2 w p2 o1 o2 o3 o4 o5 o6 n1) ∧
    same_outcome (nvfs_setattr k mem cbs w p o1 o2 o3 ia)
      (nvfs_setattr k mem2 cbs2 w p2 o1 o2 o3 ia) ∧
    same_outcome (nvfs_llseek k mem cbs w p o1 o2 n1 n2)
      (nvfs_llseek k mem2 cbs2 w p2 o1 o2 n1 n2) ∧
    same_outcome (nvfs_readdir k mem cbs w p o1 o2 o3 o4 o5 o6)
      (nvfs_readdir k mem2 cbs2 w p2 o1 o2 o3 o4 o5 o6) ∧
    same_outcome (nvfs_create k mem cbs w p o1 o2 o3 o4 o5 o6 n1 o7)
      (nvfs_create k mem2 cbs2 w p2 o1 o2 o3 o4 o5 o6 n1 o7) ∧
    same_outcome (nvfs_lookup k mem cbs w p o1 o2 o3 o4 o5 o6 bytes o7)
      (nvfs_lookup k mem2 cbs2 w p2 o1 o2 o3 o4 o5 o6 bytes o7) ∧
    same_outcome (nvfs_link k mem cbs w p o1 o2 o3 o4 o5 o6 o7 o8 o9)
      (nvfs_link k mem2 cbs2 w p2 o1 o2 o3 o4 o5 o6 o7 o8 o9) ∧
    same_outcome (nvfs_unlink k mem cbs w p o1 o2 o3 o4 o5)
      (nvfs_unlink k mem2 cbs2 w p2 o1 o2 o3 o4 o5) ∧
    same_outcome (nvfs_symlink k mem cbs w p o1 o2 o3 o4 o5 o6 bytes)
      (nvfs_symlink k mem2 cbs2 w p2 o1 o2 o3 o4 o5 o6 bytes) ∧
    same_outcome (nvfs_rmdir k mem cbs w p o1 o2 o3)
      (nvfs_rmdir k mem2 cbs2 w p2 o1 o2 o3) ∧
    same_outcome (nvfs_mknod k mem cbs w p o1 o2 o3 o4 o5 o6 n1 n2)
      (nvfs_mknod k mem2 cbs2 w p2 o1 o2 o3 o4 o5 o6 n1 n2) ∧
    same_outcome (nvfs_rename k mem cbs w p o1 o2 o3 o4 o5 o6)
      (nvfs_rename k mem2 cbs2 w p2 o1 o2 o3 o4 o5 o6) ∧
    same_outcome (nvfs_getxattr k mem cbs w p o1 bytes o2 o3)
      (nvfs_getxattr k mem2 cbs2 w p2 o1 bytes o2 o3) ∧
    same_outcome (nvfs_setxattr k mem cbs w p o1 bytes o2 o3 n1)
      (nvfs_setxattr k mem2 cbs2 w p2 o1 bytes o2 o3 n1) ∧
    same_outcome (nvfs_removexattr k mem cbs w p o1 bytes)
      (nvfs_removexattr k mem2 cbs2 w p2 o1 bytes) ∧
    same_outcome (nvfs_listxattr k mem cbs w p o1 o2 o3)
      (nvfs_listxattr k mem2 cbs2 w p2 o1 o2 o3) ∧
    (same_outcome (nvfs_read k mem cbs w p o1 o2 o3 o4 o5 o6 n1).1
        (nvfs_read k mem2 cbs2 w p2 o1 o2 o3 o4 o5 o6 n1).1 ∧
      (nvfs_read k mem cbs w p o1 o2 o3 o4 o5 o6 n1).2
        = (nvfs_read k mem2 cbs2 w p2 o1 o2 o3 o4 o5 o6 n1).2) ∧
    same_outcome (nvfs_poll k mem cbs w p o1 o2) (nvfs_poll k mem2 cbs2 w p2 o1 o2) ∧
    same_outcome (nvfs_ioctl k mem cbs w p o1 o2 n1 n2)
      (nvfs_ioctl k mem2 cbs2 w p2 o1 o2 n1 n2) ∧
    same_outcome (nvfs_mmap k mem cbs w p o1 o2) (nvfs_mmap k mem2 cbs2 w p2 o1 o2) ∧
    same_outcome (nvfs_open k mem cbs w p o1 o2 o3 o4)
      (nvfs_open k mem2 cbs2 w p2 o1 o2 o3 o4) ∧
    same_outcome (nvfs_flush k mem cbs w p o1 o2) (nvfs_flush k mem2 cbs2 w p2 o1 o2) ∧
    same_outcome (nvfs_release k mem cbs w p o1 o2 o3)
      (nvfs_release k mem2 cbs2 w p2 o1 o2 o3) ∧
    same_outcome (nvfs_fsync k mem cbs w p o1 flag o2 o3 n1)
      (nvfs_fsync k mem2 cbs2 w p2 o1 flag o2 o3 n1) ∧
    same_outcome (nvfs_fasync k mem cbs w p n1 o1 n2)
      (nvfs_fasync k mem2 cbs2 w p2 n1 o1 n2) ∧
    (same_outcome (nvfs_sendfile k mem cbs w p o1 n1 o2 o3 o4).1
        (nvfs_sendfile k mem2 cbs2 w p2 o1 n1 o2 o3 o4).1 ∧
      (nvfs_sendfile k mem cbs w p o1 n1 o2 o3 o4).2
        = (nvfs_sendfile k mem2 cbs2 w p2 o1 n1 o2 o3 o4).2) ∧
    same_outcome (nvfs_readlink k mem cbs w p o1 o2 o3 n1)
      (nvfs_readlink k mem2 cbs2 w p2 o1 o2 o3 n1) ∧
    same_outcome (nvfs_permission k mem cbs w p o1 n1 o2)
      (nvfs_permission k mem2 cbs2 w p2 o1 n1 o2) ∧
    same_outcome (nvfs_statfs k mem cbs w p o1 o2) (nvfs_statfs k mem2 cbs2 w p2 o1 o2) ∧
    same_outcome (nvfs_umount_begin k mem cbs w p o1 o2 n1)
      (nvfs_umount_begin k mem2 cbs2 w p2 o1 o2 n1) ∧
    same_outcome (nvfs_d_revalidate k mem cbs w p o1 o2)
      (nvfs_d_revalidate k mem2 cbs2 w p2 o1 o2) ∧
    same_outcome (nvfs_d_hash k mem cbs w p o1 o2) (nvfs_d_hash k mem2 cbs2 w p2 o1 o2) ∧
    same_outcome (nvfs_d_compare k mem cbs w p o1 o2 o3 bytes bytes2)
      (nvfs_d_compare k mem2 cbs2 w p2 o1 o2 o3 bytes bytes2) ∧
    same_outcome (nvfs_d_delete k mem cbs w p o1 flag o2)
      (nvfs_d_delete k mem2 cbs2 w p2 o1 flag o2) ∧
    same_outcome (nvfs_d_release mem cbs w p o1 flag o2)
      (nvfs_d_release mem2 cbs2 w p2 o1 flag o2) :=
  ⟨nvfs_write_same k mem mem2 cbs cbs2 w p p2 o1 o2 o3 o4 bytes o5 n1,
   nvfs_mkdir_same k mem mem2 cbs cbs2 w p p2 o1 o2 o3 o4 o5 o6 n1,
   nvfs_setattr_same k mem mem2 cbs cbs2 w p p2 o1 o2 o3 ia,
   nvfs_llseek_same k mem mem2 cbs cbs2 w p p2 o1 o2 n1 n2,
   nvfs_readdir_same k mem mem2 cbs cbs2 w p p2 o1 o2 o3 o4 o5 o6,
   nvfs_create_same k mem mem2 cbs cbs2 w p p2 o1 o2 o3 o4 o5 o6 n1 o7,
   nvfs_lookup_same k mem mem2 cbs cbs2 w p p2 o1 o2 o3 o4 o5 o6 bytes o7,
   nvfs_link_same k mem mem2 cbs cbs2 w p p2 o1 o2 o3 o4 o5 o6 o7 o8 o9,
   nvfs_unlink_same k mem mem2 cbs cbs2 w p p2 o1 o2 o3 o4 o5,
   nvfs_symlink_same k mem mem2 cbs cbs2 w p p2 o1 o2 o3 o4 o5 o6 bytes,
   nvfs_rmdir_same k mem mem2 cbs cbs2 w p p2 o1 o2 o3,
   nvfs_mknod_same k mem mem2 cbs cbs2 w p p2 o1 o2 o3 o4 o5 o6 n1 n2,
   nvfs_rename_same k mem mem2 cbs cbs2 w p p2 o1 o2 o3 o4 o5 o6,
   nvfs_getxattr_same k mem mem2 cbs cbs2 w p p2 o1 bytes o2 o3,
   nvfs_setxattr_same k mem mem2 cbs cbs2 w p p2 o1 bytes o2 o3 n1,
   nvfs_removexattr_same k mem mem2 cbs cbs2 w p p2 o1 bytes,
   nvfs_listxattr_same k mem mem2 cbs cbs2 w p p2 o1 o2 o3,
   nvfs_read_same k mem mem2 cbs cbs2 w p p2 o1 o2 o3 o4 o5 o6 n1,
   nvfs_poll_same k mem mem2 cbs cbs2 w p p2 o1 o2,
   nvfs_ioctl_same k mem mem2 cbs cbs2 w p p2 o1 o2 n1 n2,
   nvfs_mmap_same k mem mem2 cbs cbs2 w p p2 o1 o2,
   nvfs_open_same k mem mem2 cbs cbs2 w p p2 o1 o2 o3 o4,
   nvfs_flush_same k mem mem2 cbs cbs2 w p p2 o1 o2,
   nvfs_release_same k mem mem2 cbs cbs2 w p p2 o1 o2 o3,
   nvfs_fsync_same k mem mem2 cbs cbs2 w p p2 o1 flag o2 o3 n1,
   nvfs_fasync_same k mem mem2 cbs cbs2 w p p2 n1 o1 n2,
   nvfs_sendfile_same k mem mem2 cbs cbs2 w p p2 o1 n1 o2 o3 o4,
   nvfs_readlink_same k mem mem2 cbs cbs2 w p p2 o1 o2 o3 n1,
   nvfs_permission_same k mem mem2 cbs cbs2 w p p2 o1 n1 o2,
   nvfs_statfs_same k mem mem2 cbs cbs2 w p p2 o1 o2,
   nvfs_umount_begin_same k mem mem2 cbs cbs2 w p p2 o1 o2 n1,
   nvfs_d_revalidate_same k mem mem2 cbs cbs2 w p p2 o1 o2,
   nvfs_d_hash_same k mem mem2 cbs cbs2 w p p2 o1 o2,
   nvfs_d_compare_same k mem mem2 cbs cbs2 w p p2 o1 o2 o3 bytes bytes2,
   nvfs_d_delete_same k mem mem2 cbs cbs2 w p p2 o1 flag o2,
   nvfs_d_release_same mem mem2 cbs cbs2 w p p2 o1 flag o2⟩

/-- Claim C26 on the code: the backing `llseek` returns 2^31 = 2147483648 for a seek to
that offset; `nvfs_llseek` sets the position of the proxy file to 2147483648 and returns
`(int) err`, which is -2147483648. A result below 2^31, as 4096, is returned as it
is. -/
theorem llseek_result_truncated :
    (nvfs_llseek seek_kernel sample_mem [] sample_world 0 1 2 2147483648 0).ret = -2147483648 ∧
    ((nvfs_llseek seek_kernel sample_mem [] sample_world 0 1 2 2147483648 0).w.files 1).f_pos
      = 2147483648 ∧
    (nvfs_llseek seek_kernel sample_mem [] sample_world 0 1 2 4096 0).ret = 4096 ∧
    ((nvfs_llseek seek_kernel sample_mem [] sample_world 0 1 2 4096 0).w.files 1).f_pos
      = 4096 := by
  decide

theorem reg_copy_true (ctu : Nat → Nat → Bool) (fs : List (List Nat)) :
    ∀ (out out1 : List Nat), reg_copy ctu out fs = (out1, true) → out1 = out ++ fs.flatten := by
  induction fs with
  | nil =>
    intro out out1 h
    simp [reg_copy] at h
    simp [h]
  | cons f fs ih =>
    intro out out1 h
    unfold reg_copy at h
    by_cases hc : ctu out.length f.length = true
    · rw [if_pos hc] at h
      rw [ih _ _ h]
      simp
    · rw [if_neg hc] at h
      simp at h

/-- The loop of `nvr_register` keeps the offset below the capacity, whatever copies
fail. -/
theorem register_walk_out_lt (length : Int) (ctu : Nat → Nat → Bool) (q : List cdi_record) :
    ∀ out : List Nat, (out.length : Int) < length →
      (register_walk length ctu out q).fault = false →
      ((register_walk length ctu out q).out.length : Int) < length := by
  induction q with
  | nil => intro out h _; exact h
  | cons r rest ih =>
    intro out h hf
    unfold register_walk at hf ⊢
    by_cases hc : ((out.length + rec_size r : Nat) : Int) ≥ length
    · rw [if_pos hc]; exact h
    · rw [if_neg hc] at hf ⊢
      rcases hcopy : reg_copy ctu out (reg_fields r) with ⟨out1, ok⟩
      rw [hcopy] at hf
      cases ok with
      | false => simp at hf
      | true =>
        simp only [] at hf ⊢
        have hout := reg_copy_true ctu (reg_fields r) out out1 hcopy
        have hlen : out1.length = out.length + rec_size r := by
          rw [hout, List.length_append, reg_fields_flatten, wire_record_length]
        exact ih out1 (by rw [hlen]; omega) hf

/-- Claim C27, refuted as stated: with replication inactive, as after initialisation,
or paused, `nvr_register` returns 0, which is not negative. -/
theorem register_disabled_counterexample :
    nvr_init.replication_active = 0 ∧
    (nvr_register nvr_init (some 64) ctu_ok).1 = 0 ∧
    (sample_state []).replication_active ≠ 0 ∧
    (nvr_register { sample_state [] with pause := 1 } (some 64) ctu_ok).1 = 0 := by
  decide

/-- Claim C27, amended: `nvr_register` returns 0, writes nothing and leaves the queue
when replication is inactive or paused; when replication is active and not paused it
returns -EFAULT, writes nothing and leaves the queue for a descriptor that cannot be
read or a capacity that is not positive; and a positive return is produced only when
the drain ran (replication active, not paused, a capacity above 0 read, no copy
failed): it is then the number of bytes written, as a 32-bit `int`, which for a
capacity below 2^31 is that number itself. -/
theorem register_status (s : nvr_state) (desc : Option Int) (ctu : Nat → Nat → Bool) :
    ((s.replication_active = 0 ∨ s.pause ≠ 0) →
      (nvr_register s desc ctu).1 = 0 ∧ (nvr_register s desc ctu).2.1 = [] ∧
      (nvr_register s desc ctu).2.2.nvr_sys_queue = s.nvr_sys_queue) ∧
    (s.replication_active ≠ 0 → s.pause = 0 → (∀ l, desc = some l → l ≤ 0) →
      (nvr_register s desc ctu).1 = -EFAULT ∧ (nvr_register s desc ctu).2.1 = [] ∧
      (nvr_register s desc ctu).2.2.nvr_sys_queue = s.nvr_sys_queue) ∧
    (0 < (nvr_register s desc ctu).1 →
      s.replication_active ≠ 0 ∧ s.pause = 0 ∧
      ∃ l, desc = some l ∧ 0 < l ∧
        (register_walk l ctu [] s.nvr_sys_queue).fault = false ∧
        (nvr_register s desc ctu).2.1 = (register_walk l ctu [] s.nvr_sys_queue).out ∧
        (nvr_register s desc ctu).1 = wrap_s 32 (nvr_register s desc ctu).2.1.length ∧
        (l < 2 ^ 31 →
          (nvr_register s desc ctu).1 = ((nvr_register s desc ctu).2.1.length : Nat))) := by
  refine ⟨?_, ?_, ?_⟩
  · intro h
    unfold nvr_register
    by_cases ha : s.replication_active = 0
    · rw [if_pos ha]; exact ⟨rfl, rfl, rfl⟩
    · rw [if_neg ha, if_pos (h.resolve_left ha)]; exact ⟨rfl, rfl, rfl⟩
  · intro ha hp hd
    unfold nvr_register
    rw [if_neg ha, if_neg (by simp [hp])]
    cases desc with
    | none => exact ⟨rfl, rfl, rfl⟩
    | some l =>
      simp only []
      rw [if_pos (hd l rfl)]
      exact ⟨rfl, rfl, rfl⟩
  · intro hpos
    unfold nvr_register at hpos ⊢
    by_cases ha : s.replication_active = 0
    · rw [if_pos ha] at hpos; simp at hpos
    rw [if_neg ha] at hpos ⊢
    by_cases hp : s.pause ≠ 0
    · rw [if_pos hp] at hpos; simp at hpos
    rw [if_neg hp] at hpos ⊢
    cases desc with
    | none => simp [EFAULT] at hpos
    | some l =>
      simp only [] at hpos ⊢
      by_cases hl : l ≤ 0
      · rw [if_pos hl] at hpos; simp [EFAULT] at hpos
      rw [if_neg hl] at hpos ⊢
      have hq : (nvr_down s).nvr_sys_queue = s.nvr_sys_queue := rfl
      rw [hq] at hpos ⊢
      by_cases hf : (register_walk l ctu [] s.nvr_sys_queue).fault = true
      · rw [if_pos hf] at hpos; simp [EFAULT] at hpos
      rw [if_neg hf]
      have hf2 : (register_walk l ctu [] s.nvr_sys_queue).fault = false := by
        simpa using hf
      refine ⟨ha, by simpa using hp, l, rfl, by omega, hf2, rfl, rfl, ?_⟩
      intro hint
      have hlt := register_walk_out_lt l ctu s.nvr_sys_queue [] (by simp; omega) hf2
      exact wrap_s_32_of_range _ (by omega) (by omega)

/-- Witness of `register_status`: the state after initialisation, where replication is
inactive; an active state and a request of capacity 0; an active state holding a
metadata record of 31 bytes and a request of capacity 64. -/
theorem register_status_witness :
    (nvr_register nvr_init (some 64) ctu_ok).1 = 0 ∧
    (nvr_register (sample_state []) (some 0) ctu_ok).1 = -EFAULT ∧
    (nvr_register (sample_state [sample_note 1 1000 120]) (some 64) ctu_ok).1
      = ((nvr_register (sample_state [sample_note 1 1000 120]) (some 64)
          ctu_ok).2.1.length : Nat) :=
  ⟨((register_status nvr_init (some 64) ctu_ok).1 (Or.inl rfl)).1,
   ((register_status (sample_state []) (some 0) ctu_ok).2.1 (by decide) rfl
      (fun l hl => by cases hl; decide)).1,
   by
    obtain ⟨_, _, l, hl, _, _, _, _, h⟩ :=
      (register_status (sample_state [sample_note 1 1000 120]) (some 64) ctu_ok).2.2 (by decide)
    cases hl
    exact h (by decide)⟩

/-- The lock counter after `nvr_register`: as before when the drain ran (between
`nvr_down` and `nvr_up`), one more on each of the four early exits, which reach
`nvr_up` without `nvr_down`. -/
theorem nvr_register_lock (s : nvr_state) (desc : Option Int) (ctu : Nat → Nat → Bool) :
    (nvr_register s desc ctu).2.2.nvr_sys_queue_lock =
      if s.replication_active ≠ 0 ∧ s.pause = 0 ∧ (∃ l, desc = some l ∧ 0 < l)
      then s.nvr_sys_queue_lock else s.nvr_sys_queue_lock + 1 := by
  unfold nvr_register
  by_cases ha : s.replication_active = 0
  · rw [if_pos ha, if_neg (by simp [ha])]; rfl
  rw [if_neg ha]
  by_cases hp : s.pause ≠ 0
  · rw [if_pos hp, if_neg (by simp [hp])]; rfl
  rw [if_neg hp]
  cases desc with
  | none => rw [if_neg (by simp)]; rfl
  | some l =>
    simp only []
    by_cases hl : l ≤ 0
    · rw [if_pos hl, if_neg (by simp; intro _ _; omega)]; rfl
    · have hc : s.replication_active ≠ 0 ∧ s.pause = 0 ∧ (∃ l1, some l = some l1 ∧ 0 < l1) :=
        ⟨ha, by simpa using hp, l, rfl, by omega⟩
      rw [if_neg hl]
      split <;> simp [nvr_up, nvr_down, hc]

/-- Claim C29 on the code: from the state after initialisation, where the lock counter
is 1 and replication is inactive, `nvr_register` leaves the counter at 2; the same on
the exits for pause, for a descriptor that cannot be read and for a capacity that is not
positive; when the drain runs the counter is as before. -/
theorem register_lock_unbalanced :
    nvr_init.nvr_sys_queue_lock = 1 ∧
    (nvr_register nvr_init (some 64) ctu_ok).2.2.nvr_sys_queue_lock = 2 ∧
    (nvr_register { sample_state [] with pause := 1 } (some 64) ctu_ok).2.2.nvr_sys_queue_lock
      = 2 ∧
    (nvr_register (sample_state []) none ctu_ok).2.2.nvr_sys_queue_lock = 2 ∧
    (nvr_register (sample_state []) (some 0) ctu_ok).2.2.nvr_sys_queue_lock = 2 ∧
    (nvr_register (sample_state [sample_note 1 1000 120]) (some 64)
      ctu_ok).2.2.nvr_sys_queue_lock = 1 := by
  decide

/-- Function `nvr_add_dentry` on a dentry whose path resolves and takes, with its
terminator, fewer than PAGE_SIZE bytes: with enough fuel it builds the record for that
path and hands it to `nvr_add_queue`. -/
theorem nvr_add_dentry_reaches (v : vfs) (de dmnt : Nat) (names : List (List Nat))
    (n0 : Nat) (hm : dentry_to_vfs v n0 de = some dmnt) (h : reaches v de dmnt names)
    (page : List Nat) (hl : page.length = PAGE_SIZE)
    (hfit : (render_path names).length + 1 < PAGE_SIZE)
    (s : nvr_state) (comm : String) (now : Nat) (type : Int) (buf : Option (List Nat))
    (len : Nat) :
    ∃ N, ∀ fuel, N ≤ fuel →
      nvr_add_dentry v fuel (some page) s comm now de type buf len =
        some (0, nvr_add_queue
          (nvr_get_repitem s now (render_path names) (render_path names).length type buf len).2
          comm
          (nvr_get_repitem s now (render_path names) (render_path names).length type buf
            len).1) := by
  obtain ⟨N, hN⟩ := nvr_dcache_to_fn_reaches v de dmnt names n0 hm h page hl (by omega)
  refine ⟨N, fun fuel hfuel => ?_⟩
  unfold nvr_add_dentry
  rw [hN fuel hfuel, if_pos hfit]
  simp only []
  rw [if_pos (by omega), Int.toNat_ofNat]
  have hrec : nvr_get_repitem s now
      (render_path names ++ 0 :: List.replicate (PAGE_SIZE - (render_path names).length - 1) 0)
      (render_path names).length type buf len
      = nvr_get_repitem s now (render_path names) (render_path names).length type buf len := by
    unfold nvr_get_repitem
    rw [List.take_left' rfl, List.take_length]
  rw [hrec]

/-- Claim C30 on the code: for the file "/data/x", with replication active, the hook
`nvr_unlink` appends a record of type NVR_TYPE_MDATA (1) with an empty payload, as
`nvr_mkdir` does; the hook `nvr_rmdir` appends a record of type NVR_TYPE_UNLINK (3). -/
theorem unlink_event_type :
    ∃ N, ∀ fuel, N ≤ fuel →
      nvr_unlink (chain_vfs data_x_names) fuel (some (List.replicate PAGE_SIZE 0))
          (sample_state []) "rm" 1000 2 =
        some (0, { sample_state [] with
          nvr_sys_queue := [{ sequence := 1, timestamp := 1000, type := NVR_TYPE_MDATA,
                              name := path_data_x, buf := [], pid := -1 }],
          nvr_sys_queue_count := 1, repitem_seq := 1, repitem_count := 1 }) ∧
      nvr_mkdir (chain_vfs data_x_names) fuel (some (List.replicate PAGE_SIZE 0))
          (sample_state []) "mkdir" 1000 2 =
        some (0, { sample_state [] with
          nvr_sys_queue := [{ sequence := 1, timestamp := 1000, type := NVR_TYPE_MDATA,
                              name := path_data_x, buf := [], pid := -1 }],
          nvr_sys_queue_count := 1, repitem_seq := 1, repitem_count := 1 }) ∧
      nvr_rmdir (chain_vfs data_x_names) fuel (some (List.replicate PAGE_SIZE 0))
          (sample_state []) "rmdir" 1000 2 =
        some (0, { sample_state [] with
          nvr_sys_queue := [{ sequence := 1, timestamp := 1000, type := NVR_TYPE_UNLINK,
                              name := path_data_x, buf := [], pid := -1 }],
          nvr_sys_queue_count := 1, repitem_seq := 1, repitem_count := 1 }) := by
  have hr := chain_reaches data_x_names 2 (by decide)
  have ht : data_x_names.take 2 = data_x_names := rfl
  rw [ht] at hr
  have hfit : (render_path data_x_names).length + 1 < PAGE_SIZE := by decide
  obtain ⟨N1, h1⟩ := nvr_add_dentry_reaches (chain_vfs data_x_names) 2 0 data_x_names 3
    (chain_dentry_to_vfs data_x_names 2) hr (List.replicate PAGE_SIZE 0)
    (List.length_replicate _ _) hfit (sample_state []) "rm" 1000 NVR_TYPE_MDATA none 0
  obtain ⟨N2, h2⟩ := nvr_add_dentry_reaches (chain_vfs data_x_names) 2 0 data_x_names 3
    (chain_dentry_to_vfs data_x_names 2) hr (List.replicate PAGE_SIZE 0)
    (List.length_replicate _ _) hfit (sample_state []) "mkdir" 1000 NVR_TYPE_MDATA none 0
  obtain ⟨N3, h3⟩ := nvr_add_dentry_reaches (chain_vfs data_x_names) 2 0 data_x_names 3
    (chain_dentry_to_vfs data_x_names 2) hr (List.replicate PAGE_SIZE 0)
    (List.length_replicate _ _) hfit (sample_state []) "rmdir" 1000 NVR_TYPE_UNLINK none 0
  refine ⟨max N1 (max N2 N3), fun fuel hfuel => ⟨?_, ?_, ?_⟩⟩
  · unfold nvr_unlink
    rw [h1 fuel (by omega)]
    decide
  · unfold nvr_mkdir
    rw [h2 fuel (by omega)]
    decide
  · unfold nvr_rmdir
    rw [h3 fuel (by omega)]
    decide

end Nvr
